import Mathlib

/-!
MacLow: the frame-exchange controller of the 802.11ad MAC (src/wifi/model/mac-low.cc).

A shallow embedding of the parts of `MacLow` that the specification talks about:

* the Block-Ack reorder buffer (`ReceiveMpdu`, `StoreMpduIfNeeded`,
  `RxCompleteBufferedPacketsWithSmallerSequence`,
  `RxCompleteBufferedPacketsUntilFirstLost`, `DestroyBlockAckAgreement`);
* the NAV record (`DoNavStartNow`, `DoNavResetNow`, `NotifyNav`, `IsNavZero`);
* the exit paths (`CancelAllEvents`, `EndAllocationPeriod`, `NotifySleepNow`,
  `NotifyOffNow`, `NotifySwitchingStartNow`);
* the timeout handlers (`CtsTimeout`, `NormalAckTimeout`, `BlockAckTimeout`) and
  the reception path (`ReceiveOk` with all its branches, the controller's
  `ReceiveMpdu` on the table of agreements, `DeaggregateAmpduAndReceive`,
  `SendBlockAckAfterAmpdu`, `SendBlockAckAfterBlockAckRequest`);
* the transmission path (`StartTransmission` with an owner and with a
  completion callback, `TransmitSingleFrame`, `StartShortSswTransmission`,
  `SendRtsForPacket`, `SendCtsToSelf`, `SendDataPacket`, `StartDataTxTimers`,
  `ForwardDown`), `SendAckAfterData` and `SendBlockAckResponse`, the CTS and the
  data frame of an RTS/CTS exchange (`SendCtsAfterRts`, `SendDataAfterCts`), and the
  mode of a control response (`GetControlAnswerMode`);
* the training phases (`SLS_Phase_Started`, `SLS_Phase_Ended`,
  `MIMO_BFT_Phase_Started`, `MIMO_BFT_Phase_Ended`) and the reception start
  (`RxStartIndication`);
* the suspended allocations (`ResumeTransmission`, `RestoreAllocationParameters`,
  `CompletedSuspendedPsduTransmission`, `CalculateWiGigTransactionTime`).

Conventions.  `std::list` iterators are modelled by the suffix of the list that
starts at the iterator's position (`end ()` is `[]`); `uint16_t` values are
natural numbers reduced modulo `65536` where the source can wrap; `Time` is an
integer number of nanoseconds; an `EventId` member is `some` event while it is
running; a call out of the controller (owner, station manager, channel access
managers, PHY) is recorded in a trace, in call order, and is taken not to call
back into the controller before it returns; what the collaborators answer is an
`Env`.  A failing `NS_ASSERT`, an `NS_FATAL_ERROR` and a null dereference are
faults.  A loop that the source does not bound is run with fuel, and running out
of fuel is the fault `outOfFuel`.
-/

namespace MacLow

/-- Ways in which a modelled call can fail to return normally. -/
inductive Fault where
  | outOfFuel
  | assertion
  | fatalError
  | nullPointer
  | notModelled
deriving DecidableEq, Repr

deriving instance DecidableEq for Except

/-- Conversion of a C++ `int` value to `uint16_t`. -/
def toUint16 (z : Int) : Nat := (z % 65536).toNat

/-! ## Block-Ack reorder buffer: data model -/

/-- The part of a `WifiMacQueueItem` that the reorder buffer looks at: the
sequence number and fragment number of its header, the More-Fragments bit, and
a tag standing for the rest of the frame (payload, addresses). -/
structure Mpdu where
  seqNum : Nat
  fragNum : Nat
  moreFragments : Bool
  payload : Nat
deriving DecidableEq, Repr

/-- Modelled from the spec: `WifiMacHeader::GetSequenceControl` is declared
outside src/; the 16-bit sequence control carries the sequence number in its
upper 12 bits and the fragment number in its lower 4 bits. -/
def GetSequenceControl (m : Mpdu) : Nat :=
  ((m.seqNum <<< 4) ||| m.fragNum) % 65536

/-- Modelled from the spec: `WifiMacHeader::GetSequenceNumber`, the sequence
number (modulo 4096) of the header. -/
def GetSequenceNumber (m : Mpdu) : Nat := m.seqNum

/-- Modelled from the spec: `QosUtilsIsOldPacket` (qos-utils, outside src/): a
sequence number is old when its distance from the window start, modulo 4096,
is 2048 or more. -/
def QosUtilsIsOldPacket (startingSeq seqNumber : Nat) : Bool :=
  decide (2048 ≤ (seqNumber + 4096 - startingSeq) % 4096)

/-- Modelled from the spec: `IsInWindow` (wifi-utils, outside src/): membership
in `[winstart, winstart + winsize)` modulo 4096. -/
def IsInWindow (seq winstart winsize : Nat) : Bool :=
  decide ((seq + 4096 - winstart) % 4096 < winsize)

/-- Modelled from the spec: `QosUtilsMapSeqControlToUniqueInteger` (qos-utils,
outside src/): the mod-4096 position of a sequence control relative to an
end-of-window reference `endSequence`, times 16, plus the fragment number. -/
def QosUtilsMapSeqControlToUniqueInteger (seqControl endSequence : Nat) : Nat :=
  let numberSeq := (seqControl >>> 4) &&& 0x0fff
  (4096 - (endSequence + 1) + numberSeq) % 4096 * 16 + (seqControl &&& 0x000f)

/-- The receive side of one Block-Ack agreement: `BlockAckAgreement` (starting
sequence, buffer size) together with the `std::list` of buffered MPDUs that
`m_bAckAgreements` pairs with it. -/
structure Agreement where
  startingSeq : Nat
  bufferSize : Nat
  buffer : List Mpdu
deriving DecidableEq, Repr

/-- Modelled from the spec: `BlockAckAgreement::GetStartingSequenceControl`. -/
def Agreement.GetStartingSequenceControl (a : Agreement) : Nat :=
  (a.startingSeq <<< 4) &&& 0xfff0

/-- Modelled from the spec: `BlockAckAgreement::SetStartingSequenceControl`. -/
def Agreement.SetStartingSequenceControl (a : Agreement) (seq : Nat) : Agreement :=
  { a with startingSeq := (seq >>> 4) &&& 0x0fff }

/-- Modelled from the spec: `BlockAckAgreement::SetStartingSequence`. -/
def Agreement.SetStartingSequence (a : Agreement) (seq : Nat) : Agreement :=
  { a with startingSeq := seq }

/-- Modelled from the spec: `BlockAckAgreement::GetWinEnd`, the last sequence
number of the window. -/
def Agreement.GetWinEnd (a : Agreement) : Nat :=
  toUint16 (Int.tmod ((a.startingSeq : Int) + a.bufferSize - 1) 4096)

/-- The entry of `m_bAckAgreements` for one (originator, TID) pair, `none` when
`find` returns `end ()`, and the trace of `m_rxCallback` invocations. -/
structure RxState where
  agreement : Option Agreement
  delivered : List Mpdu
deriving DecidableEq, Repr

/-! ## Block-Ack reorder buffer: operations -/

/-- Source function `MacLow::StoreMpduIfNeeded` on a found agreement: the MPDU
is inserted in front of the first buffered MPDU whose mapped sequence control is
not smaller than its own.  The update of the Block-Ack bitmap cache is left out. -/
def storeMpdu (a : Agreement) (mpdu : Mpdu) : Agreement :=
  let endSequence := (a.startingSeq + 2047) % 4096
  let mappedSeqControl := QosUtilsMapSeqControlToUniqueInteger (GetSequenceControl mpdu) endSequence
  let smaller := fun (x : Mpdu) =>
    decide (QosUtilsMapSeqControlToUniqueInteger (GetSequenceControl x) endSequence < mappedSeqControl)
  { a with buffer := a.buffer.takeWhile smaller ++ mpdu :: a.buffer.dropWhile smaller }

/-- Source function `MacLow::StoreMpduIfNeeded`: returns whether an agreement was found. -/
def StoreMpduIfNeeded (s : RxState) (mpdu : Mpdu) : Bool × RxState :=
  match s.agreement with
  | some a => (true, { s with agreement := some (storeMpdu a mpdu) })
  | none => (false, s)

/-- The `for` loop of `MacLow::RxCompleteBufferedPacketsUntilFirstLost`.
`i` and `lastComplete` are the two iterators; the result is the final
`lastComplete`, the final `guard` and the extended callback trace. -/
def untilFirstLostLoop : List Mpdu → List Mpdu → Nat → List Mpdu → List Mpdu × Nat × List Mpdu
  | [], lastComplete, guard, log => (lastComplete, guard, log)
  | x :: rest, lastComplete, guard, log =>
    if guard = GetSequenceControl x then
      if x.moreFragments then
        untilFirstLostLoop rest lastComplete ((guard + 1) % 65536) log
      else
        -- while (lastComplete != i) { cb; lastComplete++ }  cb; lastComplete++
        let n := lastComplete.length - (x :: rest).length
        untilFirstLostLoop rest (lastComplete.drop (n + 1)) ((guard + 16) &&& 0xfff0)
          (log ++ lastComplete.take (n + 1))
    else (lastComplete, guard, log)

/-- Source function `MacLow::RxCompleteBufferedPacketsUntilFirstLost` on a found agreement. -/
def untilFirstLost (a : Agreement) (log : List Mpdu) : Agreement × List Mpdu :=
  let r := untilFirstLostLoop a.buffer a.buffer a.GetStartingSequenceControl log
  ({ a.SetStartingSequenceControl r.2.1 with buffer := r.1 }, r.2.2)

/-- Source function `MacLow::RxCompleteBufferedPacketsUntilFirstLost`. -/
def RxCompleteBufferedPacketsUntilFirstLost (s : RxState) : RxState :=
  match s.agreement with
  | some a =>
    let r := untilFirstLost a s.delivered
    { agreement := some r.1, delivered := r.2 }
  | none => s

/-- The "go to next packet" step of
`MacLow::RxCompleteBufferedPacketsWithSmallerSequence`: advance `i` over the
MPDUs whose sequence control equals `guard`; if `i` is not `end ()`, `guard`
and `last` are reset to it. -/
def goToNextPacket (i last : List Mpdu) (guard : Nat) : List Mpdu × List Mpdu × Nat :=
  match i.dropWhile (fun y => decide (guard = GetSequenceControl y)) with
  | [] => ([], last, guard)
  | y :: rest => (y :: rest, y :: rest, GetSequenceControl y)

/-- The `for` loop of `MacLow::RxCompleteBufferedPacketsWithSmallerSequence`;
the source has no bound on its iterations, so it is run with fuel.  The result
is the final iterator `i` (what `erase (begin (), i)` leaves in the buffer) and
the extended callback trace. -/
def smallerSequenceLoop (endSequence mappedStart : Nat) :
    Nat → List Mpdu → List Mpdu → Nat → List Mpdu → Except Fault (List Mpdu × List Mpdu)
  | 0, _, _, _, _ => .error .outOfFuel
  | _ + 1, [], _, _, log => .ok ([], log)
  | fuel + 1, x :: rest, last, guard, log =>
    if QosUtilsMapSeqControlToUniqueInteger (GetSequenceControl x) endSequence < mappedStart then
      if guard = GetSequenceControl x then
        if x.moreFragments then
          smallerSequenceLoop endSequence mappedStart fuel (x :: rest) last ((guard + 1) % 65536) log
        else
          let n := last.length - (x :: rest).length
          let r := goToNextPacket (x :: rest) (last.drop (n + 1)) guard
          smallerSequenceLoop endSequence mappedStart fuel r.1 r.2.1 r.2.2
            (log ++ last.take (n + 1))
      else
        let r := goToNextPacket (x :: rest) last guard
        smallerSequenceLoop endSequence mappedStart fuel r.1 r.2.1 r.2.2 log
    else .ok (x :: rest, log)

/-- Source function `MacLow::RxCompleteBufferedPacketsWithSmallerSequence` on a found
agreement; `seq` is a sequence control. -/
def withSmallerSequence (fuel : Nat) (seq : Nat) (a : Agreement) (log : List Mpdu) :
    Except Fault (Agreement × List Mpdu) :=
  let endSequence := (a.startingSeq + 2047) % 4096
  let mappedStart := QosUtilsMapSeqControlToUniqueInteger seq endSequence
  let guard := match a.buffer with
    | [] => 0
    | x :: _ => GetSequenceControl x
  match smallerSequenceLoop endSequence mappedStart fuel a.buffer a.buffer guard log with
  | .ok r => .ok ({ a with buffer := r.1 }, r.2)
  | .error e => .error e

/-- Source function `MacLow::RxCompleteBufferedPacketsWithSmallerSequence`. -/
def RxCompleteBufferedPacketsWithSmallerSequence (fuel : Nat) (seq : Nat) (s : RxState) :
    Except Fault RxState :=
  match s.agreement with
  | some a =>
    match withSmallerSequence fuel seq a s.delivered with
    | .ok r => .ok { agreement := some r.1, delivered := r.2 }
    | .error e => .error e
  | none => .ok s

/-- Source function `MacLow::ReceiveMpdu`, for the (originator, TID) pair of
the MPDU.  `htSupported` is the disjunction of the station manager's
`GetHtSupported`, `GetVhtSupported`, `GetHeSupported`, `HasDmgSupported` and
`HasEdmgSupported`. -/
def ReceiveMpdu (htSupported : Bool) (fuel : Nat) (s : RxState) (mpdu : Mpdu) :
    Except Fault (Bool × RxState) :=
  if htSupported then
    let seqNumber := GetSequenceNumber mpdu
    match s.agreement with
    | some a =>
      if !QosUtilsIsOldPacket a.startingSeq seqNumber then
        let a1 := storeMpdu a mpdu
        if !IsInWindow seqNumber a1.startingSeq a1.bufferSize then
          let delta := toUint16 (Int.tmod ((seqNumber : Int) - a1.GetWinEnd + 4096) 4096)
          if delta = 0 then .error .assertion
          else
            let bufferSize := a1.bufferSize
            let startingSeq := toUint16 (Int.tmod ((seqNumber : Int) - bufferSize + 1 + 4096) 4096)
            let a2 := a1.SetStartingSequence startingSeq
            match withSmallerSequence fuel a2.GetStartingSequenceControl a2 s.delivered with
            | .ok r =>
              let r2 := untilFirstLost r.1 r.2
              .ok (true, { agreement := some r2.1, delivered := r2.2 })
            | .error e => .error e
        else
          let r2 := untilFirstLost a1 s.delivered
          .ok (true, { agreement := some r2.1, delivered := r2.2 })
      else .ok (true, s)
    | none => .ok (false, s)
  else .ok (StoreMpduIfNeeded s mpdu)

/-- Source function `MacLow::DestroyBlockAckAgreement`. -/
def DestroyBlockAckAgreement (fuel : Nat) (s : RxState) : Except Fault RxState :=
  match s.agreement with
  | some a =>
    match withSmallerSequence fuel a.GetStartingSequenceControl a s.delivered with
    | .ok r =>
      let r2 := untilFirstLost r.1 r.2
      .ok { agreement := none, delivered := r2.2 }
    | .error e => .error e
  | none => .ok s

/-- The operations on one agreement's reorder buffer. -/
inductive RxOp where
  | receiveMpdu (mpdu : Mpdu)
  | flushSmaller (seq : Nat)
  | flushUntilFirstLost
  | destroy
deriving DecidableEq, Repr

/-- One operation. -/
def rxStep (htSupported : Bool) (fuel : Nat) (s : RxState) : RxOp → Except Fault RxState
  | .receiveMpdu m =>
    match ReceiveMpdu htSupported fuel s m with
    | .ok r => .ok r.2
    | .error e => .error e
  | .flushSmaller seq => RxCompleteBufferedPacketsWithSmallerSequence fuel seq s
  | .flushUntilFirstLost => .ok (RxCompleteBufferedPacketsUntilFirstLost s)
  | .destroy => DestroyBlockAckAgreement fuel s

/-- A sequence of operations, left to right. -/
def rxRun (htSupported : Bool) (fuel : Nat) : RxState → List RxOp → Except Fault RxState
  | s, [] => .ok s
  | s, op :: ops =>
    match rxStep htSupported fuel s op with
    | .ok s1 => rxRun htSupported fuel s1 ops
    | .error e => .error e

/-- The MPDUs that a sequence of operations hands to `ReceiveMpdu`. -/
def admitted : List RxOp → List Mpdu
  | [] => []
  | .receiveMpdu m :: ops => m :: admitted ops
  | _ :: ops => admitted ops

/-- Everything a state accounts for: the MPDUs handed to `m_rxCallback`
followed by the MPDUs still buffered. -/
def RxState.held (s : RxState) : List Mpdu :=
  s.delivered ++ (match s.agreement with
    | some a => a.buffer
    | none => [])

/-- The unfragmented MPDU with sequence number `(s0 + j) mod 4096`; `pay`
gives the rest of the frame. -/
def mkMpdu (s0 : Nat) (pay : Nat → Nat) (j : Nat) : Mpdu :=
  { seqNum := (s0 + j) % 4096, fragNum := 0, moreFragments := false, payload := pay j }

/-- The state in which the MPDUs at offsets `0 .. i-1` from `s0` were handed to
`m_rxCallback` in increasing order, the window starts at offset `i` and the
buffer holds the MPDUs at the offsets `J`. -/
def rxStateAt (s0 B : Nat) (pay : Nat → Nat) (i : Nat) (J : List Nat) : RxState :=
  { agreement := some { startingSeq := (s0 + i) % 4096, bufferSize := B,
                        buffer := J.map (mkMpdu s0 pay) },
    delivered := (List.range i).map (mkMpdu s0 pay) }

/-- Insertion of an offset in front of the first offset that is not smaller. -/
def insOffset (j : Nat) : List Nat → List Nat
  | [] => [j]
  | b :: J => if b < j then b :: insOffset j J else j :: b :: J

/-- Length of the run `i, i+1, ...` at the head of a list of offsets. -/
def runLen : Nat → List Nat → Nat
  | _, [] => 0
  | i, b :: J => if b = i then runLen (i + 1) J + 1 else 0


/-! ## Controller: data model -/

/-- Simulation time (`ns3::Time`), in nanoseconds. -/
abbrev Time := Int

/-- A MAC address (`Mac48Address`), as the number its six octets spell. -/
abbrev Mac48Address := Nat

/-- Modelled from the spec: `Mac48Address::IsGroup` (declared outside src/), the
group bit of the first octet. -/
def IsGroup (a : Mac48Address) : Bool := (a / 2 ^ 40) % 2 == 1

/-- Modelled from the spec: the frame types of `WifiMacHeader` (declared outside
src/) that the controller tells apart; the remaining management subtypes are
`mgtOther`. -/
inductive WifiMacType where
  | ctlRts | ctlCts | ctlAck | ctlBackReq | ctlBackResp | ctlEnd | ctlEndAck
  | ctlDmgPoll | ctlDmgSpr | ctlDmgGrant | ctlDmgCts | ctlDmgDts | ctlDmgGrantAck
  | ctlDmgSsw | ctlDmgSswFbck | ctlDmgSswAck
  | extensionDmgBeacon
  | mgtBeacon | mgtProbeResponse | mgtAction | mgtActionNoAck | mgtOther
  | data | dataCfAck | dataCfPoll | dataCfAckCfPoll
  | dataNull | dataNullCfAck | dataNullCfPoll | dataNullCfAckCfPoll
  | qosData | qosDataCfAck | qosDataCfPoll | qosDataCfAckCfPoll
  | qosDataNull | qosDataNullCfPoll | qosDataNullCfAckCfPoll
deriving DecidableEq, Repr

/-- Modelled from the spec: the Ack Policy subfield of the QoS Control field
(`WifiMacHeader::QosAckPolicy`, declared outside src/). -/
inductive QosAckPolicy where
  | normalAck | noAck | noExplicitAck | blockAck
deriving DecidableEq, Repr

/-- Modelled from the spec: the fields of `WifiMacHeader` (declared outside
src/) that the controller reads. `duration` is the raw 16-bit Duration/ID. -/
structure WifiMacHeader where
  type : WifiMacType
  addr1 : Mac48Address := 0
  addr2 : Mac48Address := 0
  duration : Nat := 0
  seqNum : Nat := 0
  fragNum : Nat := 0
  moreFragments : Bool := false
  qosTid : Nat := 0
  qosAckPolicy : QosAckPolicy := .normalAck
deriving DecidableEq, Repr

def WifiMacHeader.IsRts (h : WifiMacHeader) : Bool := h.type == .ctlRts
def WifiMacHeader.IsCts (h : WifiMacHeader) : Bool := h.type == .ctlCts
def WifiMacHeader.IsDmgCts (h : WifiMacHeader) : Bool := h.type == .ctlDmgCts
def WifiMacHeader.IsAck (h : WifiMacHeader) : Bool := h.type == .ctlAck
def WifiMacHeader.IsGrantFrame (h : WifiMacHeader) : Bool := h.type == .ctlDmgGrant
def WifiMacHeader.IsCfEnd (h : WifiMacHeader) : Bool :=
  h.type == .ctlEnd || h.type == .ctlEndAck
def WifiMacHeader.IsCfPoll (h : WifiMacHeader) : Bool :=
  h.type == .dataCfPoll || h.type == .dataCfAckCfPoll || h.type == .dataNullCfPoll
    || h.type == .dataNullCfAckCfPoll || h.type == .qosDataCfPoll
    || h.type == .qosDataCfAckCfPoll || h.type == .qosDataNullCfPoll
    || h.type == .qosDataNullCfAckCfPoll
def WifiMacHeader.IsQosData (h : WifiMacHeader) : Bool :=
  h.type == .qosData || h.type == .qosDataCfAck || h.type == .qosDataCfPoll
    || h.type == .qosDataCfAckCfPoll || h.type == .qosDataNull
    || h.type == .qosDataNullCfPoll || h.type == .qosDataNullCfAckCfPoll
def WifiMacHeader.IsBeacon (h : WifiMacHeader) : Bool := h.type == .mgtBeacon
def WifiMacHeader.IsBlockAck (h : WifiMacHeader) : Bool := h.type == .ctlBackResp
def WifiMacHeader.IsBlockAckReq (h : WifiMacHeader) : Bool := h.type == .ctlBackReq
def WifiMacHeader.IsDMGBeacon (h : WifiMacHeader) : Bool := h.type == .extensionDmgBeacon
def WifiMacHeader.IsSSW (h : WifiMacHeader) : Bool := h.type == .ctlDmgSsw
def WifiMacHeader.IsSSW_FBCK (h : WifiMacHeader) : Bool := h.type == .ctlDmgSswFbck
def WifiMacHeader.IsSSW_ACK (h : WifiMacHeader) : Bool := h.type == .ctlDmgSswAck
def WifiMacHeader.IsActionNoAck (h : WifiMacHeader) : Bool := h.type == .mgtActionNoAck
def WifiMacHeader.IsProbeResp (h : WifiMacHeader) : Bool := h.type == .mgtProbeResponse
def WifiMacHeader.IsCtl (h : WifiMacHeader) : Bool :=
  h.type == .ctlRts || h.type == .ctlCts || h.type == .ctlAck || h.type == .ctlBackReq
    || h.type == .ctlBackResp || h.type == .ctlEnd || h.type == .ctlEndAck
    || h.type == .ctlDmgPoll || h.type == .ctlDmgSpr || h.type == .ctlDmgGrant
    || h.type == .ctlDmgCts || h.type == .ctlDmgDts || h.type == .ctlDmgGrantAck
    || h.type == .ctlDmgSsw || h.type == .ctlDmgSswFbck || h.type == .ctlDmgSswAck
def WifiMacHeader.IsMgt (h : WifiMacHeader) : Bool :=
  h.type == .mgtBeacon || h.type == .mgtProbeResponse || h.type == .mgtAction
    || h.type == .mgtActionNoAck || h.type == .mgtOther
def WifiMacHeader.IsData (h : WifiMacHeader) : Bool :=
  h.type == .data || h.type == .dataCfAck || h.type == .dataCfPoll
    || h.type == .dataCfAckCfPoll || h.type == .dataNull || h.type == .dataNullCfAck
    || h.type == .dataNullCfPoll || h.type == .dataNullCfAckCfPoll
    || h.type == .qosData || h.type == .qosDataCfAck || h.type == .qosDataCfPoll
    || h.type == .qosDataCfAckCfPoll || h.type == .qosDataNull
    || h.type == .qosDataNullCfPoll || h.type == .qosDataNullCfAckCfPoll
def WifiMacHeader.IsCfAck (h : WifiMacHeader) : Bool :=
  h.type == .dataCfAck || h.type == .dataCfAckCfPoll || h.type == .dataNullCfAck
    || h.type == .dataNullCfAckCfPoll || h.type == .ctlEndAck
def WifiMacHeader.HasData (h : WifiMacHeader) : Bool :=
  h.type == .data || h.type == .dataCfAck || h.type == .dataCfPoll
    || h.type == .dataCfAckCfPoll || h.type == .qosData || h.type == .qosDataCfAck
    || h.type == .qosDataCfPoll || h.type == .qosDataCfAckCfPoll

/-- Modelled from the spec: `WifiMacHeader::IsQosAck`, a QoS data frame whose
Ack Policy is Normal Ack. -/
def WifiMacHeader.IsQosAck (h : WifiMacHeader) : Bool :=
  h.IsQosData && h.qosAckPolicy == .normalAck

/-- Modelled from the spec: `WifiMacHeader::IsQosBlockAck`, a QoS data frame
whose Ack Policy is Block Ack. -/
def WifiMacHeader.IsQosBlockAck (h : WifiMacHeader) : Bool :=
  h.IsQosData && h.qosAckPolicy == .blockAck

/-- Modelled from the spec: `WifiMacHeader::IsQosNoAck`, a QoS data frame whose
Ack Policy is No Ack. -/
def WifiMacHeader.IsQosNoAck (h : WifiMacHeader) : Bool :=
  h.IsQosData && h.qosAckPolicy == .noAck

/-- Source function `WifiMacHeader::GetRawDuration`. -/
def WifiMacHeader.GetRawDuration (h : WifiMacHeader) : Nat := h.duration

/-- Modelled from the spec: `WifiMacHeader::GetDuration`; the Duration/ID field
counts microseconds. -/
def WifiMacHeader.GetDuration (h : WifiMacHeader) : Time := (h.duration : Int) * 1000

/-- Modelled from the spec: what the controller reads out of a
`CtrlBAckRequestHeader` (declared outside src/).  `baType` is 0 for a basic, 1
for a compressed, 2 for an extended compressed and 3 for a multi-TID request. -/
structure CtrlBAckRequestHeader where
  baType : Nat := 1
  tidInfo : Nat := 0
  startingSeq : Nat := 0
deriving DecidableEq, Repr

def CtrlBAckRequestHeader.IsBasic (h : CtrlBAckRequestHeader) : Bool := h.baType == 0
def CtrlBAckRequestHeader.IsCompressed (h : CtrlBAckRequestHeader) : Bool := h.baType == 1
def CtrlBAckRequestHeader.IsExtendedCompressed (h : CtrlBAckRequestHeader) : Bool :=
  h.baType == 2
def CtrlBAckRequestHeader.IsMultiTid (h : CtrlBAckRequestHeader) : Bool := h.baType == 3
def CtrlBAckRequestHeader.GetTidInfo (h : CtrlBAckRequestHeader) : Nat := h.tidInfo
def CtrlBAckRequestHeader.GetStartingSequence (h : CtrlBAckRequestHeader) : Nat := h.startingSeq

/-- Modelled from the spec: `CtrlBAckRequestHeader::GetStartingSequenceControl`. -/
def CtrlBAckRequestHeader.GetStartingSequenceControl (h : CtrlBAckRequestHeader) : Nat :=
  (h.startingSeq <<< 4) &&& 0xfff0

/-- What the controller reads out of a `Packet`: the AIDs of a DMG Grant
header, the control trailer, the SNR tag, the BlockAckReq header, and a tag for
the rest. -/
structure Packet where
  uid : Nat := 0
  grantSourceAid : Nat := 0
  grantDestinationAid : Nat := 0
  ctIsMimoTransmission : Bool := false
  ctIsMuMimoTransmission : Bool := false
  ctTxSectorCombinationIdx : Nat := 0
  snrTag : Nat := 0
  blockAckReq : CtrlBAckRequestHeader := {}
deriving DecidableEq, Repr

/-- A `WifiMacQueueItem`: header and packet. -/
structure WifiMacQueueItem where
  hdr : WifiMacHeader
  packet : Packet := {}
  size : Nat := 0
deriving DecidableEq, Repr

/-- The reorder buffer's view of a frame: sequence number, fragment number and
More-Fragments bit of its header; the packet's uid stands for the rest. -/
def WifiMacQueueItem.toMpdu (m : WifiMacQueueItem) : Mpdu :=
  { seqNum := m.hdr.seqNum, fragNum := m.hdr.fragNum, moreFragments := m.hdr.moreFragments,
    payload := m.packet.uid }

/-- The modulation classes the controller tells apart. -/
inductive WifiModulationClass where
  | dmgCtrl | edmgCtrl | ht | vht | he | other
deriving DecidableEq, Repr

/-- What the controller reads out of a `WifiTxVector`. -/
structure WifiTxVector where
  mode : Nat := 0
  modulationClass : WifiModulationClass := .other
  dataRate : Nat := 0
  aggregation : Bool := false
  controlTrailerPresent : Bool := false
deriving DecidableEq, Repr

/-- A `WifiPsdu`: one or more MPDUs, its size in bytes, the single-MPDU flag and
the duration that `SetDuration` wrote into its headers. -/
structure WifiPsdu where
  first : WifiMacQueueItem
  rest : List WifiMacQueueItem := []
  size : Nat := 0
  isSingle : Bool := false
  duration : Option Time := none
deriving DecidableEq, Repr

def WifiPsdu.GetAddr1 (p : WifiPsdu) : Mac48Address := p.first.hdr.addr1
def WifiPsdu.GetNMpdus (p : WifiPsdu) : Nat := p.rest.length + 1
def WifiPsdu.mpdus (p : WifiPsdu) : List WifiMacQueueItem := p.first :: p.rest
def WifiPsdu.IsAggregate (p : WifiPsdu) : Bool := decide (1 < p.GetNMpdus) || p.isSingle

/-- The constructor call `Create<WifiPsdu> (mpdu, false)`: the PSDU of one MPDU, not an S-MPDU. -/
def WifiPsdu.ofMpdu (mpdu : WifiMacQueueItem) : WifiPsdu :=
  { first := mpdu, rest := [], size := mpdu.size, isSingle := false }

/-- The acknowledgment a transmission waits for (`m_waitAck.m_type`). -/
inductive WaitAck where
  | none | normal | blockAck
deriving DecidableEq, Repr

/-- Modelled from the spec: `MacLowTransmissionParameters` (declared outside
src/): must-send-RTS, must-wait-ack / block-ack, next fragment size
(has-next-fragment), must-send-BlockAckReq, duration override. -/
structure MacLowTransmissionParameters where
  sendRts : Bool := false
  waitAck : WaitAck := .none
  nextSize : Nat := 0
  sendBar : Bool := false
  durationId : Option Time := none
  blockAckType : Nat := 0
  blockAckRequestType : Nat := 0
deriving DecidableEq, Repr

def MacLowTransmissionParameters.MustSendRts (p : MacLowTransmissionParameters) : Bool := p.sendRts
def MacLowTransmissionParameters.MustWaitNormalAck (p : MacLowTransmissionParameters) : Bool :=
  p.waitAck == .normal
def MacLowTransmissionParameters.MustWaitBlockAck (p : MacLowTransmissionParameters) : Bool :=
  p.waitAck == .blockAck
def MacLowTransmissionParameters.HasNextPacket (p : MacLowTransmissionParameters) : Bool :=
  p.nextSize != 0
def MacLowTransmissionParameters.MustSendBlockAckRequest (p : MacLowTransmissionParameters) : Bool :=
  p.sendBar
def MacLowTransmissionParameters.EnableAck (p : MacLowTransmissionParameters) :
    MacLowTransmissionParameters := { p with waitAck := .normal }
def MacLowTransmissionParameters.DisableAck (p : MacLowTransmissionParameters) :
    MacLowTransmissionParameters := { p with waitAck := .none }
def MacLowTransmissionParameters.DisableNextData (p : MacLowTransmissionParameters) :
    MacLowTransmissionParameters := { p with nextSize := 0 }

/-- The owner of an exchange (`Ptr<Txop>`), with the answers it gives to the
controller's queries.  `isQosTxop` is both `IsQosTxop ()` and the success of
`DynamicCast<QosTxop>`. -/
structure Txop where
  id : Nat
  isQosTxop : Bool := false
  txopLimit : Time := 0
  remainingTimeForTransmission : Time := 0
deriving DecidableEq, Repr

/-- The member functions that `Simulator::Schedule` is given, with their
arguments. -/
inductive Handler where
  | NormalAckTimeout
  | BlockAckTimeout
  | CtsTimeout
  | SendCtsAfterRts (source : Mac48Address) (duration : Time) (rtsTxVector : WifiTxVector)
      (rtsSnr : Nat)
  | SendDmgCtsAfterRts (source : Mac48Address) (duration : Time) (rtsTxVector : WifiTxVector)
      (rtsSnr : Nat)
  | SendAckAfterData (source : Mac48Address) (duration : Time) (dataTxMode : Nat) (dataSnr : Nat)
  | SendDataAfterCts (duration : Time)
  | WaitIfsAfterEndTxFragment
  | WaitIfsAfterEndTxPacket
  | EndTxNoAck
  | DoNavResetNow (duration : Time)
  | CfPollTimeout
  | SendBlockAckAfterAmpdu (tid : Nat) (originator : Mac48Address) (duration : Time)
      (blockAckReqTxVector : WifiTxVector) (rxSnr : Nat)
  | SendBlockAckAfterBlockAckRequest (reqHdr : CtrlBAckRequestHeader)
      (originator : Mac48Address) (duration : Time) (blockAckReqTxMode : Nat) (rxSnr : Nat)
  | SendDelbaFrame (peer : Mac48Address) (tid : Nat)
deriving DecidableEq, Repr

/-- A scheduled event that has neither run nor been cancelled: due time and
handler.  An `EventId` member is `some e` while `IsRunning ()` and `none` while
`IsExpired ()`. -/
structure Event where
  due : Time
  handler : Handler
deriving DecidableEq, Repr

/-- Calls out of the controller, to the owner (`Txop` / `QosTxop`), the station
manager, the channel access managers, the high MAC and the PHY. -/
inductive Call where
  | Cancel (txop : Nat)
  | MissedCts (txop : Nat)
  | NotifyMissedCts (txop : Nat) (mpdus : List WifiMacQueueItem)
  | MissedAck (txop : Nat)
  | MissedBlockAck (txop : Nat) (nMpdus : Nat)
  | GotAck (txop : Nat)
  | TerminateTxop (txop : Nat)
  | StartNextFragment (txop : Nat)
  | StartNextPacket (txop : Nat)
  | ReportRtsFailed (dest : Mac48Address)
  | ReportRxOk (source : Mac48Address)
  | ReportRtsOk (dest : Mac48Address)
  | ReportDataOk (dest : Mac48Address)
  | StationManagerReset
  | NotifyNavResetNow (manager : Nat) (duration : Time)
  | NotifyNavStartNow (manager : Nat) (duration : Time)
  | NotifyAckTimeoutStartNow (manager : Nat) (duration : Time)
  | NotifyAckTimeoutResetNow (manager : Nat)
  | NotifyCtsTimeoutStartNow (manager : Nat) (duration : Time)
  | NotifyCtsTimeoutResetNow (manager : Nat)
  | UpdateBestMimoRxAntennaConfigurationIndex (peer : Mac48Address) (idx : Nat)
  | SteerMimoRxAntennaToward (peer : Mac48Address)
  | CompleteMpduTx (mpdu : WifiMacQueueItem)
  | ScheduleBar (txop : Nat) (recipient : Mac48Address)
  | TransmissionCallback (hdr : WifiMacHeader)
  | PhySend (psdu : WifiPsdu) (txVector : WifiTxVector)
  | GotBlockAck (txop : Nat) (source : Mac48Address)
  | GotCfEnd (txop : Nat)
  | SendDelbaFrame (peer : Mac48Address) (tid : Nat)
  | RxCallback (mpdu : Mpdu)
  | ReceiveShortSswFrame (uid : Nat)
  | UpdateBestMimoTxAntennaConfigurationIndex (peer : Mac48Address) (idx : Nat)
  | DequeuePeekedFrame (tid : Nat) (mpdu : WifiMacQueueItem)
  | UpdateCurrentPacket (tid : Nat) (mpdu : Option WifiMacQueueItem)
  | SetAmpduExist (tid : Nat) (dest : Mac48Address) (present : Bool)
  | UpdateWithBlockAckReq (originator : Mac48Address) (tid : Nat) (startingSeq : Nat)
deriving DecidableEq, Repr

/-- The member `MacLow::m_cfAckInfo`. -/
structure CfAckInfo where
  appendCfAck : Bool := false
  expectCfAck : Bool := false
  address : Mac48Address := 0
deriving DecidableEq, Repr

/-- The structure `AllocationParameters`: the context saved for a suspended allocation. -/
structure AllocationParameters where
  psdu : WifiPsdu
  txParams : MacLowTransmissionParameters
  txVector : WifiTxVector
  txop : Option Txop
deriving DecidableEq, Repr

/-- One entry of `m_bAckAgreements`: the key (originator, TID), the reorder
state, and the members of `BlockAckAgreement` that the controller reads besides
it.  The Block-Ack bitmap cache `m_bAckCaches` has an entry exactly for the keys
of `m_bAckAgreements` and its contents are not modelled. -/
structure AgreementEntry where
  peer : Mac48Address
  tid : Nat
  agreement : Agreement
  immediateBlockAck : Bool := true
  timeout : Nat := 0
  inactivityEvent : Option Event := none
deriving DecidableEq, Repr

/-- The data communication modes of a DMG station (`DATA_COMMUNICATION_MODE`). -/
inductive DataCommunicationMode where
  | siso | suMimo | muMimo
deriving DecidableEq, Repr

/-- The PHY standards the controller tells apart. -/
inductive WifiPhyStandard where
  | s80211ad | s80211ay | other
deriving DecidableEq, Repr

/-- The members of `MacLow` together with the simulator clock (`now`), the
events that were scheduled without (or have lost) their `EventId` (`detached`),
and the trace of outgoing calls. -/
structure MacLowState where
  now : Time := 0
  self : Mac48Address := 0
  bssid : Mac48Address := 0
  sifs : Time := 0
  rifs : Time := 0
  slotTime : Time := 0
  pifs : Time := 0
  channelAccessManagers : List Nat := []
  normalAckTimeoutEvent : Option Event := none
  blockAckTimeoutEvent : Option Event := none
  ctsTimeoutEvent : Option Event := none
  sendCtsEvent : Option Event := none
  sendAckEvent : Option Event := none
  sendDataEvent : Option Event := none
  waitIfsEvent : Option Event := none
  endTxNoAckEvent : Option Event := none
  navCounterResetCtsMissed : Option Event := none
  detached : List Event := []
  currentPacket : Option WifiPsdu := none
  currentTxop : Option Txop := none
  transmissionCallback : Option Nat := none
  txParams : MacLowTransmissionParameters := {}
  currentTxVector : WifiTxVector := {}
  lastNavStart : Time := 0
  lastNavDuration : Time := 0
  cfpStart : Time := 0
  lastBeacon : Time := 0
  cfpForeshortening : Time := 0
  beaconInterval : Time := 0
  cfAckInfo : CfAckInfo := {}
  promisc : Bool := false
  transmissionSuspended : Bool := false
  restoredSuspendedTransmission : Bool := false
  servingSLS : Bool := false
  servingMimoBFT : Bool := false
  currentAllocationID : Nat := 0
  currentAllocation : Option AllocationParameters := none
  allocationPeriodsTable : List (Nat × AllocationParameters) := []
  bAckAgreements : List AgreementEntry := []
  trace : List Call := []
  ctsToSelfSupported : Bool := false
  transmissionShortSswCallback : Option Nat := none
deriving DecidableEq, Repr

/-- The answers of the collaborators (PHY, station manager, high MAC) during
one call into the controller.  `htSupported` is the disjunction of the station
manager's `GetHtSupported`, `GetVhtSupported`, `GetHeSupported`,
`HasDmgSupported` and `HasEdmgSupported`; `loopFuel` is the fuel given to a loop
that the source does not bound.  The `edca...` fields, `ackPolicySelectorInstalled`,
`getTemporaryParams`, `updateTxParams` and `setAckPolicy` are the answers of the
`QosTxop` registered for the frame's TID and of its ack policy selector,
`getPpduDurationLimit` and `allocationRemaining` those of the owner (by id),
`getNextAmpdu`, `maxAmpduSize` and `getSizeIfAggregated` those of the MPDU
aggregator, `ppduMaxTime` is `GetPpduMaxTime` of the tx vector's preamble,
`modulationAtLeastVht` the comparison `modulation >= WIFI_MOD_CLASS_VHT`, and
`psduSize` the size that the `WifiPsdu` constructors compute. -/
structure Env where
  standard : WifiPhyStandard := .s80211ad
  phyIsStateOff : Bool := false
  rifsPermitted : Bool := false
  pcfSupported : Bool := false
  associationId : Nat := 0
  calculateTxDuration : Nat → WifiTxVector → Time := fun _ _ => 0
  calculatePhyPreambleAndHeaderDuration : WifiTxVector → Time := fun _ => 0
  getRtsTxVector : Mac48Address → WifiTxVector := fun _ => {}
  getDmgTxVector : WifiMacQueueItem → WifiTxVector := fun _ => {}
  getDataTxVector : WifiMacHeader → WifiTxVector := fun _ => {}
  controlAnswerTxVector : Mac48Address → Nat → Except Fault WifiTxVector := fun _ _ => .ok {}
  ctsSerializedSize : Nat := 10
  ackSize : Nat := 14
  blockAckSize : Nat → Nat := fun _ => 32
  blockAckRequestSize : Nat → Nat := fun _ => 24
  htSupported : Bool := true
  edmgSupported : Bool := false
  phyIsStateTx : Bool := false
  phyIsStateSwitching : Bool := false
  dmgControlTxVector : WifiTxVector := { modulationClass := .dmgCtrl }
  stationDataCommunicationMode : Mac48Address → DataCommunicationMode := fun _ => .siso
  ctsSize : Nat := 14
  dmgCtsHeaderSize : Nat := 16
  rtsSize : Bool → Nat := fun addControlTrailer => if addControlTrailer then 38 else 20
  loopFuel : Nat := 65536
  useNonErpProtection : Bool := false
  needCtsToSelf : WifiTxVector → Bool := fun _ => false
  edcaRegistered : Nat → Bool := fun _ => true
  edcaPeekFrameForTransmission : Nat → Option WifiMacQueueItem := fun _ => none
  edcaDequeuePeekedFrame : WifiMacQueueItem → WifiTxVector → Option Time →
    Option WifiMacQueueItem := fun _ _ _ => none
  ackPolicySelectorInstalled : Bool := true
  getTemporaryParams : WifiPsdu → MacLowTransmissionParameters → MacLowTransmissionParameters :=
    fun _ p => p
  updateTxParams : WifiPsdu → MacLowTransmissionParameters → MacLowTransmissionParameters :=
    fun _ p => p
  setAckPolicy : WifiPsdu → MacLowTransmissionParameters → WifiPsdu := fun p _ => p
  getPpduDurationLimit : Nat → WifiMacQueueItem → MacLowTransmissionParameters → Time :=
    fun _ _ _ => 0
  allocationRemaining : Nat → Time := fun _ => 0
  mpduAggregatorInstalled : Bool := false
  getNextAmpdu : WifiMacQueueItem → WifiTxVector → Option Time → List WifiMacQueueItem :=
    fun _ _ _ => []
  maxAmpduSize : Mac48Address → Nat → WifiModulationClass → Nat := fun _ _ _ => 0
  getSizeIfAggregated : Nat → Nat → Nat := fun mpduSize ampduSize => ampduSize + 4 + mpduSize
  ppduMaxTime : WifiTxVector → Time := fun _ => 0
  modulationAtLeastVht : WifiModulationClass → Bool := fun c => c == .vht || c == .he
  psduSize : List WifiMacQueueItem → Nat := fun l => (l.map (fun m => m.size)).sum

/-- The state the constructor `MacLow::MacLow ()` leaves. -/
def MacLowState.initial : MacLowState := {}

/-- Busy-until of the NAV record: `m_lastNavStart + m_lastNavDuration`. -/
def MacLowState.busyUntil (s : MacLowState) : Time := s.lastNavStart + s.lastNavDuration

/-- Append outgoing calls to the trace. -/
def MacLowState.call (s : MacLowState) (cs : List Call) : MacLowState :=
  { s with trace := s.trace ++ cs }


/-! ## Controller: events, NAV, exit paths -/

/-- Source function `MacLow::CancelAllEvents`. -/
def CancelAllEvents (s : MacLowState) : MacLowState :=
  let oneRunning := s.normalAckTimeoutEvent.isSome || s.blockAckTimeoutEvent.isSome
    || s.ctsTimeoutEvent.isSome || s.sendCtsEvent.isSome || s.sendAckEvent.isSome
    || s.sendDataEvent.isSome || s.waitIfsEvent.isSome || s.endTxNoAckEvent.isSome
  let s1 := { s with normalAckTimeoutEvent := none, blockAckTimeoutEvent := none,
                     ctsTimeoutEvent := none, sendCtsEvent := none, sendAckEvent := none,
                     sendDataEvent := none, waitIfsEvent := none, endTxNoAckEvent := none }
  match oneRunning, s.currentTxop with
  | true, some txop => { s1.call [.Cancel txop.id] with currentTxop := none }
  | _, _ => s1

/-- Assignment `table[key] = value` on `m_allocationPeriodsTable`. -/
def tableSet (table : List (Nat × AllocationParameters)) (key : Nat)
    (value : AllocationParameters) : List (Nat × AllocationParameters) :=
  (key, value) :: table.filter (fun e => e.1 != key)

/-- Source function `MacLow::StoreAllocationParameters`. -/
def StoreAllocationParameters (s : MacLowState) : MacLowState :=
  let s1 := match s.currentPacket with
    | some psdu =>
      if psdu.first.hdr.IsQosData then
        let saved : AllocationParameters :=
          { psdu := psdu, txParams := s.txParams, txVector := s.currentTxVector,
            txop := s.currentTxop }
        { s with
          allocationPeriodsTable := tableSet s.allocationPeriodsTable s.currentAllocationID saved }
      else s
    | none => s
  { s1 with currentPacket := none, currentAllocation := none }

/-- Source function `MacLow::EndAllocationPeriod`. -/
def EndAllocationPeriod (s : MacLowState) : MacLowState :=
  let s1 := StoreAllocationParameters (CancelAllEvents s)
  { s1 with navCounterResetCtsMissed := none, lastNavStart := s1.now, lastNavDuration := 0,
            currentTxop := none }

/-- Source function `MacLow::NotifySwitchingStartNow`. -/
def NotifySwitchingStartNow (s : MacLowState) : MacLowState :=
  let s1 := CancelAllEvents (s.call [.StationManagerReset])
  { s1 with navCounterResetCtsMissed := none, lastNavStart := s1.now, lastNavDuration := 0,
            currentPacket := none, currentTxop := none }

/-- Source function `MacLow::NotifySleepNow`. -/
def NotifySleepNow (s : MacLowState) : MacLowState :=
  let s1 := CancelAllEvents s
  { s1 with navCounterResetCtsMissed := none, lastNavStart := s1.now, lastNavDuration := 0,
            currentPacket := none, currentTxop := none }

/-- Source function `MacLow::NotifyOffNow`. -/
def NotifyOffNow (s : MacLowState) : MacLowState :=
  let s1 := CancelAllEvents s
  { s1 with navCounterResetCtsMissed := none, lastNavStart := s1.now, lastNavDuration := 0,
            currentPacket := none, currentTxop := none }

/-- Source function `MacLow::IsNavZero`. -/
def IsNavZero (s : MacLowState) : Bool := decide (s.lastNavStart + s.lastNavDuration < s.now)

/-- Source function `MacLow::DoNavResetNow`. -/
def DoNavResetNow (s : MacLowState) (duration : Time) : MacLowState :=
  let s1 := s.call (s.channelAccessManagers.map (fun m => Call.NotifyNavResetNow m duration))
  { s1 with lastNavStart := s1.now, lastNavDuration := duration }

/-- Source function `MacLow::DoNavStartNow`: the returned flag tells whether the NAV record was
updated. -/
def DoNavStartNow (s : MacLowState) (duration : Time) : Bool × MacLowState :=
  let s1 := s.call (s.channelAccessManagers.map (fun m => Call.NotifyNavStartNow m duration))
  let newNavEnd := s1.now + duration
  let oldNavEnd := s1.lastNavStart + s1.lastNavDuration
  if newNavEnd > oldNavEnd then
    (true, { s1 with lastNavStart := s1.now, lastNavDuration := duration })
  else (false, s1)

/-- Source function `MacLow::NotifyAckTimeoutStartNow`. -/
def NotifyAckTimeoutStartNow (s : MacLowState) (duration : Time) : MacLowState :=
  s.call (s.channelAccessManagers.map (fun m => Call.NotifyAckTimeoutStartNow m duration))

/-- Source function `MacLow::NotifyAckTimeoutResetNow`. -/
def NotifyAckTimeoutResetNow (s : MacLowState) : MacLowState :=
  s.call (s.channelAccessManagers.map (fun m => Call.NotifyAckTimeoutResetNow m))

/-- Source function `MacLow::NotifyCtsTimeoutStartNow`. -/
def NotifyCtsTimeoutStartNow (s : MacLowState) (duration : Time) : MacLowState :=
  s.call (s.channelAccessManagers.map (fun m => Call.NotifyCtsTimeoutStartNow m duration))

/-- Source function `MacLow::NotifyCtsTimeoutResetNow`. -/
def NotifyCtsTimeoutResetNow (s : MacLowState) : MacLowState :=
  s.call (s.channelAccessManagers.map (fun m => Call.NotifyCtsTimeoutResetNow m))

/-- An `EventId` member is overwritten by a new `Simulator::Schedule`: an event
that was still running stays scheduled without a handle. -/
def detach (old : Option Event) (detached : List Event) : List Event :=
  match old with
  | some e => detached ++ [e]
  | none => detached

/-- Source function `MacLow::NotifyNav`. -/
def NotifyNav (env : Env) (s : MacLowState) (mpdu : WifiMacQueueItem) : Except Fault MacLowState :=
  let hdr := mpdu.hdr
  if ¬ (s.lastNavStart ≤ s.now) then .error .assertion
  else if hdr.GetRawDuration > 32767 then .ok s
  else
    let duration := hdr.GetDuration
    if hdr.IsCfPoll && hdr.addr2 == s.bssid then .ok (DoNavResetNow s duration)
    else if hdr.IsCfEnd && hdr.addr2 == s.bssid then .ok (DoNavResetNow s 0)
    else if hdr.addr1 != s.self then
      if hdr.IsGrantFrame && (mpdu.packet.grantSourceAid == env.associationId
          || mpdu.packet.grantDestinationAid == env.associationId) then .ok s
      else
        let r := DoNavStartNow s duration
        if hdr.IsRts && r.1 then
          let txVector := env.getRtsTxVector hdr.addr1
          let navCounterResetCtsMissedDelay :=
            env.calculateTxDuration env.ctsSerializedSize txVector
              + 2 * r.2.sifs + 2 * r.2.slotTime
              + env.calculatePhyPreambleAndHeaderDuration txVector
          let ev : Event :=
            { due := r.2.now + navCounterResetCtsMissedDelay, handler := .DoNavResetNow 0 }
          .ok { r.2 with navCounterResetCtsMissed := some ev,
                         detached := detach r.2.navCounterResetCtsMissed r.2.detached }
        else .ok r.2
    else .ok s

/-! ## Controller: timeout handlers -/

/-- Source function `MacLow::CtsTimeout`. -/
def CtsTimeout (s : MacLowState) : Except Fault MacLowState :=
  match s.currentPacket with
  | none => .error .nullPointer
  | some psdu =>
    let s1 := s.call [.ReportRtsFailed psdu.GetAddr1]
    match s1.currentTxop with
    | none => .error .nullPointer
    | some txop =>
      let s2 := if txop.isQosTxop then s1.call [.NotifyMissedCts txop.id psdu.mpdus]
                else s1.call [.MissedCts txop.id]
      .ok { s2 with currentTxop := none, currentPacket := none }

/-- Source function `MacLow::NormalAckTimeout`. -/
def NormalAckTimeout (s : MacLowState) : Except Fault MacLowState :=
  match s.currentTxop with
  | none => .error .nullPointer
  | some txop =>
    let s1 := { s with currentTxop := none }
    let s2 := s1.call [.MissedAck txop.id]
    .ok { s2 with currentPacket := none }

/-- Source function `MacLow::BlockAckTimeout`. -/
def BlockAckTimeout (s : MacLowState) : Except Fault MacLowState :=
  match s.currentTxop with
  | none => .error .nullPointer
  | some txop =>
    let s1 := { s with currentTxop := none }
    match s1.currentPacket with
    | none => .error .nullPointer
    | some psdu =>
      let s2 := s1.call [.MissedBlockAck txop.id psdu.GetNMpdus]
      .ok { s2 with currentPacket := none }


/-! ## Controller: reception -/

/-- The RTS branch of `MacLow::ReceiveOk`, after `NotifyNav`. -/
def receiveRts (env : Env) (s : MacLowState) (mpdu : WifiMacQueueItem) (rxSnr : Nat)
    (txVector : WifiTxVector) (ampduSubframe : Bool) (isPrevNavZero : Bool) :
    Except Fault MacLowState :=
  let hdr := mpdu.hdr
  if ampduSubframe then .error .fatalError
  else if isPrevNavZero && hdr.addr1 == s.self then
    if s.sendCtsEvent.isSome then .error .assertion
    else
      let s1 := s.call [.ReportRxOk hdr.addr2]
      if env.standard == .s80211ad || env.standard == .s80211ay then
        let ev : Event :=
          { due := s1.now + s1.sifs,
            handler := .SendDmgCtsAfterRts hdr.addr2 hdr.GetDuration txVector rxSnr }
        let s2 := { s1 with sendCtsEvent := some ev }
        if txVector.controlTrailerPresent
            && (mpdu.packet.ctIsMimoTransmission && !mpdu.packet.ctIsMuMimoTransmission) then
          .ok (s2.call [.UpdateBestMimoRxAntennaConfigurationIndex hdr.addr2
                          mpdu.packet.ctTxSectorCombinationIdx])
        else .ok s2
      else
        let ev : Event :=
          { due := s1.now + s1.sifs,
            handler := .SendCtsAfterRts hdr.addr2 hdr.GetDuration txVector rxSnr }
        .ok { s1 with sendCtsEvent := some ev }
  else .ok s

/-- The CTS branch of `MacLow::ReceiveOk`, entered when the frame is a CTS or
DMG CTS for this station, the CTS timeout is running and `m_currentPacket` is
not null. -/
def receiveCts (env : Env) (s : MacLowState) (mpdu : WifiMacQueueItem) (txVector : WifiTxVector)
    (ampduSubframe : Bool) (psdu : WifiPsdu) : Except Fault MacLowState :=
  let hdr := mpdu.hdr
  if ampduSubframe then .error .fatalError
  else
    let s1 := s.call [.ReportRxOk psdu.GetAddr1, .ReportRtsOk psdu.GetAddr1]
    let s2 := NotifyCtsTimeoutResetNow { s1 with ctsTimeoutEvent := none }
    if s2.sendDataEvent.isSome then .error .assertion
    else
      let ev : Event := { due := s2.now + s2.sifs, handler := .SendDataAfterCts hdr.GetDuration }
      let s3 := { s2 with sendDataEvent := some ev }
      if env.standard == .s80211ay && txVector.controlTrailerPresent
          && (mpdu.packet.ctIsMimoTransmission && !mpdu.packet.ctIsMuMimoTransmission) then
        .ok (s3.call [.UpdateBestMimoRxAntennaConfigurationIndex hdr.addr2
                        mpdu.packet.ctTxSectorCombinationIdx,
                      .SteerMimoRxAntennaToward hdr.addr2])
      else .ok s3

/-- The `Simulator::Schedule` of one of the two wait-IFS handlers after RIFS (if the
station manager permits RIFS) or SIFS, stored in `m_waitIfsEvent`. -/
def scheduleWaitIfs (env : Env) (s : MacLowState) (extra : Time) (handler : Handler) :
    MacLowState :=
  let ev : Event :=
    { due := s.now + (extra + (if env.rifsPermitted then s.rifs else s.sifs)),
      handler := handler }
  { s with waitIfsEvent := some ev, detached := detach s.waitIfsEvent s.detached }

/-- The condition under which the next packet of the TXOP is chained: the PSDU
is QoS data, the owner is a `QosTxop` with strictly positive TXOP limit, and
its remaining time for transmission exceeds SIFS. -/
def canStartNextPacket (s : MacLowState) (psdu : WifiPsdu) (txop : Txop) : Bool :=
  psdu.first.hdr.IsQosData && txop.isQosTxop && decide (0 < txop.txopLimit)
    && decide (txop.remainingTimeForTransmission > s.sifs)

/-- The Ack branch of `MacLow::ReceiveOk`, entered when the frame is an Ack for
this station, the Normal-Ack timeout is running and the tx parameters wait for a
normal ack. -/
def receiveAck (env : Env) (s : MacLowState) : Except Fault MacLowState :=
  let reported : Except Fault MacLowState :=
    if !s.txParams.HasNextPacket then
      match s.currentPacket with
      | none => .error .nullPointer
      | some psdu => .ok (s.call [.ReportRxOk psdu.GetAddr1, .ReportDataOk psdu.GetAddr1])
    else .ok s
  match reported with
  | .error e => .error e
  | .ok s1 =>
    let s2 := NotifyAckTimeoutResetNow { s1 with normalAckTimeoutEvent := none }
    match s2.currentTxop with
    | none => .error .nullPointer
    | some txop =>
      let s3 := s2.call [.GotAck txop.id]
      let continued : Except Fault MacLowState :=
        if s3.txParams.HasNextPacket then
          .ok (scheduleWaitIfs env s3 0 .WaitIfsAfterEndTxFragment)
        else
          match s3.currentPacket with
          | none => .error .nullPointer
          | some psdu =>
            if canStartNextPacket s3 psdu txop then
              .ok (scheduleWaitIfs env s3 0 .WaitIfsAfterEndTxPacket)
            else if txop.isQosTxop then .ok (s3.call [.TerminateTxop txop.id])
            else .ok s3
      match continued with
      | .error e => .error e
      | .ok s4 => .ok { s4 with currentPacket := none }

/-- Source function `MacLow::WaitIfsAfterEndTxFragment`. -/
def WaitIfsAfterEndTxFragment (s : MacLowState) : Except Fault MacLowState :=
  match s.currentTxop with
  | none => .error .nullPointer
  | some txop => .ok (s.call [.StartNextFragment txop.id])

/-- Source function `MacLow::WaitIfsAfterEndTxPacket`. -/
def WaitIfsAfterEndTxPacket (s : MacLowState) : Except Fault MacLowState :=
  match s.currentTxop with
  | none => .error .nullPointer
  | some txop => .ok (s.call [.StartNextPacket txop.id])

/-- Source function `MacLow::IsCfPeriod`. -/
def IsCfPeriod (env : Env) (s : MacLowState) : Bool :=
  env.pcfSupported && decide (0 < s.cfpStart)

/-- The lookup `m_bAckAgreements.find (std::make_pair (peer, tid))`. -/
def findAgreement (table : List AgreementEntry) (peer : Mac48Address) (tid : Nat) :
    Option AgreementEntry :=
  table.find? (fun e => e.peer == peer && e.tid == tid)

/-- A write through the iterator that `find` returned: the first entry with the
key of `entry` is replaced by `entry`. -/
def setAgreement : List AgreementEntry → AgreementEntry → List AgreementEntry
  | [], _ => []
  | e :: table, entry =>
    if e.peer == entry.peer && e.tid == entry.tid then entry :: table
    else e :: setAgreement table entry

/-- The invocations `m_rxCallback (mpdu)` for a list of frames, in order. -/
def rxCallbacks (s : MacLowState) (mpdus : List Mpdu) : MacLowState :=
  s.call (mpdus.map Call.RxCallback)

/-- A reorder-buffer operation of the controller on the agreement of (peer,
TID): the operation runs on the entry that `find` returns, what it hands to
`m_rxCallback` goes to the trace, and the entry is written back. -/
def onAgreement (s : MacLowState) (peer : Mac48Address) (tid : Nat)
    (op : RxState → Except Fault RxState) : Except Fault MacLowState :=
  let entry := findAgreement s.bAckAgreements peer tid
  match op { agreement := entry.map (fun e => e.agreement), delivered := [] } with
  | .error e => .error e
  | .ok r =>
    let s1 := match entry, r.agreement with
      | some e, some a =>
        { s with bAckAgreements := setAgreement s.bAckAgreements { e with agreement := a } }
      | _, _ => s
    .ok (rxCallbacks s1 r.delivered)

/-- Source function `MacLow::ReceiveMpdu` as a member of the controller: the agreement is
looked up under (Addr2, TID) and the reorder-buffer function `ReceiveMpdu` runs
on it.  The controller calls it for QoS data frames only, for which the key of
`StoreMpduIfNeeded` is the same. -/
def MacLowReceiveMpdu (env : Env) (s : MacLowState) (mpdu : WifiMacQueueItem) :
    Except Fault (Bool × MacLowState) :=
  let hdr := mpdu.hdr
  let tid := if env.htSupported then (if hdr.IsQosData then hdr.qosTid else 0) else hdr.qosTid
  let entry := findAgreement s.bAckAgreements hdr.addr2 tid
  match ReceiveMpdu env.htSupported env.loopFuel
      { agreement := entry.map (fun e => e.agreement), delivered := [] } mpdu.toMpdu with
  | .error e => .error e
  | .ok r =>
    let s1 := match entry, r.2.agreement with
      | some e, some a =>
        { s with bAckAgreements := setAgreement s.bAckAgreements { e with agreement := a } }
      | _, _ => s
    .ok (r.1, rxCallbacks s1 r.2.delivered)

/-- Source function `MacLow::ResetBlockAckInactivityTimerIfNeeded`. -/
def ResetBlockAckInactivityTimerIfNeeded (s : MacLowState) (entry : AgreementEntry) :
    Except Fault MacLowState :=
  if entry.timeout != 0 then
    if entry.inactivityEvent.isNone then .error .assertion
    else
      let ev : Event :=
        { due := s.now + 1024 * (entry.timeout : Int) * 1000,
          handler := .SendDelbaFrame entry.peer entry.tid }
      .ok { s with bAckAgreements :=
              setAgreement s.bAckAgreements { entry with inactivityEvent := some ev } }
  else .ok s

/-- The label `rxPacket` of `MacLow::ReceiveOk`. -/
def rxPacket (s : MacLowState) (mpdu : WifiMacQueueItem) : Except Fault MacLowState :=
  let hdr := mpdu.hdr
  let acked : Except Fault MacLowState :=
    if s.cfAckInfo.expectCfAck && hdr.IsCfAck then
      let s1 := { s with cfAckInfo := { s.cfAckInfo with expectCfAck := false } }
      match s1.currentTxop with
      | none => .error .assertion
      | some txop => .ok (s1.call [.GotAck txop.id])
    else .ok s
  match acked with
  | .error e => .error e
  | .ok s1 => .ok (s1.call [.RxCallback mpdu.toMpdu])

/-- The BlockAck branch of `MacLow::ReceiveOk`, entered when the frame is a
BlockAck for this station, the tx parameters wait for a block ack and the
Block-Ack timeout is running. -/
def receiveBlockAck (env : Env) (s : MacLowState) (mpdu : WifiMacQueueItem) :
    Except Fault MacLowState :=
  let s1 := NotifyAckTimeoutResetNow { s with blockAckTimeoutEvent := none }
  match s1.currentTxop with
  | none => .error .nullPointer
  | some txop =>
    let s2 := s1.call [.GotBlockAck txop.id mpdu.hdr.addr2]
    let s3 :=
      if txop.isQosTxop && decide (0 < txop.txopLimit)
          && decide (txop.remainingTimeForTransmission > s2.sifs) then
        scheduleWaitIfs env s2 0 .WaitIfsAfterEndTxPacket
      else if txop.isQosTxop then s2.call [.TerminateTxop txop.id]
      else s2
    .ok { s3 with currentPacket := none }

/-- The BlockAckReq branch of `MacLow::ReceiveOk`, entered when the frame is a
BlockAckReq for this station.  The update of the Block-Ack bitmap cache
(`BlockAckCache::UpdateWithBlockAckReq`, declared outside src/) is recorded as a
call. -/
def receiveBlockAckReq (s : MacLowState) (mpdu : WifiMacQueueItem) (rxSnr : Nat)
    (txVector : WifiTxVector) : Except Fault MacLowState :=
  let hdr := mpdu.hdr
  if s.servingSLS then .ok s
  else if s.servingMimoBFT then .ok s
  else
    let blockAckReq := mpdu.packet.blockAckReq
    if !blockAckReq.IsMultiTid then
      match findAgreement s.bAckAgreements hdr.addr2 blockAckReq.GetTidInfo with
      | some entry =>
        let s0 := s.call [.UpdateWithBlockAckReq hdr.addr2 blockAckReq.GetTidInfo
                            blockAckReq.GetStartingSequence]
        if s0.sendAckEvent.isSome then .error .assertion
        else
          match ResetBlockAckInactivityTimerIfNeeded s0 entry with
          | .error e => .error e
          | .ok s1 =>
            if entry.immediateBlockAck then
              let ev : Event :=
                { due := s1.now + s1.sifs,
                  handler := .SendBlockAckAfterBlockAckRequest blockAckReq hdr.addr2
                    hdr.GetDuration txVector.mode rxSnr }
              .ok { s1 with sendAckEvent := some ev }
            else .error .fatalError
      | none => .ok s
    else .error .fatalError

/-- The branch of `MacLow::ReceiveOk` for the remaining control frames. -/
def receiveCtl (s : MacLowState) (hdr : WifiMacHeader) : Except Fault MacLowState :=
  if hdr.IsCfEnd then
    let s1 := { s with cfpStart := 0 }
    let acked : Except Fault MacLowState :=
      if s1.cfAckInfo.expectCfAck then
        match s1.currentTxop with
        | none => .error .assertion
        | some txop =>
          if hdr.IsCfAck then .ok (s1.call [.GotAck txop.id])
          else .ok (s1.call [.MissedAck txop.id])
      else .ok s1
    match acked with
    | .error e => .error e
    | .ok s2 =>
      let s3 := match s2.currentTxop with
        | some txop => s2.call [.GotCfEnd txop.id]
        | none => s2
      .ok { s3 with cfAckInfo := { s3.cfAckInfo with expectCfAck := false } }
  else .ok s

/-- The two flushes that `MacLow::ReceiveOk` runs for a QoS data frame with
Normal-Ack policy that is not an A-MPDU subframe, on the agreement it was
admitted to: `RxCompleteBufferedPacketsWithSmallerSequence` with the agreement's
starting sequence control, then `RxCompleteBufferedPacketsUntilFirstLost`. -/
def flushAfterNormalAck (fuel : Nat) (rx : RxState) : Except Fault RxState :=
  match rx.agreement with
  | none => .error .nullPointer
  | some a =>
    match RxCompleteBufferedPacketsWithSmallerSequence fuel a.GetStartingSequenceControl rx with
    | .ok r => .ok (RxCompleteBufferedPacketsUntilFirstLost r)
    | .error e => .error e

/-- The part of `MacLow::ReceiveOk` that follows a `ReceiveMpdu` that returned
true for a QoS data frame addressed to this station; it ends in `return`, not in
`rxPacket`. -/
def receiveQosDataUnderAgreement (env : Env) (s : MacLowState) (mpdu : WifiMacQueueItem)
    (rxSnr : Nat) (txVector : WifiTxVector) (ampduSubframe : Bool) : Except Fault MacLowState :=
  let hdr := mpdu.hdr
  if hdr.IsQosAck && !ampduSubframe then
    match onAgreement s hdr.addr2 hdr.qosTid (flushAfterNormalAck env.loopFuel) with
    | .error e => .error e
    | .ok s1 =>
      if s1.sendAckEvent.isSome then .error .assertion
      else
        let ev : Event :=
          { due := s1.now + s1.sifs,
            handler := .SendAckAfterData hdr.addr2 hdr.GetDuration txVector.mode rxSnr }
        .ok { s1 with sendAckEvent := some ev }
  else if hdr.IsQosBlockAck then
    match findAgreement s.bAckAgreements hdr.addr2 hdr.qosTid with
    | none => .error .nullPointer
    | some entry => ResetBlockAckInactivityTimerIfNeeded s entry
  else .ok s

/-- The branch of `MacLow::ReceiveOk` for a frame addressed to this station that
none of the earlier branches took. -/
def receiveForSelf (env : Env) (s : MacLowState) (mpdu : WifiMacQueueItem) (rxSnr : Nat)
    (txVector : WifiTxVector) (ampduSubframe : Bool) : Except Fault MacLowState :=
  let hdr := mpdu.hdr
  let polled : Except Fault MacLowState :=
    if hdr.IsCfPoll then
      let s1 := { s with cfpStart := s.now }
      if s1.cfAckInfo.expectCfAck && !hdr.IsCfAck then
        match s1.currentTxop with
        | none => .error .assertion
        | some txop =>
          let s2 := { s1 with currentTxop := none }
          let s3 := s2.call [.MissedAck txop.id]
          .ok { s3 with cfAckInfo := { s3.cfAckInfo with expectCfAck := false } }
      else .ok s1
    else .ok s
  match polled with
  | .error e => .error e
  | .ok s1 =>
    if s1.servingSLS then .ok { s1 with sendAckEvent := none }
    else if s1.servingMimoBFT && (hdr.IsData || hdr.IsBlockAck) then
      .ok { s1 with sendAckEvent := none }
    else
      let s2 := s1.call [.ReportRxOk hdr.addr2]
      if hdr.IsActionNoAck then rxPacket s2 mpdu
      else
        let admitted : Except Fault (Bool × MacLowState) :=
          if hdr.IsQosData then MacLowReceiveMpdu env s2 mpdu else .ok (false, s2)
        match admitted with
        | .error e => .error e
        | .ok (true, s3) => receiveQosDataUnderAgreement env s3 mpdu rxSnr txVector ampduSubframe
        | .ok (false, s3) =>
          if hdr.IsQosData && hdr.IsQosBlockAck then
            .ok (s3.call [.SendDelbaFrame hdr.addr2 hdr.qosTid])
          else if hdr.IsQosData && hdr.IsQosNoAck then rxPacket s3 mpdu
          else if hdr.IsData || hdr.IsMgt then
            let mpdu1 :=
              if hdr.IsProbeResp then { mpdu with packet := { mpdu.packet with snrTag := rxSnr } }
              else mpdu
            if hdr.IsMgt && ampduSubframe then .error .fatalError
            else if IsCfPeriod env s3 then
              if hdr.HasData then
                rxPacket { s3 with cfAckInfo :=
                             { s3.cfAckInfo with appendCfAck := true, address := hdr.addr2 } } mpdu1
              else rxPacket s3 mpdu1
            else if s3.sendAckEvent.isSome then .error .assertion
            else
              let ev : Event :=
                { due := s3.now + s3.sifs,
                  handler := .SendAckAfterData hdr.addr2 hdr.GetDuration txVector.mode rxSnr }
              rxPacket { s3 with sendAckEvent := some ev } mpdu1
          else rxPacket s3 mpdu

/-- The last three branches of `MacLow::ReceiveOk`: a group-addressed frame, a
frame for another station in promiscuous mode, and any other frame. -/
def receiveNotForSelf (s : MacLowState) (mpdu : WifiMacQueueItem) (rxSnr : Nat)
    (ampduSubframe : Bool) : Except Fault MacLowState :=
  let hdr := mpdu.hdr
  if IsGroup hdr.addr1 then
    if ampduSubframe then .error .fatalError
    else if hdr.IsData || hdr.IsMgt then
      let mpdu1 :=
        if hdr.IsBeacon then { mpdu with packet := { mpdu.packet with snrTag := rxSnr } }
        else mpdu
      rxPacket s mpdu1
    else .ok s
  else if s.promisc then
    if hdr.addr1 == s.self then .error .assertion
    else if hdr.IsData then rxPacket s mpdu
    else .ok s
  else if s.cfAckInfo.expectCfAck && hdr.IsCfAck then
    let s1 := { s with cfAckInfo := { s.cfAckInfo with expectCfAck := false } }
    match s1.currentTxop with
    | none => .error .assertion
    | some txop => .ok (s1.call [.GotAck txop.id])
  else if s.servingMimoBFT && hdr.addr1 == hdr.addr2 then rxPacket s mpdu
  else .ok s

/-- Source function `MacLow::ReceiveOk`. -/
def ReceiveOk (env : Env) (s : MacLowState) (mpdu : WifiMacQueueItem) (rxSnr : Nat)
    (txVector : WifiTxVector) (ampduSubframe : Bool) : Except Fault MacLowState :=
  let hdr := mpdu.hdr
  let isPrevNavZero := IsNavZero s
  match NotifyNav env s mpdu with
  | .error e => .error e
  | .ok s1 =>
    if hdr.IsRts then receiveRts env s1 mpdu rxSnr txVector ampduSubframe isPrevNavZero
    else
      match (hdr.IsCts || hdr.IsDmgCts) && hdr.addr1 == s1.self && s1.ctsTimeoutEvent.isSome,
            s1.currentPacket with
      | true, some psdu => receiveCts env s1 mpdu txVector ampduSubframe psdu
      | _, _ =>
        if hdr.IsAck && hdr.addr1 == s1.self && s1.normalAckTimeoutEvent.isSome
            && s1.txParams.MustWaitNormalAck then receiveAck env s1
        else if hdr.IsBlockAck && hdr.addr1 == s1.self && s1.txParams.MustWaitBlockAck
            && s1.blockAckTimeoutEvent.isSome then receiveBlockAck env s1 mpdu
        else if hdr.IsBlockAckReq && hdr.addr1 == s1.self then
          receiveBlockAckReq s1 mpdu rxSnr txVector
        else if hdr.IsDMGBeacon then rxPacket (s1.call [.ReportRxOk hdr.addr1]) mpdu
        else if hdr.addr1 == s1.self && (hdr.IsSSW || hdr.IsSSW_FBCK || hdr.IsSSW_ACK) then
          rxPacket (s1.call [.ReportRxOk hdr.addr2]) mpdu
        else if hdr.IsCtl then receiveCtl s1 hdr
        else if hdr.addr1 == s1.self then receiveForSelf env s1 mpdu rxSnr txVector ampduSubframe
        else receiveNotForSelf s1 mpdu rxSnr ampduSubframe


/-! ## NAV: sequences of operations that touch the NAV record -/

/-- The controller operations that write the NAV record, apart from an explicit
`DoNavResetNow`. -/
inductive NavOp where
  | doNavStartNow (duration : Time)
  | notifyNav (mpdu : WifiMacQueueItem)
  | endAllocationPeriod
  | notifySleepNow
  | notifyOffNow
  | notifySwitchingStartNow
deriving DecidableEq, Repr

/-- One operation, executed when the simulator clock shows `t`. -/
def navStep (env : Env) (s : MacLowState) (t : Time) : NavOp → Except Fault MacLowState
  | .doNavStartNow d => .ok (DoNavStartNow { s with now := t } d).2
  | .notifyNav mpdu => NotifyNav env { s with now := t } mpdu
  | .endAllocationPeriod => .ok (EndAllocationPeriod { s with now := t })
  | .notifySleepNow => .ok (NotifySleepNow { s with now := t })
  | .notifyOffNow => .ok (NotifyOffNow { s with now := t })
  | .notifySwitchingStartNow => .ok (NotifySwitchingStartNow { s with now := t })

/-- A sequence of timed operations, left to right. -/
def navRun (env : Env) : MacLowState → List (Time × NavOp) → Except Fault MacLowState
  | s, [] => .ok s
  | s, (t, op) :: ops =>
    match navStep env s t op with
    | .ok s1 => navRun env s1 ops
    | .error e => .error e

/-- The operations are executed at non-decreasing clock times, none earlier
than `t0`. -/
def clockNonDecreasing (t0 : Time) : List (Time × NavOp) → Bool
  | [] => true
  | (t, _) :: ops => decide (t0 ≤ t) && clockNonDecreasing t ops

/-- Whether `NotifyNav` on this frame calls `DoNavResetNow`: a CF-Poll or CF-End from
the BSSID whose raw duration is at most 32767. -/
def resetsNav (bssid : Mac48Address) (mpdu : WifiMacQueueItem) : Bool :=
  decide (mpdu.hdr.GetRawDuration ≤ 32767)
    && ((mpdu.hdr.IsCfPoll && mpdu.hdr.addr2 == bssid)
        || (mpdu.hdr.IsCfEnd && mpdu.hdr.addr2 == bssid))

/-- The operation is `DoNavStartNow`, or `NotifyNav` on a frame that does not
reset the NAV. -/
def NavOp.extendsOnly (bssid : Mac48Address) : NavOp → Bool
  | .doNavStartNow _ => true
  | .notifyNav mpdu => !resetsNav bssid mpdu
  | _ => false


/-! ## Controller: transmission -/

/-- Source function `MacLow::GetAckTxVector`: the assertion on the destination, then the control
answer mode and the remaining settings, which come from the station manager
and the PHY. -/
def GetAckTxVector (env : Env) (dest : Mac48Address) (dataTxMode : Nat) :
    Except Fault WifiTxVector :=
  if IsGroup dest then .error .assertion else env.controlAnswerTxVector dest dataTxMode

/-- Source function `MacLow::GetBlockAckTxVector`. -/
def GetBlockAckTxVector (env : Env) (dest : Mac48Address) (dataTxMode : Nat) :
    Except Fault WifiTxVector :=
  if IsGroup dest then .error .assertion else env.controlAnswerTxVector dest dataTxMode

/-- Source function `MacLow::GetAckDuration (WifiTxVector)`. -/
def GetAckDurationOf (env : Env) (ackTxVector : WifiTxVector) : Except Fault Time :=
  if ackTxVector.modulationClass == .ht then .error .assertion
  else .ok (env.calculateTxDuration env.ackSize ackTxVector)

/-- Source function `MacLow::GetAckDuration (Mac48Address, WifiTxVector)`. -/
def GetAckDuration (env : Env) (dest : Mac48Address) (dataTxVector : WifiTxVector) :
    Except Fault Time :=
  match GetAckTxVector env dest dataTxVector.mode with
  | .ok ackTxVector => GetAckDurationOf env ackTxVector
  | .error e => .error e

/-- Source function `MacLow::GetBlockAckDuration`. -/
def GetBlockAckDuration (env : Env) (blockAckReqTxVector : WifiTxVector) (type : Nat) : Time :=
  env.calculateTxDuration (env.blockAckSize type) blockAckReqTxVector

/-- Source function `MacLow::GetBlockAckRequestDuration`. -/
def GetBlockAckRequestDuration (env : Env) (blockAckReqTxVector : WifiTxVector) (type : Nat) :
    Time :=
  env.calculateTxDuration (env.blockAckRequestSize type) blockAckReqTxVector

/-- Source function `MacLow::GetResponseDuration`. -/
def GetResponseDuration (env : Env) (s : MacLowState) (params : MacLowTransmissionParameters)
    (dataTxVector : WifiTxVector) (receiver : Mac48Address) : Except Fault Time :=
  if params.MustWaitNormalAck then
    match GetAckDuration env receiver dataTxVector with
    | .ok d => .ok (0 + s.sifs + d)
    | .error e => .error e
  else if params.MustWaitBlockAck then
    match GetBlockAckTxVector env s.self dataTxVector.mode with
    | .ok v => .ok (0 + s.sifs + GetBlockAckDuration env v params.blockAckType)
    | .error e => .error e
  else if params.MustSendBlockAckRequest then
    match GetBlockAckTxVector env s.self dataTxVector.mode with
    | .ok v => .ok (0 + 2 * s.sifs
                      + GetBlockAckRequestDuration env v params.blockAckRequestType
                      + GetBlockAckDuration env v params.blockAckRequestType)
    | .error e => .error e
  else .ok 0

/-- Source function `MacLow::StartDataTxTimers`. -/
def StartDataTxTimers (env : Env) (s : MacLowState) (dataTxVector : WifiTxVector) :
    Except Fault MacLowState :=
  match s.currentPacket with
  | none => .error .nullPointer
  | some psdu =>
    let txDuration := env.calculateTxDuration psdu.size dataTxVector
    if s.txParams.MustWaitNormalAck && !IsCfPeriod env s then
      match GetAckTxVector env psdu.GetAddr1 dataTxVector.mode with
      | .error e => .error e
      | .ok ackTxVector =>
        let timerDelay := txDuration + s.sifs + s.slotTime
          + env.calculatePhyPreambleAndHeaderDuration ackTxVector
        if s.normalAckTimeoutEvent.isSome then .error .assertion
        else
          let ev : Event := { due := s.now + timerDelay, handler := .NormalAckTimeout }
          .ok { NotifyAckTimeoutStartNow s timerDelay with normalAckTimeoutEvent := some ev }
    else if s.txParams.MustWaitBlockAck then
      match GetBlockAckTxVector env psdu.GetAddr1 dataTxVector.mode with
      | .error e => .error e
      | .ok blockAckTxVector =>
        let timerDelay := txDuration + s.sifs + s.slotTime
          + env.calculatePhyPreambleAndHeaderDuration blockAckTxVector
        if s.blockAckTimeoutEvent.isSome then .error .assertion
        else
          let ev : Event := { due := s.now + timerDelay, handler := .BlockAckTimeout }
          .ok { NotifyAckTimeoutStartNow s timerDelay with blockAckTimeoutEvent := some ev }
    else if s.txParams.HasNextPacket then
      if s.waitIfsEvent.isSome then .error .assertion
      else .ok (scheduleWaitIfs env s txDuration .WaitIfsAfterEndTxFragment)
    else if psdu.first.hdr.IsQosData then
      match s.currentTxop with
      | none => .error .nullPointer
      | some txop =>
        if canStartNextPacket s psdu txop then
          .ok (scheduleWaitIfs env s txDuration .WaitIfsAfterEndTxPacket)
        else
          let ev : Event := { due := s.now + txDuration, handler := .EndTxNoAck }
          .ok { s with endTxNoAckEvent := some ev,
                       detached := detach s.endTxNoAckEvent s.detached }
    else
      let ev : Event := { due := s.now + txDuration, handler := .EndTxNoAck }
      .ok { s with endTxNoAckEvent := some ev, detached := detach s.endTxNoAckEvent s.detached }

/-- Source function `MacLow::ForwardDown`: the contention-free bookkeeping, `CompleteMpduTx` for
each QoS data MPDU and `m_phy->Send`.  The antenna steering requested from the
high MAC is not recorded. -/
def ForwardDown (env : Env) (s : MacLowState) (psdu : WifiPsdu) (txVector : WifiTxVector) :
    MacLowState :=
  let hdr := psdu.first.hdr
  let s1 :=
    if hdr.IsCfPoll && env.pcfSupported then
      let ev : Event :=
        { due := s.now + (s.pifs + env.calculateTxDuration psdu.size txVector),
          handler := .CfPollTimeout }
      { s with detached := s.detached ++ [ev] }
    else s
  let s2 :=
    if hdr.IsBeacon && env.pcfSupported then
      let s' := if s1.now > s1.lastBeacon + s1.beaconInterval then
          { s1 with cfpForeshortening := s1.now - s1.lastBeacon - s1.beaconInterval }
        else s1
      { s' with lastBeacon := s'.now }
    else if hdr.IsCfEnd && env.pcfSupported then
      { s1 with cfpStart := 0, cfpForeshortening := 0,
                cfAckInfo := { s1.cfAckInfo with appendCfAck := false, expectCfAck := false } }
    else if IsCfPeriod env s1 && hdr.HasData then
      { s1 with cfAckInfo := { s1.cfAckInfo with expectCfAck := true } }
    else s1
  let txVector1 :=
    if psdu.isSingle then { txVector with aggregation := true }
    else if psdu.IsAggregate then { txVector with aggregation := true }
    else txVector
  let completed := (psdu.mpdus.filter (fun m => m.hdr.IsQosData)).map Call.CompleteMpduTx
  s2.call (completed ++ [.PhySend psdu txVector1])

/-- The type a frame gets when a CF-Ack is appended to it (`SendDataPacket`);
`none` where the source asserts false. -/
def appendCfAckType : WifiMacType → Option WifiMacType
  | .data => some .dataCfAck
  | .dataCfPoll => some .dataCfAckCfPoll
  | .dataNull => some .dataNullCfAck
  | .dataNullCfPoll => some .dataNullCfAckCfPoll
  | .ctlEnd => some .ctlEndAck
  | _ => none

/-- The Duration/ID part of `MacLow::SendDataPacket`. -/
def setDataDuration (env : Env) (s : MacLowState) (psdu : WifiPsdu) : Except Fault WifiPsdu :=
  match s.txParams.durationId with
  | some d => .ok { psdu with duration := some d }
  | none =>
    if !IsCfPeriod env s then
      match GetResponseDuration env s s.txParams s.currentTxVector psdu.GetAddr1 with
      | .error e => .error e
      | .ok duration =>
        if s.txParams.HasNextPacket then
          match GetResponseDuration env s s.txParams s.currentTxVector psdu.GetAddr1 with
          | .error e => .error e
          | .ok d2 =>
            .ok { psdu with duration := some (duration
                    + (if env.rifsPermitted then s.rifs else s.sifs)
                    + env.calculateTxDuration s.txParams.nextSize s.currentTxVector + d2) }
        else .ok { psdu with duration := some duration }
    else
      let raw := if psdu.first.hdr.IsCfEnd then 0 else 32768
      .ok { psdu with first := { psdu.first with hdr := { psdu.first.hdr with duration := raw } } }

/-- The CF-Ack part of `MacLow::SendDataPacket`. -/
def appendCfAck (env : Env) (s : MacLowState) (psdu : WifiPsdu) :
    Except Fault (MacLowState × WifiPsdu) :=
  if !psdu.IsAggregate && s.cfAckInfo.appendCfAck then
    match appendCfAckType psdu.first.hdr.type with
    | none => .error .assertion
    | some t =>
      if s.cfAckInfo.address = 0 then .error .assertion
      else
        let hdr1 := { psdu.first.hdr with type := t }
        let psdu1 := { psdu with first := { psdu.first with hdr := hdr1 } }
        let tmpTxVector := env.getDataTxVector { hdr1 with addr1 := s.cfAckInfo.address }
        let s1 := if tmpTxVector.dataRate < s.currentTxVector.dataRate then
            { s with currentTxVector := tmpTxVector }
          else s
        .ok ({ s1 with cfAckInfo := { s1.cfAckInfo with appendCfAck := false, address := 0 } },
             psdu1)
  else .ok (s, psdu)

/-- Source function `MacLow::SendDataPacket`. -/
def SendDataPacket (env : Env) (s : MacLowState) : Except Fault MacLowState :=
  match StartDataTxTimers env s s.currentTxVector with
  | .error e => .error e
  | .ok s1 =>
    match s1.currentPacket with
    | none => .error .nullPointer
    | some psdu =>
      match setDataDuration env s1 psdu with
      | .error e => .error e
      | .ok psdu1 =>
        match appendCfAck env s1 psdu1 with
        | .error e => .error e
        | .ok (s2, psdu2) =>
          let s3 := { s2 with currentPacket := some psdu2 }
          if s3.txParams.MustSendBlockAckRequest then
            match s3.currentTxop with
            | none => .error .assertion
            | some txop =>
              if txop.isQosTxop then
                .ok (ForwardDown env (s3.call [.ScheduleBar txop.id psdu2.GetAddr1]) psdu2
                      s3.currentTxVector)
              else .error .assertion
          else .ok (ForwardDown env s3 psdu2 s3.currentTxVector)

/-- Source function `MacLow::StartTransmission (mpdu, params, callback)`, the variant that takes
a completion callback instead of an owner.  Its closing assertion on the PHY
state is not modelled: every normal return of `SendDataPacket` has handed a frame
to the PHY. -/
def StartTransmissionCallback (env : Env) (s : MacLowState) (mpdu : WifiMacQueueItem)
    (params : MacLowTransmissionParameters) (callback : Nat) : Except Fault MacLowState :=
  if env.phyIsStateOff then .ok s
  else
    let s1 := CancelAllEvents { s with currentPacket := some (WifiPsdu.ofMpdu mpdu) }
    let s2 := { s1 with currentTxop := none, transmissionCallback := some callback,
                        txParams := params, currentTxVector := env.getDmgTxVector mpdu }
    SendDataPacket env s2

/-- Source function `MacLow::SendBlockAckResponse`.  `blockAckType` is the type of the
`CtrlBAckResponseHeader`; the PSDU handed down carries the BlockAck header. -/
def SendBlockAckResponse (env : Env) (s : MacLowState) (blockAckType : Nat)
    (originator : Mac48Address) (immediate : Bool) (duration : Time) (blockAckReqTxMode : Nat)
    (rxSnr : Nat) : Except Fault MacLowState :=
  match GetBlockAckTxVector env originator blockAckReqTxMode with
  | .error e => .error e
  | .ok blockAckReqTxVector =>
    let adjusted : Except Fault (MacLowState × Time) :=
      if immediate then
        .ok ({ s with txParams := s.txParams.DisableAck },
             duration - s.sifs - GetBlockAckDuration env blockAckReqTxVector blockAckType)
      else
        match GetAckDuration env originator blockAckReqTxVector with
        | .error e => .error e
        | .ok d => .ok ({ s with txParams := s.txParams.EnableAck }, duration + s.sifs + d)
    match adjusted with
    | .error e => .error e
    | .ok (s1, duration1) =>
      let s2 := { s1 with txParams := s1.txParams.DisableNextData }
      let armed : Except Fault MacLowState :=
        if !immediate then StartDataTxTimers env s2 blockAckReqTxVector else .ok s2
      match armed with
      | .error e => .error e
      | .ok s3 =>
        if duration1 < 0 then .error .assertion
        else
          let hdr : WifiMacHeader :=
            { type := .ctlBackResp, addr1 := originator, addr2 := s3.self }
          let psdu : WifiPsdu :=
            { first := { hdr := hdr, packet := { snrTag := rxSnr },
                         size := env.blockAckSize blockAckType },
              size := env.blockAckSize blockAckType, duration := some duration1 }
          .ok (ForwardDown env s3 psdu blockAckReqTxVector)


/-! ## Reorder buffer: window arithmetic and the Block-Ack request -/

/-- Distance of a sequence number from a window start, modulo 4096. -/
def seqOffset (start seq : Nat) : Nat := (seq + 4096 - start) % 4096

/-- An MPDU that is not a fragment of a larger MSDU: fragment number 0 and
More-Fragments clear; its sequence number is a 12-bit value. -/
def Mpdu.unfragmented (m : Mpdu) : Bool :=
  m.fragNum == 0 && !m.moreFragments && decide (m.seqNum < 4096)

/-- The value `(seqNumber - bufferSize + 1 + 4096) % 4096` that
`MacLow::ReceiveMpdu` passes to `SetStartingSequence` when the admitted
sequence number lies outside the window. -/
def outOfWindowStart (seqNumber bufferSize : Nat) : Nat :=
  toUint16 (Int.tmod ((seqNumber : Int) - bufferSize + 1 + 4096) 4096)

/-- The updates of the agreement in `MacLow::SendBlockAckAfterBlockAckRequest`
for a request with starting sequence `reqStartingSequence` and starting sequence
control `reqStartingSequenceControl`. -/
def blockAckRequestFlush (htSupported : Bool) (fuel : Nat)
    (reqStartingSequence reqStartingSequenceControl : Nat) (s : RxState) :
    Except Fault RxState :=
  match s.agreement with
  | none => .ok s
  | some a =>
    if !htSupported then
      match withSmallerSequence fuel reqStartingSequenceControl a s.delivered with
      | .ok r =>
        let r2 := untilFirstLost r.1 r.2
        .ok { agreement := some r2.1, delivered := r2.2 }
      | .error e => .error e
    else if !QosUtilsIsOldPacket a.startingSeq reqStartingSequence then
      let a1 := a.SetStartingSequence reqStartingSequence
      match withSmallerSequence fuel reqStartingSequenceControl a1 s.delivered with
      | .ok r =>
        let r2 := untilFirstLost r.1 r.2
        .ok { agreement := some r2.1, delivered := r2.2 }
      | .error e => .error e
    else .ok s

/-- A run of fragments that `RxCompleteBufferedPacketsUntilFirstLost` walks over
without delivering: each has More-Fragments set and the sequence control that
`guard` has when the loop reaches it. -/
def pendingRun : Nat → List Mpdu → Bool
  | _, [] => true
  | guard, x :: rest =>
    decide (guard = GetSequenceControl x) && x.moreFragments && pendingRun ((guard + 1) % 65536) rest


/-! ## Controller: Block-Ack responses and deaggregation -/

/-- The type of the `CtrlBAckResponseHeader` (`BlockAckType`): 0 basic, 1
compressed, 2 extended compressed, 3 multi-TID, 4 EDMG compressed. -/
def blockAckTypeForRequest (env : Env) (reqHdr : CtrlBAckRequestHeader) : Nat :=
  if env.edmgSupported then 4
  else if reqHdr.IsBasic then 0
  else if reqHdr.IsCompressed then 1
  else if reqHdr.IsExtendedCompressed then 2
  else 0

/-- Source function `MacLow::SendBlockAckAfterBlockAckRequest`. -/
def SendBlockAckAfterBlockAckRequest (env : Env) (s : MacLowState) (reqHdr : CtrlBAckRequestHeader)
    (originator : Mac48Address) (duration : Time) (blockAckReqTxMode : Nat) (rxSnr : Nat) :
    Except Fault MacLowState :=
  if !env.phyIsStateTx && !env.phyIsStateSwitching then
    if !reqHdr.IsMultiTid then
      let tid := reqHdr.GetTidInfo
      match findAgreement s.bAckAgreements originator tid with
      | some entry =>
        match onAgreement s originator tid
            (blockAckRequestFlush env.htSupported env.loopFuel reqHdr.GetStartingSequence
              reqHdr.GetStartingSequenceControl) with
        | .error e => .error e
        | .ok s1 =>
          SendBlockAckResponse env s1 (blockAckTypeForRequest env reqHdr) originator
            entry.immediateBlockAck duration blockAckReqTxMode rxSnr
      | none => SendBlockAckResponse env s 0 originator false duration blockAckReqTxMode rxSnr
    else .error .fatalError
  else .ok s

/-- Source function `MacLow::SendBlockAckAfterAmpdu`. -/
def SendBlockAckAfterAmpdu (env : Env) (s : MacLowState) (tid : Nat) (originator : Mac48Address)
    (duration : Time) (blockAckReqTxVector : WifiTxVector) (rxSnr : Nat) :
    Except Fault MacLowState :=
  if !env.phyIsStateTx && !env.phyIsStateSwitching then
    match findAgreement s.bAckAgreements originator tid with
    | none => .error .assertion
    | some entry =>
      let blockAckType :=
        if env.edmgSupported then 4
        else if entry.agreement.bufferSize > 64 then 2
        else 1
      match GetBlockAckTxVector env originator blockAckReqTxVector.mode with
      | .error e => .error e
      | .ok blockAckTxVector =>
        SendBlockAckResponse env s blockAckType originator entry.immediateBlockAck duration
          blockAckTxVector.mode rxSnr
  else .ok s

/-- Source function `MacLow::ReceiveShortSswOk`. -/
def ReceiveShortSswOk (s : MacLowState) (mpdu : WifiMacQueueItem) : MacLowState :=
  s.call [.ReceiveShortSswFrame mpdu.packet.uid]

/-- The `for` loop of `MacLow::DeaggregateAmpduAndReceive` over the subframes and
their receive statuses; `normalAck` and `ampduSubframe` are the two local
flags. -/
def deaggregateLoop (env : Env) (psdu : WifiPsdu) (rxSnr : Nat) (txVector : WifiTxVector) :
    MacLowState → Bool → Bool → List (WifiMacQueueItem × Bool) → Except Fault MacLowState
  | s, _, _, [] => .ok s
  | s, normalAck, ampduSubframe, (n, status) :: rest =>
    let firsthdr := n.hdr
    if firsthdr.addr1 != s.self then .error .fatalError
    else if status then
      let ev : Event :=
        { due := s.now + s.sifs,
          handler := .SendBlockAckAfterAmpdu firsthdr.qosTid firsthdr.addr2 firsthdr.GetDuration
            txVector rxSnr }
      let s1 :=
        if psdu.isSingle then s
        else if !s.sendAckEvent.isSome && firsthdr.IsQosAck then { s with sendAckEvent := some ev }
        else s
      let ampduSubframe1 := if psdu.isSingle then false else ampduSubframe
      let received : Except Fault (MacLowState × Bool) :=
        if firsthdr.IsAck || firsthdr.IsBlockAck || firsthdr.IsBlockAckReq then
          match ReceiveOk env s1 n rxSnr txVector ampduSubframe1 with
          | .ok s2 => .ok (s2, normalAck)
          | .error e => .error e
        else if firsthdr.IsData || firsthdr.IsQosData then
          match ReceiveOk env s1 n rxSnr txVector ampduSubframe1 with
          | .ok s2 => .ok (s2, normalAck || firsthdr.IsQosAck)
          | .error e => .error e
        else .error .fatalError
      match received with
      | .error e => .error e
      | .ok (s2, normalAck1) =>
        if !psdu.isSingle && normalAck1 then
          if firsthdr.IsBlockAckReq then .error .fatalError
          else
            match findAgreement s2.bAckAgreements firsthdr.addr2 firsthdr.qosTid with
            | some entry =>
              match ResetBlockAckInactivityTimerIfNeeded s2 entry with
              | .error e => .error e
              | .ok s3 =>
                if s3.sendAckEvent.isNone then .error .assertion
                else deaggregateLoop env psdu rxSnr txVector s3 normalAck1 ampduSubframe1 rest
            | none => deaggregateLoop env psdu rxSnr txVector s2 normalAck1 ampduSubframe1 rest
        else deaggregateLoop env psdu rxSnr txVector s2 normalAck1 ampduSubframe1 rest
    else deaggregateLoop env psdu rxSnr txVector s normalAck ampduSubframe rest

/-- Source function `MacLow::DeaggregateAmpduAndReceive`. -/
def DeaggregateAmpduAndReceive (env : Env) (s : MacLowState) (psdu : WifiPsdu) (rxSnr : Nat)
    (txVector : WifiTxVector) (statusPerMpdu : List Bool) : Except Fault MacLowState :=
  if txVector.aggregation then
    if !psdu.IsAggregate then .error .assertion
    else if psdu.GetNMpdus != statusPerMpdu.length then .error .fatalError
    else if s.servingSLS then .ok s
    else if s.servingMimoBFT then .ok s
    else
      match NotifyNav env s psdu.first with
      | .error e => .error e
      | .ok s1 =>
        if psdu.first.hdr.addr1 == s1.self then
          deaggregateLoop env psdu rxSnr txVector s1 false true (psdu.mpdus.zip statusPerMpdu)
        else .ok s1
  else
    if psdu.IsAggregate then .error .assertion
    else if txVector.modulationClass == .edmgCtrl && psdu.size == 6 then
      .ok (ReceiveShortSswOk s psdu.first)
    else ReceiveOk env s psdu.first rxSnr txVector false


/-! ## Controller: suspended allocations -/

/-- Source function `MacLow::GetDmgCtsSize`. -/
def GetDmgCtsSize (env : Env) (addControlTrailer : Bool) : Nat :=
  env.dmgCtsHeaderSize + 4 + (if addControlTrailer then 18 else 0)

/-- Source function `MacLow::GetDmgCtsDuration`. -/
def GetDmgCtsDuration (env : Env) (addControlTrailer : Bool) : Except Fault Time :=
  let ctsTxVector := env.dmgControlTxVector
  if ctsTxVector.modulationClass == .dmgCtrl || ctsTxVector.modulationClass == .edmgCtrl then
    .ok (env.calculateTxDuration (GetDmgCtsSize env addControlTrailer) ctsTxVector)
  else .error .assertion

/-- Source function `MacLow::GetCtsTxVector`: the assertion on the destination, then the control
answer mode and the remaining settings, which come from the station manager
and the PHY. -/
def GetCtsTxVector (env : Env) (dest : Mac48Address) (rtsTxMode : Nat) :
    Except Fault WifiTxVector :=
  if IsGroup dest then .error .assertion else env.controlAnswerTxVector dest rtsTxMode

/-- Source function `MacLow::GetCtsDuration (WifiTxVector)`. -/
def GetCtsDurationOf (env : Env) (ctsTxVector : WifiTxVector) : Except Fault Time :=
  if ctsTxVector.modulationClass == .ht then .error .assertion
  else .ok (env.calculateTxDuration env.ctsSize ctsTxVector)

/-- Source function `MacLow::GetCtsDuration (Mac48Address, WifiTxVector, bool)`. -/
def GetCtsDuration (env : Env) (dest : Mac48Address) (rtsTxVector : WifiTxVector)
    (addControlTrailer : Bool) : Except Fault Time :=
  if rtsTxVector.modulationClass == .dmgCtrl || rtsTxVector.modulationClass == .edmgCtrl then
    GetDmgCtsDuration env addControlTrailer
  else
    match GetCtsTxVector env dest rtsTxVector.mode with
    | .ok ctsTxVector => GetCtsDurationOf env ctsTxVector
    | .error e => .error e

/-- The conversion `MicroSeconds (ceil ((double) t.GetNanoSeconds () / 1000))`:
a time rounded up to whole microseconds (the quotient is taken exactly). -/
def ceilToMicroSeconds (t : Time) : Time := -((-t) / 1000) * 1000

/-- Source function `MacLow::CalculateWiGigTransactionTime`. -/
def CalculateWiGigTransactionTime (env : Env) (s : MacLowState) (psdu : WifiPsdu) :
    Except Fault Time :=
  let txTime := env.calculateTxDuration psdu.size s.currentTxVector
  let withRts : Except Fault Time :=
    if s.txParams.MustSendRts then
      let rtsTxVector := env.dmgControlTxVector
      match GetCtsDuration env psdu.GetAddr1 rtsTxVector false with
      | .ok cts =>
        .ok (txTime + env.calculateTxDuration (env.rtsSize false) rtsTxVector + cts + s.sifs * 2)
      | .error e => .error e
    else .ok txTime
  match withRts with
  | .error e => .error e
  | .ok t1 =>
    match GetResponseDuration env s s.txParams s.currentTxVector psdu.GetAddr1 with
    | .ok r => .ok (ceilToMicroSeconds (t1 + r))
    | .error e => .error e

/-- Source function `MacLow::SendRtsForPacket`. -/
def SendRtsForPacket (env : Env) (s : MacLowState) : Except Fault MacLowState :=
  match s.currentPacket with
  | none => .error .nullPointer
  | some psdu =>
    let dest := psdu.GetAddr1
    let dataMode :=
      if env.standard == .s80211ay then env.stationDataCommunicationMode dest else .siso
    let addControlTrailer := env.standard == .s80211ay && dataMode != .siso
    let rtsTxVector0 := env.getRtsTxVector psdu.first.hdr.addr1
    let rtsTxVector :=
      if env.standard == .s80211ay then
        { rtsTxVector0 with controlTrailerPresent := addControlTrailer }
      else rtsTxVector0
    match GetCtsDuration env dest rtsTxVector addControlTrailer with
    | .error e => .error e
    | .ok cts =>
      match GetResponseDuration env s s.txParams s.currentTxVector dest with
      | .error e => .error e
      | .ok response =>
        let duration0 := 0 + s.sifs + cts + s.sifs
          + env.calculateTxDuration psdu.size s.currentTxVector + response
        let duration :=
          if s.txParams.HasNextPacket then
            duration0 + env.calculateTxDuration s.txParams.nextSize s.currentTxVector + response
          else duration0
        let txDuration := env.calculateTxDuration (env.rtsSize addControlTrailer) rtsTxVector
        let timerDelay := txDuration + s.sifs + s.slotTime
          + env.calculatePhyPreambleAndHeaderDuration rtsTxVector
        if s.ctsTimeoutEvent.isSome then .error .assertion
        else
          let ev : Event := { due := s.now + timerDelay, handler := .CtsTimeout }
          let s1 := { NotifyCtsTimeoutStartNow s timerDelay with ctsTimeoutEvent := some ev }
          let s2 :=
            if addControlTrailer && dataMode == .suMimo then
              s1.call [.UpdateBestMimoTxAntennaConfigurationIndex dest 0]
            else s1
          let packet : Packet :=
            if addControlTrailer then
              { ctIsMimoTransmission := true, ctIsMuMimoTransmission := dataMode != .suMimo,
                ctTxSectorCombinationIdx := 0 }
            else {}
          let rts : WifiMacHeader := { type := .ctlRts, addr1 := dest, addr2 := s2.self }
          let rtsPsdu : WifiPsdu :=
            { first := { hdr := rts, packet := packet, size := env.rtsSize addControlTrailer },
              size := env.rtsSize addControlTrailer, duration := some duration }
          .ok (ForwardDown env s2 rtsPsdu rtsTxVector)

/-- Source function `MacLow::ResumeTransmission`.  Its closing assertion on the PHY state is not
modelled: every normal return of `SendRtsForPacket` and of `SendDataPacket` has
handed a frame to the PHY. -/
def ResumeTransmission (env : Env) (s : MacLowState) (duration : Time) (txop : Txop) :
    Except Fault MacLowState :=
  match s.currentAllocation with
  | none => .error .assertion
  | some allocation =>
    let s1 := { s with restoredSuspendedTransmission := false,
                       currentPacket := some allocation.psdu,
                       txParams := allocation.txParams,
                       currentTxVector := allocation.txVector }
    match CalculateWiGigTransactionTime env s1 allocation.psdu with
    | .error e => .error e
    | .ok transactionTime =>
      let resumed : Except Fault MacLowState :=
        if transactionTime ≤ duration then
          let s2 := { CancelAllEvents s1 with currentTxop := some txop }
          if s2.txParams.MustSendRts then SendRtsForPacket env s2 else SendDataPacket env s2
        else .ok { s1 with transmissionSuspended := true }
      match resumed with
      | .error e => .error e
      | .ok s3 =>
        .ok { s3 with allocationPeriodsTable :=
                s3.allocationPeriodsTable.filter (fun e => e.1 != s3.currentAllocationID) }

/-- Source function `MacLow::RestoreAllocationParameters`. -/
def RestoreAllocationParameters (s : MacLowState) (allocationId : Nat) : MacLowState :=
  let s1 := { s with transmissionSuspended := false, currentAllocationID := allocationId }
  match s1.allocationPeriodsTable.find? (fun e => e.1 == allocationId) with
  | some e => { s1 with currentAllocation := some e.2, restoredSuspendedTransmission := true }
  | none => { s1 with restoredSuspendedTransmission := false, currentAllocation := none }

/-- Source function `MacLow::CompletedSuspendedPsduTransmission`; a null `txop` is `none`. -/
def CompletedSuspendedPsduTransmission (s : MacLowState) (txop : Option Txop) : Bool :=
  match s.currentAllocation with
  | some allocation =>
    if s.restoredSuspendedTransmission && allocation.txop == txop then false else true
  | none => true

/-- An agreement whose buffer holds unfragmented MPDUs of the window
`[startingSeq, startingSeq + bufferSize)`, each ahead of the window start and
not old, in increasing sequence order. -/
def Agreement.inOrder (a : Agreement) : Prop :=
  a.startingSeq < 4096 ∧
  (∀ x ∈ a.buffer, x.unfragmented = true ∧ 0 < seqOffset a.startingSeq x.seqNum ∧
    seqOffset a.startingSeq x.seqNum < a.bufferSize ∧
    seqOffset a.startingSeq x.seqNum < 2048) ∧
  a.buffer.Pairwise (fun x y =>
    seqOffset a.startingSeq x.seqNum < seqOffset a.startingSeq y.seqNum)

/-- The frames that a trace records as handed to `m_rxCallback`, in order. -/
def deliveredUp (trace : List Call) : List Mpdu :=
  trace.filterMap (fun c => match c with
    | .RxCallback m => some m
    | _ => none)


/-- A QoS data frame with Normal-Ack policy from station 2 to station 1 on TID 3,
with sequence number `seq`; the packet uid stands for the payload. -/
def qosFrame (seq uid : Nat) : WifiMacQueueItem :=
  { hdr := { type := .qosData, addr1 := 1, addr2 := 2, seqNum := seq, qosTid := 3 },
    packet := { uid := uid } }

/-- Station 1 holding one Block-Ack agreement, with station 2 on TID 3. -/
def stationWithAgreement (a : Agreement) : MacLowState :=
  { self := 1, sifs := 3000, bAckAgreements := [{ peer := 2, tid := 3, agreement := a }] }

/-- The offsets, counted from `i`, of the subframes of an A-MPDU whose receive
status is pass. -/
def passedOffsets : Nat → List Bool → List Nat
  | _, [] => []
  | i, true :: st => i :: passedOffsets (i + 1) st
  | i, false :: st => passedOffsets (i + 1) st

/-- The number of subframes in front of the first one whose receive status is
fail. -/
def leadingPassed (st : List Bool) : Nat := (st.takeWhile id).length

/-- The event that `MacLow::DeaggregateAmpduAndReceive` schedules for a passed
subframe with Normal-Ack policy while no ack is pending. -/
def blockAckAfterAmpdu (s : MacLowState) (n : WifiMacQueueItem) (txVector : WifiTxVector)
    (rxSnr : Nat) : Event :=
  { due := s.now + s.sifs,
    handler := .SendBlockAckAfterAmpdu n.hdr.qosTid n.hdr.addr2 n.hdr.GetDuration txVector rxSnr }

/-- The A-MPDU of the four QoS data frames with sequence numbers 10, 11, 12 and 13. -/
def ampdu4 : WifiPsdu :=
  { first := qosFrame 10 10, rest := [qosFrame 11 11, qosFrame 12 12, qosFrame 13 13],
    size := 400 }


/-! ## Controller: training phases and reception start -/

/-- Source function `MacLow::SLS_Phase_Started`. -/
def SLS_Phase_Started (s : MacLowState) : MacLowState :=
  { s with servingSLS := true, normalAckTimeoutEvent := none, blockAckTimeoutEvent := none,
           sendAckEvent := none }

/-- Source function `MacLow::SLS_Phase_Ended`. -/
def SLS_Phase_Ended (s : MacLowState) : MacLowState :=
  { s with servingSLS := false }

/-- Source function `MacLow::MIMO_BFT_Phase_Started`. -/
def MIMO_BFT_Phase_Started (s : MacLowState) : MacLowState :=
  { s with servingMimoBFT := true, normalAckTimeoutEvent := none, blockAckTimeoutEvent := none,
           sendAckEvent := none }

/-- Source function `MacLow::MIMO_BFT_Phase_Ended`. -/
def MIMO_BFT_Phase_Ended (s : MacLowState) : MacLowState :=
  { s with servingMimoBFT := false }

/-- The constant `PSDU_DURATION_SAFEGUARD`, in nanoseconds. -/
def PSDU_DURATION_SAFEGUARD : Time := 400

/-- Source function `MacLow::RxStartIndication`; the tx vector is only logged. -/
def RxStartIndication (s : MacLowState) (psduDuration : Time) : Except Fault MacLowState :=
  if ¬ (0 < psduDuration) then .error .assertion
  else if s.normalAckTimeoutEvent.isSome then
    let s1 := NotifyAckTimeoutResetNow { s with normalAckTimeoutEvent := none }
    let ev : Event :=
      { due := s1.now + (psduDuration + PSDU_DURATION_SAFEGUARD), handler := .NormalAckTimeout }
    .ok { s1 with normalAckTimeoutEvent := some ev }
  else if s.blockAckTimeoutEvent.isSome then
    let s1 := NotifyAckTimeoutResetNow { s with blockAckTimeoutEvent := none }
    let ev : Event :=
      { due := s1.now + (psduDuration + PSDU_DURATION_SAFEGUARD), handler := .BlockAckTimeout }
    .ok { s1 with blockAckTimeoutEvent := some ev }
  else if s.ctsTimeoutEvent.isSome then
    let s1 := NotifyCtsTimeoutResetNow { s with ctsTimeoutEvent := none }
    let ev : Event :=
      { due := s1.now + (psduDuration + PSDU_DURATION_SAFEGUARD), handler := .CtsTimeout }
    .ok { s1 with ctsTimeoutEvent := some ev }
  else if s.navCounterResetCtsMissed.isSome then
    .ok { s with navCounterResetCtsMissed := none }
  else .ok s

/-- The simulator runs the event held by `m_navCounterResetCtsMissed` when the
clock reaches its due time: the member is expired and the handler, here always
`DoNavResetNow`, is called with the scheduled argument. -/
def navCounterResetCtsMissedExpires (s : MacLowState) : MacLowState :=
  match s.navCounterResetCtsMissed with
  | some ev =>
    match ev.handler with
    | .DoNavResetNow duration =>
      DoNavResetNow { s with now := ev.due, navCounterResetCtsMissed := none } duration
    | _ => s
  | none => s


/-! ## Controller: transmission entry points -/

/-- Modelled from the spec: `Mac48Address::IsBroadcast` (declared outside src/),
the address ff:ff:ff:ff:ff:ff. -/
def IsBroadcast (a : Mac48Address) : Bool := a == 2 ^ 48 - 1

/-- The constructor call `Create<WifiPsdu> (mpdu, true)`: the PSDU of one MPDU sent as an
S-MPDU. -/
def WifiPsdu.singleMpdu (env : Env) (mpdu : WifiMacQueueItem) : WifiPsdu :=
  { first := mpdu, rest := [], size := env.getSizeIfAggregated mpdu.size 0, isSingle := true }

/-- The constructor call `Create<WifiPsdu> (mpduList)` for a list of at least one MPDU. -/
def WifiPsdu.ofMpdus (env : Env) (first : WifiMacQueueItem) (rest : List WifiMacQueueItem) :
    WifiPsdu :=
  { first := first, rest := rest, size := env.psduSize (first :: rest), isSingle := false }

/-- Source function `MacLow::IsWithinSizeAndTimeLimits (mpduSize, receiver, tid, txVector,
ampduSize, ppduDurationLimit)`.  The limit `Time::Min ()` is `none`;
`Time::IsNegative` is `≤ 0` and `Time::IsStrictlyPositive` is `> 0` (declared
outside src/). -/
def IsWithinSizeAndTimeLimits (env : Env) (mpduSize : Nat) (receiver : Mac48Address) (tid : Nat)
    (txVector : WifiTxVector) (ampduSize : Nat) (ppduDurationLimit : Option Time) :
    Except Fault Bool :=
  let limitNegative := match ppduDurationLimit with
    | some limit => decide (limit ≤ 0)
    | none => false
  if limitNegative then .ok false
  else
    let modulation := txVector.modulationClass
    let maxAmpduSize :=
      if env.mpduAggregatorInstalled then env.maxAmpduSize receiver tid modulation else 0
    if maxAmpduSize = 0 ∧ ampduSize ≠ 0 then .error .assertion
    else
      let payload : Except Fault Nat :=
        if decide (0 < ampduSize) || env.modulationAtLeastVht modulation then
          if env.mpduAggregatorInstalled then .ok (env.getSizeIfAggregated mpduSize ampduSize)
          else .error .nullPointer
        else .ok mpduSize
      match payload with
      | .error e => .error e
      | .ok ppduPayloadSize =>
        if 0 < maxAmpduSize ∧ maxAmpduSize < ppduPayloadSize then .ok false
        else
          let maxPpduDuration := env.ppduMaxTime txVector
          let txTime := env.calculateTxDuration ppduPayloadSize txVector
          let limitPositive := match ppduDurationLimit with
            | some limit => decide (0 < limit ∧ limit < txTime)
            | none => false
          if limitPositive || decide (0 < maxPpduDuration ∧ maxPpduDuration < txTime) then
            .ok false
          else .ok true

/-- Source function `MacLow::NeedCtsToSelf`. -/
def NeedCtsToSelf (env : Env) (s : MacLowState) : Except Fault Bool :=
  match s.currentPacket with
  | none => .error .nullPointer
  | some psdu => .ok (env.needCtsToSelf (env.getDataTxVector psdu.first.hdr))

/-- Source function `MacLow::SendCtsToSelf`. -/
def SendCtsToSelf (env : Env) (s : MacLowState) : Except Fault MacLowState :=
  match s.currentPacket with
  | none => .error .nullPointer
  | some psdu =>
    let ctsTxVector := env.getRtsTxVector psdu.first.hdr.addr1
    match GetResponseDuration env s s.txParams s.currentTxVector psdu.GetAddr1 with
    | .error e => .error e
    | .ok response =>
      let duration0 := 0 + s.sifs + env.calculateTxDuration psdu.size s.currentTxVector + response
      let duration :=
        if s.txParams.HasNextPacket then
          duration0 + s.sifs + env.calculateTxDuration s.txParams.nextSize s.currentTxVector
            + response
        else duration0
      let cts : WifiMacHeader := { type := .ctlCts, addr1 := s.self }
      let ctsPsdu : WifiPsdu :=
        { first := { hdr := cts, packet := {}, size := env.ctsSize },
          size := env.ctsSize, duration := some duration }
      let s1 := ForwardDown env s ctsPsdu ctsTxVector
      let txDuration := env.calculateTxDuration env.ctsSize ctsTxVector + s1.sifs
      if s1.sendDataEvent.isSome then .error .assertion
      else
        let ev : Event := { due := s1.now + txDuration, handler := .SendDataAfterCts duration }
        .ok { s1 with sendDataEvent := some ev }

/-- Whether `StartTransmission` computes a PPDU duration limit: the owner has a
TXOP limit or time remaining in its allocation. -/
def hasPpduDurationLimit (env : Env) (txop : Txop) : Bool :=
  decide (0 < txop.txopLimit) || decide (0 < env.allocationRemaining txop.id)

/-- The local `newMpdu` of `MacLow::StartTransmission (mpdu, params, txop)`, with the flag
`isPeeked`: a peeked frame is dequeued by the QosTxop, which may return null; a
frame that was not peeked is taken if it is within the size and duration
limits, and `newMpdu` stays null otherwise. -/
def selectNewMpdu (env : Env) (txVector : WifiTxVector) (mpdu : WifiMacQueueItem)
    (params : MacLowTransmissionParameters) (txop : Txop) :
    Except Fault (Bool × Option WifiMacQueueItem) :=
  let tid := mpdu.hdr.qosTid
  let txopLimit : Option Time :=
    if hasPpduDurationLimit env txop then some (env.getPpduDurationLimit txop.id mpdu params)
    else none
  let isPeeked := match env.edcaPeekFrameForTransmission tid with
    | some tmp => tmp.packet.uid == mpdu.packet.uid
    | none => false
  if isPeeked then .ok (true, env.edcaDequeuePeekedFrame mpdu txVector txopLimit)
  else
    match IsWithinSizeAndTimeLimits env mpdu.size mpdu.hdr.addr1 tid txVector 0 txopLimit with
    | .error e => .error e
    | .ok true => .ok (false, some mpdu)
    | .ok false => .ok (false, none)

/-- The branch of `MacLow::StartTransmission (mpdu, params, txop)` for a non-broadcast
QoS data frame that is not a fragment: the frame is dequeued (if it was peeked)
or checked against the size and duration limits, aggregated if possible, and
the tx parameters and the ack policy are set by the ack policy selector.  The
flag of the result is false when the function returns from inside this branch,
because no frame can be sent now. -/
def prepareQosData (env : Env) (s : MacLowState) (mpdu : WifiMacQueueItem)
    (params : MacLowTransmissionParameters) (txop : Txop) : Except Fault (MacLowState × Bool) :=
  let hdr := mpdu.hdr
  let tid := hdr.qosTid
  if !env.edcaRegistered tid then .error .nullPointer
  else
    match selectNewMpdu env s.currentTxVector mpdu params txop with
    | .error e => .error e
    | .ok (isPeeked, none) =>
      if isPeeked then
        let s1 := s.call [.DequeuePeekedFrame tid mpdu]
        .ok (({ s1 with currentPacket := none }).call [.UpdateCurrentPacket tid none], false)
      else .ok (s, false)
    | .ok (isPeeked, some newMpdu) =>
      let s1 := if isPeeked then s.call [.DequeuePeekedFrame tid mpdu] else s
      let s2 := s1.call [.UpdateCurrentPacket tid (some newMpdu)]
      let txopLimit2 : Except Fault (Option Time) :=
        if hasPpduDurationLimit env txop then
          if !env.ackPolicySelectorInstalled then .error .nullPointer
          else
            match s2.currentPacket with
            | none => .error .nullPointer
            | some psdu =>
              .ok (some (env.getPpduDurationLimit txop.id mpdu (env.getTemporaryParams psdu params)))
        else .ok none
      match txopLimit2 with
      | .error e => .error e
      | .ok limit2 =>
        let mpduList :=
          if env.mpduAggregatorInstalled then env.getNextAmpdu newMpdu s2.currentTxVector limit2
          else []
        let psdu : WifiPsdu × Bool := match mpduList with
          | first :: second :: rest => (WifiPsdu.ofMpdus env first (second :: rest), true)
          | _ =>
            if s2.currentTxVector.modulationClass == .vht
                || s2.currentTxVector.modulationClass == .he then
              (WifiPsdu.singleMpdu env newMpdu, true)
            else (WifiPsdu.ofMpdu newMpdu, false)
        let s3 := { s2 with currentPacket := some psdu.1 }
        let s4 := if psdu.2 then s3.call [.SetAmpduExist tid hdr.addr1 true] else s3
        if !env.ackPolicySelectorInstalled then .error .assertion
        else
          let params1 := env.updateTxParams psdu.1 s4.txParams
          .ok ({ s4 with txParams := params1,
                         currentPacket := some (env.setAckPolicy psdu.1 params1) }, true)

/-- The opening of `MacLow::StartTransmission (mpdu, params, txop)` after the PHY check: the frame
becomes the current packet, all events are cancelled, and the owner, the tx
parameters and the tx vector are set. -/
def startTransmissionContext (env : Env) (s : MacLowState) (mpdu : WifiMacQueueItem)
    (params : MacLowTransmissionParameters) (txop : Txop) : MacLowState :=
  let hdr := mpdu.hdr
  let s1 := CancelAllEvents { s with currentPacket := some (WifiPsdu.ofMpdu mpdu) }
  { s1 with
    currentTxop := some txop, txParams := params,
    currentTxVector :=
      if hdr.IsCtl then env.getRtsTxVector hdr.addr1 else env.getDataTxVector hdr }

/-- The closing of `MacLow::StartTransmission (mpdu, params, txop)`: the current packet goes out
behind an RTS, behind a CTS-to-self, or at once. -/
def sendCurrentPacket (env : Env) (s : MacLowState) : Except Fault MacLowState :=
  if s.txParams.MustSendRts then SendRtsForPacket env s
  else
    let protect : Except Fault Bool :=
      if s.ctsToSelfSupported || env.useNonErpProtection then NeedCtsToSelf env s
      else .ok false
    match protect with
    | .error e => .error e
    | .ok true => SendCtsToSelf env s
    | .ok false => SendDataPacket env s

/-- Source function `MacLow::StartTransmission (mpdu, params, txop)`, the variant with an owner.
Its closing assertion on the PHY state is not modelled: it is reached only after
`SendRtsForPacket`, `SendCtsToSelf` or `SendDataPacket`, each of which hands a
frame to the PHY on every normal return. -/
def StartTransmission (env : Env) (s : MacLowState) (mpdu : WifiMacQueueItem)
    (params : MacLowTransmissionParameters) (txop : Txop) : Except Fault MacLowState :=
  if s.cfAckInfo.expectCfAck then .error .assertion
  else if env.phyIsStateOff then .ok s
  else
    let hdr := mpdu.hdr
    let s2 := startTransmissionContext env s mpdu params txop
    let prepared : Except Fault (MacLowState × Bool) :=
      if hdr.IsQosData && !IsBroadcast hdr.addr1 && !hdr.moreFragments && hdr.fragNum == 0 then
        prepareQosData env s2 mpdu params txop
      else .ok (s2, true)
    match prepared with
    | .error e => .error e
    | .ok (s3, false) => .ok s3
    | .ok (s3, true) => sendCurrentPacket env s3

/-- Source function `MacLow::TransmitSingleFrame`. -/
def TransmitSingleFrame (env : Env) (s : MacLowState) (mpdu : WifiMacQueueItem)
    (params : MacLowTransmissionParameters) (txop : Txop) : Except Fault MacLowState :=
  if env.phyIsStateOff then .ok s
  else
    let s1 := CancelAllEvents { s with currentPacket := some (WifiPsdu.ofMpdu mpdu) }
    let s2 := { s1 with currentTxop := some txop, txParams := params,
                        currentTxVector := env.getDmgTxVector mpdu }
    SendDataPacket env s2

/-- Source function `MacLow::StartShortSswTransmission`. -/
def StartShortSswTransmission (env : Env) (s : MacLowState) (mpdu : WifiMacQueueItem)
    (params : MacLowTransmissionParameters) (callback : Nat) : Except Fault MacLowState :=
  if env.phyIsStateOff then .ok s
  else
    let s1 := CancelAllEvents { s with currentPacket := some (WifiPsdu.ofMpdu mpdu) }
    let s2 := { s1 with currentTxop := none, transmissionShortSswCallback := some callback,
                        txParams := params, currentTxVector := env.dmgControlTxVector }
    match StartDataTxTimers env s2 s2.currentTxVector with
    | .error e => .error e
    | .ok s3 =>
      match s3.currentPacket with
      | none => .error .nullPointer
      | some psdu => .ok (s3.call [.PhySend psdu s3.currentTxVector])

/-- Source function `MacLow::SendAckAfterData`. -/
def SendAckAfterData (env : Env) (s : MacLowState) (source : Mac48Address) (duration : Time)
    (dataTxMode : Nat) (dataSnr : Nat) : Except Fault MacLowState :=
  if !env.phyIsStateTx && !env.phyIsStateSwitching then
    match GetAckTxVector env source dataTxMode with
    | .error e => .error e
    | .ok ackTxVector =>
      match GetAckDurationOf env ackTxVector with
      | .error e => .error e
      | .ok ackDuration =>
        let duration1 := duration - ackDuration - s.sifs
        if duration1 < 0 then .error .assertion
        else
          let ack : WifiMacHeader := { type := .ctlAck, addr1 := source }
          let psdu : WifiPsdu :=
            { first := { hdr := ack, packet := { snrTag := dataSnr }, size := env.ackSize },
              size := env.ackSize, duration := some duration1 }
          .ok (ForwardDown env s psdu ackTxVector)
  else .ok s

/-- Whether one of the eight controller events that `MacLow::CancelAllEvents`
looks at is running. -/
def MacLowState.controllerEventRunning (s : MacLowState) : Bool :=
  s.normalAckTimeoutEvent.isSome || s.blockAckTimeoutEvent.isSome
    || s.ctsTimeoutEvent.isSome || s.sendCtsEvent.isSome || s.sendAckEvent.isSome
    || s.sendDataEvent.isSome || s.waitIfsEvent.isSome || s.endTxNoAckEvent.isSome

/-- None of the eight controller events nor the NAV guard timer is running. -/
def MacLowState.noEventRunning (s : MacLowState) : Prop :=
  s.normalAckTimeoutEvent = none ∧ s.blockAckTimeoutEvent = none ∧ s.ctsTimeoutEvent = none ∧
  s.sendCtsEvent = none ∧ s.sendAckEvent = none ∧ s.sendDataEvent = none ∧
  s.waitIfsEvent = none ∧ s.endTxNoAckEvent = none ∧ s.navCounterResetCtsMissed = none


/-! ## Sequences of calls -/

/-- The four training-phase notifications and the operations that a history of
the training flags interleaves with them: the three exit paths, the end of an
allocation period, the restoring of an allocation and the start of a
reception. -/
inductive PhaseOp where
  | slsPhaseStarted
  | slsPhaseEnded
  | mimoBftPhaseStarted
  | mimoBftPhaseEnded
  | notifyOffNow
  | notifySleepNow
  | notifySwitchingStartNow
  | endAllocationPeriod
  | restoreAllocationParameters (allocationId : Nat)
  | rxStartIndication (psduDuration : Time)
deriving DecidableEq, Repr

/-- One operation of a training-flag history. -/
def phaseStep (s : MacLowState) : PhaseOp → Except Fault MacLowState
  | .slsPhaseStarted => .ok (SLS_Phase_Started s)
  | .slsPhaseEnded => .ok (SLS_Phase_Ended s)
  | .mimoBftPhaseStarted => .ok (MIMO_BFT_Phase_Started s)
  | .mimoBftPhaseEnded => .ok (MIMO_BFT_Phase_Ended s)
  | .notifyOffNow => .ok (NotifyOffNow s)
  | .notifySleepNow => .ok (NotifySleepNow s)
  | .notifySwitchingStartNow => .ok (NotifySwitchingStartNow s)
  | .endAllocationPeriod => .ok (EndAllocationPeriod s)
  | .restoreAllocationParameters allocationId => .ok (RestoreAllocationParameters s allocationId)
  | .rxStartIndication psduDuration => RxStartIndication s psduDuration

/-- A sequence of operations, left to right. -/
def phaseRun : MacLowState → List PhaseOp → Except Fault MacLowState
  | s, [] => .ok s
  | s, op :: ops =>
    match phaseStep s op with
    | .ok s1 => phaseRun s1 ops
    | .error e => .error e

/-- The caller's discipline on a history: a training phase is started only
while the flag of the other phase is clear. -/
def startsOnlyWhenOtherClear : MacLowState → List PhaseOp → Bool
  | _, [] => true
  | s, op :: ops =>
    (if op = .slsPhaseStarted then !s.servingMimoBFT
     else if op = .mimoBftPhaseStarted then !s.servingSLS
     else true)
    && (match phaseStep s op with
        | .ok s1 => startsOnlyWhenOtherClear s1 ops
        | .error _ => true)

/-- The operations on the table of suspended allocations. -/
inductive AllocOp where
  | endAllocationPeriod
  | restoreAllocationParameters (allocationId : Nat)
  | resumeTransmission (duration : Time) (txop : Txop)
deriving DecidableEq, Repr

/-- One operation on the table of suspended allocations. -/
def allocStep (env : Env) (s : MacLowState) : AllocOp → Except Fault MacLowState
  | .endAllocationPeriod => .ok (EndAllocationPeriod s)
  | .restoreAllocationParameters allocationId => .ok (RestoreAllocationParameters s allocationId)
  | .resumeTransmission duration txop => ResumeTransmission env s duration txop

/-- A sequence of operations on the table, left to right. -/
def allocRun (env : Env) : MacLowState → List AllocOp → Except Fault MacLowState
  | s, [] => .ok s
  | s, op :: ops =>
    match allocStep env s op with
    | .ok s1 => allocRun env s1 ops
    | .error e => .error e

/-- The allocation ids under which `m_allocationPeriodsTable` holds a context. -/
def MacLowState.allocationIds (s : MacLowState) : List Nat :=
  s.allocationPeriodsTable.map (fun e => e.1)

/-- An RTS from station 3 to station 2 with a Duration of 50 us. -/
def overheardRts : WifiMacQueueItem :=
  { hdr := { type := .ctlRts, addr1 := 2, addr2 := 3, duration := 50 } }

/-- A PHY on which a byte takes 1 us and the preamble and header take 4 us. -/
def bytePerMicrosecondPhy : Env :=
  { calculateTxDuration := fun size _ => (size : Int) * 1000,
    calculatePhyPreambleAndHeaderDuration := fun _ => 4000 }

/-- The context of a suspended QoS data PSDU of 500 bytes for station 9. -/
def suspendedContext : AllocationParameters :=
  { psdu := { first := { hdr := { type := .qosData, addr1 := 9 } }, size := 500 },
    txParams := {}, txVector := {}, txop := none }

/-- A station in allocation 7 whose table holds a context under the ids 7 and
3, after `RestoreAllocationParameters (7)`. -/
def stationWithTwoSuspended : MacLowState :=
  { currentAllocation := some suspendedContext, currentAllocationID := 7,
    restoredSuspendedTransmission := true,
    allocationPeriodsTable := [(7, suspendedContext), (3, suspendedContext)] }

/-- A PHY on which a byte takes 1 us, with an owner whose remaining TXOP time
allows a PPDU of 100 us. -/
def shortTxopPhy : Env :=
  { calculateTxDuration := fun size _ => (size : Int) * 1000,
    getPpduDurationLimit := fun _ _ _ => 100000 }

/-- An idle station, address 1. -/
def idleStation : MacLowState := { self := 1, sifs := 3000, slotTime := 5000, now := 100000 }

/-- A QoS data frame of `size` bytes from station 1 to station 9. -/
def qosDataOfSize (size : Nat) : WifiMacQueueItem :=
  { hdr := { type := .qosData, addr1 := 9, addr2 := 1 }, size := size }


/-! ## Controller: the CTS and the data frame of an RTS/CTS exchange -/

/-- Modelled from the spec: `WifiMacHeader::SetDuration` (declared outside
src/).  The Duration/ID field counts whole microseconds: the time is rounded up,
`ceil ((double) duration.GetNanoSeconds () / 1000)` (the quotient is taken
exactly), the function asserts that the result is between 0 and 0x7fff, and the
result is the raw value of the field. -/
def SetDuration (duration : Time) : Except Fault Nat :=
  let us : Int := ceilToMicroSeconds duration / 1000
  if 0 ≤ us ∧ us ≤ 32767 then .ok us.toNat else .error .assertion

/-- Source function `MacLow::SendCtsAfterRts`; `Time::IsPositive` is `≥ 0` (declared
outside src/).  `duration` is what the caller read from the RTS with
`GetDuration`; the CTS header gets the raw Duration/ID that `SetDuration`
makes of the remaining time. -/
def SendCtsAfterRts (env : Env) (s : MacLowState) (source : Mac48Address) (duration : Time)
    (rtsTxVector : WifiTxVector) (rtsSnr : Nat) : Except Fault MacLowState :=
  match GetCtsTxVector env source rtsTxVector.mode with
  | .error e => .error e
  | .ok ctsTxVector =>
    match GetCtsDuration env source rtsTxVector false with
    | .error e => .error e
    | .ok ctsDuration =>
      let duration1 := duration - ctsDuration - s.sifs
      if duration1 < 0 then .error .assertion
      else
        match SetDuration duration1 with
        | .error e => .error e
        | .ok raw =>
          let cts : WifiMacHeader := { type := .ctlCts, addr1 := source, duration := raw }
          let psdu : WifiPsdu :=
            { first := { hdr := cts, packet := { snrTag := rtsSnr }, size := env.ctsSize },
              size := env.ctsSize }
          .ok (ForwardDown env s psdu ctsTxVector)

/-- Source function `MacLow::SendDataAfterCts`.  The two calls of `GetResponseDuration` have the
same arguments and give the same value.  `duration` is what the caller read from
the CTS with `GetDuration`; `m_currentPacket->SetDuration` rounds the new
Duration up to whole microseconds and asserts its range (`SetDuration`), and the
PSDU keeps the value of the field it wrote. -/
def SendDataAfterCts (env : Env) (s : MacLowState) (duration : Time) :
    Except Fault MacLowState :=
  if s.currentPacket.isNone then .error .assertion
  else
    match StartDataTxTimers env s s.currentTxVector with
    | .error e => .error e
    | .ok s1 =>
      match s1.currentPacket with
      | none => .error .nullPointer
      | some psdu =>
        match GetResponseDuration env s1 s1.txParams s1.currentTxVector psdu.GetAddr1 with
        | .error e => .error e
        | .ok response =>
          let newDuration :=
            if s1.txParams.HasNextPacket then
              response + (if env.rifsPermitted then s1.rifs else s1.sifs)
                + env.calculateTxDuration s1.txParams.nextSize s1.currentTxVector + response
            else response
          let txDuration := env.calculateTxDuration psdu.size s1.currentTxVector
          let duration1 := max (duration - txDuration - s1.sifs) newDuration
          if duration1 < 0 then .error .assertion
          else
            match SetDuration duration1 with
            | .error e => .error e
            | .ok raw =>
              let psdu1 := { psdu with duration := some ((raw : Int) * 1000) }
              let s2 := { s1 with currentPacket := some psdu1 }
              if s2.txParams.MustSendBlockAckRequest then
                match s2.currentTxop with
                | none => .error .assertion
                | some txop =>
                  if txop.isQosTxop then
                    .ok (ForwardDown env (s2.call [.ScheduleBar txop.id psdu1.GetAddr1]) psdu1
                          s2.currentTxVector)
                  else .error .assertion
              else .ok (ForwardDown env s2 psdu1 s2.currentTxVector)

/-- The control-trailer flag that `MacLow::SendRtsForPacket` computes for the
receiver `dest`. -/
def rtsControlTrailer (env : Env) (dest : Mac48Address) : Bool :=
  env.standard == .s80211ay &&
    (if env.standard == .s80211ay then env.stationDataCommunicationMode dest else .siso) != .siso

/-- The TXVECTOR that `MacLow::SendRtsForPacket` sends the RTS for `psdu` with. -/
def rtsTxVectorOf (env : Env) (psdu : WifiPsdu) : WifiTxVector :=
  if env.standard == .s80211ay then
    { env.getRtsTxVector psdu.first.hdr.addr1 with
        controlTrailerPresent := rtsControlTrailer env psdu.GetAddr1 }
  else env.getRtsTxVector psdu.first.hdr.addr1

/-- The Duration that the receiver of `psdu` reads with `GetDuration`.  Where the
PSDU records the time passed to `WifiPsdu::SetDuration`, the field holds that
time rounded up to whole microseconds (`SetDuration`), and there is no value
when the assertion of `SetDuration` fails; otherwise it is the Duration/ID of
the header of the first MPDU. -/
def WifiPsdu.GetDuration (psdu : WifiPsdu) : Option Time :=
  match psdu.duration with
  | some d =>
    match SetDuration d with
    | .ok raw => some ((raw : Int) * 1000)
    | .error _ => none
  | none => some psdu.first.hdr.GetDuration

/-- The Duration that the receiver reads in the PSDU that the last call of the
trace handed to the PHY. -/
def lastSentDuration (s : MacLowState) : Option Time :=
  match s.trace.getLast? with
  | some (.PhySend psdu _) => psdu.GetDuration
  | _ => none


/-! ## Controller: the mode of a control response -/

/-- Modelled from the spec: what `MacLow::GetControlAnswerMode` reads of a
`WifiMode` (declared outside src/): its modulation class, its data rate in
bit/s, its code rate as a rank (1 for 1/2, 2 for 2/3, 3 for 3/4, 4 for 5/6),
and whether it is mandatory. -/
structure WifiMode where
  uid : Nat := 0
  modulationClass : WifiModulationClass := .other
  dataRate : Nat := 0
  codeRate : Nat := 0
  isMandatory : Bool := false
deriving DecidableEq, Repr

/-- Modelled from the spec: `WifiMode::IsHigherDataRate` (declared outside src/):
this mode has a higher data rate than the other. -/
def WifiMode.IsHigherDataRate (a b : WifiMode) : Bool := decide (b.dataRate < a.dataRate)

/-- Modelled from the spec: `WifiMode::IsHigherCodeRate` (declared outside src/):
this mode has a higher code rate than the other. -/
def WifiMode.IsHigherCodeRate (a b : WifiMode) : Bool := decide (b.codeRate < a.codeRate)

/-- What the station manager and the PHY answer to `MacLow::GetControlAnswerMode`:
the default mode and MCS, the supported features (`dmgSupported` is
`HasDmgSupported () || HasEdmgSupported ()`), the modes and MCS values of the
PHY in index order, the basic rate set and the basic MCS set in index order,
and the free function `IsAllowedControlAnswerModulationClass`.  The lists are
shorter than 256, the range of the `uint8_t` loop counters. -/
structure ModeTables where
  defaultMode : WifiMode := {}
  defaultMcs : WifiMode := {}
  dmgSupported : Bool := false
  htSupported : Bool := false
  phyModes : List WifiMode := []
  phyMcs : List WifiMode := []
  basicModes : List WifiMode := []
  basicMcs : List WifiMode := []
  isAllowedControlAnswerModulationClass : WifiModulationClass → WifiModulationClass → Bool :=
    fun req answer => req == answer

/-- The loop of the DMG branch of `MacLow::GetControlAnswerMode`: it takes the modes in
index order and leaves at the first one that is not mandatory or is faster than
the request. -/
def dmgModeLoop (reqMode : WifiMode) : List WifiMode → WifiMode × Bool → WifiMode × Bool
  | [], r => r
  | thismode :: rest, r =>
    if thismode.isMandatory && decide (thismode.dataRate ≤ reqMode.dataRate) then
      dmgModeLoop reqMode rest (thismode, true)
    else r

/-- The four other loops of `MacLow::GetControlAnswerMode`: a mode that passes `suitable`
replaces the choice so far when nothing was found yet or when it has a higher
data rate than the choice so far. -/
def bestModeLoop (suitable : WifiMode → Bool) : List WifiMode → WifiMode × Bool → WifiMode × Bool
  | [], r => r
  | testMode :: rest, r =>
    if (!r.2 || testMode.IsHigherDataRate r.1) && suitable testMode then
      bestModeLoop suitable rest (testMode, true)
    else bestModeLoop suitable rest r

/-- The search of the BSS basic rate set and, on an HT station that found
nothing there, of the basic MCS set, in `MacLow::GetControlAnswerMode`: the choice and the
flag `found`. -/
def searchBasicSets (tables : ModeTables) (reqMode : WifiMode) : WifiMode × Bool :=
  let r1 := bestModeLoop
    (fun testMode => !testMode.IsHigherDataRate reqMode
      && tables.isAllowedControlAnswerModulationClass reqMode.modulationClass
          testMode.modulationClass)
    tables.basicModes (tables.defaultMode, false)
  if tables.htSupported && !r1.2 then
    bestModeLoop
      (fun testMode => !testMode.IsHigherDataRate reqMode
        && testMode.modulationClass == reqMode.modulationClass)
      tables.basicMcs (tables.defaultMcs, r1.2)
  else r1

/-- The search of the mandatory modes of the PHY and, on an HT station, of its
mandatory MCS values, in `MacLow::GetControlAnswerMode`, entered with the choice and the
flag `found` so far. -/
def searchMandatory (tables : ModeTables) (reqMode : WifiMode) (r : WifiMode × Bool) :
    WifiMode × Bool :=
  let r3 := bestModeLoop
    (fun thismode => thismode.isMandatory && !thismode.IsHigherDataRate reqMode
      && tables.isAllowedControlAnswerModulationClass reqMode.modulationClass
          thismode.modulationClass)
    tables.phyModes r
  if tables.htSupported then
    bestModeLoop
      (fun thismode => thismode.isMandatory && !thismode.IsHigherCodeRate reqMode
        && thismode.modulationClass == reqMode.modulationClass)
      tables.phyMcs r3
  else r3

/-- Source function `MacLow::GetControlAnswerMode`. -/
def GetControlAnswerMode (tables : ModeTables) (reqMode : WifiMode) : Except Fault WifiMode :=
  let r : WifiMode × Bool :=
    if tables.dmgSupported then dmgModeLoop reqMode tables.phyModes (tables.defaultMode, false)
    else
      let r2 := searchBasicSets tables reqMode
      if r2.2 then r2 else searchMandatory tables reqMode r2
  if r.2 then .ok r.1 else .error .fatalError

/-- The HT modes MCS 0 to MCS 3 at 20 MHz with the long guard interval: BPSK 1/2
at 6.5 Mbit/s, QPSK 1/2 at 13 Mbit/s, QPSK 3/4 at 19.5 Mbit/s and 16-QAM 1/2 at
26 Mbit/s, all mandatory. -/
def htMcs : Nat → WifiMode
  | 0 => { uid := 0, modulationClass := .ht, dataRate := 6500000, codeRate := 1,
           isMandatory := true }
  | 1 => { uid := 1, modulationClass := .ht, dataRate := 13000000, codeRate := 1,
           isMandatory := true }
  | 2 => { uid := 2, modulationClass := .ht, dataRate := 19500000, codeRate := 3,
           isMandatory := true }
  | _ => { uid := 3, modulationClass := .ht, dataRate := 26000000, codeRate := 1,
           isMandatory := true }

/-- An HT station with an empty basic rate set and an empty basic MCS set whose
PHY offers MCS 0 to MCS 3. -/
def htStationTables : ModeTables :=
  { htSupported := true, phyMcs := [htMcs 0, htMcs 1, htMcs 2, htMcs 3] }

/-- The PHY of `shortTxopPhy` with a QosTxop that has peeked a 500-byte QoS data
frame and dequeues nothing when the frame does not fit. -/
def peekedAndHeldBack : Env :=
  { shortTxopPhy with
    edcaPeekFrameForTransmission := fun _ => some (qosDataOfSize 500),
    edcaDequeuePeekedFrame := fun _ _ _ => none }

/-- A station (address 1) about to send 1000 bytes to station 9 with a Normal
Ack, a 600 byte fragment to follow. -/
def rtsSender : MacLowState :=
  { self := 1, sifs := 3000, rifs := 2000, slotTime := 5000, now := 100000,
    currentPacket := some (WifiPsdu.ofMpdu (qosDataOfSize 1000)),
    txParams := { sendRts := true, waitAck := .normal, nextSize := 600 } }

/-! ## Reorder buffer: the order of the buffered MPDUs -/

/-- The integer that `MacLow::StoreMpduIfNeeded` compares buffered MPDUs by: the
mapped sequence control, taken with the current window start. -/
def Agreement.mapped (a : Agreement) (x : Mpdu) : Nat :=
  QosUtilsMapSeqControlToUniqueInteger (GetSequenceControl x) ((a.startingSeq + 2047) % 4096)

/-- The buffered MPDUs are in non-decreasing order of their mapped sequence
control, taken with the current window start. -/
def Agreement.ordered (a : Agreement) : Prop :=
  a.buffer.Pairwise (fun x y => a.mapped x ≤ a.mapped y)

/-- A frame whose sequence number has 12 bits and whose fragment number has 4
bits, and that announces a further fragment only when its own fragment number
is below 15. -/
def Mpdu.wellFormed (m : Mpdu) : Bool :=
  decide (m.seqNum < 4096) && decide (m.fragNum < 16) &&
    (!m.moreFragments || decide (m.fragNum < 15))

/-- Position of a sequence number relative to the sequence number 2048 behind the
window start, modulo 4096: 2048 for the window start itself. -/
def seqKey (start seq : Nat) : Nat := (seqOffset start seq + 2048) % 4096

/-- The state of an agreement between two operations of the receiver: the
window start is a 12-bit value; every buffered MPDU is well formed and lies less
than 2048 sequence numbers ahead of the window start or exactly one behind it;
the buffer is ordered; and on a station with HT (or VHT, HE, DMG, EDMG) support
an agreement with buffer size 0 buffers nothing. -/
def Agreement.settled (htSupported : Bool) (a : Agreement) : Prop :=
  a.startingSeq < 4096 ∧
  (∀ x ∈ a.buffer, x.wellFormed = true ∧ 2047 ≤ seqKey a.startingSeq x.seqNum) ∧
  a.ordered ∧
  (htSupported = true → a.bufferSize = 0 → a.buffer = [])

/-- The sixteen fragments 0 to 15 of sequence number `q`, each with More Fragments set. -/
def unfinishedFragments (q : Nat) : List Mpdu :=
  (List.range 16).map (fun f => { seqNum := q, fragNum := f, moreFragments := true, payload := 0 })

/-! ## Example stations of the Duration fields -/

/-- A PHY whose transmission times end on a half microsecond: 1000 ns per byte
and 500 ns more. -/
def halfMicrosecondPhy : Env :=
  { calculateTxDuration := fun size _ => (size : Int) * 1000 + 500 }

/-- The station of `rtsSender` with no further packet after the data frame. -/
def lastPacketSender : MacLowState :=
  { rtsSender with txParams := { sendRts := true, waitAck := .normal } }

/-! ## Reorder buffer: the window of a station with HT support -/

/-- A settled agreement of a station with HT support whose buffered MPDUs lie in
the window `[start, start + bufferSize)` or one sequence number behind the
start: the mapped sequence number of each is below `2048 + bufferSize`. -/
def Agreement.windowed (a : Agreement) : Prop :=
  a.settled true ∧ ∀ x ∈ a.buffer, seqKey a.startingSeq x.seqNum < 2048 + a.bufferSize

/-- Every MPDU of the arrival sequence `ms` arrives while no MPDU with its
sequence number is buffered: a sequence number may come again once its MPDU was
handed up or dropped. -/
def arrivalsFresh (htSupported : Bool) (fuel : Nat) : RxState → List Mpdu → Bool
  | _, [] => true
  | s, m :: ms =>
    (match s.agreement with
     | some a => a.buffer.all (fun x => x.seqNum != m.seqNum)
     | none => true) &&
    (match ReceiveMpdu htSupported fuel s m with
     | .ok r => arrivalsFresh htSupported fuel r.2 ms
     | .error _ => true)

/-! ## The simulator runs a deferred send -/

/-- The simulator runs the event held by `m_sendDataEvent` when the clock reaches
its due time: the member is expired and the handler, `SendDataAfterCts`, is
called with the scheduled argument. -/
def sendDataEventExpires (env : Env) (s : MacLowState) : Except Fault MacLowState :=
  match s.sendDataEvent with
  | some ev =>
    match ev.handler with
    | .SendDataAfterCts duration =>
      SendDataAfterCts env { s with now := ev.due, sendDataEvent := none } duration
    | _ => .error .notModelled
  | none => .ok s

/-- Modelled from the spec: what `MacLow::CreateBlockAckAgreement` reads of a
`MgtAddBaResponseHeader` (declared outside src/): the TID, the Block-Ack
policy, the buffer size and the timeout. -/
structure MgtAddBaResponseHeader where
  tid : Nat := 0
  immediateBlockAck : Bool := true
  bufferSize : Nat := 0
  timeout : Nat := 0
deriving DecidableEq, Repr

/-- Source function `MacLow::CreateBlockAckAgreement`.  `std::map::insert` leaves an
entry that is already there as it is; the inactivity event is scheduled on the
entry that `find` returns. -/
def CreateBlockAckAgreement (s : MacLowState) (respHdr : MgtAddBaResponseHeader)
    (originator : Mac48Address) (startingSeq : Nat) : MacLowState :=
  let entry : AgreementEntry :=
    { peer := originator, tid := respHdr.tid,
      agreement := ⟨startingSeq, respHdr.bufferSize + 1, []⟩,
      immediateBlockAck := respHdr.immediateBlockAck, timeout := respHdr.timeout }
  let table :=
    match findAgreement s.bAckAgreements originator respHdr.tid with
    | some _ => s.bAckAgreements
    | none => s.bAckAgreements ++ [entry]
  if respHdr.timeout != 0 then
    match findAgreement table originator respHdr.tid with
    | some e =>
      let ev : Event :=
        { due := s.now + 1024 * (entry.timeout : Int) * 1000,
          handler := .SendDelbaFrame originator respHdr.tid }
      { s with bAckAgreements := setAgreement table { e with inactivityEvent := some ev } }
    | none => { s with bAckAgreements := table }
  else { s with bAckAgreements := table }

/-! ## Example histories in the order of the callbacks -/

/-- The three completion timeouts of a state: CTS, Normal-Ack, Block-Ack. -/
def MacLowState.completionTimeouts (s : MacLowState) :
    Option Event × Option Event × Option Event :=
  (s.ctsTimeoutEvent, s.normalAckTimeoutEvent, s.blockAckTimeoutEvent)

/-- An idle station, address 1, at 96 us (SIFS 3 us, slot 5 us). -/
def overhearingStation : MacLowState :=
  { now := 96000, self := 1, sifs := 3000, slotTime := 5000, channelAccessManagers := [1] }

/-- A data frame of 10 bytes from station 1 to station 9. -/
def shortDataFrame : WifiMacQueueItem :=
  { hdr := { type := .data, addr1 := 9, addr2 := 1 }, size := 10 }

/-- An Ack for station 1. -/
def ackForStation1 : WifiMacQueueItem := { hdr := { type := .ctlAck, addr1 := 1 } }

/-- The station overhears an RTS for another station: its payload begins at 96 us
(`RxStartIndication`, 4 us of payload) and it is received at 100 us. -/
def afterOverheardRts : Except Fault MacLowState :=
  (RxStartIndication overhearingStation 4000).bind (fun s =>
    DeaggregateAmpduAndReceive bytePerMicrosecondPhy { s with now := 100000 }
      (WifiPsdu.ofMpdu overheardRts) 0 {} [true])

/-- At 101 us the station starts a transmission of its own: a data frame of 10 us
that waits for a normal ack. -/
def afterOwnTransmission : Except Fault MacLowState :=
  afterOverheardRts.bind (fun s =>
    StartTransmission bytePerMicrosecondPhy { s with now := 101000 } shortDataFrame
      { waitAck := .normal } { id := 7 })

/-- The data frame ends at 111 us, the Ack follows one SIFS later, and after the
preamble of 4 us its payload begins at 118 us (`RxStartIndication`, 10 us of payload). -/
def afterAckStart : Except Fault MacLowState :=
  afterOwnTransmission.bind (fun s => RxStartIndication { s with now := 118000 } 10000)

/-- The Ack is received at 128 us, and at 130 us the simulator runs the guard
event of the overheard RTS. -/
def afterGuardExpiry : Except Fault MacLowState :=
  (afterAckStart.bind (fun s =>
    DeaggregateAmpduAndReceive bytePerMicrosecondPhy { s with now := 128000 }
      (WifiPsdu.ofMpdu ackForStation1) 0 {} [true])).map navCounterResetCtsMissedExpires

/-- A PHY with a preamble and header of 2 us and 25 ns per byte. -/
def shortFramePhy : Env :=
  { calculateTxDuration := fun size _ => 2000 + (size : Int) * 25,
    calculatePhyPreambleAndHeaderDuration := fun _ => 2000 }

/-- Station 1 at 80 us (SIFS 3 us, slot 5 us), after `CreateBlockAckAgreement` for
an ADDBA response of station 2 on TID 3 that asks for a delayed Block-Ack, with
a buffer of 64 MPDUs, no timeout and starting sequence 10. -/
def stationWithDelayedAgreement : MacLowState :=
  CreateBlockAckAgreement
    { now := 80000, self := 1, sifs := 3000, slotTime := 5000, channelAccessManagers := [1] }
    { tid := 3, immediateBlockAck := false, bufferSize := 63 } 2 10

/-- A data frame of 24 bytes from station 1 to station 9. -/
def dataForStation9 : WifiMacQueueItem :=
  { hdr := { type := .data, addr1 := 9, addr2 := 1 }, size := 24 }

/-- A CTS for station 1 with a Duration of 12 us. -/
def ctsForStation1 : WifiMacQueueItem :=
  { hdr := { type := .ctlCts, addr1 := 1, duration := 12 } }

/-- At 80 us the station sends an RTS for its data frame (2.5 us on air); the CTS
follows one SIFS after the RTS, its payload begins at 87.5 us
(`RxStartIndication`, 350 ns of payload) and it is received at 87.85 us. -/
def afterCts (waitAck : WaitAck) : Except Fault MacLowState :=
  ((StartTransmission shortFramePhy stationWithDelayedAgreement dataForStation9
      { sendRts := true, waitAck := waitAck } { id := 7 }).bind (fun s =>
    RxStartIndication { s with now := 87500 } 350)).bind (fun s =>
    DeaggregateAmpduAndReceive shortFramePhy { s with now := 87850 }
      (WifiPsdu.ofMpdu ctsForStation1) 0 {} [true])

/-- Station 3 sends an RTS for station 2 right after the CTS: after the preamble of
2 us its payload begins at 89.85 us (`RxStartIndication`, 500 ns of payload) and the
RTS is received at 90.35 us, before the data frame is due. -/
def afterRtsInSifsGap : Except Fault MacLowState :=
  ((afterCts .normal).bind (fun s => RxStartIndication { s with now := 89850 } 500)).bind
    (fun s => DeaggregateAmpduAndReceive shortFramePhy { s with now := 90350 }
      (WifiPsdu.ofMpdu overheardRts) 0 {} [true])

/-- At 90.85 us, one SIFS after the CTS, the simulator runs `SendDataAfterCts`; the data
frame is on air until 93.45 us. -/
def afterDataFollowsCts : Except Fault MacLowState :=
  afterRtsInSifsGap.bind (sendDataEventExpires shortFramePhy)

/-- The Ack follows one SIFS after the data frame, and after the preamble of 2 us its
payload begins at 98.45 us (`RxStartIndication`, 350 ns of payload). -/
def afterAckPayloadStart : Except Fault MacLowState :=
  afterDataFollowsCts.bind (fun s => RxStartIndication { s with now := 98450 } 350)

/-- The Ack is received at 98.8 us, and then the simulator runs the guard event of
the overheard RTS at its due time. -/
def afterGuardExpiryInExchange : Except Fault MacLowState :=
  (afterAckPayloadStart.bind (fun s =>
    DeaggregateAmpduAndReceive shortFramePhy { s with now := 98800 }
      (WifiPsdu.ofMpdu ackForStation1) 0 {} [true])).map navCounterResetCtsMissedExpires

/-! ## Reorder buffer: what a flush delivers comes out of the buffer -/

theorem untilFirstLostLoop_split (i : List Mpdu) :
    ∀ (mid : List Mpdu) (guard : Nat) (log : List Mpdu),
      ∃ D, (untilFirstLostLoop i (mid ++ i) guard log).2.2 = log ++ D ∧
        D ++ (untilFirstLostLoop i (mid ++ i) guard log).1 = mid ++ i := by
  induction i with
  | nil => intro mid guard log; exact ⟨[], by simp [untilFirstLostLoop]⟩
  | cons x rest ih =>
    intro mid guard log
    unfold untilFirstLostLoop
    by_cases hg : guard = GetSequenceControl x
    · by_cases hm : x.moreFragments = true
      · simp only [hg, hm, if_true]
        have := ih (mid ++ [x]) ((GetSequenceControl x + 1) % 65536) log
        simpa using this
      · simp only [hg, hm, if_true]
        have hn : (mid ++ x :: rest).length - (x :: rest).length = mid.length := by simp
        have ht : (mid ++ x :: rest).take (mid.length + 1) = mid ++ [x] := by
          rw [List.take_append_eq_append_take]; simp
        have hd : (mid ++ x :: rest).drop (mid.length + 1) = rest := by
          rw [List.drop_append_eq_append_drop]; simp
        simp only [hn, ht, hd]
        obtain ⟨D, h1, h2⟩ := ih [] ((GetSequenceControl x + 16) &&& 0xfff0) (log ++ (mid ++ [x]))
        refine ⟨mid ++ [x] ++ D, ?_, ?_⟩
        · simpa using h1
        · simp only [List.nil_append] at h2
          simp [h2]
    · simp only [hg, if_false]
      exact ⟨[], by simp⟩

theorem untilFirstLost_split (a : Agreement) (log : List Mpdu) :
    ∃ D, (untilFirstLost a log).2 = log ++ D ∧ D ++ (untilFirstLost a log).1.buffer = a.buffer := by
  obtain ⟨D, h1, h2⟩ := untilFirstLostLoop_split a.buffer [] a.GetStartingSequenceControl log
  exact ⟨D, by simpa [untilFirstLost] using h1, by simpa [untilFirstLost, Agreement.SetStartingSequenceControl] using h2⟩

theorem goToNextPacket_suffix (i last : List Mpdu) (guard : Nat) (h : i <:+ last) :
    (goToNextPacket i last guard).1 <:+ (goToNextPacket i last guard).2.1 ∧
      (goToNextPacket i last guard).2.1 <:+ last := by
  unfold goToNextPacket
  have hs : i.dropWhile (fun y => decide (guard = GetSequenceControl y)) <:+ i :=
    List.dropWhile_suffix _
  cases hd : i.dropWhile (fun y => decide (guard = GetSequenceControl y)) with
  | nil => exact ⟨List.nil_suffix, List.suffix_refl _⟩
  | cons y r =>
    rw [hd] at hs
    exact ⟨List.suffix_refl _, hs.trans h⟩

theorem smallerSequenceLoop_sublist (e ms : Nat) (fuel : Nat) :
    ∀ (i last : List Mpdu) (guard : Nat) (log : List Mpdu) (r : List Mpdu × List Mpdu),
      i <:+ last → smallerSequenceLoop e ms fuel i last guard log = .ok r →
      ∃ D, r.2 = log ++ D ∧ (D ++ r.1).Sublist last := by
  induction fuel with
  | zero => intro i last guard log r _ h; simp [smallerSequenceLoop] at h
  | succ fuel ih =>
    intro i last guard log r hsuf h
    cases i with
    | nil =>
      simp [smallerSequenceLoop] at h
      subst h
      exact ⟨[], by simp⟩
    | cons x rest =>
      unfold smallerSequenceLoop at h
      by_cases hc : QosUtilsMapSeqControlToUniqueInteger (GetSequenceControl x) e < ms
      · simp only [hc, if_true] at h
        by_cases hg : guard = GetSequenceControl x
        · by_cases hm : x.moreFragments = true
          · simp only [hg, hm, if_true] at h
            exact ih _ _ _ _ _ hsuf h
          · simp only [hg, hm, if_true] at h
            obtain ⟨mid, rfl⟩ := hsuf
            have hn : (mid ++ x :: rest).length - (x :: rest).length = mid.length := by simp
            have ht : (mid ++ x :: rest).take (mid.length + 1) = mid ++ [x] := by
              rw [List.take_append_eq_append_take]; simp
            have hd : (mid ++ x :: rest).drop (mid.length + 1) = rest := by
              rw [List.drop_append_eq_append_drop]; simp
            simp only [hn, ht, hd] at h
            have hgo : goToNextPacket (x :: rest) rest (GetSequenceControl x)
                = goToNextPacket rest rest (GetSequenceControl x) := by
              simp [goToNextPacket, List.dropWhile]
            rw [hgo] at h
            have hs := goToNextPacket_suffix rest rest (GetSequenceControl x) (List.suffix_refl _)
            obtain ⟨D, h1, h2⟩ := ih _ _ _ _ _ hs.1 h
            refine ⟨mid ++ [x] ++ D, by simpa using h1, ?_⟩
            have h3 : (D ++ r.1).Sublist rest := h2.trans hs.2.sublist
            have : mid ++ [x] ++ D ++ r.1 = (mid ++ [x]) ++ (D ++ r.1) := by simp
            rw [this]
            have h4 : mid ++ x :: rest = (mid ++ [x]) ++ rest := by simp
            rw [h4]
            exact List.Sublist.append (List.Sublist.refl _) h3
        · simp only [hg, if_false] at h
          have hs := goToNextPacket_suffix (x :: rest) last guard hsuf
          obtain ⟨D, h1, h2⟩ := ih _ _ _ _ _ hs.1 h
          exact ⟨D, h1, h2.trans hs.2.sublist⟩
      · simp only [hc, if_false] at h
        cases h
        exact ⟨[], by simp, by simpa using hsuf.sublist⟩

theorem withSmallerSequence_sublist (fuel seq : Nat) (a : Agreement) (log : List Mpdu)
    (r : Agreement × List Mpdu) (h : withSmallerSequence fuel seq a log = .ok r) :
    ∃ D, r.2 = log ++ D ∧ (D ++ r.1.buffer).Sublist a.buffer := by
  unfold withSmallerSequence at h
  simp only at h
  split at h
  · rename_i r' hr
    cases h
    exact smallerSequenceLoop_sublist _ _ _ _ _ _ _ _ (List.suffix_refl _) hr
  · cases h


/-- The MPDUs an agreement entry holds (none when there is no agreement). -/
theorem storeMpdu_perm (a : Agreement) (m : Mpdu) : (storeMpdu a m).buffer.Perm (m :: a.buffer) := by
  unfold storeMpdu
  simp only
  have h := List.takeWhile_append_dropWhile
    (fun (x : Mpdu) => decide (QosUtilsMapSeqControlToUniqueInteger (GetSequenceControl x)
      ((a.startingSeq + 2047) % 4096) <
        QosUtilsMapSeqControlToUniqueInteger (GetSequenceControl m) ((a.startingSeq + 2047) % 4096)))
    a.buffer
  conv_rhs => rw [← h]
  exact List.perm_middle


theorem withSmallerSequence_held (fuel seq : Nat) (a : Agreement) (log : List Mpdu)
    (r : Agreement × List Mpdu) (h : withSmallerSequence fuel seq a log = .ok r) :
    (r.2 ++ r.1.buffer).Sublist (log ++ a.buffer) := by
  obtain ⟨D, h1, h2⟩ := withSmallerSequence_sublist fuel seq a log r h
  rw [h1, List.append_assoc]
  exact List.Sublist.append (List.Sublist.refl _) h2

theorem untilFirstLost_held (a : Agreement) (log : List Mpdu) :
    (untilFirstLost a log).2 ++ (untilFirstLost a log).1.buffer = log ++ a.buffer := by
  obtain ⟨D, h1, h2⟩ := untilFirstLost_split a log
  rw [h1, List.append_assoc, h2]

theorem ReceiveMpdu_held (ht : Bool) (fuel : Nat) (s : RxState) (m : Mpdu) (r : Bool × RxState)
    (h : ReceiveMpdu ht fuel s m = .ok r) : r.2.held.Subperm (s.held ++ [m]) := by
  obtain ⟨ag, log⟩ := s
  have hmid : ∀ (a : Agreement), (log ++ (storeMpdu a m).buffer).Perm ((log ++ a.buffer) ++ [m]) := by
    intro a
    have h1 := storeMpdu_perm a m
    have h2 : (m :: a.buffer).Perm (a.buffer ++ [m]) := by
      simpa using (@List.perm_append_comm _ [m] a.buffer)
    rw [List.append_assoc]
    exact List.Perm.append_left _ (h1.trans h2)
  have hself : (log ++ (match ag with | some a => a.buffer | none => [])).Subperm
      ((log ++ (match ag with | some a => a.buffer | none => [])) ++ [m]) :=
    (List.sublist_append_left _ _).subperm
  unfold ReceiveMpdu at h
  cases ht with
  | false =>
    simp only [Bool.false_eq_true, if_false] at h
    cases h
    cases ag with
    | none => simpa [StoreMpduIfNeeded, RxState.held] using hself
    | some a =>
      simp only [StoreMpduIfNeeded, RxState.held]
      exact (hmid a).subperm
  | true =>
    simp only [if_true] at h
    cases ag with
    | none =>
      simp only at h
      cases h
      simpa [RxState.held] using hself
    | some a =>
      simp only at h
      by_cases hold : QosUtilsIsOldPacket a.startingSeq (GetSequenceNumber m) = true
      · simp only [hold, Bool.not_true, Bool.false_eq_true, if_false] at h
        cases h
        simpa [RxState.held] using hself
      · simp only [hold, Bool.not_false, if_true] at h
        split at h
        · split at h
          · cases h
          · split at h
            · rename_i r1 hr1
              cases h
              simp only [RxState.held]
              rw [untilFirstLost_held]
              have := withSmallerSequence_held _ _ _ _ _ hr1
              simp only [Agreement.SetStartingSequence] at this
              exact this.subperm.trans (hmid a).subperm
            · cases h
        · cases h
          simp only [RxState.held]
          rw [untilFirstLost_held]
          exact (hmid a).subperm

theorem rxStep_held (ht : Bool) (fuel : Nat) (s s1 : RxState) (op : RxOp)
    (h : rxStep ht fuel s op = .ok s1) : s1.held.Subperm (s.held ++ admitted [op]) := by
  cases op with
  | receiveMpdu m =>
    simp only [rxStep] at h
    split at h
    · rename_i r hr
      cases h
      simpa [admitted] using ReceiveMpdu_held ht fuel s m r hr
    · cases h
  | flushSmaller seq =>
    obtain ⟨ag, log⟩ := s
    simp only [rxStep, RxCompleteBufferedPacketsWithSmallerSequence] at h
    cases ag with
    | none => simp only at h; cases h; simp [admitted, List.Subperm.refl, RxState.held]
    | some a =>
      simp only at h
      split at h
      · rename_i r hr
        cases h
        simpa [admitted, RxState.held] using (withSmallerSequence_held _ _ _ _ _ hr).subperm
      · cases h
  | flushUntilFirstLost =>
    obtain ⟨ag, log⟩ := s
    simp only [rxStep, RxCompleteBufferedPacketsUntilFirstLost] at h
    cases ag with
    | none => simp only at h; cases h; simp [admitted, List.Subperm.refl, RxState.held]
    | some a =>
      simp only at h
      cases h
      simp only [RxState.held, admitted, List.append_nil]
      rw [untilFirstLost_held]
  | destroy =>
    obtain ⟨ag, log⟩ := s
    simp only [rxStep, DestroyBlockAckAgreement] at h
    cases ag with
    | none => simp only at h; cases h; simp [admitted, List.Subperm.refl, RxState.held]
    | some a =>
      simp only at h
      split at h
      · rename_i r hr
        cases h
        simp only [RxState.held, admitted, List.append_nil]
        have h1 := untilFirstLost_held r.1 r.2
        have h2 : ((untilFirstLost r.1 r.2).2).Sublist
            ((untilFirstLost r.1 r.2).2 ++ (untilFirstLost r.1 r.2).1.buffer) :=
          List.sublist_append_left _ _
        rw [h1] at h2
        exact (h2.trans (withSmallerSequence_held _ _ _ _ _ hr)).subperm
      · cases h

theorem admitted_cons (op : RxOp) (ops : List RxOp) :
    admitted (op :: ops) = admitted [op] ++ admitted ops := by
  cases op <;> simp [admitted]

theorem rxRun_held (ht : Bool) (fuel : Nat) (ops : List RxOp) :
    ∀ (s st : RxState), rxRun ht fuel s ops = .ok st →
      st.held.Subperm (s.held ++ admitted ops) := by
  induction ops with
  | nil =>
    intro s st h
    simp only [rxRun] at h
    cases h
    simp [admitted, List.Subperm.refl]
  | cons op ops ih =>
    intro s st h
    simp only [rxRun] at h
    split at h
    · rename_i s1 hs1
      have h1 := rxStep_held ht fuel s s1 op hs1
      have h2 := ih s1 st h
      rw [admitted_cons, ← List.append_assoc]
      exact h2.trans ((List.subperm_append_right _).2 h1)
    · cases h


/-! ## Bit-level facts about sequence controls -/

theorem and_fff0 (x : Nat) : x &&& 0xfff0 = x / 16 % 4096 * 16 := by
  apply Nat.eq_of_testBit_eq
  intro i
  have h1 : (0xfff0 : Nat) = 2^4 * (2^12 - 1) := by norm_num
  have h2 : x / 16 % 4096 * 16 = 2^4 * ((x >>> 4) % 2^12) := by
    norm_num [Nat.mul_comm, Nat.shiftRight_eq_div_pow]
  rw [Nat.testBit_and, h2, h1, Nat.testBit_mul_pow_two, Nat.testBit_mul_pow_two,
    Nat.testBit_mod_two_pow, Nat.testBit_shiftRight, Nat.testBit_two_pow_sub_one]
  by_cases h : 4 ≤ i
  · by_cases h' : i - 4 < 12
    · have : 4 + (i - 4) = i := by omega
      simp [h, h', this]
    · simp [h, h']
  · simp [h]

theorem and_000f (x : Nat) : x &&& 0x000f = x % 16 := by
  have := Nat.and_pow_two_sub_one_eq_mod x 4
  simpa using this

theorem and_0fff (x : Nat) : x &&& 0x0fff = x % 4096 := by
  have := Nat.and_pow_two_sub_one_eq_mod x 12
  simpa using this

theorem shiftRight_four (x : Nat) : x >>> 4 = x / 16 := by
  simp [Nat.shiftRight_eq_div_pow]

theorem shiftLeft_four (x : Nat) : x <<< 4 = x * 16 := by
  simp [Nat.shiftLeft_eq]

theorem GetSequenceControl_mkMpdu (s0 : Nat) (pay : Nat → Nat) (j : Nat) :
    GetSequenceControl (mkMpdu s0 pay j) = (s0 + j) % 4096 * 16 := by
  simp only [GetSequenceControl, mkMpdu, Nat.or_zero, shiftLeft_four]
  omega

theorem map_mkMpdu (s0 : Nat) (pay : Nat → Nat) (i b : Nat) (h1 : i ≤ b) (h2 : b < i + 2048) :
    QosUtilsMapSeqControlToUniqueInteger (GetSequenceControl (mkMpdu s0 pay b))
      (((s0 + i) % 4096 + 2047) % 4096) = (b - i + 2048) * 16 := by
  simp only [QosUtilsMapSeqControlToUniqueInteger, GetSequenceControl_mkMpdu, and_0fff, and_000f,
    shiftRight_four]
  omega

theorem startControl (s B : Nat) (l : List Mpdu) (h : s < 4096) :
    (({ startingSeq := s, bufferSize := B, buffer := l } : Agreement)).GetStartingSequenceControl
      = s * 16 := by
  simp only [Agreement.GetStartingSequenceControl, shiftLeft_four, and_fff0]
  omega


/-! ## In-window arrivals of unfragmented MPDUs -/

theorem storeMpdu_offsets (s0 B : Nat) (pay : Nat → Nat) (i j : Nat) (hij : i ≤ j)
    (hj : j < i + 2048) :
    ∀ (J : List Nat), (∀ b ∈ J, i ≤ b ∧ b < i + 2048) →
      (storeMpdu { startingSeq := (s0 + i) % 4096, bufferSize := B,
                   buffer := J.map (mkMpdu s0 pay) } (mkMpdu s0 pay j))
        = { startingSeq := (s0 + i) % 4096, bufferSize := B,
            buffer := (insOffset j J).map (mkMpdu s0 pay) } := by
  intro J hJ
  simp only [storeMpdu, Agreement.mk.injEq, true_and]
  rw [map_mkMpdu s0 pay i j hij hj]
  induction J with
  | nil => simp [insOffset]
  | cons b J ih =>
    have hb := hJ b (List.mem_cons_self _ _)
    have ih' := ih (fun c hc => hJ c (List.mem_cons_of_mem _ hc))
    simp only [List.map_cons, List.takeWhile, List.dropWhile, insOffset]
    rw [map_mkMpdu s0 pay i b hb.1 hb.2]
    by_cases hlt : b < j
    · have : (b - i + 2048) * 16 < (j - i + 2048) * 16 := by omega
      simp only [this, decide_True, hlt, if_true, List.cons_append, List.map_cons]
      rw [ih']
    · have : ¬ (b - i + 2048) * 16 < (j - i + 2048) * 16 := by omega
      simp [this, hlt]

theorem untilFirstLostLoop_offsets (s0 : Nat) (pay : Nat → Nat) (k : Nat) (hk : k ≤ 2048) :
    ∀ (J : List Nat) (i : Nat) (log : List Mpdu), J.Pairwise (· < ·) →
      (∀ b ∈ J, i ≤ b ∧ b < k) →
      untilFirstLostLoop (J.map (mkMpdu s0 pay)) (J.map (mkMpdu s0 pay)) ((s0 + i) % 4096 * 16) log
        = ((J.drop (runLen i J)).map (mkMpdu s0 pay), (s0 + (i + runLen i J)) % 4096 * 16,
           log ++ (List.range' i (runLen i J)).map (mkMpdu s0 pay)) := by
  intro J
  induction J with
  | nil => intro i log _ _; simp [untilFirstLostLoop, runLen]
  | cons b J ih =>
    intro i log hp hJ
    have hb := hJ b (List.mem_cons_self _ _)
    simp only [List.map_cons, untilFirstLostLoop, GetSequenceControl_mkMpdu]
    by_cases hbi : b = i
    · subst hbi
      have hrest : ∀ c ∈ J, b + 1 ≤ c ∧ c < k := by
        intro c hc
        have h1 := (List.pairwise_cons.1 hp).1 c hc
        exact ⟨h1, (hJ c (List.mem_cons_of_mem _ hc)).2⟩
      have hg : ((s0 + b) % 4096 * 16 + 16) &&& 0xfff0 = (s0 + (b + 1)) % 4096 * 16 := by
        rw [and_fff0]; omega
      simp only [if_true, mkMpdu, Bool.false_eq_true, if_false, List.length_cons,
        Nat.sub_self, Nat.zero_add, List.take_succ_cons, List.take_zero, List.drop_succ_cons,
        List.drop_zero, hg, runLen]
      have := ih (b + 1) (log ++ [mkMpdu s0 pay b]) (List.pairwise_cons.1 hp).2 hrest
      simp only [mkMpdu] at this
      rw [this]
      simp [List.range'_succ, Nat.add_assoc, Nat.add_comm 1, mkMpdu]
    · have hne : ¬ (s0 + i) % 4096 * 16 = (s0 + b) % 4096 * 16 := by omega
      simp [hne, runLen, hbi]

theorem untilFirstLost_offsets (s0 B : Nat) (pay : Nat → Nat) (k : Nat) (hk : k ≤ 2048)
    (J : List Nat) (i : Nat) (hp : J.Pairwise (· < ·)) (hJ : ∀ b ∈ J, i ≤ b ∧ b < k) :
    untilFirstLost { startingSeq := (s0 + i) % 4096, bufferSize := B,
                     buffer := J.map (mkMpdu s0 pay) } ((List.range i).map (mkMpdu s0 pay))
      = ((rxStateAt s0 B pay (i + runLen i J) (J.drop (runLen i J))).agreement.getD ⟨0, 0, []⟩,
         (rxStateAt s0 B pay (i + runLen i J) (J.drop (runLen i J))).delivered) := by
  have hs : (s0 + i) % 4096 < 4096 := Nat.mod_lt _ (by norm_num)
  simp only [untilFirstLost, startControl _ _ _ hs]
  rw [untilFirstLostLoop_offsets s0 pay k hk J i _ hp hJ]
  simp only [rxStateAt, Option.getD_some, Agreement.SetStartingSequenceControl, shiftRight_four,
    and_0fff, Prod.mk.injEq, Agreement.mk.injEq, and_true]
  refine ⟨by omega, ?_⟩
  rw [← List.map_append, List.range_eq_range', List.range_eq_range']
  congr 1
  have := List.range'_append 0 i (runLen i J) 1
  simpa [Nat.add_comm] using this


theorem mem_insOffset (j x : Nat) : ∀ (J : List Nat), x ∈ insOffset j J ↔ x = j ∨ x ∈ J := by
  intro J
  induction J with
  | nil => simp [insOffset]
  | cons b J ih =>
    simp only [insOffset]
    by_cases h : b < j
    · simp only [h, if_true, List.mem_cons, ih]
      tauto
    · simp [h]

theorem pairwise_insOffset (j : Nat) : ∀ (J : List Nat), J.Pairwise (· < ·) → j ∉ J →
    (insOffset j J).Pairwise (· < ·) := by
  intro J
  induction J with
  | nil => intro _ _; simp [insOffset]
  | cons b J ih =>
    intro hp hj
    have hp' := List.pairwise_cons.1 hp
    have hjb : j ≠ b := fun h => hj (h ▸ List.mem_cons_self _ _)
    have hjJ : j ∉ J := fun h => hj (List.mem_cons_of_mem _ h)
    simp only [insOffset]
    by_cases h : b < j
    · simp only [h, if_true]
      refine List.pairwise_cons.2 ⟨?_, ih hp'.2 hjJ⟩
      intro c hc
      rcases (mem_insOffset j c J).1 hc with rfl | hc'
      · exact h
      · exact hp'.1 c hc'
    · simp only [h, if_false]
      have hlt : j < b := by omega
      refine List.pairwise_cons.2 ⟨?_, hp⟩
      intro c hc
      rcases List.mem_cons.1 hc with rfl | hc'
      · exact hlt
      · exact Nat.lt_trans hlt (hp'.1 c hc')

theorem runLen_spec : ∀ (J : List Nat) (i : Nat), J.Pairwise (· < ·) → (∀ b ∈ J, i ≤ b) →
    (∀ b ∈ J.drop (runLen i J), i + runLen i J < b) ∧
    (∀ x, x ∈ J ↔ (i ≤ x ∧ x < i + runLen i J) ∨ x ∈ J.drop (runLen i J)) := by
  intro J
  induction J with
  | nil => intro i _ _; simp [runLen]
  | cons b J ih =>
    intro i hp hJ
    have hp' := List.pairwise_cons.1 hp
    have hb := hJ b (List.mem_cons_self _ _)
    by_cases hbi : b = i
    · subst hbi
      have hrest : ∀ c ∈ J, b + 1 ≤ c := fun c hc => hp'.1 c hc
      obtain ⟨h1, h2⟩ := ih (b + 1) hp'.2 hrest
      simp only [runLen, if_true, List.drop_succ_cons]
      constructor
      · intro c hc
        have := h1 c hc
        omega
      · intro x
        rw [List.mem_cons, h2 x]
        constructor
        · rintro (rfl | ⟨h, h'⟩ | h)
          · left; omega
          · left; omega
          · right; exact h
        · rintro (⟨h, h'⟩ | h)
          · by_cases hx : x = b
            · left; exact hx
            · right; left; omega
          · right; right; exact h
    · simp only [runLen, hbi, if_false, List.drop_zero, Nat.add_zero]
      constructor
      · intro c hc
        rcases List.mem_cons.1 hc with rfl | hc'
        · omega
        · have := hp'.1 c hc'
          omega
      · intro x
        constructor
        · intro h; right; exact h
        · rintro (⟨h, h'⟩ | h)
          · omega
          · exact h

theorem runLen_le (k : Nat) : ∀ (J : List Nat) (i : Nat), (∀ b ∈ J, b < k) → i ≤ k →
    i + runLen i J ≤ k := by
  intro J
  induction J with
  | nil => intro i _ h; simpa [runLen] using h
  | cons b J ih =>
    intro i hJ hi
    by_cases hbi : b = i
    · subst hbi
      have hb := hJ b (List.mem_cons_self _ _)
      have := ih (b + 1) (fun c hc => hJ c (List.mem_cons_of_mem _ hc)) hb
      simp only [runLen, if_true]
      omega
    · simpa [runLen, hbi] using hi


theorem ReceiveMpdu_offsets (s0 B : Nat) (pay : Nat → Nat) (k : Nat) (hk : k ≤ 2048) (hkB : k ≤ B)
    (fuel : Nat) (i j : Nat) (J : List Nat) (hij : i ≤ j) (hjk : j < k)
    (hp : J.Pairwise (· < ·)) (hJ : ∀ b ∈ J, i < b ∧ b < k) (hjJ : j ∉ J) :
    ReceiveMpdu true fuel (rxStateAt s0 B pay i J) (mkMpdu s0 pay j)
      = .ok (true, rxStateAt s0 B pay (i + runLen i (insOffset j J))
          ((insOffset j J).drop (runLen i (insOffset j J)))) := by
  have hJ' : ∀ b ∈ J, i ≤ b ∧ b < i + 2048 := by
    intro b hb
    have := hJ b hb
    omega
  have hold : QosUtilsIsOldPacket ((s0 + i) % 4096) (GetSequenceNumber (mkMpdu s0 pay j)) = false := by
    simp only [QosUtilsIsOldPacket, GetSequenceNumber, mkMpdu, decide_eq_false_iff_not]
    omega
  have hwin : IsInWindow (GetSequenceNumber (mkMpdu s0 pay j)) ((s0 + i) % 4096) B = true := by
    simp only [IsInWindow, GetSequenceNumber, mkMpdu, decide_eq_true_eq]
    omega
  have hp1 := pairwise_insOffset j J hp hjJ
  have hJ1 : ∀ b ∈ insOffset j J, i ≤ b ∧ b < k := by
    intro b hb
    rcases (mem_insOffset j b J).1 hb with rfl | hb'
    · exact ⟨hij, hjk⟩
    · have := hJ b hb'
      omega
  have hflush := untilFirstLost_offsets s0 B pay k hk (insOffset j J) i hp1 hJ1
  simp only [ReceiveMpdu, if_true, rxStateAt, hold, Bool.not_false,
    storeMpdu_offsets s0 B pay i j hij (by omega) J hJ', hwin, Bool.not_true, Bool.false_eq_true,
    if_false]
  simp only [rxStateAt, Option.getD_some] at hflush
  rw [hflush]

theorem rxRun_offsets (s0 B : Nat) (pay : Nat → Nat) (k : Nat) (hk : k ≤ 2048) (hkB : k ≤ B)
    (fuel : Nat) :
    ∀ (order : List Nat) (i : Nat) (J A : List Nat), J.Pairwise (· < ·) →
      (∀ b ∈ J, i < b ∧ b < k) → i ≤ k → (∀ x, x ∈ A ↔ x < i ∨ x ∈ J) → order.Nodup →
      (∀ x ∈ order, x < k ∧ x ∉ A) →
      ∃ i1 J1, rxRun true fuel (rxStateAt s0 B pay i J)
          (order.map (fun j => RxOp.receiveMpdu (mkMpdu s0 pay j))) = .ok (rxStateAt s0 B pay i1 J1) ∧
        (∀ b ∈ J1, i1 < b ∧ b < k) ∧ i1 ≤ k ∧ (∀ x, x ∈ order ∨ x ∈ A ↔ x < i1 ∨ x ∈ J1) := by
  intro order
  induction order with
  | nil =>
    intro i J A _ hJ hik hA _ _
    exact ⟨i, J, by simp [rxRun], hJ, hik, by simpa using hA⟩
  | cons j order ih =>
    intro i J A hp hJ hik hA hnd ho
    have hj := ho j (List.mem_cons_self _ _)
    have hnd' := List.nodup_cons.1 hnd
    have hij : i ≤ j := by
      by_contra hlt
      exact hj.2 ((hA j).2 (Or.inl (by omega)))
    have hjJ : j ∉ J := fun h => hj.2 ((hA j).2 (Or.inr h))
    have hstep := ReceiveMpdu_offsets s0 B pay k hk hkB fuel i j J hij hj.1 hp hJ hjJ
    have hp1 := pairwise_insOffset j J hp hjJ
    have hJ1 : ∀ b ∈ insOffset j J, i ≤ b := by
      intro b hb
      rcases (mem_insOffset j b J).1 hb with rfl | hb'
      · exact hij
      · exact Nat.le_of_lt (hJ b hb').1
    have hJ1k : ∀ b ∈ insOffset j J, b < k := by
      intro b hb
      rcases (mem_insOffset j b J).1 hb with rfl | hb'
      · exact hj.1
      · exact (hJ b hb').2
    obtain ⟨hs1, hs2⟩ := runLen_spec (insOffset j J) i hp1 hJ1
    have hle := runLen_le k (insOffset j J) i hJ1k hik
    have hsub : ((insOffset j J).drop (runLen i (insOffset j J))).Sublist (insOffset j J) :=
      List.drop_sublist _ _
    have hA' : ∀ x, x ∈ j :: A ↔ x < i + runLen i (insOffset j J) ∨
        x ∈ (insOffset j J).drop (runLen i (insOffset j J)) := by
      intro x
      have h2 := hs2 x
      rw [mem_insOffset] at h2
      rw [List.mem_cons, hA x]
      constructor
      · rintro (h | h | h)
        · rcases h2.1 (Or.inl h) with ⟨_, h'⟩ | h'
          · left; exact h'
          · right; exact h'
        · left; omega
        · rcases h2.1 (Or.inr h) with ⟨_, h'⟩ | h'
          · left; exact h'
          · right; exact h'
      · rintro (h | h)
        · by_cases hx : x < i
          · right; left; exact hx
          · rcases h2.2 (Or.inl ⟨by omega, h⟩) with h' | h'
            · left; exact h'
            · right; right; exact h'
        · rcases h2.2 (Or.inr h) with h' | h'
          · left; exact h'
          · right; right; exact h'
    obtain ⟨i1, J1, hrun, hb1, hi1, hmem⟩ := ih (i + runLen i (insOffset j J))
      ((insOffset j J).drop (runLen i (insOffset j J))) (j :: A) (hp1.sublist hsub)
      (fun b hb => ⟨hs1 b hb, hJ1k b (hsub.subset hb)⟩) hle hA' hnd'.2
      (fun x hx => ⟨(ho x (List.mem_cons_of_mem _ hx)).1, by
        intro hxA
        rcases List.mem_cons.1 hxA with rfl | h
        · exact hnd'.1 hx
        · exact (ho x (List.mem_cons_of_mem _ hx)).2 h⟩)
    refine ⟨i1, J1, ?_, hb1, hi1, ?_⟩
    · simp only [List.map_cons, rxRun, rxStep, hstep]
      exact hrun
    · intro x
      rw [← hmem x, List.mem_cons, List.mem_cons]
      tauto


/-! ## Claims C1 and C2: deliveries of the reorder buffer -/

/-- C1, as stated, fails: with window start 0 and buffer size 4, sequence number 1
is admitted twice before sequence number 0 arrives; the first flush hands one copy
to the rx callback and leaves the other at the head of the buffer, and
`DestroyBlockAckAgreement` hands that one over too: the callback is invoked twice
for sequence number 1. -/
theorem C1_duplicate_delivered_twice :
    rxRun true 8 { agreement := some { startingSeq := 0, bufferSize := 4, buffer := [] },
                   delivered := [] }
      [RxOp.receiveMpdu { seqNum := 1, fragNum := 0, moreFragments := false, payload := 10 },
       RxOp.receiveMpdu { seqNum := 1, fragNum := 0, moreFragments := false, payload := 11 },
       RxOp.receiveMpdu { seqNum := 0, fragNum := 0, moreFragments := false, payload := 12 },
       RxOp.destroy]
      = .ok { agreement := none,
              delivered := [{ seqNum := 0, fragNum := 0, moreFragments := false, payload := 12 },
                            { seqNum := 1, fragNum := 0, moreFragments := false, payload := 11 },
                            { seqNum := 1, fragNum := 0, moreFragments := false, payload := 10 }] } := by
  decide

/-- C1 (amended): for every sequence of admissions (`ReceiveMpdu`, repeated
sequence numbers allowed) and flushes (`RxCompleteBufferedPacketsWithSmallerSequence`,
`RxCompleteBufferedPacketsUntilFirstLost`, `DestroyBlockAckAgreement`) on one
agreement that starts with an empty buffer, the rx callback is invoked at most once
per admitted MPDU: every MPDU, and every sequence number, occurs in the callback
trace at most as often as it was admitted (so at most once when admitted once). -/
theorem C1_delivered_at_most_as_often_as_admitted (htSupported : Bool) (fuel s0 B : Nat)
    (ops : List RxOp) (st : RxState)
    (h : rxRun htSupported fuel
      { agreement := some { startingSeq := s0, bufferSize := B, buffer := [] }, delivered := [] }
      ops = .ok st) :
    (∀ m : Mpdu, st.delivered.count m ≤ (admitted ops).count m) ∧
    (∀ q : Nat, st.delivered.countP (fun m => decide (m.seqNum = q))
        ≤ (admitted ops).countP (fun m => decide (m.seqNum = q))) := by
  have h1 := rxRun_held htSupported fuel ops _ st h
  simp only [RxState.held, List.append_nil, List.nil_append] at h1
  have h2 : st.delivered.Subperm (admitted ops) :=
    (List.sublist_append_left _ _).subperm.trans h1
  exact ⟨fun m => h2.count_le m, fun q => h2.countP_le _⟩

/-- Witness for C1 (amended): sequence numbers 1 and 0 admitted once each, then
the agreement is destroyed; sequence number 1 is counted once in the callback
trace and once among the admissions. -/
theorem C1_delivered_at_most_as_often_as_admitted_witness :
    rxRun true 8 { agreement := some { startingSeq := 0, bufferSize := 4, buffer := [] },
                   delivered := [] }
      [RxOp.receiveMpdu { seqNum := 1, fragNum := 0, moreFragments := false, payload := 1 },
       RxOp.receiveMpdu { seqNum := 0, fragNum := 0, moreFragments := false, payload := 2 },
       RxOp.destroy]
      = .ok { agreement := none,
              delivered := [{ seqNum := 0, fragNum := 0, moreFragments := false, payload := 2 },
                            { seqNum := 1, fragNum := 0, moreFragments := false, payload := 1 }] } ∧
    List.countP (fun m => decide (m.seqNum = 1))
        [{ seqNum := 0, fragNum := 0, moreFragments := false, payload := 2 },
         ({ seqNum := 1, fragNum := 0, moreFragments := false, payload := 1 } : Mpdu)]
      ≤ (admitted
        [RxOp.receiveMpdu { seqNum := 1, fragNum := 0, moreFragments := false, payload := 1 },
         RxOp.receiveMpdu { seqNum := 0, fragNum := 0, moreFragments := false, payload := 2 },
         RxOp.destroy]).countP (fun m => decide (m.seqNum = 1)) :=
  ⟨by decide,
   (C1_delivered_at_most_as_often_as_admitted true 8 0 4
     [RxOp.receiveMpdu { seqNum := 1, fragNum := 0, moreFragments := false, payload := 1 },
      RxOp.receiveMpdu { seqNum := 0, fragNum := 0, moreFragments := false, payload := 2 },
      RxOp.destroy]
     { agreement := none,
       delivered := [{ seqNum := 0, fragNum := 0, moreFragments := false, payload := 2 },
                     { seqNum := 1, fragNum := 0, moreFragments := false, payload := 1 }] }
     (by decide)).2 1⟩

/-- C2, as stated, fails: when the station manager supports none of HT, VHT, HE,
DMG and EDMG, `ReceiveMpdu` only stores the MPDU.  With window start 0, buffer size
1 and k = 1, admitting sequence number 0 invokes the rx callback zero times, leaves
the MPDU buffered and the window start at 0. -/
theorem C2_legacy_station_only_buffers :
    rxRun false 8 { agreement := some { startingSeq := 0, bufferSize := 1, buffer := [] },
                    delivered := [] }
      [RxOp.receiveMpdu (mkMpdu 0 (fun j => j) 0)]
      = .ok { agreement := some { startingSeq := 0, bufferSize := 1,
                                  buffer := [mkMpdu 0 (fun j => j) 0] },
              delivered := [] } := by
  decide

/-- A sequence number at distance 2048 from the window start is old, whatever the
buffer size: `ReceiveMpdu` drops it (this is why C2 needs k ≤ 2048). -/
theorem ReceiveMpdu_distance_2048_is_old :
    ReceiveMpdu true 8 { agreement := some { startingSeq := 0, bufferSize := 4096, buffer := [] },
                         delivered := [] } (mkMpdu 0 (fun j => j) 2048)
      = .ok (true, { agreement := some { startingSeq := 0, bufferSize := 4096, buffer := [] },
                     delivered := [] }) := by
  decide

/-- C2 (amended): on a station whose station manager supports HT, VHT, HE, DMG or
EDMG, for an agreement with window start `s0 < 4096`, buffer size `B` and an empty
buffer, if the unfragmented MPDUs with sequence numbers `s0, ..., s0+k-1` (mod 4096,
`k ≤ B` and `k ≤ 2048`) are each admitted exactly once through `ReceiveMpdu`, in any
arrival order, then the call sequence returns, the rx callback has been invoked
exactly once for each of them, in increasing sequence order starting at `s0`, the
buffer is empty and the window start is `(s0 + k) mod 4096`. -/
theorem C2_window_delivered_once_in_order (s0 B k fuel : Nat) (pay : Nat → Nat)
    (order : List Nat) (hs0 : s0 < 4096) (hkB : k ≤ B) (hk : k ≤ 2048)
    (horder : order.Perm (List.range k)) :
    rxRun true fuel
      { agreement := some { startingSeq := s0, bufferSize := B, buffer := [] }, delivered := [] }
      (order.map (fun j => RxOp.receiveMpdu (mkMpdu s0 pay j)))
      = .ok { agreement := some { startingSeq := (s0 + k) % 4096, bufferSize := B, buffer := [] },
              delivered := (List.range k).map (mkMpdu s0 pay) } := by
  have hnd : order.Nodup := (List.Perm.nodup_iff horder).2 (List.nodup_range k)
  have hmem : ∀ x, x ∈ order ↔ x < k := by
    intro x
    rw [List.Perm.mem_iff horder, List.mem_range]
  obtain ⟨i1, J1, hrun, hb1, hi1, hm⟩ := rxRun_offsets s0 B pay k hk hkB fuel order 0 [] []
    List.Pairwise.nil (by simp) (Nat.zero_le _) (by simp) hnd
    (fun x hx => ⟨(hmem x).1 hx, by simp⟩)
  have hinit : rxStateAt s0 B pay 0 [] =
      { agreement := some { startingSeq := s0, bufferSize := B, buffer := [] }, delivered := [] } := by
    simp [rxStateAt, Nat.mod_eq_of_lt hs0]
  have hik : i1 = k := by
    by_contra hne
    have hlt : i1 < k := by omega
    have h1 := (hm i1).1 (Or.inl ((hmem i1).2 hlt))
    rcases h1 with h1 | h1
    · omega
    · have := (hb1 i1 h1).1
      omega
  have hJ : J1 = [] := by
    apply List.eq_nil_iff_forall_not_mem.2
    intro b hb
    have := hb1 b hb
    omega
  rw [← hinit, hrun, hik, hJ]
  simp [rxStateAt]

/-- Witness for C2 (amended): window start 4094, buffer size 4, and the sequence
numbers 4094, 4095, 0, 1 arriving in the order 0, 4094, 1, 4095. -/
theorem C2_window_delivered_once_in_order_witness :
    (4094 < 4096 ∧ 4 ≤ 4 ∧ 4 ≤ 2048 ∧ [2, 0, 3, 1].Perm (List.range 4)) ∧
    rxRun true 8
      { agreement := some { startingSeq := 4094, bufferSize := 4, buffer := [] }, delivered := [] }
      ([2, 0, 3, 1].map (fun j => RxOp.receiveMpdu (mkMpdu 4094 (fun j => j) j)))
      = .ok { agreement := some { startingSeq := (4094 + 4) % 4096, bufferSize := 4, buffer := [] },
              delivered := (List.range 4).map (mkMpdu 4094 (fun j => j)) } :=
  ⟨⟨by decide, by decide, by decide, by decide⟩,
   C2_window_delivered_once_in_order 4094 4 4 8 (fun j => j) [2, 0, 3, 1]
     (by decide) (by decide) (by decide) (by decide)⟩


/-! ## Claims C3 and C4: the NAV record -/

/-- C3: `DoNavStartNow (d)` called at time `now` returns true and sets
`(m_lastNavStart, m_lastNavDuration) = (now, d)` exactly when
`now + d > m_lastNavStart + m_lastNavDuration`; otherwise (equality included) it
returns false and leaves both fields unchanged.  Hence the new busy-until is
`max (old busy-until) (now + d)`. -/
theorem C3_DoNavStartNow (s : MacLowState) (d : Time) :
    (DoNavStartNow s d).1 = decide (s.now + d > s.lastNavStart + s.lastNavDuration) ∧
    (DoNavStartNow s d).2.lastNavStart
      = (if s.now + d > s.lastNavStart + s.lastNavDuration then s.now else s.lastNavStart) ∧
    (DoNavStartNow s d).2.lastNavDuration
      = (if s.now + d > s.lastNavStart + s.lastNavDuration then d else s.lastNavDuration) ∧
    (DoNavStartNow s d).2.busyUntil = max s.busyUntil (s.now + d) := by
  by_cases h : s.now + d > s.lastNavStart + s.lastNavDuration
  · simp only [DoNavStartNow, MacLowState.call, h, if_true, decide_True, MacLowState.busyUntil,
      true_and]
    unfold Time at *
    omega
  · simp only [DoNavStartNow, MacLowState.call, h, if_false, decide_False, MacLowState.busyUntil,
      true_and]
    unfold Time at *
    omega

theorem DoNavStartNow_facts (s : MacLowState) (d : Time) :
    s.busyUntil ≤ (DoNavStartNow s d).2.busyUntil ∧
    (DoNavStartNow s d).2.now = s.now ∧ (DoNavStartNow s d).2.bssid = s.bssid ∧
    (s.lastNavStart ≤ s.now → (DoNavStartNow s d).2.lastNavStart ≤ s.now) := by
  by_cases h : s.now + d > s.lastNavStart + s.lastNavDuration
  · simp only [DoNavStartNow, MacLowState.call, h, if_true, MacLowState.busyUntil]
    refine ⟨le_of_lt h, trivial, trivial, fun _ => le_refl _⟩
  · simp only [DoNavStartNow, MacLowState.call, h, if_false, MacLowState.busyUntil]
    exact ⟨le_refl _, trivial, trivial, fun h => h⟩

theorem NotifyNav_extends (env : Env) (s : MacLowState) (mpdu : WifiMacQueueItem)
    (hnav : s.lastNavStart ≤ s.now) (hno : resetsNav s.bssid mpdu = false) :
    ∃ s1, NotifyNav env s mpdu = .ok s1 ∧ s.busyUntil ≤ s1.busyUntil ∧ s1.now = s.now ∧
      s1.bssid = s.bssid ∧ s1.lastNavStart ≤ s.now := by
  unfold NotifyNav
  simp only [hnav, not_true_eq_false, if_false]
  by_cases hraw : mpdu.hdr.GetRawDuration > 32767
  · simp only [hraw, if_true]
    exact ⟨s, rfl, le_refl _, rfl, rfl, hnav⟩
  · have hraw' : mpdu.hdr.GetRawDuration ≤ 32767 := by omega
    simp only [resetsNav, hraw', decide_True, Bool.true_and, Bool.or_eq_false_iff] at hno
    simp only [hraw, if_false, hno.1, hno.2, Bool.false_eq_true]
    by_cases hself : (mpdu.hdr.addr1 != s.self) = true
    · simp only [hself, if_true]
      have hf := DoNavStartNow_facts s mpdu.hdr.GetDuration
      split
      · exact ⟨s, rfl, le_refl _, rfl, rfl, hnav⟩
      · split
        · exact ⟨_, rfl, hf.1, hf.2.1, hf.2.2.1, hf.2.2.2 hnav⟩
        · exact ⟨_, rfl, hf.1, hf.2.1, hf.2.2.1, hf.2.2.2 hnav⟩
    · simp only [hself, Bool.false_eq_true, if_false]
      exact ⟨s, rfl, le_refl _, rfl, rfl, hnav⟩

theorem navStep_extends (env : Env) (s : MacLowState) (t : Time) (op : NavOp)
    (hnav : s.lastNavStart ≤ s.now) (ht : s.now ≤ t) (hop : op.extendsOnly s.bssid = true) :
    ∃ s1, navStep env s t op = .ok s1 ∧ s.busyUntil ≤ s1.busyUntil ∧ s1.now = t ∧
      s1.bssid = s.bssid ∧ s1.lastNavStart ≤ s1.now := by
  cases op with
  | doNavStartNow d =>
    have hf := DoNavStartNow_facts { s with now := t } d
    refine ⟨_, rfl, hf.1, hf.2.1, hf.2.2.1, ?_⟩
    rw [hf.2.1]
    exact hf.2.2.2 (le_trans hnav ht)
  | notifyNav mpdu =>
    simp only [NavOp.extendsOnly, Bool.not_eq_true'] at hop
    obtain ⟨s1, h1, h2, h3, h4, h5⟩ := NotifyNav_extends env { s with now := t } mpdu
      (le_trans hnav ht) hop
    exact ⟨s1, h1, h2, h3, h4, by rw [h3]; exact h5⟩
  | endAllocationPeriod => simp [NavOp.extendsOnly] at hop
  | notifySleepNow => simp [NavOp.extendsOnly] at hop
  | notifyOffNow => simp [NavOp.extendsOnly] at hop
  | notifySwitchingStartNow => simp [NavOp.extendsOnly] at hop

theorem navRun_extends (env : Env) (ops : List (Time × NavOp)) :
    ∀ (s : MacLowState), s.lastNavStart ≤ s.now → clockNonDecreasing s.now ops = true →
      (∀ x ∈ ops, x.2.extendsOnly s.bssid = true) →
      ∃ s1, navRun env s ops = .ok s1 ∧ s.busyUntil ≤ s1.busyUntil ∧ s1.bssid = s.bssid ∧
        s1.lastNavStart ≤ s1.now ∧ s.now ≤ s1.now := by
  induction ops with
  | nil => intro s hnav _ _; exact ⟨s, rfl, le_refl _, rfl, hnav, le_refl _⟩
  | cons x ops ih =>
    intro s hnav hch hops
    obtain ⟨t, op⟩ := x
    simp only [clockNonDecreasing, Bool.and_eq_true, decide_eq_true_eq] at hch
    obtain ⟨s1, h1, h2, h3, h4, h5⟩ := navStep_extends env s t op hnav hch.1
      (hops (t, op) (List.mem_cons_self _ _))
    obtain ⟨s2, g1, g2, g3, g4, g5⟩ := ih s1 h5 (by rw [h3]; exact hch.2)
      (fun y hy => by rw [h4]; exact hops y (List.mem_cons_of_mem _ hy))
    refine ⟨s2, ?_, le_trans h2 g2, by rw [g3, h4], g4, ?_⟩
    · simp only [navRun, h1]
      exact g1
    · rw [h3] at g5
      exact le_trans hch.1 g5


theorem CancelAllEvents_now (s : MacLowState) : (CancelAllEvents s).now = s.now := by
  unfold CancelAllEvents
  simp only
  split <;> rfl

theorem StoreAllocationParameters_now (s : MacLowState) :
    (StoreAllocationParameters s).now = s.now := by
  unfold StoreAllocationParameters
  simp only
  split
  · split <;> rfl
  · rfl

/-- C4, as stated, fails: `DoNavStartNow (100)` at time 0 sets busy-until to 100;
`NotifyOffNow` at time 10 overwrites the NAV record with (10, 0), and busy-until
drops to 10. -/
theorem C4_exit_path_lowers_busy_until :
    (navRun {} MacLowState.initial [(0, NavOp.doNavStartNow 100)]).map MacLowState.busyUntil
      = .ok 100 ∧
    (navRun {} MacLowState.initial [(0, NavOp.doNavStartNow 100), (10, NavOp.notifyOffNow)]).map
      MacLowState.busyUntil = .ok 10 := by
  decide

/-- C4 (amended): for every sequence of `DoNavStartNow` calls and `NotifyNav`
calls on frames that trigger no reset (not a CF-Poll or CF-End from the BSSID),
executed at non-decreasing clock times from a state whose NAV start is not in the
future, every call returns and busy-until `m_lastNavStart + m_lastNavDuration`
never decreases (the state after any prefix has a busy-until no later than the
state after the whole sequence).  `EndAllocationPeriod`, `NotifySleepNow`,
`NotifyOffNow` and `NotifySwitchingStartNow` instead overwrite the NAV record
with (now, 0): after them busy-until equals the current time. -/
theorem C4_busy_until_monotone_under_nav_updates (env : Env) (pre post : List (Time × NavOp)) :
    ∀ (s : MacLowState), s.lastNavStart ≤ s.now →
      clockNonDecreasing s.now (pre ++ post) = true →
      (∀ x ∈ pre ++ post, x.2.extendsOnly s.bssid = true) →
      (∃ s1 s2, navRun env s pre = .ok s1 ∧ navRun env s (pre ++ post) = .ok s2 ∧
        s.busyUntil ≤ s1.busyUntil ∧ s1.busyUntil ≤ s2.busyUntil) ∧
      (∀ t : Time,
        (EndAllocationPeriod { s with now := t }).busyUntil = t ∧
        (NotifySleepNow { s with now := t }).busyUntil = t ∧
        (NotifyOffNow { s with now := t }).busyUntil = t ∧
        (NotifySwitchingStartNow { s with now := t }).busyUntil = t) := by
  induction pre with
  | nil =>
    intro s hnav hch hops
    refine ⟨?_, ?_⟩
    · obtain ⟨s2, h1, h2, _⟩ := navRun_extends env post s hnav hch hops
      exact ⟨s, s2, rfl, h1, le_refl _, h2⟩
    · intro t
      simp [EndAllocationPeriod, NotifySleepNow, NotifyOffNow, NotifySwitchingStartNow,
        MacLowState.busyUntil, CancelAllEvents_now, StoreAllocationParameters_now,
        MacLowState.call]
  | cons x pre ih =>
    intro s hnav hch hops
    obtain ⟨t, op⟩ := x
    simp only [List.cons_append, clockNonDecreasing, Bool.and_eq_true, decide_eq_true_eq] at hch
    obtain ⟨s0, h1, h2, h3, h4, h5⟩ := navStep_extends env s t op hnav hch.1
      (hops (t, op) (List.mem_cons_self _ _))
    obtain ⟨⟨s1, s2, g1, g2, g3, g4⟩, _⟩ := ih s0 h5 (by rw [h3]; exact hch.2)
      (fun y hy => by rw [h4]; exact hops y (List.mem_cons_of_mem _ hy))
    refine ⟨⟨s1, s2, ?_, ?_, le_trans h2 g3, g4⟩, ?_⟩
    · simp only [navRun, h1]
      exact g1
    · simp only [List.cons_append, navRun, h1]
      exact g2
    · intro t
      simp [EndAllocationPeriod, NotifySleepNow, NotifyOffNow, NotifySwitchingStartNow,
        MacLowState.busyUntil, CancelAllEvents_now, StoreAllocationParameters_now,
        MacLowState.call]

/-- Witness for C4 (amended): `DoNavStartNow (100)` at time 0, then at time 10
`NotifyNav` on an overheard RTS with Duration 20 microseconds. -/
theorem C4_busy_until_monotone_under_nav_updates_witness :
    (∃ s1 s2,
      navRun {} MacLowState.initial [(0, NavOp.doNavStartNow 100)] = .ok s1 ∧
      navRun {} MacLowState.initial
        ([(0, NavOp.doNavStartNow 100)] ++
         [(10, NavOp.notifyNav { hdr := { type := .ctlRts, addr1 := 5, addr2 := 6, duration := 20 } })])
        = .ok s2 ∧
      MacLowState.initial.busyUntil ≤ s1.busyUntil ∧ s1.busyUntil ≤ s2.busyUntil) ∧
    (∀ t : Time,
      (EndAllocationPeriod { MacLowState.initial with now := t }).busyUntil = t ∧
      (NotifySleepNow { MacLowState.initial with now := t }).busyUntil = t ∧
      (NotifyOffNow { MacLowState.initial with now := t }).busyUntil = t ∧
      (NotifySwitchingStartNow { MacLowState.initial with now := t }).busyUntil = t) :=
  C4_busy_until_monotone_under_nav_updates {} [(0, NavOp.doNavStartNow 100)]
    [(10, NavOp.notifyNav { hdr := { type := .ctlRts, addr1 := 5, addr2 := 6, duration := 20 } })]
    MacLowState.initial (by decide) (by decide) (by decide)


/-! ## Claims C6 and C9: timeout handlers -/

/-- C6, as stated, fails for a `QosTxop` owner: `CtsTimeout` calls
`NotifyMissedCts` (with the MPDUs of the PSDU) on it, and `MissedCts` is not
invoked at all. -/
theorem C6_qos_owner_gets_NotifyMissedCts :
    CtsTimeout { MacLowState.initial with
        currentPacket := some { first := { hdr := { type := .qosData, addr1 := 9 } } },
        currentTxop := some { id := 7, isQosTxop := true } }
      = .ok { MacLowState.initial with
          trace := [Call.ReportRtsFailed 9,
                    Call.NotifyMissedCts 7 [{ hdr := { type := .qosData, addr1 := 9 } }]] } := by
  decide

/-- C6 (amended): when the CTS timeout fires (`CtsTimeout`) for an active exchange
with PSDU `psdu` and owner `txop`, the handler reports the failed RTS to the
station manager and then invokes exactly one callback of the owner: `MissedCts`
if the owner is a plain `Txop`, `NotifyMissedCts` with the MPDUs of the PSDU if
it is a `QosTxop`.  Afterwards `m_currentPacket` and `m_currentTxop` are both
empty; nothing else changes: no frame goes to the PHY and no event is armed. -/
theorem C6_CtsTimeout_reports_once_and_clears (s : MacLowState) (psdu : WifiPsdu) (txop : Txop)
    (hp : s.currentPacket = some psdu) (ht : s.currentTxop = some txop) :
    CtsTimeout s = .ok { s with
      currentPacket := none, currentTxop := none,
      trace := s.trace ++ [Call.ReportRtsFailed psdu.GetAddr1,
        if txop.isQosTxop then Call.NotifyMissedCts txop.id psdu.mpdus
        else Call.MissedCts txop.id] } := by
  unfold CtsTimeout
  simp only [hp, MacLowState.call, ht]
  by_cases hq : txop.isQosTxop = true
  · simp [hq]
  · simp [hq]

/-- Witness for C6 (amended): a plain `Txop` owner gets `MissedCts` once. -/
theorem C6_CtsTimeout_reports_once_and_clears_witness :
    CtsTimeout { MacLowState.initial with
        currentPacket := some { first := { hdr := { type := .data, addr1 := 9 } } },
        currentTxop := some { id := 7 } }
      = .ok { MacLowState.initial with
          trace := [Call.ReportRtsFailed 9, Call.MissedCts 7] } :=
  C6_CtsTimeout_reports_once_and_clears
    { MacLowState.initial with
        currentPacket := some { first := { hdr := { type := .data, addr1 := 9 } } },
        currentTxop := some { id := 7 } }
    { first := { hdr := { type := .data, addr1 := 9 } } } { id := 7 } rfl rfl

/-- C9: with active PSDU `psdu` and owner `txop`, `NormalAckTimeout` invokes the
owner's `MissedAck` exactly once, and `BlockAckTimeout` invokes the owner's
`MissedBlockAck` exactly once with the number of MPDUs of the PSDU; after either
handler `m_currentPacket` and `m_currentTxop` are both empty, and nothing else
changes: no frame is sent, no event is armed, nothing is retried. -/
theorem C9_ack_timeouts_report_once_and_clear (s : MacLowState) (psdu : WifiPsdu) (txop : Txop)
    (hp : s.currentPacket = some psdu) (ht : s.currentTxop = some txop) :
    NormalAckTimeout s = .ok { s with
      currentPacket := none, currentTxop := none,
      trace := s.trace ++ [Call.MissedAck txop.id] } ∧
    BlockAckTimeout s = .ok { s with
      currentPacket := none, currentTxop := none,
      trace := s.trace ++ [Call.MissedBlockAck txop.id psdu.GetNMpdus] } := by
  constructor
  · unfold NormalAckTimeout
    simp only [ht, MacLowState.call]
  · unfold BlockAckTimeout
    simp only [ht, hp, MacLowState.call]

/-- Witness for C9: an A-MPDU of two MPDUs owned by a `QosTxop`. -/
theorem C9_ack_timeouts_report_once_and_clear_witness :
    NormalAckTimeout { MacLowState.initial with
        currentPacket := some { first := { hdr := { type := .qosData, addr1 := 9 } },
                                rest := [{ hdr := { type := .qosData, addr1 := 9, seqNum := 1 } }] },
        currentTxop := some { id := 7, isQosTxop := true } }
      = .ok { MacLowState.initial with trace := [Call.MissedAck 7] } ∧
    BlockAckTimeout { MacLowState.initial with
        currentPacket := some { first := { hdr := { type := .qosData, addr1 := 9 } },
                                rest := [{ hdr := { type := .qosData, addr1 := 9, seqNum := 1 } }] },
        currentTxop := some { id := 7, isQosTxop := true } }
      = .ok { MacLowState.initial with trace := [Call.MissedBlockAck 7 2] } :=
  C9_ack_timeouts_report_once_and_clear
    { MacLowState.initial with
        currentPacket := some { first := { hdr := { type := .qosData, addr1 := 9 } },
                                rest := [{ hdr := { type := .qosData, addr1 := 9, seqNum := 1 } }] },
        currentTxop := some { id := 7, isQosTxop := true } }
    { first := { hdr := { type := .qosData, addr1 := 9 } },
      rest := [{ hdr := { type := .qosData, addr1 := 9, seqNum := 1 } }] }
    { id := 7, isQosTxop := true } rfl rfl


/-! ## Claims C7, C8 and C10: the CTS, RTS and Ack branches of `ReceiveOk` -/

theorem NotifyNav_addressed_to_self (env : Env) (s : MacLowState) (mpdu : WifiMacQueueItem)
    (hnav : s.lastNavStart ≤ s.now) (hpoll : mpdu.hdr.IsCfPoll = false)
    (hend : mpdu.hdr.IsCfEnd = false) (hself : mpdu.hdr.addr1 = s.self) :
    NotifyNav env s mpdu = .ok s := by
  unfold NotifyNav
  simp [hnav, hpoll, hend, hself]

/-- C7: `ReceiveOk` on a non-aggregated CTS or DMG CTS with addr1 = self, received
while the CTS timeout is armed and the active context is non-empty (in a state
where the handler's own assertions hold: NAV start not in the future, no deferred
data send pending), cancels the CTS timeout, schedules `SendDataAfterCts` exactly
one SIFS later carrying the CTS's Duration value, and leaves the active PSDU and
the owner unchanged.  The only calls it makes are the two reports to the station
manager, `NotifyCtsTimeoutResetNow` on each channel access manager and, for a MIMO
control trailer on 802.11ay, the two antenna updates: no `MissedCts`. -/
theorem C7_cts_cancels_timeout_and_schedules_data (env : Env) (s : MacLowState)
    (mpdu : WifiMacQueueItem) (rxSnr : Nat) (txVector : WifiTxVector) (e : Event)
    (psdu : WifiPsdu)
    (hcts : mpdu.hdr.type = .ctlCts ∨ mpdu.hdr.type = .ctlDmgCts)
    (hself : mpdu.hdr.addr1 = s.self)
    (htimer : s.ctsTimeoutEvent = some e) (hp : s.currentPacket = some psdu)
    (hnav : s.lastNavStart ≤ s.now) (hdata : s.sendDataEvent = none) :
    ReceiveOk env s mpdu rxSnr txVector false = .ok { s with
      ctsTimeoutEvent := none,
      sendDataEvent := some { due := s.now + s.sifs,
                              handler := .SendDataAfterCts mpdu.hdr.GetDuration },
      trace := s.trace ++ [Call.ReportRxOk psdu.GetAddr1, Call.ReportRtsOk psdu.GetAddr1]
        ++ s.channelAccessManagers.map (fun m => Call.NotifyCtsTimeoutResetNow m)
        ++ (if env.standard = .s80211ay ∧ txVector.controlTrailerPresent = true
              ∧ mpdu.packet.ctIsMimoTransmission = true
              ∧ mpdu.packet.ctIsMuMimoTransmission = false then
              [Call.UpdateBestMimoRxAntennaConfigurationIndex mpdu.hdr.addr2
                 mpdu.packet.ctTxSectorCombinationIdx,
               Call.SteerMimoRxAntennaToward mpdu.hdr.addr2]
            else []) } := by
  have hpoll : mpdu.hdr.IsCfPoll = false := by
    rcases hcts with h | h <;> simp [WifiMacHeader.IsCfPoll, h]
  have hend : mpdu.hdr.IsCfEnd = false := by
    rcases hcts with h | h <;> simp [WifiMacHeader.IsCfEnd, h]
  have hrts : mpdu.hdr.IsRts = false := by
    rcases hcts with h | h <;> simp [WifiMacHeader.IsRts, h]
  have hc : (mpdu.hdr.IsCts || mpdu.hdr.IsDmgCts) = true := by
    rcases hcts with h | h <;> simp [WifiMacHeader.IsCts, WifiMacHeader.IsDmgCts, h]
  unfold ReceiveOk
  simp only [NotifyNav_addressed_to_self env s mpdu hnav hpoll hend hself, hrts,
    Bool.false_eq_true, if_false, hc, hself, beq_self_eq_true, htimer, Option.isSome_some,
    Bool.and_self, hp, receiveCts, NotifyCtsTimeoutResetNow, MacLowState.call, hdata,
    Option.isSome_none]
  by_cases hm : env.standard = .s80211ay ∧ txVector.controlTrailerPresent = true
      ∧ mpdu.packet.ctIsMimoTransmission = true ∧ mpdu.packet.ctIsMuMimoTransmission = false
  · obtain ⟨h1, h2, h3, h4⟩ := hm
    simp [h1, h2, h3, h4]
  · rw [if_neg hm]
    have : (env.standard == .s80211ay && txVector.controlTrailerPresent
        && (mpdu.packet.ctIsMimoTransmission && !mpdu.packet.ctIsMuMimoTransmission)) = false := by
      rw [Bool.eq_false_iff]
      intro h
      apply hm
      simp only [Bool.and_eq_true, beq_iff_eq, Bool.not_eq_true'] at h
      exact ⟨h.1.1, h.1.2, h.2.1, h.2.2⟩
    simp [this]


/-- Witness for C7: a DMG CTS with Duration 50 microseconds arrives at time 100 at
station 1, which waits for it with one channel access manager registered. -/
theorem C7_cts_cancels_timeout_and_schedules_data_witness :
    ReceiveOk {} { MacLowState.initial with
        now := 100, self := 1, sifs := 3, channelAccessManagers := [0],
        ctsTimeoutEvent := some { due := 120, handler := .CtsTimeout },
        currentPacket := some { first := { hdr := { type := .qosData, addr1 := 2 } } },
        currentTxop := some { id := 7, isQosTxop := true } }
      { hdr := { type := .ctlDmgCts, addr1 := 1, addr2 := 2, duration := 50 } } 0 {} false
      = .ok { MacLowState.initial with
        now := 100, self := 1, sifs := 3, channelAccessManagers := [0],
        sendDataEvent := some { due := 103, handler := .SendDataAfterCts 50000 },
        currentPacket := some { first := { hdr := { type := .qosData, addr1 := 2 } } },
        currentTxop := some { id := 7, isQosTxop := true },
        trace := [Call.ReportRxOk 2, Call.ReportRtsOk 2, Call.NotifyCtsTimeoutResetNow 0] } :=
  C7_cts_cancels_timeout_and_schedules_data {}
    { MacLowState.initial with
        now := 100, self := 1, sifs := 3, channelAccessManagers := [0],
        ctsTimeoutEvent := some { due := 120, handler := .CtsTimeout },
        currentPacket := some { first := { hdr := { type := .qosData, addr1 := 2 } } },
        currentTxop := some { id := 7, isQosTxop := true } }
    { hdr := { type := .ctlDmgCts, addr1 := 1, addr2 := 2, duration := 50 } } 0 {}
    { due := 120, handler := .CtsTimeout }
    { first := { hdr := { type := .qosData, addr1 := 2 } } }
    (Or.inr rfl) rfl rfl rfl (by decide) rfl

/-- C8: `ReceiveOk` on a non-aggregated RTS (in a state where the handler's own
assertions hold: NAV start not in the future, no deferred CTS pending) schedules
the deferred CTS - `SendDmgCtsAfterRts` on 802.11ad/ay, `SendCtsAfterRts`
otherwise, exactly one SIFS later, addressed to the RTS sender and carrying the
RTS duration - if and only if `IsNavZero ()` held immediately before the frame was
processed and the RTS's addr1 is this station; in every other case no CTS is
scheduled.  An RTS addressed to self leaves the NAV record unchanged. -/
theorem C8_rts_schedules_cts_iff_nav_zero_and_for_self (env : Env) (s : MacLowState)
    (mpdu : WifiMacQueueItem) (rxSnr : Nat) (txVector : WifiTxVector)
    (hrts : mpdu.hdr.type = .ctlRts)
    (hnav : s.lastNavStart ≤ s.now) (hcts : s.sendCtsEvent = none) :
    ∃ s1, ReceiveOk env s mpdu rxSnr txVector false = .ok s1 ∧
      s1.sendCtsEvent =
        (if IsNavZero s = true ∧ mpdu.hdr.addr1 = s.self then
          some { due := s.now + s.sifs,
                 handler :=
                   if env.standard = .s80211ad ∨ env.standard = .s80211ay then
                     .SendDmgCtsAfterRts mpdu.hdr.addr2 mpdu.hdr.GetDuration txVector rxSnr
                   else .SendCtsAfterRts mpdu.hdr.addr2 mpdu.hdr.GetDuration txVector rxSnr }
         else none) ∧
      (s1.sendCtsEvent.isSome = true ↔ (IsNavZero s = true ∧ mpdu.hdr.addr1 = s.self)) ∧
      (mpdu.hdr.addr1 = s.self →
        s1.lastNavStart = s.lastNavStart ∧ s1.lastNavDuration = s.lastNavDuration) := by
  have hpoll : mpdu.hdr.IsCfPoll = false := by simp [WifiMacHeader.IsCfPoll, hrts]
  have hend : mpdu.hdr.IsCfEnd = false := by simp [WifiMacHeader.IsCfEnd, hrts]
  have hisrts : mpdu.hdr.IsRts = true := by simp [WifiMacHeader.IsRts, hrts]
  by_cases hself : mpdu.hdr.addr1 = s.self
  · unfold ReceiveOk
    simp only [NotifyNav_addressed_to_self env s mpdu hnav hpoll hend hself, hisrts, if_true,
      receiveRts, Bool.false_eq_true, if_false, hself, beq_self_eq_true, Bool.and_true, hcts,
      Option.isSome_none, MacLowState.call, and_true]
    by_cases hz : IsNavZero s = true
    · simp only [hz, if_true]
      by_cases hstd : env.standard = .s80211ad ∨ env.standard = .s80211ay
      · have hb : (env.standard == .s80211ad || env.standard == .s80211ay) = true := by
          rcases hstd with h | h <;> simp [h]
        simp only [hb, if_true, hstd]
        split <;> exact ⟨_, rfl, rfl, by simp, fun _ => ⟨rfl, rfl⟩⟩
      · have hb : (env.standard == .s80211ad || env.standard == .s80211ay) = false := by
          rw [Bool.eq_false_iff]
          intro h
          apply hstd
          simpa using h
        simp only [hb, Bool.false_eq_true, if_false, hstd]
        exact ⟨_, rfl, rfl, by simp, fun _ => ⟨rfl, rfl⟩⟩
    · simp only [hz, if_false]
      exact ⟨_, rfl, hcts, by simp [hcts], fun _ => ⟨rfl, rfl⟩⟩
  · obtain ⟨s1, h1, h2⟩ : ∃ s1, NotifyNav env s mpdu = .ok s1 ∧ s1.sendCtsEvent = none := by
      unfold NotifyNav
      simp only [hnav, not_true_eq_false, if_false, hpoll, hend, Bool.false_and,
        Bool.false_eq_true]
      split
      · exact ⟨_, rfl, hcts⟩
      · have hne : (mpdu.hdr.addr1 != s.self) = true := by simpa using hself
        simp only [hne, if_true]
        have hd : (DoNavStartNow s mpdu.hdr.GetDuration).2.sendCtsEvent = none := by
          unfold DoNavStartNow
          simp only [MacLowState.call]
          split <;> exact hcts
        split
        · exact ⟨_, rfl, hcts⟩
        · split
          · exact ⟨_, rfl, hd⟩
          · exact ⟨_, rfl, hd⟩
    have hselfs1 : (mpdu.hdr.addr1 == s1.self) = false := by
      have : s1.self = s.self := by
        have h1' := h1
        unfold NotifyNav at h1'
        simp only [hnav, not_true_eq_false, if_false, hpoll, hend, Bool.false_and,
          Bool.false_eq_true] at h1'
        split at h1'
        · cases h1'; rfl
        · split at h1'
          · split at h1'
            · cases h1'; rfl
            · split at h1'
              · cases h1'
                simp only [DoNavStartNow, MacLowState.call]
                split <;> rfl
              · cases h1'
                simp only [DoNavStartNow, MacLowState.call]
                split <;> rfl
          · cases h1'; rfl
      rw [this]
      simpa using hself
    refine ⟨s1, ?_, ?_, ?_, fun h => absurd h hself⟩
    · unfold ReceiveOk
      simp only [h1, hisrts, if_true, receiveRts, Bool.false_eq_true, if_false, hselfs1,
        Bool.and_false]
    · simp [h2, hself]
    · simp [h2, hself]


/-- Witness for C8: an RTS for station 1 arrives at time 100 while the NAV (busy
until 40) is zero; the DMG CTS is scheduled for time 103. -/
theorem C8_rts_schedules_cts_iff_nav_zero_and_for_self_witness :
    ∃ s1, ReceiveOk {} { MacLowState.initial with
        now := 100, self := 1, sifs := 3, lastNavStart := 10, lastNavDuration := 30 }
        { hdr := { type := .ctlRts, addr1 := 1, addr2 := 2, duration := 50 } } 0 {} false
        = .ok s1 ∧
      s1.sendCtsEvent =
        (if IsNavZero { MacLowState.initial with
              now := 100, self := 1, sifs := 3, lastNavStart := 10, lastNavDuration := 30 } = true
            ∧ (1 : Nat) = 1 then
          some { due := 100 + 3,
                 handler :=
                   if WifiPhyStandard.s80211ad = .s80211ad ∨ WifiPhyStandard.s80211ad = .s80211ay then
                     .SendDmgCtsAfterRts 2 50000 {} 0
                   else .SendCtsAfterRts 2 50000 {} 0 }
         else none) ∧
      (s1.sendCtsEvent.isSome = true ↔
        (IsNavZero { MacLowState.initial with
              now := 100, self := 1, sifs := 3, lastNavStart := 10, lastNavDuration := 30 } = true
          ∧ (1 : Nat) = 1)) ∧
      ((1 : Nat) = 1 → s1.lastNavStart = 10 ∧ s1.lastNavDuration = 30) :=
  C8_rts_schedules_cts_iff_nav_zero_and_for_self {}
    { MacLowState.initial with
        now := 100, self := 1, sifs := 3, lastNavStart := 10, lastNavDuration := 30 }
    { hdr := { type := .ctlRts, addr1 := 1, addr2 := 2, duration := 50 } } 0 {}
    rfl (by decide) rfl

/-- C10: `ReceiveOk` on an Ack with addr1 = self, received while the Normal-Ack
timeout is armed and the tx parameters require a normal ack (with active PSDU
`psdu` and owner `txop`, NAV start not in the future), cancels that timeout,
invokes the owner's `GotAck` exactly once and `MissedAck` never, clears
`m_currentPacket`, and performs exactly one continuation: it schedules
`WaitIfsAfterEndTxFragment` (which calls `StartNextFragment`) after RIFS/SIFS if a
next fragment exists; else schedules `WaitIfsAfterEndTxPacket` (which calls
`StartNextPacket`) after RIFS/SIFS if the PSDU is QoS data, the owner is a
`QosTxop` with strictly positive TXOP limit and the remaining transmission time
exceeds SIFS (`canStartNextPacket`); else calls `TerminateTxop` if the owner is a
`QosTxop`; else nothing.  RIFS is used when the station manager permits it, SIFS
otherwise. -/
theorem C10_ack_reports_success_and_continues (env : Env) (s : MacLowState)
    (mpdu : WifiMacQueueItem) (rxSnr : Nat) (txVector : WifiTxVector) (ampduSubframe : Bool)
    (e : Event) (psdu : WifiPsdu) (txop : Txop)
    (hack : mpdu.hdr.type = .ctlAck) (hself : mpdu.hdr.addr1 = s.self)
    (htimer : s.normalAckTimeoutEvent = some e) (hwait : s.txParams.waitAck = .normal)
    (hp : s.currentPacket = some psdu) (ht : s.currentTxop = some txop)
    (hnav : s.lastNavStart ≤ s.now) :
    ReceiveOk env s mpdu rxSnr txVector ampduSubframe = .ok { s with
      normalAckTimeoutEvent := none,
      currentPacket := none,
      waitIfsEvent :=
        if s.txParams.HasNextPacket = true then
          some { due := s.now + (if env.rifsPermitted = true then s.rifs else s.sifs),
                 handler := .WaitIfsAfterEndTxFragment }
        else if canStartNextPacket s psdu txop = true then
          some { due := s.now + (if env.rifsPermitted = true then s.rifs else s.sifs),
                 handler := .WaitIfsAfterEndTxPacket }
        else s.waitIfsEvent,
      detached :=
        if s.txParams.HasNextPacket = true then detach s.waitIfsEvent s.detached
        else if canStartNextPacket s psdu txop = true then detach s.waitIfsEvent s.detached
        else s.detached,
      trace := s.trace
        ++ (if s.txParams.HasNextPacket = true then []
            else [Call.ReportRxOk psdu.GetAddr1, Call.ReportDataOk psdu.GetAddr1])
        ++ s.channelAccessManagers.map (fun m => Call.NotifyAckTimeoutResetNow m)
        ++ [Call.GotAck txop.id]
        ++ (if s.txParams.HasNextPacket = true then []
            else if canStartNextPacket s psdu txop = true then []
            else if txop.isQosTxop = true then [Call.TerminateTxop txop.id]
            else []) } := by
  have hpoll : mpdu.hdr.IsCfPoll = false := by simp [WifiMacHeader.IsCfPoll, hack]
  have hend : mpdu.hdr.IsCfEnd = false := by simp [WifiMacHeader.IsCfEnd, hack]
  have hrts : mpdu.hdr.IsRts = false := by simp [WifiMacHeader.IsRts, hack]
  have hc : (mpdu.hdr.IsCts || mpdu.hdr.IsDmgCts) = false := by
    simp [WifiMacHeader.IsCts, WifiMacHeader.IsDmgCts, hack]
  have hisack : mpdu.hdr.IsAck = true := by simp [WifiMacHeader.IsAck, hack]
  have hmust : s.txParams.MustWaitNormalAck = true := by
    simp [MacLowTransmissionParameters.MustWaitNormalAck, hwait]
  unfold ReceiveOk
  simp only [NotifyNav_addressed_to_self env s mpdu hnav hpoll hend hself, hrts,
    Bool.false_eq_true, if_false, hc, Bool.false_and, hisack, hself, beq_self_eq_true, htimer,
    Option.isSome_some, hmust, Bool.and_self, if_true, receiveAck, hp]
  cases hn : s.txParams.HasNextPacket
  · have hcan : ∀ s1 : MacLowState, s1.sifs = s.sifs →
        canStartNextPacket s1 psdu txop = canStartNextPacket s psdu txop := by
      intro s1 h
      simp [canStartNextPacket, h]
    cases hq : canStartNextPacket s psdu txop
    · cases hqt : txop.isQosTxop
      · simp [NotifyAckTimeoutResetNow, MacLowState.call, ht, hp, hq, hcan, hqt, hn]
      · simp [NotifyAckTimeoutResetNow, MacLowState.call, ht, hp, hq, hcan, hqt, hn]
    · simp [NotifyAckTimeoutResetNow, MacLowState.call, ht, hp, hq, hcan, scheduleWaitIfs, hn]
  · simp [NotifyAckTimeoutResetNow, MacLowState.call, ht, scheduleWaitIfs, hn]


/-- Witness for C10: an Ack for station 1 arrives at time 100; the PSDU is QoS
data owned by a `QosTxop` whose TXOP limit is zero, so the TXOP is terminated. -/
theorem C10_ack_reports_success_and_continues_witness :
    ReceiveOk {} { MacLowState.initial with
        now := 100, self := 1, sifs := 3, channelAccessManagers := [0],
        normalAckTimeoutEvent := some { due := 120, handler := .NormalAckTimeout },
        txParams := { waitAck := .normal },
        currentPacket := some { first := { hdr := { type := .qosData, addr1 := 2 } } },
        currentTxop := some { id := 7, isQosTxop := true } }
      { hdr := { type := .ctlAck, addr1 := 1 } } 0 {} false
      = .ok { MacLowState.initial with
        now := 100, self := 1, sifs := 3, channelAccessManagers := [0],
        txParams := { waitAck := .normal },
        currentTxop := some { id := 7, isQosTxop := true },
        trace := [Call.ReportRxOk 2, Call.ReportDataOk 2, Call.NotifyAckTimeoutResetNow 0,
                  Call.GotAck 7, Call.TerminateTxop 7] } :=
  C10_ack_reports_success_and_continues {}
    { MacLowState.initial with
        now := 100, self := 1, sifs := 3, channelAccessManagers := [0],
        normalAckTimeoutEvent := some { due := 120, handler := .NormalAckTimeout },
        txParams := { waitAck := .normal },
        currentPacket := some { first := { hdr := { type := .qosData, addr1 := 2 } } },
        currentTxop := some { id := 7, isQosTxop := true } }
    { hdr := { type := .ctlAck, addr1 := 1 } } 0 {} false
    { due := 120, handler := .NormalAckTimeout }
    { first := { hdr := { type := .qosData, addr1 := 2 } } }
    { id := 7, isQosTxop := true }
    rfl rfl rfl rfl rfl rfl (by decide)

/-! ## The three completion timeouts -/

theorem ForwardDown_keeps_timeouts (env : Env) (s : MacLowState) (psdu : WifiPsdu)
    (txVector : WifiTxVector) :
    (ForwardDown env s psdu txVector).ctsTimeoutEvent = s.ctsTimeoutEvent ∧
    (ForwardDown env s psdu txVector).normalAckTimeoutEvent = s.normalAckTimeoutEvent ∧
    (ForwardDown env s psdu txVector).blockAckTimeoutEvent = s.blockAckTimeoutEvent := by
  unfold ForwardDown
  simp only [MacLowState.call]
  split_ifs <;> exact ⟨rfl, rfl, rfl⟩

/-- An immediate Block-Ack response (`immediate = true`) leaves the three
completion timeouts as they are: only the delayed response arms one. -/
theorem SendBlockAckResponse_immediate_keeps_timeouts (env : Env) (s s1 : MacLowState)
    (blockAckType : Nat) (originator : Mac48Address) (duration : Time) (mode rxSnr : Nat)
    (h : SendBlockAckResponse env s blockAckType originator true duration mode rxSnr = .ok s1) :
    s1.ctsTimeoutEvent = s.ctsTimeoutEvent ∧
    s1.normalAckTimeoutEvent = s.normalAckTimeoutEvent ∧
    s1.blockAckTimeoutEvent = s.blockAckTimeoutEvent := by
  unfold SendBlockAckResponse at h
  split at h
  · cases h
  · simp only [if_true, Bool.not_true, Bool.false_eq_true, if_false] at h
    split at h
    · cases h
    · cases h
      exact ForwardDown_keeps_timeouts _ _ _ _



/-! ## Claims C11 and C12: the contiguous flush -/

theorem unfragmented_iff (m : Mpdu) :
    m.unfragmented = true ↔ m.fragNum = 0 ∧ m.moreFragments = false ∧ m.seqNum < 4096 := by
  cases hm : m.moreFragments <;> simp [Mpdu.unfragmented, hm]

theorem GetSequenceControl_unfragmented (m : Mpdu) (h : m.unfragmented = true) :
    GetSequenceControl m = m.seqNum * 16 := by
  obtain ⟨h1, _, h3⟩ := (unfragmented_iff m).1 h
  simp only [GetSequenceControl, h1, Nat.or_zero, shiftLeft_four]
  omega

theorem untilFirstLostLoop_head (x : Mpdu) (l : List Mpdu) (g : Nat) (log : List Mpdu)
    (hg : g = GetSequenceControl x) (hm : x.moreFragments = false) :
    untilFirstLostLoop (x :: l) (x :: l) g log
      = untilFirstLostLoop l l ((g + 16) &&& 0xfff0) (log ++ [x]) := by
  rw [untilFirstLostLoop]
  simp [hg, hm]

theorem untilFirstLostLoop_run (s0 : Nat) (pay : Nat → Nat) (rest : List Mpdu) :
    ∀ (k i : Nat) (log : List Mpdu),
      (∀ x ∈ rest.head?, x.unfragmented = true ∧ x.seqNum ≠ (s0 + (i + k)) % 4096) →
      untilFirstLostLoop ((List.range' i k).map (mkMpdu s0 pay) ++ rest)
          ((List.range' i k).map (mkMpdu s0 pay) ++ rest) ((s0 + i) % 4096 * 16) log
        = (rest, (s0 + (i + k)) % 4096 * 16, log ++ (List.range' i k).map (mkMpdu s0 pay)) := by
  intro k
  induction k with
  | zero =>
    intro i log hrest
    cases rest with
    | nil => simp [untilFirstLostLoop]
    | cons x r =>
      have hx := hrest x (by simp)
      have hc := GetSequenceControl_unfragmented x hx.1
      have hne : ¬ (s0 + i) % 4096 * 16 = x.seqNum * 16 := by
        have := hx.2
        simp only [Nat.add_zero] at this
        omega
      simp [untilFirstLostLoop, hc, hne]
  | succ k ih =>
    intro i log hrest
    have hg : ((s0 + i) % 4096 * 16 + 16) &&& 0xfff0 = (s0 + (i + 1)) % 4096 * 16 := by
      rw [and_fff0]; omega
    have h' : ∀ x ∈ rest.head?, x.unfragmented = true ∧ x.seqNum ≠ (s0 + (i + 1 + k)) % 4096 := by
      intro x hx
      have := hrest x hx
      have e : i + 1 + k = i + (k + 1) := by omega
      rw [e]; exact this
    have := ih (i + 1) (log ++ [mkMpdu s0 pay i]) h'
    simp only [List.range'_succ, List.map_cons, List.cons_append]
    rw [untilFirstLostLoop_head _ _ _ _ (GetSequenceControl_mkMpdu s0 pay i).symm rfl, hg, this]
    have e : i + 1 + k = i + (k + 1) := by omega
    simp [e]

/-- C11. `RxCompleteBufferedPacketsUntilFirstLost` on an agreement with window start
`s` whose buffer begins with the unfragmented MPDUs of sequence numbers
`s, s+1, …, s+k-1` (mod 4096), followed by nothing or by an unfragmented MPDU
whose sequence number is not `s+k`, hands exactly those `k` MPDUs to the rx
callback, in that order, removes them from the buffer, sets the window start
to `(s+k) mod 4096` and leaves the later entries in place; for `k = 0` nothing
changes. -/
theorem C11_contiguous_prefix_is_flushed (s B k : Nat) (pay : Nat → Nat)
    (rest log : List Mpdu) (hs : s < 4096)
    (hrest : ∀ x ∈ rest.head?, x.unfragmented = true ∧ x.seqNum ≠ (s + k) % 4096) :
    RxCompleteBufferedPacketsUntilFirstLost
        { agreement := some { startingSeq := s, bufferSize := B,
                              buffer := (List.range k).map (mkMpdu s pay) ++ rest },
          delivered := log }
      = { agreement := some { startingSeq := (s + k) % 4096, bufferSize := B, buffer := rest },
          delivered := log ++ (List.range k).map (mkMpdu s pay) } := by
  have h := untilFirstLostLoop_run s pay rest k 0 log (by simpa using hrest)
  have hs' : s % 4096 = s := Nat.mod_eq_of_lt hs
  simp only [Nat.add_zero, Nat.zero_add, hs', ← List.range_eq_range'] at h
  simp only [RxCompleteBufferedPacketsUntilFirstLost, untilFirstLost, startControl _ _ _ hs, h,
    Agreement.SetStartingSequenceControl, shiftRight_four, and_0fff]
  congr 3
  omega

theorem C11_contiguous_prefix_is_flushed_witness :
    RxCompleteBufferedPacketsUntilFirstLost
        { agreement := some { startingSeq := 4094, bufferSize := 8,
                              buffer := (List.range 3).map (mkMpdu 4094 (fun j => 70 + j))
                                ++ [{ seqNum := 3, fragNum := 0, moreFragments := false,
                                      payload := 9 }] },
          delivered := [] }
      = { agreement := some { startingSeq := (4094 + 3) % 4096, bufferSize := 8,
                              buffer := [{ seqNum := 3, fragNum := 0, moreFragments := false,
                                           payload := 9 }] },
          delivered := [] ++ (List.range 3).map (mkMpdu 4094 (fun j => 70 + j)) } :=
  C11_contiguous_prefix_is_flushed 4094 8 3 (fun j => 70 + j)
    [{ seqNum := 3, fragNum := 0, moreFragments := false, payload := 9 }] [] (by decide)
    (by decide)

theorem pendingRun_append (P : List Mpdu) :
    ∀ (g : Nat) (x : Mpdu), pendingRun g P = true →
      (g + P.length) % 65536 = GetSequenceControl x → x.moreFragments = true → g < 65536 →
      pendingRun g (P ++ [x]) = true := by
  induction P with
  | nil =>
    intro g x _ h1 h2 hg
    simp only [List.length_nil, Nat.add_zero] at h1
    simp [pendingRun, ← h1, h2, Nat.mod_eq_of_lt hg]
  | cons y P ih =>
    intro g x h h1 h2 hg
    simp only [pendingRun, Bool.and_eq_true, decide_eq_true_eq] at h
    simp only [List.cons_append, pendingRun, Bool.and_eq_true, decide_eq_true_eq]
    refine ⟨⟨h.1.1, h.1.2⟩, ih _ x h.2 ?_ h2 (Nat.mod_lt _ (by norm_num))⟩
    rw [← h1]
    simp only [List.length_cons]
    omega

theorem untilFirstLostLoop_pending (P : List Mpdu) :
    ∀ (g : Nat) (T L log : List Mpdu), g < 65536 → pendingRun g P = true →
      untilFirstLostLoop (P ++ T) L g log
        = untilFirstLostLoop T L ((g + P.length) % 65536) log := by
  induction P with
  | nil => intro g T L log hg _; simp [Nat.mod_eq_of_lt hg]
  | cons y P ih =>
    intro g T L log hg h
    simp only [pendingRun, Bool.and_eq_true, decide_eq_true_eq] at h
    have e : untilFirstLostLoop (y :: (P ++ T)) L g log
        = untilFirstLostLoop (P ++ T) L ((g + 1) % 65536) log := by
      rw [untilFirstLostLoop]
      simp [h.1.1, h.1.2]
    rw [List.cons_append, e, ih _ T L log (Nat.mod_lt _ (by norm_num)) h.2]
    congr 1
    simp only [List.length_cons]
    omega

theorem untilFirstLostLoop_stops (T L : List Mpdu) (g : Nat) (log : List Mpdu)
    (hT : ∀ x ∈ T.head?, g ≠ GetSequenceControl x) :
    untilFirstLostLoop T L g log = (L, g, log) := by
  cases T with
  | nil => simp [untilFirstLostLoop]
  | cons x r =>
    have := hT x (by simp)
    simp [untilFirstLostLoop, this]

theorem untilFirstLostLoop_again_pending (P T : List Mpdu) (g0 : Nat) (log : List Mpdu)
    (h0 : g0 % 16 = 0) (hg0 : g0 < 65536) (hP : pendingRun g0 P = true)
    (hT : ∀ x ∈ T.head?, (g0 + P.length) % 65536 ≠ GetSequenceControl x) :
    (untilFirstLostLoop (P ++ T) (P ++ T) (((g0 + P.length) % 65536) &&& 0xfff0) log).1 = P ++ T ∧
    (untilFirstLostLoop (P ++ T) (P ++ T) (((g0 + P.length) % 65536) &&& 0xfff0) log).2.2 = log ∧
    (((untilFirstLostLoop (P ++ T) (P ++ T) (((g0 + P.length) % 65536) &&& 0xfff0) log).2.1
        >>> 4) &&& 0x0fff) = ((((g0 + P.length) % 65536) >>> 4) &&& 0x0fff) := by
  by_cases hsame : ((g0 + P.length) % 65536) &&& 0xfff0 = g0
  · rw [hsame, untilFirstLostLoop_pending P g0 T (P ++ T) log hg0 hP,
      untilFirstLostLoop_stops T (P ++ T) _ log hT]
    exact ⟨rfl, rfl, rfl⟩
  · cases P with
    | nil =>
      exfalso
      apply hsame
      simp only [List.length_nil, Nat.add_zero, and_fff0]
      omega
    | cons y P =>
      simp only [pendingRun, Bool.and_eq_true, decide_eq_true_eq] at hP
      have hne : ¬ ((g0 + (y :: P).length) % 65536) &&& 0xfff0 = GetSequenceControl y := by
        rw [← hP.1.1]; exact hsame
      have e : untilFirstLostLoop (y :: (P ++ T)) (y :: (P ++ T))
          (((g0 + (y :: P).length) % 65536) &&& 0xfff0) log
          = (y :: (P ++ T), ((g0 + (y :: P).length) % 65536) &&& 0xfff0, log) := by
        rw [untilFirstLostLoop, if_neg hne]
      rw [List.cons_append, e]
      refine ⟨rfl, rfl, ?_⟩
      simp only [and_fff0, shiftRight_four, and_0fff]
      omega

theorem untilFirstLostLoop_again (i : List Mpdu) :
    ∀ (P : List Mpdu) (g0 : Nat) (log : List Mpdu), g0 % 16 = 0 → g0 < 65536 →
      pendingRun g0 P = true →
      (untilFirstLostLoop
          (untilFirstLostLoop i (P ++ i) ((g0 + P.length) % 65536) log).1
          (untilFirstLostLoop i (P ++ i) ((g0 + P.length) % 65536) log).1
          ((untilFirstLostLoop i (P ++ i) ((g0 + P.length) % 65536) log).2.1 &&& 0xfff0)
          (untilFirstLostLoop i (P ++ i) ((g0 + P.length) % 65536) log).2.2).1
        = (untilFirstLostLoop i (P ++ i) ((g0 + P.length) % 65536) log).1 ∧
      (untilFirstLostLoop
          (untilFirstLostLoop i (P ++ i) ((g0 + P.length) % 65536) log).1
          (untilFirstLostLoop i (P ++ i) ((g0 + P.length) % 65536) log).1
          ((untilFirstLostLoop i (P ++ i) ((g0 + P.length) % 65536) log).2.1 &&& 0xfff0)
          (untilFirstLostLoop i (P ++ i) ((g0 + P.length) % 65536) log).2.2).2.2
        = (untilFirstLostLoop i (P ++ i) ((g0 + P.length) % 65536) log).2.2 ∧
      (((untilFirstLostLoop
          (untilFirstLostLoop i (P ++ i) ((g0 + P.length) % 65536) log).1
          (untilFirstLostLoop i (P ++ i) ((g0 + P.length) % 65536) log).1
          ((untilFirstLostLoop i (P ++ i) ((g0 + P.length) % 65536) log).2.1 &&& 0xfff0)
          (untilFirstLostLoop i (P ++ i) ((g0 + P.length) % 65536) log).2.2).2.1 >>> 4) &&& 0x0fff)
        = (((untilFirstLostLoop i (P ++ i) ((g0 + P.length) % 65536) log).2.1 >>> 4) &&& 0x0fff) := by
  induction i with
  | nil =>
    intro P g0 log h0 hg0 hP
    have := untilFirstLostLoop_again_pending P [] g0 log h0 hg0 hP (by simp)
    simpa [untilFirstLostLoop] using this
  | cons x rest ih =>
    intro P g0 log h0 hg0 hP
    by_cases hg : (g0 + P.length) % 65536 = GetSequenceControl x
    · by_cases hm : x.moreFragments = true
      · have hP' := pendingRun_append P g0 x hP hg hm hg0
        have := ih (P ++ [x]) g0 log h0 hg0 hP'
        have e1 : (g0 + (P ++ [x]).length) % 65536 = ((g0 + P.length) % 65536 + 1) % 65536 := by
          simp only [List.length_append, List.length_singleton]; omega
        have e2 : P ++ [x] ++ rest = P ++ x :: rest := by simp
        rw [e1, e2] at this
        have e3 : untilFirstLostLoop (x :: rest) (P ++ x :: rest) ((g0 + P.length) % 65536) log
            = untilFirstLostLoop rest (P ++ x :: rest) (((g0 + P.length) % 65536 + 1) % 65536) log := by
          rw [untilFirstLostLoop]
          simp [hg, hm]
        rw [e3]
        exact this
      · have hn : (P ++ x :: rest).length - (x :: rest).length = P.length := by simp
        have ht : (P ++ x :: rest).take (P.length + 1) = P ++ [x] := by
          rw [List.take_append_eq_append_take]; simp
        have hd : (P ++ x :: rest).drop (P.length + 1) = rest := by
          rw [List.drop_append_eq_append_drop]; simp
        have e3 : untilFirstLostLoop (x :: rest) (P ++ x :: rest) ((g0 + P.length) % 65536) log
            = untilFirstLostLoop rest rest ((((g0 + P.length) % 65536 + 16) &&& 0xfff0)) (log ++ (P ++ [x])) := by
          rw [untilFirstLostLoop]
          simp only [hg, hm, if_true, Bool.false_eq_true, if_false, hn, ht, hd]
        rw [e3]
        have hz : (((g0 + P.length) % 65536 + 16) &&& 0xfff0) % 16 = 0 := by
          rw [and_fff0]; omega
        have hlt : (((g0 + P.length) % 65536 + 16) &&& 0xfff0) < 65536 := by
          rw [and_fff0]; omega
        have := ih [] _ (log ++ (P ++ [x])) hz hlt (by simp [pendingRun])
        simp only [List.length_nil, Nat.add_zero, List.nil_append, Nat.mod_eq_of_lt hlt] at this
        exact this
    · have e3 : untilFirstLostLoop (x :: rest) (P ++ x :: rest) ((g0 + P.length) % 65536) log
          = (P ++ x :: rest, (g0 + P.length) % 65536, log) := by
        rw [untilFirstLostLoop]
        simp only [hg, if_false]
      rw [e3]
      exact untilFirstLostLoop_again_pending P (x :: rest) g0 log h0 hg0 hP
        (by intro y hy; simp at hy; subst hy; exact hg)

theorem untilFirstLost_idempotent (a : Agreement) (log : List Mpdu) :
    untilFirstLost (untilFirstLost a log).1 (untilFirstLost a log).2 = untilFirstLost a log := by
  have h0 : a.GetStartingSequenceControl % 16 = 0 := by
    simp only [Agreement.GetStartingSequenceControl, and_fff0]; omega
  have hlt : a.GetStartingSequenceControl < 65536 := by
    simp only [Agreement.GetStartingSequenceControl, and_fff0]; omega
  have h := untilFirstLostLoop_again a.buffer [] a.GetStartingSequenceControl log h0 hlt
    (by simp [pendingRun])
  simp only [List.length_nil, Nat.add_zero, List.nil_append, Nat.mod_eq_of_lt hlt] at h
  obtain ⟨h1, h2, h3⟩ := h
  have hctl : ∀ G : Nat, ((((G >>> 4) &&& 0x0fff) <<< 4) &&& 0xfff0) = G &&& 0xfff0 := by
    intro G
    simp only [and_fff0, shiftRight_four, and_0fff, shiftLeft_four]
    omega
  simp only [untilFirstLost, Agreement.SetStartingSequenceControl,
    Agreement.GetStartingSequenceControl, hctl]
  simp only [Agreement.GetStartingSequenceControl] at h1 h2 h3
  rw [h1, h2, h3]

/-- C12. A second call of `RxCompleteBufferedPacketsUntilFirstLost`, with no
admission in between, hands nothing to the rx callback and leaves the window
start and the buffer as the first call left them, whatever the buffer holds
(incomplete fragment runs at the window start included). -/
theorem C12_second_flush_changes_nothing (s : RxState) :
    RxCompleteBufferedPacketsUntilFirstLost (RxCompleteBufferedPacketsUntilFirstLost s)
      = RxCompleteBufferedPacketsUntilFirstLost s := by
  obtain ⟨ag, log⟩ := s
  cases ag with
  | none => simp [RxCompleteBufferedPacketsUntilFirstLost]
  | some a =>
    simp only [RxCompleteBufferedPacketsUntilFirstLost]
    rw [untilFirstLost_idempotent]


/-! ## The flush of the MPDUs that precede a new window start -/

theorem toUint16_tmod (z : Int) (h : 0 ≤ z) : toUint16 (Int.tmod z 4096) = z.toNat % 4096 := by
  rw [Int.tmod_eq_emod h (by norm_num)]
  unfold toUint16
  omega

theorem outOfWindowStart_eq (q B : Nat) (h : B ≤ q + 4097) :
    outOfWindowStart q B = (q + 4097 - B) % 4096 := by
  unfold outOfWindowStart
  rw [toUint16_tmod _ (by omega)]
  omega

theorem map_unfragmented (m : Mpdu) (hm : m.unfragmented = true) (s : Nat) (hs : s < 4096) :
    QosUtilsMapSeqControlToUniqueInteger (GetSequenceControl m) ((s + 2047) % 4096)
      = (seqOffset s m.seqNum + 2048) % 4096 * 16 := by
  have h3 := ((unfragmented_iff m).1 hm).2.2
  simp only [QosUtilsMapSeqControlToUniqueInteger, GetSequenceControl_unfragmented m hm, and_0fff,
    and_000f, shiftRight_four, seqOffset]
  omega

theorem map_start (s : Nat) :
    QosUtilsMapSeqControlToUniqueInteger (s * 16) ((s + 2047) % 4096) = 2048 * 16 := by
  simp only [QosUtilsMapSeqControlToUniqueInteger, and_0fff, and_000f, shiftRight_four]
  omega

theorem takeWhile_dropWhile_congr {α : Type} (p q : α → Bool) :
    ∀ (l : List α), (∀ x ∈ l, p x = q x) →
      l.takeWhile p = l.takeWhile q ∧ l.dropWhile p = l.dropWhile q := by
  intro l
  induction l with
  | nil => intro _; simp
  | cons x l ih =>
    intro h
    have hx := h x (List.mem_cons_self _ _)
    have ih' := ih (fun y hy => h y (List.mem_cons_of_mem _ hy))
    simp only [List.takeWhile_cons, List.dropWhile_cons, hx, ih'.1, ih'.2, and_self]

theorem takeWhile_dropWhile_sorted {α : Type} (R : α → α → Prop) (p : α → Bool)
    (h : ∀ x y, R x y → p y = true → p x = true) :
    ∀ (l : List α), l.Pairwise R →
      l.takeWhile p = l.filter p ∧ l.dropWhile p = l.filter (fun x => !p x) := by
  intro l
  induction l with
  | nil => intro _; simp
  | cons x l ih =>
    intro hp
    have hp' := List.pairwise_cons.1 hp
    have ih' := ih hp'.2
    by_cases hx : p x = true
    · simp [List.takeWhile_cons, List.dropWhile_cons, List.filter_cons, hx, ih'.1, ih'.2]
    · have hall : ∀ y ∈ l, ¬ p y = true := fun y hy hpy => hx (h x y (hp'.1 y hy) hpy)
      have h1 : l.filter p = [] := List.filter_eq_nil_iff.2 hall
      have h2 : l.filter (fun x => !p x) = l :=
        List.filter_eq_self.2 (fun y hy => by simpa using hall y hy)
      simp [List.takeWhile_cons, List.dropWhile_cons, List.filter_cons, hx, h1, h2]

theorem goToNextPacket_distinct (x : Mpdu) (rest : List Mpdu)
    (h : ∀ y ∈ rest.head?, GetSequenceControl x ≠ GetSequenceControl y) :
    goToNextPacket (x :: rest) rest (GetSequenceControl x)
      = (rest, rest, match rest with
          | [] => GetSequenceControl x
          | y :: _ => GetSequenceControl y) := by
  cases rest with
  | nil => simp [goToNextPacket]
  | cons y r =>
    have := h y (by simp)
    simp [goToNextPacket, List.dropWhile_cons, this]

theorem smallerSequenceLoop_distinct (e ms : Nat) :
    ∀ (i : List Mpdu) (fuel guard : Nat) (log : List Mpdu),
      (∀ x ∈ i, x.moreFragments = false) →
      i.Pairwise (fun x y => GetSequenceControl x ≠ GetSequenceControl y) →
      (∀ x ∈ i.head?, guard = GetSequenceControl x) → i.length < fuel →
      smallerSequenceLoop e ms fuel i i guard log
        = .ok (i.dropWhile (fun x =>
                  decide (QosUtilsMapSeqControlToUniqueInteger (GetSequenceControl x) e < ms)),
               log ++ i.takeWhile (fun x =>
                  decide (QosUtilsMapSeqControlToUniqueInteger (GetSequenceControl x) e < ms))) := by
  intro i
  induction i with
  | nil =>
    intro fuel guard log _ _ _ hf
    cases fuel with
    | zero => simp at hf
    | succ f => simp [smallerSequenceLoop]
  | cons x rest ih =>
    intro fuel guard log hm hp hg hf
    cases fuel with
    | zero => simp at hf
    | succ f =>
      have hgx := hg x (by simp)
      have hmx := hm x (List.mem_cons_self _ _)
      have hp' := List.pairwise_cons.1 hp
      rw [smallerSequenceLoop]
      by_cases hc : QosUtilsMapSeqControlToUniqueInteger (GetSequenceControl x) e < ms
      · have hgo := goToNextPacket_distinct x rest (by
          intro y hy
          cases rest with
          | nil => simp at hy
          | cons z r =>
            simp at hy
            subst hy
            exact hp'.1 _ (List.mem_cons_self _ _))
        simp only [hc, if_true, hgx, hmx, Bool.false_eq_true, if_false, Nat.sub_self,
          Nat.zero_add, List.take_succ_cons, List.take_zero, List.drop_succ_cons, List.drop_zero,
          hgo]
        rw [ih f _ (log ++ [x]) (fun y hy => hm y (List.mem_cons_of_mem _ hy)) hp'.2
          (by
            intro y hy
            cases rest with
            | nil => simp at hy
            | cons z r => simp at hy; subst hy; rfl)
          (by simp only [List.length_cons] at hf; omega)]
        simp [List.takeWhile_cons, List.dropWhile_cons, hc]
      · simp [hc, List.takeWhile_cons, List.dropWhile_cons]

theorem withSmallerSequence_distinct (fuel seq : Nat) (a : Agreement) (log : List Mpdu)
    (hm : ∀ x ∈ a.buffer, x.moreFragments = false)
    (hp : a.buffer.Pairwise (fun x y => GetSequenceControl x ≠ GetSequenceControl y))
    (hf : a.buffer.length < fuel) :
    withSmallerSequence fuel seq a log
      = .ok ({ a with buffer := a.buffer.dropWhile (fun x =>
                decide (QosUtilsMapSeqControlToUniqueInteger (GetSequenceControl x)
                  ((a.startingSeq + 2047) % 4096)
                  < QosUtilsMapSeqControlToUniqueInteger seq ((a.startingSeq + 2047) % 4096))) },
             log ++ a.buffer.takeWhile (fun x =>
                decide (QosUtilsMapSeqControlToUniqueInteger (GetSequenceControl x)
                  ((a.startingSeq + 2047) % 4096)
                  < QosUtilsMapSeqControlToUniqueInteger seq ((a.startingSeq + 2047) % 4096)))) := by
  unfold withSmallerSequence
  simp only
  rw [smallerSequenceLoop_distinct _ _ a.buffer fuel _ log hm hp (by
    intro x hx
    cases h : a.buffer with
    | nil => rw [h] at hx; simp at hx
    | cons y r => rw [h] at hx; simp at hx; subst hx; rfl) hf]

/-- The MPDUs of an in-order, unfragmented buffer that precede the new start
`ns` are a prefix of the buffer, and `RxCompleteBufferedPacketsWithSmallerSequence`
with the sequence control of `ns` hands exactly that prefix to the rx callback. -/
theorem withSmallerSequence_flushes_old (fuel ns B : Nat) (buf log : List Mpdu) (hns : ns < 4096)
    (hu : ∀ x ∈ buf, x.unfragmented = true)
    (hp : buf.Pairwise (fun x y => QosUtilsIsOldPacket ns y.seqNum = true →
      QosUtilsIsOldPacket ns x.seqNum = true))
    (hd : buf.Pairwise (fun x y => x.seqNum ≠ y.seqNum))
    (hf : buf.length < fuel) :
    withSmallerSequence fuel (ns * 16) { startingSeq := ns, bufferSize := B, buffer := buf } log
      = .ok ({ startingSeq := ns, bufferSize := B,
               buffer := buf.filter (fun x => !QosUtilsIsOldPacket ns x.seqNum) },
             log ++ buf.filter (fun x => QosUtilsIsOldPacket ns x.seqNum)) := by
  have hm : ∀ x ∈ buf, x.moreFragments = false := fun x hx => ((unfragmented_iff x).1 (hu x hx)).2.1
  have hdist : buf.Pairwise (fun x y => GetSequenceControl x ≠ GetSequenceControl y) := by
    have hall : ∀ x ∈ buf, x ∈ buf := fun x hx => hx
    refine (List.Pairwise.and_mem.1 hd).imp ?_
    intro x y h
    obtain ⟨hx, hy, hne⟩ := h
    rw [GetSequenceControl_unfragmented x (hu x hx), GetSequenceControl_unfragmented y (hu y hy)]
    omega
  rw [withSmallerSequence_distinct fuel (ns * 16) _ log hm hdist hf]
  simp only [map_start ns]
  have hcongr := takeWhile_dropWhile_congr
    (fun x => decide (QosUtilsMapSeqControlToUniqueInteger (GetSequenceControl x)
      ((ns + 2047) % 4096) < 2048 * 16))
    (fun x => QosUtilsIsOldPacket ns x.seqNum) buf (by
      intro x hx
      show decide (QosUtilsMapSeqControlToUniqueInteger (GetSequenceControl x)
        ((ns + 2047) % 4096) < 2048 * 16) = QosUtilsIsOldPacket ns x.seqNum
      rw [map_unfragmented x (hu x hx) ns hns]
      simp only [QosUtilsIsOldPacket, seqOffset, decide_eq_decide]
      omega)
  have hsorted := takeWhile_dropWhile_sorted
    (fun x y => QosUtilsIsOldPacket ns y.seqNum = true → QosUtilsIsOldPacket ns x.seqNum = true)
    (fun x => QosUtilsIsOldPacket ns x.seqNum) (fun x y h => h) buf hp
  rw [hcongr.1, hcongr.2, hsorted.1, hsorted.2]

theorem storeMpdu_last (s B : Nat) (buf : List Mpdu) (m : Mpdu) (hs : s < 4096)
    (hu : ∀ x ∈ buf, x.unfragmented = true ∧ seqOffset s x.seqNum < seqOffset s m.seqNum)
    (hm : m.unfragmented = true) (hnew : seqOffset s m.seqNum < 2048) :
    storeMpdu { startingSeq := s, bufferSize := B, buffer := buf } m
      = { startingSeq := s, bufferSize := B, buffer := buf ++ [m] } := by
  have hall : ∀ x ∈ buf,
      decide (QosUtilsMapSeqControlToUniqueInteger (GetSequenceControl x) ((s + 2047) % 4096)
        < QosUtilsMapSeqControlToUniqueInteger (GetSequenceControl m) ((s + 2047) % 4096)) = true := by
    intro x hx
    have := hu x hx
    rw [map_unfragmented x this.1 s hs, map_unfragmented m hm s hs]
    simp only [decide_eq_true_eq]
    omega
  simp only [storeMpdu, List.takeWhile_eq_self_iff.2 hall, List.dropWhile_eq_nil_iff.2 hall]


/-! ## Claim C13: an admitted sequence number beyond the window -/

theorem GetWinEnd_eq (s B : Nat) (l : List Mpdu) (hB : 1 ≤ B) :
    ({ startingSeq := s, bufferSize := B, buffer := l } : Agreement).GetWinEnd
      = (s + B - 1) % 4096 := by
  unfold Agreement.GetWinEnd
  rw [toUint16_tmod _ (by simp only; omega)]
  simp only
  omega

theorem old_after_shift_mono (s q B x y : Nat)
    (hout : B ≤ (q + 4096 - s) % 4096) (hnew : (q + 4096 - s) % 4096 < 2048)
    (hs : s < 4096) (hq : q < 4096) (hx : x < 4096)
    (hlt : (x + 4096 - s) % 4096 < (y + 4096 - s) % 4096) (hyB : (y + 4096 - s) % 4096 < B) :
    2048 ≤ (y + 4096 - (q + 4097 - B) % 4096) % 4096 →
      2048 ≤ (x + 4096 - (q + 4097 - B) % 4096) % 4096 := by
  omega

theorem not_old_after_shift (s q B : Nat) (hB : 1 ≤ B)
    (hout : B ≤ (q + 4096 - s) % 4096) (hnew : (q + 4096 - s) % 4096 < 2048) (hq : q < 4096) :
    ¬ 2048 ≤ (q + 4096 - (q + 4097 - B) % 4096) % 4096 := by
  omega

theorem ReceiveMpdu_out_of_window (s B fuel : Nat) (buf log : List Mpdu) (m : Mpdu)
    (hs : s < 4096) (hB : 1 ≤ B)
    (hbuf : ∀ x ∈ buf, x.unfragmented = true ∧ seqOffset s x.seqNum < B)
    (hord : buf.Pairwise (fun x y => seqOffset s x.seqNum < seqOffset s y.seqNum))
    (hm : m.unfragmented = true) (hnew : seqOffset s m.seqNum < 2048)
    (hout : B ≤ seqOffset s m.seqNum) (hfuel : buf.length + 1 < fuel) :
    ReceiveMpdu true fuel
        { agreement := some { startingSeq := s, bufferSize := B, buffer := buf },
          delivered := log } m
      = .ok (true, RxCompleteBufferedPacketsUntilFirstLost
          { agreement := some
              { startingSeq := (m.seqNum + 4097 - B) % 4096, bufferSize := B,
                buffer := buf.filter (fun x =>
                  !QosUtilsIsOldPacket ((m.seqNum + 4097 - B) % 4096) x.seqNum) ++ [m] },
            delivered := log ++ buf.filter (fun x =>
              QosUtilsIsOldPacket ((m.seqNum + 4097 - B) % 4096) x.seqNum) }) := by
  have hm3 := ((unfragmented_iff m).1 hm).2.2
  have hold : QosUtilsIsOldPacket s (GetSequenceNumber m) = false := by
    simp only [QosUtilsIsOldPacket, GetSequenceNumber, decide_eq_false_iff_not]
    unfold seqOffset at hnew
    omega
  have hstore := storeMpdu_last s B buf m hs
    (fun x hx => ⟨(hbuf x hx).1, by have := (hbuf x hx).2; omega⟩) hm hnew
  have hwin : IsInWindow (GetSequenceNumber m) s B = false := by
    simp only [IsInWindow, GetSequenceNumber, decide_eq_false_iff_not]
    unfold seqOffset at hout
    omega
  have hdelta : ¬ toUint16 (Int.tmod ((GetSequenceNumber m : Int)
      - (({ startingSeq := s, bufferSize := B, buffer := buf ++ [m] } : Agreement).GetWinEnd : Nat)
      + 4096) 4096) = 0 := by
    rw [GetWinEnd_eq s B _ hB, toUint16_tmod _ (by simp only [GetSequenceNumber]; omega)]
    simp only [GetSequenceNumber]
    unfold seqOffset at hout hnew
    omega
  have hstart : toUint16 (Int.tmod ((GetSequenceNumber m : Int) - (B : Int) + 1 + 4096) 4096)
      = (m.seqNum + 4097 - B) % 4096 := by
    have := outOfWindowStart_eq m.seqNum B (by unfold seqOffset at hout hnew; omega)
    simpa [outOfWindowStart, GetSequenceNumber] using this
  have hns : (m.seqNum + 4097 - B) % 4096 < 4096 := Nat.mod_lt _ (by norm_num)
  have hu : ∀ x ∈ buf ++ [m], x.unfragmented = true := by
    intro x hx
    rcases List.mem_append.1 hx with h | h
    · exact (hbuf x h).1
    · simp at h; subst h; exact hm
  have hp : (buf ++ [m]).Pairwise (fun x y =>
      QosUtilsIsOldPacket ((m.seqNum + 4097 - B) % 4096) y.seqNum = true →
      QosUtilsIsOldPacket ((m.seqNum + 4097 - B) % 4096) x.seqNum = true) := by
    refine List.pairwise_append.2 ⟨?_, by simp, ?_⟩
    · refine (List.Pairwise.and_mem.1 hord).imp ?_
      intro x y h
      obtain ⟨hx, hy, hlt⟩ := h
      have hx3 := ((unfragmented_iff x).1 (hbuf x hx).1).2.2
      have hyB := (hbuf y hy).2
      simp only [QosUtilsIsOldPacket, decide_eq_true_eq]
      exact old_after_shift_mono s m.seqNum B x.seqNum y.seqNum hout hnew hs hm3 hx3 hlt hyB
    · intro x _ y hy
      simp at hy
      subst hy
      simp only [QosUtilsIsOldPacket, decide_eq_true_eq]
      intro h
      exact absurd h (not_old_after_shift s y.seqNum B hB hout hnew hm3)
  have hd : (buf ++ [m]).Pairwise (fun x y => x.seqNum ≠ y.seqNum) := by
    refine List.pairwise_append.2 ⟨?_, by simp, ?_⟩
    · refine hord.imp ?_
      intro x y hlt heq
      rw [heq] at hlt
      exact Nat.lt_irrefl _ hlt
    · intro x hx y hy heq
      simp at hy
      subst hy
      have := (hbuf x hx).2
      rw [heq] at this
      omega
  have hflush := withSmallerSequence_flushes_old fuel ((m.seqNum + 4097 - B) % 4096) B
    (buf ++ [m]) log hns hu hp hd (by simpa using hfuel)
  have hmold : QosUtilsIsOldPacket ((m.seqNum + 4097 - B) % 4096) m.seqNum = false := by
    simp only [QosUtilsIsOldPacket, decide_eq_false_iff_not]
    exact not_old_after_shift s m.seqNum B hB hout hnew hm3
  simp only [ReceiveMpdu, if_true, hold, Bool.not_false, hstore, hwin, hdelta, if_false, hstart,
    Agreement.SetStartingSequence, startControl _ _ _ hns, hflush,
    RxCompleteBufferedPacketsUntilFirstLost, List.filter_append, List.filter_cons,
    List.filter_nil, hmold, Bool.not_false, if_true, Bool.false_eq_true, List.append_nil]

/-- C13, as stated, fails when a sequence number is buffered twice: with window
start 0 and buffer size 4 the buffer holds two MPDUs of sequence number 1
(payloads 101 and 100); the admitted sequence number 9 moves the start to 6, the
flush hands the first copy to the rx callback and removes the second copy from
the buffer without delivering it. -/
theorem C13_second_copy_removed_undelivered :
    ReceiveMpdu true 100
        { agreement := some
            { startingSeq := 0, bufferSize := 4,
              buffer := [{ seqNum := 1, fragNum := 0, moreFragments := false, payload := 101 },
                         { seqNum := 1, fragNum := 0, moreFragments := false, payload := 100 }] },
          delivered := [] }
        { seqNum := 9, fragNum := 0, moreFragments := false, payload := 102 }
      = .ok (true,
          { agreement := some
              { startingSeq := 6, bufferSize := 4,
                buffer := [{ seqNum := 9, fragNum := 0, moreFragments := false, payload := 102 }] },
            delivered := [{ seqNum := 1, fragNum := 0, moreFragments := false,
                            payload := 101 }] }) := by
  decide

/-- C13, amended.  The buffer holds unfragmented MPDUs of the window
`[s, s + B)` in increasing sequence order, no sequence number twice, and
`ReceiveMpdu` (on a station with HT, VHT, HE, DMG or EDMG support, with fuel for
one loop iteration per buffered MPDU and two more) admits an unfragmented MPDU
`m` whose sequence number `q` is not old and lies outside the window.  Then the
call returns true; the window start is set to `(q - B + 1) mod 4096`; the
buffered MPDUs whose sequence number precedes that start are handed to the rx
callback, each once, in buffer order, which is increasing sequence order, and
are removed; the other buffered MPDUs followed by `m` are what the contiguous
flush `RxCompleteBufferedPacketsUntilFirstLost` then runs on, so that `m` is
delivered by it or stays buffered. -/
theorem C13_out_of_window_admission (s B fuel : Nat) (buf log : List Mpdu) (m : Mpdu)
    (hs : s < 4096) (hB : 1 ≤ B)
    (hbuf : ∀ x ∈ buf, x.unfragmented = true ∧ seqOffset s x.seqNum < B)
    (hord : buf.Pairwise (fun x y => seqOffset s x.seqNum < seqOffset s y.seqNum))
    (hm : m.unfragmented = true) (hnew : QosUtilsIsOldPacket s m.seqNum = false)
    (hout : IsInWindow m.seqNum s B = false) (hfuel : buf.length + 1 < fuel) :
    ∃ st, ReceiveMpdu true fuel
        { agreement := some { startingSeq := s, bufferSize := B, buffer := buf },
          delivered := log } m = .ok (true, st) ∧
      st = RxCompleteBufferedPacketsUntilFirstLost
          { agreement := some
              { startingSeq := (m.seqNum + 4097 - B) % 4096, bufferSize := B,
                buffer := buf.filter (fun x =>
                  !QosUtilsIsOldPacket ((m.seqNum + 4097 - B) % 4096) x.seqNum) ++ [m] },
            delivered := log ++ buf.filter (fun x =>
              QosUtilsIsOldPacket ((m.seqNum + 4097 - B) % 4096) x.seqNum) } ∧
      (∃ D, st.delivered = log ++ buf.filter (fun x =>
              QosUtilsIsOldPacket ((m.seqNum + 4097 - B) % 4096) x.seqNum) ++ D ∧
        ∃ a, st.agreement = some a ∧
          D ++ a.buffer = buf.filter (fun x =>
              !QosUtilsIsOldPacket ((m.seqNum + 4097 - B) % 4096) x.seqNum) ++ [m]) ∧
      (buf.filter (fun x =>
          QosUtilsIsOldPacket ((m.seqNum + 4097 - B) % 4096) x.seqNum)).Pairwise
        (fun x y => seqOffset s x.seqNum < seqOffset s y.seqNum) := by
  have hnew' : seqOffset s m.seqNum < 2048 := by
    simp only [QosUtilsIsOldPacket, decide_eq_false_iff_not] at hnew
    unfold seqOffset
    omega
  have hout' : B ≤ seqOffset s m.seqNum := by
    simp only [IsInWindow, decide_eq_false_iff_not] at hout
    unfold seqOffset
    omega
  refine ⟨_, ReceiveMpdu_out_of_window s B fuel buf log m hs hB hbuf hord hm hnew' hout' hfuel,
    rfl, ?_, hord.sublist (List.filter_sublist _)⟩
  simp only [RxCompleteBufferedPacketsUntilFirstLost]
  obtain ⟨D, h1, h2⟩ := untilFirstLost_split
    { startingSeq := (m.seqNum + 4097 - B) % 4096, bufferSize := B,
      buffer := buf.filter (fun x =>
        !QosUtilsIsOldPacket ((m.seqNum + 4097 - B) % 4096) x.seqNum) ++ [m] }
    (log ++ buf.filter (fun x => QosUtilsIsOldPacket ((m.seqNum + 4097 - B) % 4096) x.seqNum))
  exact ⟨D, h1, _, rfl, h2⟩

theorem C13_out_of_window_admission_witness :
    ∃ st, ReceiveMpdu true 100
        { agreement := some
            { startingSeq := 0, bufferSize := 4,
              buffer := [mkMpdu 0 (fun j => 100 + j) 1, mkMpdu 0 (fun j => 100 + j) 3] },
          delivered := [] }
        (mkMpdu 0 (fun j => 100 + j) 6) = .ok (true, st) ∧
      st = RxCompleteBufferedPacketsUntilFirstLost
          { agreement := some
              { startingSeq := ((mkMpdu 0 (fun j => 100 + j) 6).seqNum + 4097 - 4) % 4096,
                bufferSize := 4,
                buffer := [mkMpdu 0 (fun j => 100 + j) 1, mkMpdu 0 (fun j => 100 + j) 3].filter
                  (fun x => !QosUtilsIsOldPacket
                    (((mkMpdu 0 (fun j => 100 + j) 6).seqNum + 4097 - 4) % 4096) x.seqNum)
                  ++ [mkMpdu 0 (fun j => 100 + j) 6] },
            delivered := [] ++
              [mkMpdu 0 (fun j => 100 + j) 1, mkMpdu 0 (fun j => 100 + j) 3].filter
                (fun x => QosUtilsIsOldPacket
                  (((mkMpdu 0 (fun j => 100 + j) 6).seqNum + 4097 - 4) % 4096) x.seqNum) } ∧
      (∃ D, st.delivered = [] ++
              [mkMpdu 0 (fun j => 100 + j) 1, mkMpdu 0 (fun j => 100 + j) 3].filter
                (fun x => QosUtilsIsOldPacket
                  (((mkMpdu 0 (fun j => 100 + j) 6).seqNum + 4097 - 4) % 4096) x.seqNum) ++ D ∧
        ∃ a, st.agreement = some a ∧
          D ++ a.buffer =
            [mkMpdu 0 (fun j => 100 + j) 1, mkMpdu 0 (fun j => 100 + j) 3].filter
              (fun x => !QosUtilsIsOldPacket
                (((mkMpdu 0 (fun j => 100 + j) 6).seqNum + 4097 - 4) % 4096) x.seqNum)
              ++ [mkMpdu 0 (fun j => 100 + j) 6]) ∧
      ([mkMpdu 0 (fun j => 100 + j) 1, mkMpdu 0 (fun j => 100 + j) 3].filter (fun x =>
          QosUtilsIsOldPacket
            (((mkMpdu 0 (fun j => 100 + j) 6).seqNum + 4097 - 4) % 4096) x.seqNum)).Pairwise
        (fun x y => seqOffset 0 x.seqNum < seqOffset 0 y.seqNum) :=
  C13_out_of_window_admission 0 4 100
    [mkMpdu 0 (fun j => 100 + j) 1, mkMpdu 0 (fun j => 100 + j) 3] []
    (mkMpdu 0 (fun j => 100 + j) 6)
    (by decide) (by decide) (by decide) (by decide) (by decide) (by decide) (by decide)
    (by decide)


/-! ## Reorder buffer: sequence offsets and the buffer order -/

theorem off_succ (s y : Nat) (hy : y < 4096) (h : 0 < (y + 4096 - s) % 4096) :
    (y + 4096 - (s + 1) % 4096) % 4096 = (y + 4096 - s) % 4096 - 1 := by
  omega

theorem off_add (s y n : Nat) (hs : s < 4096) (hy : y < 4096) (hn : n ≤ (y + 4096 - s) % 4096) :
    (y + 4096 - (s + n) % 4096) % 4096 = (y + 4096 - s) % 4096 - n := by
  omega

theorem off_eq_zero (s y : Nat) (hs : s < 4096) (hy : y < 4096) :
    (y + 4096 - s) % 4096 = 0 ↔ y = s := by
  omega

theorem off_inj (s x y : Nat) (hs : s < 4096) (hx : x < 4096) (hy : y < 4096) :
    (x + 4096 - s) % 4096 = (y + 4096 - s) % 4096 ↔ x = y := by
  omega

theorem off_after_shift (s q B x : Nat) (hB : 1 ≤ B)
    (hout : B ≤ (q + 4096 - s) % 4096) (hnew : (q + 4096 - s) % 4096 < 2048)
    (hs : s < 4096) (hq : q < 4096) (hx : x < 4096) (hxB : (x + 4096 - s) % 4096 < B)
    (hno : ¬ 2048 ≤ (x + 4096 - (q + 4097 - B) % 4096) % 4096) :
    (x + 4096 - (q + 4097 - B) % 4096) % 4096 + ((q + 4096 - s) % 4096 + 1 - B)
      = (x + 4096 - s) % 4096 := by
  omega

theorem off_self_after_shift (s q B : Nat) (hB : 1 ≤ B)
    (hout : B ≤ (q + 4096 - s) % 4096) (hnew : (q + 4096 - s) % 4096 < 2048) (hq : q < 4096) :
    (q + 4096 - (q + 4097 - B) % 4096) % 4096 = B - 1 := by
  omega

theorem untilFirstLostLoop_sorted :
    ∀ (buf : List Mpdu) (s K : Nat) (log : List Mpdu), s < 4096 →
      (∀ x ∈ buf, x.unfragmented = true ∧ seqOffset s x.seqNum < K) →
      buf.Pairwise (fun x y => seqOffset s x.seqNum < seqOffset s y.seqNum) →
      ∃ n, n ≤ K ∧ (untilFirstLostLoop buf buf (s * 16) log).1 = buf.drop n ∧
        (untilFirstLostLoop buf buf (s * 16) log).2.1 = (s + n) % 4096 * 16 ∧
        ∀ x ∈ buf.drop n, n < seqOffset s x.seqNum := by
  intro buf
  induction buf with
  | nil =>
    intro s K log hs _ _
    exact ⟨0, Nat.zero_le _, by simp [untilFirstLostLoop], by
      simp [untilFirstLostLoop, Nat.mod_eq_of_lt hs], by simp⟩
  | cons x rest ih =>
    intro s K log hs hu hp
    have hx := hu x (List.mem_cons_self _ _)
    have hx3 := (unfragmented_iff x).1 hx.1
    have hp' := List.pairwise_cons.1 hp
    by_cases hxs : x.seqNum = s
    · have hoff0 : seqOffset s x.seqNum = 0 := (off_eq_zero s x.seqNum hs hx3.2.2).2 hxs
      have hg : s * 16 = GetSequenceControl x := by
        rw [GetSequenceControl_unfragmented x hx.1, hxs]
      have hg2 : (s * 16 + 16) &&& 0xfff0 = (s + 1) % 4096 * 16 := by
        rw [and_fff0]; omega
      have hs' : (s + 1) % 4096 < 4096 := Nat.mod_lt _ (by norm_num)
      have hrest : ∀ y ∈ rest, y.unfragmented = true ∧
          seqOffset ((s + 1) % 4096) y.seqNum < K - 1 := by
        intro y hy
        have h1 := hu y (List.mem_cons_of_mem _ hy)
        have h2 := hp'.1 y hy
        have hy3 := ((unfragmented_iff y).1 h1.1).2.2
        rw [hoff0] at h2
        have := off_succ s y.seqNum hy3 h2
        have h3 := h1.2
        unfold seqOffset at h2 h3 ⊢
        exact ⟨h1.1, by omega⟩
      have hprest : rest.Pairwise (fun a b =>
          seqOffset ((s + 1) % 4096) a.seqNum < seqOffset ((s + 1) % 4096) b.seqNum) := by
        refine (List.Pairwise.and_mem.1 hp'.2).imp ?_
        intro a b h
        obtain ⟨ha, hb, hlt⟩ := h
        have ha3 := ((unfragmented_iff a).1 (hu a (List.mem_cons_of_mem _ ha)).1).2.2
        have hb3 := ((unfragmented_iff b).1 (hu b (List.mem_cons_of_mem _ hb)).1).2.2
        have ha0 := hp'.1 a ha
        have hb0 := hp'.1 b hb
        rw [hoff0] at ha0 hb0
        have e1 := off_succ s a.seqNum ha3 ha0
        have e2 := off_succ s b.seqNum hb3 hb0
        unfold seqOffset at hlt ha0 hb0 ⊢
        omega
      obtain ⟨n, hn, h1, h2, h3⟩ := ih ((s + 1) % 4096) (K - 1) (log ++ [x]) hs' hrest hprest
      refine ⟨n + 1, ?_, ?_, ?_, ?_⟩
      · have := hx.2; omega
      · rw [untilFirstLostLoop_head x rest _ log hg hx3.2.1, hg2, h1]; rfl
      · rw [untilFirstLostLoop_head x rest _ log hg hx3.2.1, hg2, h2]; omega
      · intro y hy
        simp only [List.drop_succ_cons] at hy
        have hyr : y ∈ rest := (List.drop_sublist _ _).subset hy
        have hy3 := ((unfragmented_iff y).1 (hu y (List.mem_cons_of_mem _ hyr)).1).2.2
        have hy0 := hp'.1 y hyr
        rw [hoff0] at hy0
        have e1 := off_succ s y.seqNum hy3 hy0
        have := h3 y hy
        unfold seqOffset at this hy0 ⊢
        omega
    · have hne : s * 16 ≠ GetSequenceControl x := by
        rw [GetSequenceControl_unfragmented x hx.1]; omega
      have hstop := untilFirstLostLoop_stops (x :: rest) (x :: rest) (s * 16) log (by
        intro y hy; simp at hy; subst hy; exact hne)
      refine ⟨0, Nat.zero_le _, by rw [hstop]; rfl, by
        rw [hstop]; simp [Nat.mod_eq_of_lt hs], ?_⟩
      intro y hy
      simp only [List.drop_zero] at hy
      have hx0 : 0 < seqOffset s x.seqNum := by
        have := (off_eq_zero s x.seqNum hs hx3.2.2).not.2 hxs
        unfold seqOffset
        omega
      rcases List.mem_cons.1 hy with rfl | hyr
      · exact hx0
      · exact Nat.lt_trans hx0 (hp'.1 y hyr)

theorem untilFirstLost_inOrder (s B : Nat) (buf log : List Mpdu) (hs : s < 4096)
    (hu : ∀ x ∈ buf, x.unfragmented = true ∧ seqOffset s x.seqNum < B ∧
      seqOffset s x.seqNum < 2048)
    (hp : buf.Pairwise (fun x y => seqOffset s x.seqNum < seqOffset s y.seqNum)) :
    (untilFirstLost { startingSeq := s, bufferSize := B, buffer := buf } log).1.inOrder ∧
    (untilFirstLost { startingSeq := s, bufferSize := B, buffer := buf } log).1.bufferSize = B ∧
    (untilFirstLost { startingSeq := s, bufferSize := B, buffer := buf } log).1.buffer.Sublist
      buf := by
  obtain ⟨n, hn, h1, h2, h3⟩ := untilFirstLostLoop_sorted buf s 2048 log hs
    (fun x hx => ⟨(hu x hx).1, (hu x hx).2.2⟩) hp
  have hstart : (untilFirstLost { startingSeq := s, bufferSize := B, buffer := buf } log).1.startingSeq
      = (s + n) % 4096 := by
    simp only [untilFirstLost, startControl _ _ _ hs, h2, Agreement.SetStartingSequenceControl,
      shiftRight_four, and_0fff]
    omega
  have hbuffer : (untilFirstLost { startingSeq := s, bufferSize := B, buffer := buf } log).1.buffer
      = buf.drop n := by
    simp only [untilFirstLost, startControl _ _ _ hs, h1]
  have hsize : (untilFirstLost { startingSeq := s, bufferSize := B, buffer := buf } log).1.bufferSize
      = B := by
    simp only [untilFirstLost, Agreement.SetStartingSequenceControl]
  have hsub : (buf.drop n).Sublist buf := List.drop_sublist _ _
  have hoff : ∀ y ∈ buf.drop n, seqOffset ((s + n) % 4096) y.seqNum = seqOffset s y.seqNum - n := by
    intro y hy
    have hy3 := ((unfragmented_iff y).1 (hu y (hsub.subset hy)).1).2.2
    have := h3 y hy
    unfold seqOffset at this ⊢
    exact off_add s y.seqNum n hs hy3 (Nat.le_of_lt this)
  refine ⟨⟨?_, ?_, ?_⟩, hsize, by rw [hbuffer]; exact hsub⟩
  · rw [hstart]; exact Nat.mod_lt _ (by norm_num)
  · rw [hstart, hbuffer, hsize]
    intro y hy
    have hy' := hu y (hsub.subset hy)
    have h3y := h3 y hy
    rw [hoff y hy]
    exact ⟨hy'.1, by omega, by omega, by omega⟩
  · rw [hstart, hbuffer]
    refine (List.Pairwise.and_mem.1 (hp.sublist hsub)).imp ?_
    intro a b h
    obtain ⟨ha, hb, hlt⟩ := h
    rw [hoff a ha, hoff b hb]
    have := h3 a ha
    omega

theorem storeMpdu_inOrder (s B : Nat) (buf : List Mpdu) (m : Mpdu) (hs : s < 4096)
    (hu : ∀ x ∈ buf, x.unfragmented = true ∧ seqOffset s x.seqNum < 2048)
    (hp : buf.Pairwise (fun x y => seqOffset s x.seqNum < seqOffset s y.seqNum))
    (hm : m.unfragmented = true) (hnew : seqOffset s m.seqNum < 2048)
    (hne : ∀ x ∈ buf, x.seqNum ≠ m.seqNum) :
    ∃ l, storeMpdu { startingSeq := s, bufferSize := B, buffer := buf } m
        = { startingSeq := s, bufferSize := B, buffer := l } ∧
      l.Pairwise (fun x y => seqOffset s x.seqNum < seqOffset s y.seqNum) ∧
      (∀ x, x ∈ l ↔ x = m ∨ x ∈ buf) ∧ l.length = buf.length + 1 := by
  have hm3 := ((unfragmented_iff m).1 hm).2.2
  have hcongr := takeWhile_dropWhile_congr
    (fun x => decide (QosUtilsMapSeqControlToUniqueInteger (GetSequenceControl x)
        ((s + 2047) % 4096)
      < QosUtilsMapSeqControlToUniqueInteger (GetSequenceControl m) ((s + 2047) % 4096)))
    (fun x => decide (seqOffset s x.seqNum < seqOffset s m.seqNum)) buf (by
      intro x hx
      show decide (QosUtilsMapSeqControlToUniqueInteger (GetSequenceControl x)
        ((s + 2047) % 4096)
        < QosUtilsMapSeqControlToUniqueInteger (GetSequenceControl m) ((s + 2047) % 4096))
        = decide (seqOffset s x.seqNum < seqOffset s m.seqNum)
      have := (hu x hx).2
      rw [map_unfragmented x (hu x hx).1 s hs, map_unfragmented m hm s hs, decide_eq_decide]
      omega)
  have hsorted := takeWhile_dropWhile_sorted
    (fun x y => seqOffset s x.seqNum < seqOffset s y.seqNum)
    (fun x => decide (seqOffset s x.seqNum < seqOffset s m.seqNum))
    (fun x y h1 h2 => by
      simp only [decide_eq_true_eq] at h2 ⊢
      exact Nat.lt_trans h1 h2) buf hp
  refine ⟨buf.filter (fun x => decide (seqOffset s x.seqNum < seqOffset s m.seqNum))
    ++ m :: buf.filter (fun x => !decide (seqOffset s x.seqNum < seqOffset s m.seqNum)),
    ?_, ?_, ?_, ?_⟩
  · simp only [storeMpdu, hcongr.1, hcongr.2, hsorted.1, hsorted.2]
  · have hgt : ∀ y ∈ buf.filter (fun x =>
        !decide (seqOffset s x.seqNum < seqOffset s m.seqNum)),
        seqOffset s m.seqNum < seqOffset s y.seqNum := by
      intro y hy
      have hyb := (List.mem_filter.1 hy).1
      have hyn := (List.mem_filter.1 hy).2
      simp only [Bool.not_eq_true', decide_eq_false_iff_not] at hyn
      have hy3 := ((unfragmented_iff y).1 (hu y hyb).1).2.2
      have hneq : seqOffset s y.seqNum ≠ seqOffset s m.seqNum := by
        intro h
        exact hne y hyb ((off_inj s y.seqNum m.seqNum hs hy3 hm3).1 h)
      omega
    refine List.pairwise_append.2 ⟨hp.sublist (List.filter_sublist _), ?_, ?_⟩
    · exact List.pairwise_cons.2 ⟨hgt, hp.sublist (List.filter_sublist _)⟩
    · intro x hx y hy
      have hxlt := (List.mem_filter.1 hx).2
      simp only [decide_eq_true_eq] at hxlt
      rcases List.mem_cons.1 hy with rfl | hy'
      · exact hxlt
      · exact Nat.lt_trans hxlt (hgt y hy')
  · intro x
    rw [← hsorted.1, ← hsorted.2]
    have := List.takeWhile_append_dropWhile
      (fun x => decide (seqOffset s x.seqNum < seqOffset s m.seqNum)) buf
    constructor
    · intro h
      rcases List.mem_append.1 h with h | h
      · right; exact (List.takeWhile_sublist _).subset h
      · rcases List.mem_cons.1 h with h | h
        · left; exact h
        · right; exact (List.dropWhile_sublist _).subset h
    · rintro (h | h)
      · exact List.mem_append.2 (Or.inr (h ▸ List.mem_cons_self _ _))
      · rw [← this] at h
        rcases List.mem_append.1 h with h | h
        · exact List.mem_append.2 (Or.inl h)
        · exact List.mem_append.2 (Or.inr (List.mem_cons_of_mem _ h))
  · rw [← hsorted.1, ← hsorted.2]
    have := congrArg List.length (List.takeWhile_append_dropWhile
      (fun x => decide (seqOffset s x.seqNum < seqOffset s m.seqNum)) buf)
    simp only [List.length_append, List.length_cons] at this ⊢
    omega

theorem ReceiveMpdu_inOrder (a : Agreement) (m : Mpdu) (fuel : Nat) (log : List Mpdu)
    (ha : a.inOrder) (hB : 1 ≤ a.bufferSize) (hm : m.unfragmented = true)
    (hne : ∀ x ∈ a.buffer, x.seqNum ≠ m.seqNum) (hfuel : a.buffer.length + 1 < fuel) :
    ∃ a1 log1, ReceiveMpdu true fuel { agreement := some a, delivered := log } m
        = .ok (true, { agreement := some a1, delivered := log1 }) ∧
      a1.inOrder ∧ a1.bufferSize = a.bufferSize ∧ (∀ x ∈ a1.buffer, x = m ∨ x ∈ a.buffer) ∧
      a1.buffer.length ≤ a.buffer.length + 1 := by
  obtain ⟨s, B, buf⟩ := a
  obtain ⟨hs, hu, hp⟩ := ha
  simp only at hs hu hp hB hne hfuel
  have hm3 := ((unfragmented_iff m).1 hm).2.2
  by_cases hold : QosUtilsIsOldPacket s m.seqNum = true
  · refine ⟨⟨s, B, buf⟩, log, ?_, ⟨hs, hu, hp⟩, rfl, fun x hx => Or.inr hx, Nat.le_succ _⟩
    simp [ReceiveMpdu, GetSequenceNumber, hold]
  · have hold' : QosUtilsIsOldPacket s m.seqNum = false := by simpa using hold
    have hnew : seqOffset s m.seqNum < 2048 := by
      simp only [QosUtilsIsOldPacket, decide_eq_false_iff_not] at hold'
      unfold seqOffset
      omega
    by_cases hwin : IsInWindow m.seqNum s B = true
    · have hinB : seqOffset s m.seqNum < B := by
        simp only [IsInWindow, decide_eq_true_eq] at hwin
        unfold seqOffset
        exact hwin
      obtain ⟨l, hl1, hl2, hl3, hl4⟩ := storeMpdu_inOrder s B buf m hs
        (fun x hx => ⟨(hu x hx).1, (hu x hx).2.2.2⟩) hp hm hnew hne
      have hul : ∀ x ∈ l, x.unfragmented = true ∧ seqOffset s x.seqNum < B ∧
          seqOffset s x.seqNum < 2048 := by
        intro x hx
        rcases (hl3 x).1 hx with rfl | hx'
        · exact ⟨hm, hinB, hnew⟩
        · exact ⟨(hu x hx').1, (hu x hx').2.2.1, (hu x hx').2.2.2⟩
      obtain ⟨h1, h2, h3⟩ := untilFirstLost_inOrder s B l log hs hul hl2
      refine ⟨(untilFirstLost { startingSeq := s, bufferSize := B, buffer := l } log).1,
        (untilFirstLost { startingSeq := s, bufferSize := B, buffer := l } log).2, ?_, h1, h2,
        fun x hx => (hl3 x).1 (h3.subset hx), by
          have := h3.length_le
          simp only at this ⊢
          omega⟩
      simp [ReceiveMpdu, GetSequenceNumber, hold', hl1, hwin]
    · have hwin' : IsInWindow m.seqNum s B = false := by simpa using hwin
      have hout : B ≤ seqOffset s m.seqNum := by
        simp only [IsInWindow, decide_eq_false_iff_not] at hwin'
        unfold seqOffset
        omega
      have hrun := ReceiveMpdu_out_of_window s B fuel buf log m hs hB
        (fun x hx => ⟨(hu x hx).1, (hu x hx).2.2.1⟩) hp hm hnew hout hfuel
      have hns : (m.seqNum + 4097 - B) % 4096 < 4096 := Nat.mod_lt _ (by norm_num)
      have hoffm : seqOffset ((m.seqNum + 4097 - B) % 4096) m.seqNum = B - 1 := by
        unfold seqOffset at hout hnew ⊢
        exact off_self_after_shift s m.seqNum B hB hout hnew hm3
      have hoffx : ∀ x ∈ buf.filter (fun x =>
          !QosUtilsIsOldPacket ((m.seqNum + 4097 - B) % 4096) x.seqNum),
          seqOffset ((m.seqNum + 4097 - B) % 4096) x.seqNum + (seqOffset s m.seqNum + 1 - B)
            = seqOffset s x.seqNum := by
        intro x hx
        have hxb := (List.mem_filter.1 hx).1
        have hxn := (List.mem_filter.1 hx).2
        simp only [QosUtilsIsOldPacket, Bool.not_eq_true', decide_eq_false_iff_not] at hxn
        have hx3 := ((unfragmented_iff x).1 (hu x hxb).1).2.2
        have hxB := (hu x hxb).2.2.1
        unfold seqOffset at hout hnew hxB ⊢
        exact off_after_shift s m.seqNum B x.seqNum hB hout hnew hs hm3 hx3 hxB hxn
      have hsubf : (buf.filter (fun x =>
          !QosUtilsIsOldPacket ((m.seqNum + 4097 - B) % 4096) x.seqNum)).Sublist buf :=
        List.filter_sublist _
      have hul : ∀ x ∈ buf.filter (fun x =>
          !QosUtilsIsOldPacket ((m.seqNum + 4097 - B) % 4096) x.seqNum) ++ [m],
          x.unfragmented = true ∧ seqOffset ((m.seqNum + 4097 - B) % 4096) x.seqNum < B ∧
          seqOffset ((m.seqNum + 4097 - B) % 4096) x.seqNum < 2048 := by
        intro x hx
        rcases List.mem_append.1 hx with h | h
        · have e := hoffx x h
          have hxB := (hu x (hsubf.subset h)).2.2.1
          exact ⟨(hu x (hsubf.subset h)).1, by omega, by omega⟩
        · simp at h
          subst h
          rw [hoffm]
          exact ⟨hm, by omega, by omega⟩
      have hpl : (buf.filter (fun x =>
          !QosUtilsIsOldPacket ((m.seqNum + 4097 - B) % 4096) x.seqNum) ++ [m]).Pairwise
          (fun x y => seqOffset ((m.seqNum + 4097 - B) % 4096) x.seqNum
            < seqOffset ((m.seqNum + 4097 - B) % 4096) y.seqNum) := by
        refine List.pairwise_append.2 ⟨?_, by simp, ?_⟩
        · refine (List.Pairwise.and_mem.1 (hp.sublist hsubf)).imp ?_
          intro x y h
          obtain ⟨hx, hy, hlt⟩ := h
          have e1 := hoffx x hx
          have e2 := hoffx y hy
          omega
        · intro x hx y hy
          simp at hy
          subst hy
          rw [hoffm]
          have e := hoffx x hx
          have hxB := (hu x (hsubf.subset hx)).2.2.1
          omega
      obtain ⟨h1, h2, h3⟩ := untilFirstLost_inOrder ((m.seqNum + 4097 - B) % 4096) B _
        (log ++ buf.filter (fun x =>
          QosUtilsIsOldPacket ((m.seqNum + 4097 - B) % 4096) x.seqNum)) hns hul hpl
      refine ⟨_, (untilFirstLost
        { startingSeq := (m.seqNum + 4097 - B) % 4096, bufferSize := B,
          buffer := buf.filter (fun x =>
            !QosUtilsIsOldPacket ((m.seqNum + 4097 - B) % 4096) x.seqNum) ++ [m] }
        (log ++ buf.filter (fun x =>
          QosUtilsIsOldPacket ((m.seqNum + 4097 - B) % 4096) x.seqNum))).2, ?_, h1, h2, ?_, ?_⟩
      · rw [hrun]
        simp only [RxCompleteBufferedPacketsUntilFirstLost]
      · intro x hx
        rcases List.mem_append.1 (h3.subset hx) with h | h
        · right; exact hsubf.subset h
        · left; simpa using h
      · have := h3.length_le
        have := hsubf.length_le
        simp only [List.length_append, List.length_singleton] at *
        omega

theorem rxRun_inOrder (fuel : Nat) :
    ∀ (ms : List Mpdu) (a : Agreement) (log : List Mpdu), a.inOrder → 1 ≤ a.bufferSize →
      (∀ m ∈ ms, m.unfragmented = true) → (ms.map (fun m => m.seqNum)).Nodup →
      (∀ x ∈ a.buffer, ∀ m ∈ ms, x.seqNum ≠ m.seqNum) →
      a.buffer.length + ms.length + 1 < fuel →
      ∃ a1 log1, rxRun true fuel { agreement := some a, delivered := log }
          (ms.map RxOp.receiveMpdu) = .ok { agreement := some a1, delivered := log1 } ∧
        a1.inOrder ∧ a1.bufferSize = a.bufferSize := by
  intro ms
  induction ms with
  | nil =>
    intro a log ha _ _ _ _ _
    exact ⟨a, log, by simp [rxRun], ha, rfl⟩
  | cons m ms ih =>
    intro a log ha hB hu hnd hne hfuel
    have hnd' : m.seqNum ∉ ms.map (fun m => m.seqNum) ∧ (ms.map (fun m => m.seqNum)).Nodup :=
      List.nodup_cons.1 (by simpa only [List.map_cons] using hnd)
    obtain ⟨a1, log1, hstep, h1, h2, h3, h4⟩ := ReceiveMpdu_inOrder a m fuel log ha hB
      (hu m (List.mem_cons_self _ _)) (fun x hx => hne x hx m (List.mem_cons_self _ _))
      (by simp only [List.length_cons] at hfuel; omega)
    obtain ⟨a2, log2, hrun, h5, h6⟩ := ih a1 log1 h1 (by rw [h2]; exact hB)
      (fun x hx => hu x (List.mem_cons_of_mem _ hx)) hnd'.2
      (by
        intro x hx y hy
        rcases h3 x hx with rfl | hx'
        · intro heq
          exact hnd'.1 (List.mem_map.2 ⟨y, hy, heq.symm⟩)
        · exact hne x hx' y (List.mem_cons_of_mem _ hy))
      (by simp only [List.length_cons] at hfuel; omega)
    refine ⟨a2, log2, ?_, h5, by rw [h6, h2]⟩
    simp only [List.map_cons, rxRun, rxStep, hstep]
    exact hrun

/-- C15, as stated, fails for a repeated sequence number: with window start 0
and buffer size 4, sequence number 1 is admitted twice and then sequence number
0; the flush delivers 0 and one copy of 1 and moves the start to 2, and the
other copy of 1 stays buffered, outside the window `[2, 6)`. -/
theorem C15_repeated_number_left_outside_window :
    rxRun true 100
        { agreement := some { startingSeq := 0, bufferSize := 4, buffer := [] },
          delivered := [] }
        [.receiveMpdu { seqNum := 1, fragNum := 0, moreFragments := false, payload := 100 },
         .receiveMpdu { seqNum := 1, fragNum := 0, moreFragments := false, payload := 101 },
         .receiveMpdu { seqNum := 0, fragNum := 0, moreFragments := false, payload := 102 }]
      = .ok { agreement := some
                { startingSeq := 2, bufferSize := 4,
                  buffer := [{ seqNum := 1, fragNum := 0, moreFragments := false,
                               payload := 100 }] },
              delivered := [{ seqNum := 0, fragNum := 0, moreFragments := false, payload := 102 },
                            { seqNum := 1, fragNum := 0, moreFragments := false,
                              payload := 101 }] } ∧
      IsInWindow 1 2 4 = false := by
  decide

/-! ## Reorder buffer: the flushes and the window start -/

theorem GetSequenceControl_eq (m : Mpdu) (h1 : m.seqNum < 4096) (h2 : m.fragNum < 16) :
    GetSequenceControl m = m.seqNum * 16 + m.fragNum := by
  have h := Nat.mul_add_lt_is_or (show m.fragNum < 2 ^ 4 by simpa using h2) m.seqNum
  simp only [GetSequenceControl, shiftLeft_four]
  rw [Nat.mul_comm m.seqNum 16, show (16 : Nat) = 2 ^ 4 by norm_num, ← h]
  omega

theorem guard_next_fragment (s B g : Nat) (hB : B < 2048) (hg : g < 65536)
    (hoff : (g / 16 + 4096 - s) % 4096 < B) :
    ((g + 1) % 65536 / 16 + 4096 - s) % 4096 ≤ B := by
  omega

theorem guard_next_msdu (s B g : Nat) (hB : B < 2048) (hg : g < 65536)
    (hoff : (g / 16 + 4096 - s) % 4096 < B) :
    ((g + 16) / 16 % 4096 * 16 / 16 + 4096 - s) % 4096 ≤ B := by
  omega

theorem untilFirstLostLoop_guard (s B : Nat) (hB : B < 2048) :
    ∀ (i lc : List Mpdu) (g : Nat) (log : List Mpdu), g < 65536 → seqOffset s (g / 16) ≤ B →
      (∀ x ∈ i, x.seqNum < 4096 ∧ x.fragNum < 16 ∧
        (IsInWindow x.seqNum s B = true ∨ QosUtilsIsOldPacket s x.seqNum = true)) →
      (untilFirstLostLoop i lc g log).2.1 < 65536 ∧
        seqOffset s ((untilFirstLostLoop i lc g log).2.1 / 16) ≤ B := by
  intro i
  induction i with
  | nil => intro lc g log hg hoff _; simpa [untilFirstLostLoop] using ⟨hg, hoff⟩
  | cons x rest ih =>
    intro lc g log hg hoff hx
    have hx0 := hx x (List.mem_cons_self _ _)
    have hrest : ∀ y ∈ rest, y.seqNum < 4096 ∧ y.fragNum < 16 ∧
        (IsInWindow y.seqNum s B = true ∨ QosUtilsIsOldPacket s y.seqNum = true) :=
      fun y hy => hx y (List.mem_cons_of_mem _ hy)
    rw [untilFirstLostLoop]
    by_cases hgx : g = GetSequenceControl x
    · have hq : g / 16 = x.seqNum := by
        rw [hgx, GetSequenceControl_eq x hx0.1 hx0.2.1]; omega
      have hin : (g / 16 + 4096 - s) % 4096 < B := by
        rcases hx0.2.2 with h | h
        · simp only [IsInWindow, decide_eq_true_eq] at h
          rw [hq]; exact h
        · simp only [QosUtilsIsOldPacket, decide_eq_true_eq] at h
          unfold seqOffset at hoff
          rw [hq] at hoff
          omega
      rw [if_pos hgx]
      by_cases hm : x.moreFragments = true
      · rw [if_pos hm]
        exact ih _ _ _ (Nat.mod_lt _ (by norm_num))
          (by unfold seqOffset; exact guard_next_fragment s B g hB hg hin) hrest
      · rw [if_neg hm]
        have hlt : ((g + 16) &&& 0xfff0) < 65536 := by rw [and_fff0]; omega
        exact ih _ _ _ hlt
          (by unfold seqOffset; rw [and_fff0]; exact guard_next_msdu s B g hB hg hin) hrest
    · rw [if_neg hgx]
      exact ⟨hg, hoff⟩

theorem untilFirstLost_forward (a : Agreement) (log : List Mpdu) (hs : a.startingSeq < 4096)
    (hB : a.bufferSize < 2048)
    (hbuf : ∀ x ∈ a.buffer, x.seqNum < 4096 ∧ x.fragNum < 16 ∧
      (IsInWindow x.seqNum a.startingSeq a.bufferSize = true ∨
        QosUtilsIsOldPacket a.startingSeq x.seqNum = true)) :
    seqOffset a.startingSeq (untilFirstLost a log).1.startingSeq < 2048 := by
  obtain ⟨s, B, buf⟩ := a
  simp only at hs hB hbuf
  have h := untilFirstLostLoop_guard s B hB buf buf (s * 16) log (by omega)
    (by unfold seqOffset; omega) hbuf
  simp only [untilFirstLost, startControl _ _ _ hs, Agreement.SetStartingSequenceControl,
    shiftRight_four, and_0fff]
  obtain ⟨h1, h2⟩ := h
  have e : (untilFirstLostLoop buf buf (s * 16) log).2.1 / 16 % 4096
      = (untilFirstLostLoop buf buf (s * 16) log).2.1 / 16 := by omega
  rw [e]
  omega

theorem outOfWindowStart_forward (s q B : Nat) (hB : 1 ≤ B) (hq : q < 4096)
    (hout : B ≤ (q + 4096 - s) % 4096) (hnew : (q + 4096 - s) % 4096 < 2048) :
    ((q + 4097 - B) % 4096 + 4096 - s) % 4096 < 2048 := by
  omega

theorem delta_pos (s q B : Nat) (hB : 1 ≤ B) (hq : q < 4096)
    (hout : B ≤ (q + 4096 - s) % 4096) (hnew : (q + 4096 - s) % 4096 < 2048) :
    ¬ ((q : Int) - ((s + B - 1) % 4096 : Nat) + 4096).toNat % 4096 = 0 := by
  omega

theorem ReceiveMpdu_shift (a : Agreement) (m : Mpdu) (fuel : Nat) (log : List Mpdu)
    (hB : 1 ≤ a.bufferSize) (hq : m.seqNum < 4096)
    (hnew : QosUtilsIsOldPacket a.startingSeq m.seqNum = false)
    (hout : IsInWindow m.seqNum a.startingSeq a.bufferSize = false) :
    ReceiveMpdu true fuel { agreement := some a, delivered := log } m
      = match withSmallerSequence fuel
          ((storeMpdu a m).SetStartingSequence
            (outOfWindowStart m.seqNum a.bufferSize)).GetStartingSequenceControl
          ((storeMpdu a m).SetStartingSequence (outOfWindowStart m.seqNum a.bufferSize)) log with
        | .ok r => .ok (true, { agreement := some (untilFirstLost r.1 r.2).1,
                                delivered := (untilFirstLost r.1 r.2).2 })
        | .error e => .error e := by
  obtain ⟨s, B, buf⟩ := a
  simp only at hB hnew hout
  have hnew' : (m.seqNum + 4096 - s) % 4096 < 2048 := by
    simp only [QosUtilsIsOldPacket, decide_eq_false_iff_not] at hnew
    omega
  have hout' : B ≤ (m.seqNum + 4096 - s) % 4096 := by
    simp only [IsInWindow, decide_eq_false_iff_not] at hout
    omega
  have hdelta : ¬ toUint16 (Int.tmod ((GetSequenceNumber m : Int)
      - ((storeMpdu { startingSeq := s, bufferSize := B, buffer := buf } m).GetWinEnd : Nat)
      + 4096) 4096) = 0 := by
    have e : (storeMpdu { startingSeq := s, bufferSize := B, buffer := buf } m).GetWinEnd
        = (s + B - 1) % 4096 := by
      simp only [storeMpdu]
      exact GetWinEnd_eq s B _ hB
    rw [e, toUint16_tmod _ (by simp only [GetSequenceNumber]; omega)]
    exact delta_pos s m.seqNum B hB hq hout' hnew'
  have h1 : (storeMpdu { startingSeq := s, bufferSize := B, buffer := buf } m).startingSeq = s := rfl
  have h2 : (storeMpdu { startingSeq := s, bufferSize := B, buffer := buf } m).bufferSize = B := rfl
  simp only [ReceiveMpdu, if_true, GetSequenceNumber, hnew, Bool.not_false, h1, h2, hout]
  simp only [GetSequenceNumber] at hdelta
  rw [if_neg hdelta]
  rfl

/-! ## Claims C19 and C20: suspended allocations -/

theorem ForwardDown_trace (env : Env) (s : MacLowState) (psdu : WifiPsdu) (txVector : WifiTxVector) :
    (ForwardDown env s psdu txVector).trace
        = s.trace ++ ((psdu.mpdus.filter (fun m => m.hdr.IsQosData)).map Call.CompleteMpduTx
            ++ [.PhySend psdu
                  (if psdu.isSingle then { txVector with aggregation := true }
                   else if psdu.IsAggregate then { txVector with aggregation := true }
                   else txVector)]) ∧
      (ForwardDown env s psdu txVector).currentTxop = s.currentTxop := by
  unfold ForwardDown
  simp only [MacLowState.call]
  split_ifs <;> exact ⟨rfl, rfl⟩

theorem ForwardDown_last (env : Env) (s : MacLowState) (psdu : WifiPsdu) (txVector : WifiTxVector) :
    (ForwardDown env s psdu txVector).trace.getLast?
      = some (.PhySend psdu
          (if psdu.isSingle then { txVector with aggregation := true }
           else if psdu.IsAggregate then { txVector with aggregation := true }
           else txVector)) := by
  rw [(ForwardDown_trace env s psdu txVector).1]
  simp

theorem CancelAllEvents_keeps (s : MacLowState) :
    (CancelAllEvents s).txParams = s.txParams ∧
    (CancelAllEvents s).currentPacket = s.currentPacket ∧
    (CancelAllEvents s).ctsTimeoutEvent = none := by
  unfold CancelAllEvents
  simp only [MacLowState.call]
  split <;> exact ⟨rfl, rfl, rfl⟩

theorem SendRtsForPacket_ok (env : Env) (s s3 : MacLowState) (psdu : WifiPsdu)
    (hp : s.currentPacket = some psdu) (h : SendRtsForPacket env s = .ok s3) :
    s3.currentTxop = s.currentTxop ∧ s3.ctsTimeoutEvent.isSome = true ∧
      ∃ rts v, s3.trace.getLast? = some (.PhySend rts v) ∧ rts.first.hdr.type = .ctlRts ∧
        rts.first.hdr.addr1 = psdu.GetAddr1 ∧ rts.rest = [] := by
  unfold SendRtsForPacket at h
  rw [hp] at h
  simp only at h
  split at h
  · cases h
  · split at h
    · cases h
    · split at h
      · cases h
      · simp only [Except.ok.injEq] at h
        subst h
        refine ⟨?_, ?_, ?_⟩
        · rw [(ForwardDown_trace env _ _ _).2]
          simp only [NotifyCtsTimeoutStartNow, MacLowState.call]
          split_ifs <;> rfl
        · rw [(ForwardDown_keeps_timeouts env _ _ _).1]
          simp only [NotifyCtsTimeoutStartNow, MacLowState.call]
          split_ifs <;> rfl
        · exact ⟨_, _, ForwardDown_last env _ _ _, rfl, rfl, rfl⟩

theorem StartDataTxTimers_currentPacket (env : Env) (s s1 : MacLowState) (v : WifiTxVector)
    (h : StartDataTxTimers env s v = .ok s1) : s1.currentPacket = s.currentPacket := by
  unfold StartDataTxTimers at h
  simp only [NotifyAckTimeoutStartNow, MacLowState.call, scheduleWaitIfs] at h
  repeat' split at h
  all_goals (cases h <;> rfl)

theorem setDataDuration_keeps (env : Env) (s : MacLowState) (psdu psdu1 : WifiPsdu)
    (h : setDataDuration env s psdu = .ok psdu1) :
    psdu1.rest = psdu.rest ∧ psdu1.first.packet = psdu.first.packet ∧
      psdu1.first.hdr.addr1 = psdu.first.hdr.addr1 ∧ psdu1.size = psdu.size := by
  unfold setDataDuration at h
  repeat' split at h
  all_goals (cases h <;> exact ⟨rfl, rfl, rfl, rfl⟩)

theorem appendCfAck_keeps (env : Env) (s s2 : MacLowState) (psdu psdu2 : WifiPsdu)
    (h : appendCfAck env s psdu = .ok (s2, psdu2)) :
    psdu2.rest = psdu.rest ∧ psdu2.first.packet = psdu.first.packet ∧
      psdu2.first.hdr.addr1 = psdu.first.hdr.addr1 ∧ psdu2.size = psdu.size := by
  unfold appendCfAck at h
  repeat' split at h
  all_goals (cases h <;> exact ⟨rfl, rfl, rfl, rfl⟩)

theorem SendDataPacket_ok (env : Env) (s s3 : MacLowState) (psdu : WifiPsdu)
    (hp : s.currentPacket = some psdu) (h : SendDataPacket env s = .ok s3) :
    ∃ sent v, s3.trace.getLast? = some (.PhySend sent v) ∧ sent.rest = psdu.rest ∧
      sent.first.packet = psdu.first.packet ∧ sent.first.hdr.addr1 = psdu.first.hdr.addr1 ∧
      sent.size = psdu.size := by
  unfold SendDataPacket at h
  split at h
  · cases h
  · rename_i s1 hs1
    have hp1 := StartDataTxTimers_currentPacket env s s1 _ hs1
    rw [hp] at hp1
    rw [hp1] at h
    simp only at h
    split at h
    · cases h
    · rename_i psdu1 h1
      have k1 := setDataDuration_keeps env s1 psdu psdu1 h1
      split at h
      · cases h
      · rename_i s2 psdu2 h2
        have k2 := appendCfAck_keeps env s1 s2 psdu1 psdu2 h2
        have k : psdu2.rest = psdu.rest ∧ psdu2.first.packet = psdu.first.packet ∧
            psdu2.first.hdr.addr1 = psdu.first.hdr.addr1 ∧ psdu2.size = psdu.size :=
          ⟨k2.1.trans k1.1, k2.2.1.trans k1.2.1, k2.2.2.1.trans k1.2.2.1,
            k2.2.2.2.trans k1.2.2.2⟩
        repeat' split at h
        all_goals (cases h <;> exact ⟨_, _, ForwardDown_last env _ _ _, k⟩)

/-- C19. `ResumeTransmission (duration, txop)` restores the packet, the parameters
and the tx vector of the current allocation and computes the transaction time
`t` with `CalculateWiGigTransactionTime`.  When `t > duration` it only sets
`m_transmissionSuspended` (and erases the table entry): the trace of outgoing
calls and every `EventId` member are as before, so nothing goes to the PHY and
no timer is armed.  When `t ≤ duration`, equality included, it cancels the
pending events, makes `txop` the owner and calls `SendRtsForPacket` if the
saved parameters require an RTS and `SendDataPacket` otherwise; a
`SendRtsForPacket` that returns has armed the CTS timeout, kept `txop` as owner
and handed an RTS for the saved PSDU's receiver to the PHY as its last call, and
a `SendDataPacket` that returns has handed the saved PSDU (same packets, same
receiver, same size) to the PHY as its last call. -/
theorem C19_ResumeTransmission (env : Env) (s : MacLowState) (duration t : Time) (txop : Txop)
    (allocation : AllocationParameters) (halloc : s.currentAllocation = some allocation)
    (ht : CalculateWiGigTransactionTime env
        { s with restoredSuspendedTransmission := false, currentPacket := some allocation.psdu,
                 txParams := allocation.txParams, currentTxVector := allocation.txVector }
        allocation.psdu = .ok t) :
    (duration < t →
      ResumeTransmission env s duration txop
        = .ok { s with restoredSuspendedTransmission := false,
                       currentPacket := some allocation.psdu,
                       txParams := allocation.txParams,
                       currentTxVector := allocation.txVector,
                       transmissionSuspended := true,
                       allocationPeriodsTable :=
                         s.allocationPeriodsTable.filter (fun e => e.1 != s.currentAllocationID) }) ∧
    (t ≤ duration →
      ResumeTransmission env s duration txop
        = (match (if allocation.txParams.MustSendRts then
              SendRtsForPacket env
                { CancelAllEvents
                    { s with restoredSuspendedTransmission := false,
                             currentPacket := some allocation.psdu,
                             txParams := allocation.txParams,
                             currentTxVector := allocation.txVector }
                  with currentTxop := some txop }
            else
              SendDataPacket env
                { CancelAllEvents
                    { s with restoredSuspendedTransmission := false,
                             currentPacket := some allocation.psdu,
                             txParams := allocation.txParams,
                             currentTxVector := allocation.txVector }
                  with currentTxop := some txop }) with
          | .ok s3 =>
            .ok { s3 with allocationPeriodsTable :=
                    s3.allocationPeriodsTable.filter (fun e => e.1 != s3.currentAllocationID) }
          | .error e => .error e)) ∧
    (∀ s3, SendRtsForPacket env
          { CancelAllEvents
              { s with restoredSuspendedTransmission := false,
                       currentPacket := some allocation.psdu,
                       txParams := allocation.txParams,
                       currentTxVector := allocation.txVector }
            with currentTxop := some txop } = .ok s3 →
      s3.currentTxop = some txop ∧ s3.ctsTimeoutEvent.isSome = true ∧
      ∃ rts v, s3.trace.getLast? = some (.PhySend rts v) ∧ rts.first.hdr.type = .ctlRts ∧
        rts.first.hdr.addr1 = allocation.psdu.GetAddr1 ∧ rts.rest = []) ∧
    (∀ s3, SendDataPacket env
          { CancelAllEvents
              { s with restoredSuspendedTransmission := false,
                       currentPacket := some allocation.psdu,
                       txParams := allocation.txParams,
                       currentTxVector := allocation.txVector }
            with currentTxop := some txop } = .ok s3 →
      ∃ sent v, s3.trace.getLast? = some (.PhySend sent v) ∧ sent.rest = allocation.psdu.rest ∧
        sent.first.packet = allocation.psdu.first.packet ∧
        sent.first.hdr.addr1 = allocation.psdu.first.hdr.addr1 ∧
        sent.size = allocation.psdu.size) := by
  refine ⟨?_, ?_, ?_, ?_⟩
  · intro h
    have hn : ¬ t ≤ duration := not_le.2 h
    simp only [halloc] at ht
    simp only [ResumeTransmission, halloc, ht, hn, if_false]
  · intro h
    simp only [halloc] at ht
    simp only [ResumeTransmission, halloc, ht, h, if_true, (CancelAllEvents_keeps _).1]
    by_cases hc : allocation.txParams.MustSendRts = true
    · simp only [hc, if_true]
      generalize SendRtsForPacket env _ = w
      cases w <;> rfl
    · simp only [hc, if_false]
      generalize SendDataPacket env _ = w
      cases w <;> rfl
  · intro s3 h
    have := SendRtsForPacket_ok env _ s3 allocation.psdu (by
      simp only [(CancelAllEvents_keeps _).2.1]) h
    exact this
  · intro s3 h
    exact SendDataPacket_ok env _ s3 allocation.psdu (by
      simp only [(CancelAllEvents_keeps _).2.1]) h

theorem C19_ResumeTransmission_witness :
    ResumeTransmission { calculateTxDuration := fun size _ => (size : Int) * 1000 }
        { currentAllocation := some
            { psdu := { first := { hdr := { type := .qosData, addr1 := 9 } }, size := 500 },
              txParams := {}, txVector := {}, txop := none },
          currentAllocationID := 7,
          allocationPeriodsTable := [(7,
            { psdu := { first := { hdr := { type := .qosData, addr1 := 9 } }, size := 500 },
              txParams := {}, txVector := {}, txop := none })] }
        300000 { id := 5, isQosTxop := true }
      = .ok { currentAllocation := some
                { psdu := { first := { hdr := { type := .qosData, addr1 := 9 } }, size := 500 },
                  txParams := {}, txVector := {}, txop := none },
              currentAllocationID := 7,
              currentPacket := some
                { first := { hdr := { type := .qosData, addr1 := 9 } }, size := 500 },
              transmissionSuspended := true,
              allocationPeriodsTable := [] } :=
  (C19_ResumeTransmission { calculateTxDuration := fun size _ => (size : Int) * 1000 }
    { currentAllocation := some
        { psdu := { first := { hdr := { type := .qosData, addr1 := 9 } }, size := 500 },
          txParams := {}, txVector := {}, txop := none },
      currentAllocationID := 7,
      allocationPeriodsTable := [(7,
        { psdu := { first := { hdr := { type := .qosData, addr1 := 9 } }, size := 500 },
          txParams := {}, txVector := {}, txop := none })] }
    300000 500000 { id := 5, isQosTxop := true }
    { psdu := { first := { hdr := { type := .qosData, addr1 := 9 } }, size := 500 },
      txParams := {}, txVector := {}, txop := none } rfl (by decide)).1 (by decide)

/-- C20 fails on the code.  An exchange is in flight: `m_currentPacket` is the
QoS data PSDU `P`, the owner is the Txop 5, the allocation id is 7 and the
Normal-Ack timeout is armed.  `EndAllocationPeriod` calls `CancelAllEvents`
first, which, because an event is running, calls `Cancel` on the owner and
nulls `m_currentTxop`; `StoreAllocationParameters` then saves `m_currentTxop`,
which is null.  The table entry for 7 and, after
`RestoreAllocationParameters (7)`, the current allocation hold `txop = none`,
not the owner, and `CompletedSuspendedPsduTransmission` of the owner reports
the suspended PSDU as completed.  With no event running the same call saves
the owner. -/
theorem C20_saved_owner_is_null_when_timer_armed :
    (EndAllocationPeriod
        { currentPacket := some { first := { hdr := { type := .qosData, addr1 := 9 } },
                                  size := 100 },
          currentTxop := some { id := 5, isQosTxop := true },
          currentAllocationID := 7,
          txParams := { waitAck := .normal },
          normalAckTimeoutEvent := some { due := 10, handler := .NormalAckTimeout }
        }).allocationPeriodsTable
      = [(7, { psdu := { first := { hdr := { type := .qosData, addr1 := 9 } }, size := 100 },
               txParams := { waitAck := .normal }, txVector := {}, txop := none })] ∧
    (RestoreAllocationParameters
        (EndAllocationPeriod
          { currentPacket := some { first := { hdr := { type := .qosData, addr1 := 9 } },
                                    size := 100 },
            currentTxop := some { id := 5, isQosTxop := true },
            currentAllocationID := 7,
            txParams := { waitAck := .normal },
            normalAckTimeoutEvent := some { due := 10, handler := .NormalAckTimeout } })
        7).currentAllocation
      = some { psdu := { first := { hdr := { type := .qosData, addr1 := 9 } }, size := 100 },
               txParams := { waitAck := .normal }, txVector := {}, txop := none } ∧
    CompletedSuspendedPsduTransmission
        (RestoreAllocationParameters
          (EndAllocationPeriod
            { currentPacket := some { first := { hdr := { type := .qosData, addr1 := 9 } },
                                      size := 100 },
              currentTxop := some { id := 5, isQosTxop := true },
              currentAllocationID := 7,
              txParams := { waitAck := .normal },
              normalAckTimeoutEvent := some { due := 10, handler := .NormalAckTimeout } })
          7)
        (some { id := 5, isQosTxop := true }) = true ∧
    (EndAllocationPeriod
        { currentPacket := some { first := { hdr := { type := .qosData, addr1 := 9 } },
                                  size := 100 },
          currentTxop := some { id := 5, isQosTxop := true },
          currentAllocationID := 7,
          txParams := { waitAck := .normal } }).allocationPeriodsTable
      = [(7, { psdu := { first := { hdr := { type := .qosData, addr1 := 9 } }, size := 100 },
               txParams := { waitAck := .normal }, txVector := {},
               txop := some { id := 5, isQosTxop := true } })] := by
  decide

/-- Whenever an event is running and the owner is not null, the context that
`EndAllocationPeriod` saves for a QoS data PSDU has a null owner. -/
theorem EndAllocationPeriod_saves_null_owner (s : MacLowState) (psdu : WifiPsdu) (txop : Txop)
    (hp : s.currentPacket = some psdu) (hq : psdu.first.hdr.IsQosData = true)
    (ht : s.currentTxop = some txop)
    (hrun : (s.normalAckTimeoutEvent.isSome || s.blockAckTimeoutEvent.isSome
      || s.ctsTimeoutEvent.isSome || s.sendCtsEvent.isSome || s.sendAckEvent.isSome
      || s.sendDataEvent.isSome || s.waitIfsEvent.isSome || s.endTxNoAckEvent.isSome) = true) :
    (EndAllocationPeriod s).allocationPeriodsTable
      = tableSet s.allocationPeriodsTable s.currentAllocationID
          { psdu := psdu, txParams := s.txParams, txVector := s.currentTxVector, txop := none } := by
  simp only [EndAllocationPeriod, StoreAllocationParameters, CancelAllEvents, hrun, ht,
    MacLowState.call, hp, hq, if_true]


/-! ## The rx callback trace of a reorder-buffer operation is appended to -/

theorem untilFirstLostLoop_log (i : List Mpdu) :
    ∀ (lc : List Mpdu) (g : Nat) (log l2 : List Mpdu),
      untilFirstLostLoop i lc g (log ++ l2)
        = ((untilFirstLostLoop i lc g l2).1, (untilFirstLostLoop i lc g l2).2.1,
           log ++ (untilFirstLostLoop i lc g l2).2.2) := by
  induction i with
  | nil => intro lc g log l2; simp [untilFirstLostLoop]
  | cons x rest ih =>
    intro lc g log l2
    rw [untilFirstLostLoop, untilFirstLostLoop]
    by_cases hg : g = GetSequenceControl x
    · by_cases hm : x.moreFragments = true
      · simp only [hg, hm, if_true]
        exact ih _ _ _ _
      · simp only [hg, hm, if_true, Bool.false_eq_true, if_false]
        rw [List.append_assoc]
        exact ih _ _ _ _
    · simp only [hg, if_false]

theorem untilFirstLost_log (a : Agreement) (log l2 : List Mpdu) :
    untilFirstLost a (log ++ l2) = ((untilFirstLost a l2).1, log ++ (untilFirstLost a l2).2) := by
  simp only [untilFirstLost]
  rw [untilFirstLostLoop_log]

theorem smallerSequenceLoop_log (e ms : Nat) (fuel : Nat) :
    ∀ (i last : List Mpdu) (g : Nat) (log l2 : List Mpdu),
      smallerSequenceLoop e ms fuel i last g (log ++ l2)
        = match smallerSequenceLoop e ms fuel i last g l2 with
          | .ok r => .ok (r.1, log ++ r.2)
          | .error err => .error err := by
  induction fuel with
  | zero => intro i last g log l2; simp [smallerSequenceLoop]
  | succ fuel ih =>
    intro i last g log l2
    cases i with
    | nil => simp [smallerSequenceLoop]
    | cons x rest =>
      rw [smallerSequenceLoop, smallerSequenceLoop]
      by_cases hc : QosUtilsMapSeqControlToUniqueInteger (GetSequenceControl x) e < ms
      · by_cases hg : g = GetSequenceControl x
        · by_cases hm : x.moreFragments = true
          · simp only [hc, hg, hm, if_true]
            exact ih _ _ _ _ _
          · simp only [hc, hg, hm, if_true, Bool.false_eq_true, if_false]
            rw [List.append_assoc]
            exact ih _ _ _ _ _
        · simp only [hc, hg, if_true, if_false]
          exact ih _ _ _ _ _
      · simp only [hc, if_false]

theorem withSmallerSequence_log (fuel seq : Nat) (a : Agreement) (log l2 : List Mpdu) :
    withSmallerSequence fuel seq a (log ++ l2)
      = match withSmallerSequence fuel seq a l2 with
        | .ok r => .ok (r.1, log ++ r.2)
        | .error err => .error err := by
  simp only [withSmallerSequence]
  rw [smallerSequenceLoop_log]
  generalize smallerSequenceLoop _ _ fuel a.buffer a.buffer _ l2 = w
  cases w <;> rfl

theorem ReceiveMpdu_log (ht : Bool) (fuel : Nat) (ag : Option Agreement) (log l2 : List Mpdu)
    (m : Mpdu) :
    ReceiveMpdu ht fuel { agreement := ag, delivered := log ++ l2 } m
      = match ReceiveMpdu ht fuel { agreement := ag, delivered := l2 } m with
        | .ok r => .ok (r.1, { agreement := r.2.agreement, delivered := log ++ r.2.delivered })
        | .error err => .error err := by
  cases ht with
  | false =>
    cases ag <;> simp [ReceiveMpdu, StoreMpduIfNeeded]
  | true =>
    cases ag with
    | none => simp [ReceiveMpdu]
    | some a =>
      simp only [ReceiveMpdu, if_true]
      by_cases hold : QosUtilsIsOldPacket a.startingSeq (GetSequenceNumber m) = true
      · simp [hold]
      · simp only [hold, Bool.not_false, if_true]
        split
        · split
          · rfl
          · rw [withSmallerSequence_log]
            generalize withSmallerSequence fuel _ _ l2 = w
            cases w with
            | error err => rfl
            | ok r =>
              simp only
              rw [untilFirstLost_log]
        · simp only
          rw [untilFirstLost_log]

theorem withSmallerSequence_keeps (fuel seq : Nat) (a : Agreement) (log : List Mpdu)
    (r : Agreement × List Mpdu) (h : withSmallerSequence fuel seq a log = .ok r) :
    r.1.bufferSize = a.bufferSize ∧ r.1.startingSeq = a.startingSeq := by
  unfold withSmallerSequence at h
  simp only at h
  split at h
  · cases h; exact ⟨rfl, rfl⟩
  · cases h

theorem ReceiveMpdu_found (ht : Bool) (fuel : Nat) (a : Agreement) (log : List Mpdu) (m : Mpdu)
    (r : Bool × RxState)
    (h : ReceiveMpdu ht fuel { agreement := some a, delivered := log } m = .ok r) :
    r.1 = true ∧ ∃ a1, r.2.agreement = some a1 ∧ a1.bufferSize = a.bufferSize := by
  cases ht with
  | false =>
    simp only [ReceiveMpdu, Bool.false_eq_true, if_false, StoreMpduIfNeeded] at h
    cases h
    exact ⟨rfl, _, rfl, rfl⟩
  | true =>
  simp only [ReceiveMpdu, if_true] at h
  split at h
  · split at h
    · split at h
      · cases h
      · split at h
        · rename_i r1 hr1
          cases h
          exact ⟨rfl, _, rfl, (withSmallerSequence_keeps _ _ _ _ _ hr1).1⟩
        · cases h
    · cases h
      exact ⟨rfl, _, rfl, rfl⟩
  · cases h
    exact ⟨rfl, _, rfl, rfl⟩


/-! ## Reception of a QoS data frame under a Block-Ack agreement -/

theorem rxRun_log (ht : Bool) (fuel : Nat) :
    ∀ (ms : List Mpdu) (ag : Option Agreement) (log l2 : List Mpdu),
      rxRun ht fuel { agreement := ag, delivered := log ++ l2 } (ms.map RxOp.receiveMpdu)
        = match rxRun ht fuel { agreement := ag, delivered := l2 } (ms.map RxOp.receiveMpdu) with
          | .ok r => .ok { agreement := r.agreement, delivered := log ++ r.delivered }
          | .error err => .error err := by
  intro ms
  induction ms with
  | nil => intro ag log l2; simp [rxRun]
  | cons m ms ih =>
    intro ag log l2
    simp only [List.map_cons, rxRun, rxStep]
    rw [ReceiveMpdu_log]
    cases hr : ReceiveMpdu ht fuel { agreement := ag, delivered := l2 } m with
    | error err => rfl
    | ok r =>
      simp only
      exact ih r.2.agreement log r.2.delivered

theorem findAgreement_key (t : List AgreementEntry) (p : Mac48Address) (q : Nat)
    (e : AgreementEntry) (h : findAgreement t p q = some e) : e.peer = p ∧ e.tid = q := by
  have := List.find?_some h
  simpa using this

theorem setAgreement_found (t : List AgreementEntry) (p : Mac48Address) (q : Nat)
    (e0 e : AgreementEntry) (h : findAgreement t p q = some e0) (hk : e.peer = p ∧ e.tid = q) :
    findAgreement (setAgreement t e) p q = some e := by
  induction t with
  | nil => simp [findAgreement] at h
  | cons x t ih =>
    simp only [findAgreement, List.find?_cons] at h
    simp only [setAgreement, hk.1, hk.2]
    by_cases hx : (x.peer == p && x.tid == q) = true
    · simp [hx, findAgreement, List.find?_cons, hk.1, hk.2]
    · simp only [hx] at h
      simp only [hx, Bool.false_eq_true, if_false, findAgreement, List.find?_cons]
      exact ih h

theorem setAgreement_same (t : List AgreementEntry) (p : Mac48Address) (q : Nat)
    (e : AgreementEntry) (h : findAgreement t p q = some e) : setAgreement t e = t := by
  have hk := findAgreement_key t p q e h
  induction t with
  | nil => rfl
  | cons x t ih =>
    simp only [findAgreement, List.find?_cons] at h
    simp only [setAgreement, hk.1, hk.2]
    by_cases hx : (x.peer == p && x.tid == q) = true
    · simp only [hx, Option.some.injEq] at h
      subst h
      simp only [hx, if_true]
    · simp only [hx] at h
      simp only [hx, Bool.false_eq_true, if_false]
      rw [ih h]

theorem setAgreement_twice (t : List AgreementEntry) (p : Mac48Address) (q : Nat)
    (e0 e1 e2 : AgreementEntry) (h : findAgreement t p q = some e0)
    (h1 : e1.peer = p ∧ e1.tid = q) (h2 : e2.peer = p ∧ e2.tid = q) :
    setAgreement (setAgreement t e1) e2 = setAgreement t e2 := by
  induction t with
  | nil => rfl
  | cons x t ih =>
    simp only [findAgreement, List.find?_cons] at h
    simp only [setAgreement, h1.1, h1.2, h2.1, h2.2]
    by_cases hx : (x.peer == p && x.tid == q) = true
    · simp [hx, setAgreement, h1.1, h1.2, h2.1, h2.2]
    · simp only [hx] at h
      simp only [hx, Bool.false_eq_true, if_false, setAgreement, h2.1, h2.2]
      rw [ih h]

theorem MacLowReceiveMpdu_found (env : Env) (s : MacLowState) (mpdu : WifiMacQueueItem)
    (e : AgreementEntry) (b : Bool) (a1 : Agreement) (D : List Mpdu)
    (hty : mpdu.hdr.type = .qosData)
    (hfind : findAgreement s.bAckAgreements mpdu.hdr.addr2 mpdu.hdr.qosTid = some e)
    (hrx : ReceiveMpdu env.htSupported env.loopFuel
      { agreement := some e.agreement, delivered := [] }
      mpdu.toMpdu = .ok (b, { agreement := some a1, delivered := D })) :
    MacLowReceiveMpdu env s mpdu
      = .ok (b, { s with
          bAckAgreements := setAgreement s.bAckAgreements { e with agreement := a1 },
          trace := s.trace ++ D.map Call.RxCallback }) := by
  have hq : mpdu.hdr.IsQosData = true := by simp [WifiMacHeader.IsQosData, hty]
  simp only [MacLowReceiveMpdu, hq, if_true, ite_self, hfind, Option.map_some', hrx, rxCallbacks,
    MacLowState.call]

theorem ReceiveOk_qos_for_self (env : Env) (s : MacLowState) (mpdu : WifiMacQueueItem)
    (rxSnr : Nat) (txVector : WifiTxVector) (ampduSubframe : Bool)
    (hty : mpdu.hdr.type = .qosData) (hself : mpdu.hdr.addr1 = s.self)
    (hnav : s.lastNavStart ≤ s.now) :
    ReceiveOk env s mpdu rxSnr txVector ampduSubframe
      = receiveForSelf env s mpdu rxSnr txVector ampduSubframe := by
  have hpoll : mpdu.hdr.IsCfPoll = false := by simp [WifiMacHeader.IsCfPoll, hty]
  have hend : mpdu.hdr.IsCfEnd = false := by simp [WifiMacHeader.IsCfEnd, hty]
  have hrts : mpdu.hdr.IsRts = false := by simp [WifiMacHeader.IsRts, hty]
  have hc : (mpdu.hdr.IsCts || mpdu.hdr.IsDmgCts) = false := by
    simp [WifiMacHeader.IsCts, WifiMacHeader.IsDmgCts, hty]
  have h1 : mpdu.hdr.IsAck = false := by simp [WifiMacHeader.IsAck, hty]
  have h2 : mpdu.hdr.IsBlockAck = false := by simp [WifiMacHeader.IsBlockAck, hty]
  have h3 : mpdu.hdr.IsBlockAckReq = false := by simp [WifiMacHeader.IsBlockAckReq, hty]
  have h4 : mpdu.hdr.IsDMGBeacon = false := by simp [WifiMacHeader.IsDMGBeacon, hty]
  have h5 : (mpdu.hdr.IsSSW || mpdu.hdr.IsSSW_FBCK || mpdu.hdr.IsSSW_ACK) = false := by
    simp [WifiMacHeader.IsSSW, WifiMacHeader.IsSSW_FBCK, WifiMacHeader.IsSSW_ACK, hty]
  have h6 : mpdu.hdr.IsCtl = false := by simp [WifiMacHeader.IsCtl, hty]
  unfold ReceiveOk
  simp only [NotifyNav_addressed_to_self env s mpdu hnav hpoll hend hself, hrts,
    Bool.false_eq_true, if_false, hc, Bool.false_and, h1, h2, h3, h4, h5, h6, hself,
    beq_self_eq_true, Bool.and_false, if_true]

theorem receiveForSelf_admitted (env : Env) (s s3 : MacLowState) (mpdu : WifiMacQueueItem)
    (rxSnr : Nat) (txVector : WifiTxVector) (ampduSubframe : Bool)
    (hty : mpdu.hdr.type = .qosData) (hsls : s.servingSLS = false)
    (hmimo : s.servingMimoBFT = false)
    (hrx : MacLowReceiveMpdu env (s.call [.ReportRxOk mpdu.hdr.addr2]) mpdu = .ok (true, s3)) :
    receiveForSelf env s mpdu rxSnr txVector ampduSubframe
      = receiveQosDataUnderAgreement env s3 mpdu rxSnr txVector ampduSubframe := by
  have hpoll : mpdu.hdr.IsCfPoll = false := by simp [WifiMacHeader.IsCfPoll, hty]
  have hq : mpdu.hdr.IsQosData = true := by simp [WifiMacHeader.IsQosData, hty]
  have hact : mpdu.hdr.IsActionNoAck = false := by simp [WifiMacHeader.IsActionNoAck, hty]
  simp only [receiveForSelf, hpoll, Bool.false_eq_true, if_false, hsls, hmimo, Bool.false_and,
    hact, hq, if_true, hrx]

/-! ## A stale QoS data frame under an agreement -/

theorem ReceiveMpdu_stale (fuel : Nat) (a : Agreement) (log : List Mpdu) (m : Mpdu)
    (h : QosUtilsIsOldPacket a.startingSeq m.seqNum = true) :
    ReceiveMpdu true fuel { agreement := some a, delivered := log } m
      = .ok (true, { agreement := some a, delivered := log }) := by
  simp [ReceiveMpdu, GetSequenceNumber, h]

theorem ReceiveMpdu_admits (a : Agreement) (m : Mpdu) (fuel : Nat) (log : List Mpdu)
    (ha : a.inOrder) (hB : 1 ≤ a.bufferSize) (hm : m.unfragmented = true)
    (hfuel : a.buffer.length + 1 < fuel)
    (hnew : QosUtilsIsOldPacket a.startingSeq m.seqNum = false) :
    ∃ a1 log1, ReceiveMpdu true fuel { agreement := some a, delivered := log } m
        = .ok (true, { agreement := some a1, delivered := log1 }) ∧ m ∈ log1 ++ a1.buffer := by
  obtain ⟨s, B, buf⟩ := a
  obtain ⟨hs, hu, hp⟩ := ha
  simp only at hs hu hp hB hfuel hnew
  have hnew' : seqOffset s m.seqNum < 2048 := by
    simp only [QosUtilsIsOldPacket, decide_eq_false_iff_not] at hnew
    unfold seqOffset
    omega
  by_cases hwin : IsInWindow m.seqNum s B = true
  · have hst : (storeMpdu { startingSeq := s, bufferSize := B, buffer := buf } m).startingSeq = s
        ∧ (storeMpdu { startingSeq := s, bufferSize := B, buffer := buf } m).bufferSize = B :=
      ⟨rfl, rfl⟩
    refine ⟨(untilFirstLost (storeMpdu { startingSeq := s, bufferSize := B, buffer := buf } m)
        log).1,
      (untilFirstLost (storeMpdu { startingSeq := s, bufferSize := B, buffer := buf } m) log).2,
      by
      simp only [ReceiveMpdu, GetSequenceNumber, hnew, hst.1, hst.2, hwin, Bool.not_false,
        Bool.not_true, if_true, Bool.false_eq_true, if_false], ?_⟩
    rw [untilFirstLost_held]
    exact List.mem_append_right _ ((storeMpdu_perm _ m).mem_iff.2 (List.mem_cons_self _ _))
  · have hout : B ≤ seqOffset s m.seqNum := by
      simp only [IsInWindow, decide_eq_true_eq] at hwin
      unfold seqOffset
      omega
    have h := ReceiveMpdu_out_of_window s B fuel buf log m hs hB
      (fun x hx => ⟨(hu x hx).1, (hu x hx).2.2.1⟩) hp hm hnew' hout hfuel
    refine ⟨_, _, by rw [h]; rfl, ?_⟩
    rw [untilFirstLost_held]
    simp

theorem flushAfterNormalAck_sublist (fuel : Nat) (a : Agreement) (r : RxState)
    (h : flushAfterNormalAck fuel { agreement := some a, delivered := [] } = .ok r) :
    ∃ a1, r.agreement = some a1 ∧ r.delivered.Sublist a.buffer := by
  simp only [flushAfterNormalAck, RxCompleteBufferedPacketsWithSmallerSequence] at h
  split at h
  · rename_i r1 hr1
    split at hr1
    · rename_i w hw
      cases hr1
      cases h
      have h1 := withSmallerSequence_held fuel _ a [] w hw
      have h2 := untilFirstLost_held w.1 w.2
      refine ⟨_, rfl, ?_⟩
      simp only [RxCompleteBufferedPacketsUntilFirstLost]
      have h3 : (untilFirstLost w.1 w.2).2.Sublist
          ((untilFirstLost w.1 w.2).2 ++ (untilFirstLost w.1 w.2).1.buffer) :=
        List.sublist_append_left _ _
      rw [h2] at h3
      simpa using h3.trans h1
    · cases hr1
  · cases h

theorem flushAfterNormalAck_inOrder (fuel : Nat) (a : Agreement) (ha : a.inOrder)
    (hfuel : 1 ≤ fuel) :
    flushAfterNormalAck fuel { agreement := some a, delivered := [] }
      = .ok { agreement := some a, delivered := [] } := by
  obtain ⟨s, B, buf⟩ := a
  obtain ⟨hs, hu, hp⟩ := ha
  simp only at hs hu hp
  obtain ⟨f, rfl⟩ : ∃ f, fuel = f + 1 := ⟨fuel - 1, by omega⟩
  have hsc : ((s * 16) >>> 4) &&& 0x0fff = s := by
    rw [shiftRight_four, and_0fff]
    omega
  cases buf with
  | nil =>
    simp [flushAfterNormalAck, RxCompleteBufferedPacketsWithSmallerSequence, withSmallerSequence,
      smallerSequenceLoop, RxCompleteBufferedPacketsUntilFirstLost, untilFirstLost,
      untilFirstLostLoop, Agreement.SetStartingSequenceControl, startControl _ _ _ hs, hsc]
  | cons x rest =>
    have hx := hu x (List.mem_cons_self _ _)
    have hx3 := ((unfragmented_iff x).1 hx.1).2.2
    have hmap := map_unfragmented x hx.1 s hs
    have hnot : ¬ QosUtilsMapSeqControlToUniqueInteger (GetSequenceControl x) ((s + 2047) % 4096)
        < QosUtilsMapSeqControlToUniqueInteger (s * 16) ((s + 2047) % 4096) := by
      rw [hmap, map_start]
      have := hx.2.1
      have := hx.2.2.2
      omega
    have hg : s * 16 ≠ GetSequenceControl x := by
      rw [GetSequenceControl_unfragmented x hx.1]
      have := hx.2.1
      unfold seqOffset at this
      omega
    simp [flushAfterNormalAck, RxCompleteBufferedPacketsWithSmallerSequence, withSmallerSequence,
      smallerSequenceLoop, RxCompleteBufferedPacketsUntilFirstLost, untilFirstLost,
      untilFirstLostLoop, Agreement.SetStartingSequenceControl, startControl _ _ _ hs, hsc,
      hnot, hg]

theorem MacLowReceiveMpdu_stale (env : Env) (s : MacLowState) (mpdu : WifiMacQueueItem)
    (e : AgreementEntry) (hty : mpdu.hdr.type = .qosData) (hht : env.htSupported = true)
    (hfind : findAgreement s.bAckAgreements mpdu.hdr.addr2 mpdu.hdr.qosTid = some e)
    (hstale : QosUtilsIsOldPacket e.agreement.startingSeq mpdu.hdr.seqNum = true) :
    MacLowReceiveMpdu env s mpdu = .ok (true, s) := by
  rw [MacLowReceiveMpdu_found env s mpdu e true e.agreement [] hty hfind
    (by rw [hht]; exact ReceiveMpdu_stale _ _ _ _ hstale)]
  have he : ({ e with agreement := e.agreement } : AgreementEntry) = e := by cases e; rfl
  rw [he, setAgreement_same _ _ _ _ hfind]
  simp

theorem receiveQosDataUnderAgreement_trace (env : Env) (s s1 : MacLowState)
    (mpdu : WifiMacQueueItem) (rxSnr : Nat) (txVector : WifiTxVector) (ampduSubframe : Bool)
    (e : AgreementEntry)
    (hfind : findAgreement s.bAckAgreements mpdu.hdr.addr2 mpdu.hdr.qosTid = some e)
    (h : receiveQosDataUnderAgreement env s mpdu rxSnr txVector ampduSubframe = .ok s1) :
    ∃ D : List Mpdu, s1.trace = s.trace ++ D.map Call.RxCallback ∧
      D.Sublist e.agreement.buffer := by
  unfold receiveQosDataUnderAgreement at h
  simp only at h
  by_cases hc : (mpdu.hdr.IsQosAck && !ampduSubframe) = true
  · simp only [hc, if_true, onAgreement, hfind, Option.map_some'] at h
    cases hr : flushAfterNormalAck env.loopFuel
        { agreement := some e.agreement, delivered := [] } with
    | error err => simp only [hr] at h; cases h
    | ok r =>
      obtain ⟨a1, ha1, hsub⟩ := flushAfterNormalAck_sublist _ _ r hr
      simp only [hr, ha1, rxCallbacks, MacLowState.call] at h
      by_cases hev : s.sendAckEvent.isSome = true
      · simp only [hev, if_true] at h
        cases h
      · simp only [hev, Bool.false_eq_true, if_false] at h
        cases h
        exact ⟨r.delivered, rfl, hsub⟩
  · simp only [hc, Bool.false_eq_true, if_false] at h
    by_cases hb : mpdu.hdr.IsQosBlockAck = true
    · simp only [hb, if_true, hfind, ResetBlockAckInactivityTimerIfNeeded] at h
      refine ⟨[], ?_, List.nil_sublist _⟩
      by_cases h1 : (e.timeout != 0) = true
      · simp only [h1, if_true] at h
        by_cases h2 : e.inactivityEvent.isNone = true
        · simp only [h2, if_true] at h
          cases h
        · simp only [h2, Bool.false_eq_true, if_false] at h
          cases h
          simp
      · simp only [h1, Bool.false_eq_true, if_false] at h
        cases h
        simp
    · simp only [hb, Bool.false_eq_true, if_false] at h
      cases h
      exact ⟨[], by simp, List.nil_sublist _⟩

theorem onAgreement_inOrder (s : MacLowState) (peer : Mac48Address) (tid fuel : Nat)
    (e : AgreementEntry) (hfind : findAgreement s.bAckAgreements peer tid = some e)
    (ha : e.agreement.inOrder) (hfuel : 1 ≤ fuel) :
    onAgreement s peer tid (flushAfterNormalAck fuel) = .ok s := by
  have he : ({ e with agreement := e.agreement } : AgreementEntry) = e := by cases e; rfl
  simp only [onAgreement, hfind, Option.map_some', flushAfterNormalAck_inOrder fuel _ ha hfuel,
    he, setAgreement_same _ _ _ _ hfind, rxCallbacks, MacLowState.call, List.map_nil,
    List.append_nil]

/-- C14, as stated, fails on a station whose station manager supports none of HT,
VHT, HE, DMG and EDMG: `ReceiveMpdu` stores a stale MPDU.  With window start 10
and buffer size 4, sequence number 9 is stale, yet it is inserted into the
buffer; `ReceiveOk` on that frame (Normal-Ack policy, not an A-MPDU subframe)
then hands it to the rx callback through the flush of the older frames. -/
theorem C14_stale_mpdu_stored_without_ht :
    QosUtilsIsOldPacket 10 9 = true ∧
    ReceiveMpdu false 10
        { agreement := some { startingSeq := 10, bufferSize := 4, buffer := [] },
          delivered := [] } (qosFrame 9 77).toMpdu
      = .ok (true,
          { agreement := some
              { startingSeq := 10, bufferSize := 4, buffer := [(qosFrame 9 77).toMpdu] },
            delivered := [] }) ∧
    (ReceiveOk { htSupported := false }
        (stationWithAgreement { startingSeq := 10, bufferSize := 4, buffer := [] })
        (qosFrame 9 77) 0 {} false).map (fun s => deliveredUp s.trace)
      = .ok [(qosFrame 9 77).toMpdu] := by
  decide

/-- C14, amended.  On a station with HT, VHT, HE, DMG or EDMG support, for a QoS data frame
addressed to this station, received outside the training modes, for which an
agreement with the sender and TID exists and whose sequence number is stale
relative to the window start: `ReceiveMpdu` returns true and leaves the agreement
(buffer and window start) and the callback trace unchanged; the controller's
`ReceiveMpdu` returns true with the state unchanged; `ReceiveOk` continues on
the path that ends in `return` and never reaches `rxPacket`: for an A-MPDU
subframe or a policy other than Normal Ack (with no inactivity timeout to
reset) it only reports the reception to the station manager; for a Normal-Ack
frame outside an A-MPDU, with no ack pending and the buffer in order, it only
schedules the Ack; and whenever it returns, what it handed to the rx callback
was buffered before.  A sequence number at distance exactly 2047 is not stale
and is admitted: it is delivered or buffered. -/
theorem C14_stale_mpdu_is_dropped (env : Env) (s : MacLowState) (mpdu : WifiMacQueueItem)
    (rxSnr : Nat) (txVector : WifiTxVector) (ampduSubframe : Bool) (e : AgreementEntry)
    (hty : mpdu.hdr.type = .qosData) (hself : mpdu.hdr.addr1 = s.self)
    (hnav : s.lastNavStart ≤ s.now) (hsls : s.servingSLS = false)
    (hmimo : s.servingMimoBFT = false) (hht : env.htSupported = true)
    (hfind : findAgreement s.bAckAgreements mpdu.hdr.addr2 mpdu.hdr.qosTid = some e)
    (hstale : QosUtilsIsOldPacket e.agreement.startingSeq mpdu.hdr.seqNum = true) :
    (∀ (fuel : Nat) (log : List Mpdu),
      ReceiveMpdu true fuel { agreement := some e.agreement, delivered := log } mpdu.toMpdu
        = .ok (true, { agreement := some e.agreement, delivered := log })) ∧
    MacLowReceiveMpdu env (s.call [.ReportRxOk mpdu.hdr.addr2]) mpdu
      = .ok (true, s.call [.ReportRxOk mpdu.hdr.addr2]) ∧
    ReceiveOk env s mpdu rxSnr txVector ampduSubframe
      = receiveQosDataUnderAgreement env (s.call [.ReportRxOk mpdu.hdr.addr2]) mpdu rxSnr
          txVector ampduSubframe ∧
    ((ampduSubframe = true ∨ mpdu.hdr.qosAckPolicy ≠ .normalAck) →
      (mpdu.hdr.qosAckPolicy ≠ .blockAck ∨ e.timeout = 0) →
      ReceiveOk env s mpdu rxSnr txVector ampduSubframe
        = .ok (s.call [.ReportRxOk mpdu.hdr.addr2])) ∧
    (ampduSubframe = false → mpdu.hdr.qosAckPolicy = .normalAck → s.sendAckEvent = none →
      e.agreement.inOrder → 1 ≤ env.loopFuel →
      ReceiveOk env s mpdu rxSnr txVector ampduSubframe
        = .ok { s.call [.ReportRxOk mpdu.hdr.addr2] with
            sendAckEvent := some
              { due := s.now + s.sifs,
                handler := .SendAckAfterData mpdu.hdr.addr2 mpdu.hdr.GetDuration txVector.mode
                  rxSnr } }) ∧
    (∀ s1, ReceiveOk env s mpdu rxSnr txVector ampduSubframe = .ok s1 →
      ∃ D : List Mpdu,
        s1.trace = s.trace ++ [.ReportRxOk mpdu.hdr.addr2] ++ D.map Call.RxCallback ∧
        D.Sublist e.agreement.buffer) ∧
    (∀ (a : Agreement) (m : Mpdu) (fuel : Nat) (log : List Mpdu),
      a.inOrder → 1 ≤ a.bufferSize → m.unfragmented = true →
      seqOffset a.startingSeq m.seqNum = 2047 → a.buffer.length + 1 < fuel →
      QosUtilsIsOldPacket a.startingSeq m.seqNum = false ∧
      ∃ a1 log1, ReceiveMpdu true fuel { agreement := some a, delivered := log } m
          = .ok (true, { agreement := some a1, delivered := log1 }) ∧
        m ∈ log1 ++ a1.buffer) := by
  have hfind1 : findAgreement (s.call [.ReportRxOk mpdu.hdr.addr2]).bAckAgreements
      mpdu.hdr.addr2 mpdu.hdr.qosTid = some e := hfind
  have hrx := MacLowReceiveMpdu_stale env (s.call [.ReportRxOk mpdu.hdr.addr2]) mpdu e hty hht
    hfind1 hstale
  have hok : ReceiveOk env s mpdu rxSnr txVector ampduSubframe
      = receiveQosDataUnderAgreement env (s.call [.ReportRxOk mpdu.hdr.addr2]) mpdu rxSnr
          txVector ampduSubframe := by
    rw [ReceiveOk_qos_for_self env s mpdu rxSnr txVector ampduSubframe hty hself hnav,
      receiveForSelf_admitted env s _ mpdu rxSnr txVector ampduSubframe hty hsls hmimo hrx]
  have hq : mpdu.hdr.IsQosData = true := by simp [WifiMacHeader.IsQosData, hty]
  refine ⟨fun fuel log => ReceiveMpdu_stale fuel _ log _ hstale, hrx, hok, ?_, ?_, ?_, ?_⟩
  · intro h1 h2
    rw [hok]
    have hc : (mpdu.hdr.IsQosAck && !ampduSubframe) = false := by
      rcases h1 with h1 | h1
      · simp [h1]
      · simp [WifiMacHeader.IsQosAck, h1]
    simp only [receiveQosDataUnderAgreement, hc, Bool.false_eq_true, if_false, hfind1]
    rcases h2 with h2 | h2
    · have hb : mpdu.hdr.IsQosBlockAck = false := by simp [WifiMacHeader.IsQosBlockAck, h2]
      simp only [hb, Bool.false_eq_true, if_false]
    · by_cases hb : mpdu.hdr.IsQosBlockAck = true
      · simp [hb, ResetBlockAckInactivityTimerIfNeeded, h2]
      · simp only [hb, Bool.false_eq_true, if_false]
  · intro h1 h2 h3 h4 h5
    rw [hok]
    have hc : (mpdu.hdr.IsQosAck && !ampduSubframe) = true := by
      simp [WifiMacHeader.IsQosAck, hq, h1, h2]
    have hev : (s.call [.ReportRxOk mpdu.hdr.addr2]).sendAckEvent.isSome = false := by
      simp [MacLowState.call, h3]
    simp only [receiveQosDataUnderAgreement, hc, if_true,
      onAgreement_inOrder _ _ _ _ e hfind1 h4 h5, hev, Bool.false_eq_true, if_false]
    rfl
  · intro s1 h
    rw [hok] at h
    obtain ⟨D, hD, hsub⟩ := receiveQosDataUnderAgreement_trace env _ s1 mpdu rxSnr txVector
      ampduSubframe e hfind1 h
    exact ⟨D, hD, hsub⟩
  · intro a m fuel log ha hB hm hoff hfuel
    have hnew : QosUtilsIsOldPacket a.startingSeq m.seqNum = false := by
      simp only [QosUtilsIsOldPacket, decide_eq_false_iff_not]
      unfold seqOffset at hoff
      omega
    exact ⟨hnew, ReceiveMpdu_admits a m fuel log ha hB hm hfuel hnew⟩

theorem C14_stale_mpdu_is_dropped_witness :
    MacLowReceiveMpdu {}
        ((stationWithAgreement { startingSeq := 10, bufferSize := 4, buffer := [] }).call
          [.ReportRxOk (qosFrame 9 77).hdr.addr2]) (qosFrame 9 77)
      = .ok (true, (stationWithAgreement { startingSeq := 10, bufferSize := 4, buffer := [] }).call
          [.ReportRxOk (qosFrame 9 77).hdr.addr2]) ∧
    ((true = true ∨ (qosFrame 9 77).hdr.qosAckPolicy ≠ .normalAck) →
      ((qosFrame 9 77).hdr.qosAckPolicy ≠ .blockAck ∨
        ({ peer := 2, tid := 3,
           agreement := { startingSeq := 10, bufferSize := 4, buffer := [] } }
          : AgreementEntry).timeout = 0) →
      ReceiveOk {} (stationWithAgreement { startingSeq := 10, bufferSize := 4, buffer := [] })
          (qosFrame 9 77) 0 {} true
        = .ok ((stationWithAgreement { startingSeq := 10, bufferSize := 4, buffer := [] }).call
            [.ReportRxOk (qosFrame 9 77).hdr.addr2])) :=
  have h := C14_stale_mpdu_is_dropped {}
    (stationWithAgreement { startingSeq := 10, bufferSize := 4, buffer := [] }) (qosFrame 9 77)
    0 {} true
    { peer := 2, tid := 3, agreement := { startingSeq := 10, bufferSize := 4, buffer := [] } }
    rfl rfl (by decide) rfl rfl rfl rfl (by decide)
  ⟨h.2.1, h.2.2.2.1⟩

/-! ## A-MPDU reception under a Block-Ack agreement -/

theorem Reset_ok (s : MacLowState) (p : Mac48Address) (q : Nat) (e : AgreementEntry)
    (hfind : findAgreement s.bAckAgreements p q = some e)
    (htime : e.timeout = 0 ∨ e.inactivityEvent.isSome = true) :
    ∃ e1, e1.peer = e.peer ∧ e1.tid = e.tid ∧ e1.agreement = e.agreement ∧
      (e1.timeout = 0 ∨ e1.inactivityEvent.isSome = true) ∧
      ResetBlockAckInactivityTimerIfNeeded s e
        = .ok { s with bAckAgreements := setAgreement s.bAckAgreements e1 } := by
  by_cases h0 : e.timeout = 0
  · refine ⟨e, rfl, rfl, rfl, htime, ?_⟩
    simp [ResetBlockAckInactivityTimerIfNeeded, h0, setAgreement_same _ _ _ _ hfind]
  · have hsome : e.inactivityEvent.isSome = true := htime.resolve_left h0
    have hnone : e.inactivityEvent.isNone = false := by
      cases hi : e.inactivityEvent with
      | none => simp [hi] at hsome
      | some _ => rfl
    refine ⟨{ e with inactivityEvent := some (Event.mk (s.now + 1024 * (e.timeout : Int) * 1000)
        (.SendDelbaFrame e.peer e.tid)) }, rfl, rfl, rfl, Or.inr rfl, ?_⟩
    simp [ResetBlockAckInactivityTimerIfNeeded, h0, hnone]

theorem ReceiveOk_subframe (env : Env) (s : MacLowState) (n : WifiMacQueueItem) (rxSnr : Nat)
    (txVector : WifiTxVector) (e : AgreementEntry) (b : Bool) (a1 : Agreement) (D : List Mpdu)
    (hty : n.hdr.type = .qosData) (hself : n.hdr.addr1 = s.self)
    (hnav : s.lastNavStart ≤ s.now) (hsls : s.servingSLS = false)
    (hmimo : s.servingMimoBFT = false)
    (hfind : findAgreement s.bAckAgreements n.hdr.addr2 n.hdr.qosTid = some e)
    (htime : e.timeout = 0 ∨ e.inactivityEvent.isSome = true)
    (hrx : ReceiveMpdu env.htSupported env.loopFuel
      { agreement := some e.agreement, delivered := [] }
      n.toMpdu = .ok (b, { agreement := some a1, delivered := D })) :
    ∃ e1, e1.peer = e.peer ∧ e1.tid = e.tid ∧ e1.agreement = a1 ∧
      (e1.timeout = 0 ∨ e1.inactivityEvent.isSome = true) ∧
      ReceiveOk env s n rxSnr txVector true
        = .ok { s with
            bAckAgreements := setAgreement s.bAckAgreements e1,
            trace := s.trace ++ Call.ReportRxOk n.hdr.addr2 :: D.map Call.RxCallback } := by
  have hb : b = true := (ReceiveMpdu_found _ _ _ _ _ _ hrx).1
  subst hb
  have hk := findAgreement_key _ _ _ _ hfind
  have hfind1 : findAgreement (s.call [.ReportRxOk n.hdr.addr2]).bAckAgreements n.hdr.addr2
      n.hdr.qosTid = some e := hfind
  have hmr := MacLowReceiveMpdu_found env (s.call [.ReportRxOk n.hdr.addr2]) n e true a1 D hty
    hfind1 hrx
  rw [ReceiveOk_qos_for_self env s n rxSnr txVector true hty hself hnav,
    receiveForSelf_admitted env s _ n rxSnr txVector true hty hsls hmimo hmr]
  have hfind2 : findAgreement (setAgreement s.bAckAgreements { e with agreement := a1 })
      n.hdr.addr2 n.hdr.qosTid = some { e with agreement := a1 } :=
    setAgreement_found _ _ _ e _ hfind hk
  simp only [receiveQosDataUnderAgreement, Bool.not_true, Bool.and_false, Bool.false_eq_true,
    if_false, MacLowState.call]
  by_cases hbp : n.hdr.IsQosBlockAck = true
  · simp only [hbp, if_true, hfind2]
    obtain ⟨e1, h1, h2, h3, h4, h5⟩ := Reset_ok
      { s with
        bAckAgreements := setAgreement s.bAckAgreements { e with agreement := a1 },
        trace := s.trace ++ [Call.ReportRxOk n.hdr.addr2] ++ D.map Call.RxCallback }
      n.hdr.addr2 n.hdr.qosTid { e with agreement := a1 } hfind2 htime
    refine ⟨e1, h1, h2, h3, h4, ?_⟩
    rw [h5]
    simp only [setAgreement_twice s.bAckAgreements _ _ e { e with agreement := a1 } e1 hfind hk
        ⟨h1.trans hk.1, h2.trans hk.2⟩,
      List.append_assoc, List.singleton_append]
  · simp only [hbp, Bool.false_eq_true, if_false]
    exact ⟨{ e with agreement := a1 }, rfl, rfl, rfl, htime, by simp⟩

theorem deaggregateLoop_failed (env : Env) (psdu : WifiPsdu) (rxSnr : Nat)
    (txVector : WifiTxVector) (s : MacLowState) (na amp : Bool) (n : WifiMacQueueItem)
    (rest : List (WifiMacQueueItem × Bool)) (hself : n.hdr.addr1 = s.self) :
    deaggregateLoop env psdu rxSnr txVector s na amp ((n, false) :: rest)
      = deaggregateLoop env psdu rxSnr txVector s na amp rest := by
  rw [deaggregateLoop]
  simp [hself]

theorem deaggregateLoop_passed (env : Env) (psdu : WifiPsdu) (rxSnr : Nat)
    (txVector : WifiTxVector) (s : MacLowState) (na : Bool) (n : WifiMacQueueItem)
    (e : AgreementEntry) (b : Bool) (a1 : Agreement)
    (D : List Mpdu) (hsingle : psdu.isSingle = false)
    (hty : n.hdr.type = .qosData) (hself : n.hdr.addr1 = s.self)
    (hnav : s.lastNavStart ≤ s.now) (hsls : s.servingSLS = false)
    (hmimo : s.servingMimoBFT = false)
    (hfind : findAgreement s.bAckAgreements n.hdr.addr2 n.hdr.qosTid = some e)
    (htime : e.timeout = 0 ∨ e.inactivityEvent.isSome = true)
    (hinv : na = true → s.sendAckEvent.isSome = true)
    (hrx : ReceiveMpdu env.htSupported env.loopFuel
      { agreement := some e.agreement, delivered := [] }
      n.toMpdu = .ok (b, { agreement := some a1, delivered := D })) :
    ∃ e1, e1.peer = e.peer ∧ e1.tid = e.tid ∧ e1.agreement = a1 ∧
      (e1.timeout = 0 ∨ e1.inactivityEvent.isSome = true) ∧
      ∀ rest : List (WifiMacQueueItem × Bool),
      deaggregateLoop env psdu rxSnr txVector s na true ((n, true) :: rest)
        = deaggregateLoop env psdu rxSnr txVector
            { s with
              sendAckEvent :=
                if !s.sendAckEvent.isSome && n.hdr.IsQosAck then
                  some (blockAckAfterAmpdu s n txVector rxSnr)
                else s.sendAckEvent,
              bAckAgreements := setAgreement s.bAckAgreements e1,
              trace := s.trace ++ Call.ReportRxOk n.hdr.addr2 :: D.map Call.RxCallback }
            (na || n.hdr.IsQosAck) true rest := by
  have hk := findAgreement_key _ _ _ _ hfind
  have h1 : n.hdr.IsAck = false := by simp [WifiMacHeader.IsAck, hty]
  have h2 : n.hdr.IsBlockAck = false := by simp [WifiMacHeader.IsBlockAck, hty]
  have h3 : n.hdr.IsBlockAckReq = false := by simp [WifiMacHeader.IsBlockAckReq, hty]
  have h4 : n.hdr.IsQosData = true := by simp [WifiMacHeader.IsQosData, hty]
  obtain ⟨e1, he1, he2, he3, he4, hok⟩ := ReceiveOk_subframe env
    { s with
      sendAckEvent :=
        if !s.sendAckEvent.isSome && n.hdr.IsQosAck then
          some (blockAckAfterAmpdu s n txVector rxSnr)
        else s.sendAckEvent }
    n rxSnr txVector e b a1 D hty hself hnav hsls hmimo hfind htime hrx
  have hs1 : (if (!s.sendAckEvent.isSome && n.hdr.IsQosAck) = true then
        { s with
          sendAckEvent := some
            { due := s.now + s.sifs,
              handler := .SendBlockAckAfterAmpdu n.hdr.qosTid n.hdr.addr2 n.hdr.GetDuration
                txVector rxSnr } }
      else s)
      = { s with
          sendAckEvent :=
            if !s.sendAckEvent.isSome && n.hdr.IsQosAck then
              some (blockAckAfterAmpdu s n txVector rxSnr)
            else s.sendAckEvent } := by
    split_ifs <;> rfl
  by_cases hna : (na || n.hdr.IsQosAck) = true
  · have hfind2 : findAgreement (setAgreement s.bAckAgreements e1) n.hdr.addr2 n.hdr.qosTid
        = some e1 :=
      setAgreement_found _ _ _ e _ hfind ⟨he1.trans hk.1, he2.trans hk.2⟩
    obtain ⟨e2, hf1, hf2, hf3, hf4, hreset⟩ := Reset_ok
      { s with
        sendAckEvent :=
          if !s.sendAckEvent.isSome && n.hdr.IsQosAck then
            some (blockAckAfterAmpdu s n txVector rxSnr)
          else s.sendAckEvent,
        bAckAgreements := setAgreement s.bAckAgreements e1,
        trace := s.trace ++ Call.ReportRxOk n.hdr.addr2 :: D.map Call.RxCallback }
      n.hdr.addr2 n.hdr.qosTid e1 hfind2 he4
    have hev : (if (!s.sendAckEvent.isSome && n.hdr.IsQosAck) = true then
          some (blockAckAfterAmpdu s n txVector rxSnr)
        else s.sendAckEvent).isNone = false := by
      by_cases hq : n.hdr.IsQosAck = true
      · cases hs : s.sendAckEvent <;> simp [hq]
      · have hna' : na = true := by simpa [hq] using hna
        have := hinv hna'
        cases hs : s.sendAckEvent with
        | none => simp [hs] at this
        | some _ => simp [hq]
    refine ⟨e2, hf1.trans he1, hf2.trans he2, hf3.trans he3, hf4, fun rest => ?_⟩
    rw [deaggregateLoop]
    simp only [hself, bne_self_eq_false, Bool.false_eq_true, if_false, if_true, hsingle, hs1, h1,
      h2, h3, Bool.or_false, h4, Bool.or_true, hok, Bool.not_false, Bool.true_and]
    simp only [hna, if_true, hfind2, hreset, hev, Bool.false_eq_true, if_false,
      setAgreement_twice s.bAckAgreements _ _ e e1 e2 hfind ⟨he1.trans hk.1, he2.trans hk.2⟩
        ⟨(hf1.trans he1).trans hk.1, (hf2.trans he2).trans hk.2⟩]
  · refine ⟨e1, he1, he2, he3, he4, fun rest => ?_⟩
    rw [deaggregateLoop]
    simp only [hself, bne_self_eq_false, Bool.false_eq_true, if_false, if_true, hsingle, hs1, h1,
      h2, h3, Bool.or_false, h4, Bool.or_true, hok, Bool.not_false, Bool.true_and]
    simp only [hna, Bool.false_eq_true, if_false]

theorem deliveredUp_append (t1 t2 : List Call) :
    deliveredUp (t1 ++ t2) = deliveredUp t1 ++ deliveredUp t2 := by
  simp [deliveredUp]

theorem deliveredUp_callbacks (D : List Mpdu) : deliveredUp (D.map Call.RxCallback) = D := by
  induction D with
  | nil => rfl
  | cons x D ih =>
    simp only [deliveredUp, List.map_cons, List.filterMap_cons] at ih ⊢
    rw [ih]

theorem deliveredUp_report (t : List Call) (p : Mac48Address) (D : List Mpdu) :
    deliveredUp (t ++ Call.ReportRxOk p :: D.map Call.RxCallback) = deliveredUp t ++ D := by
  rw [deliveredUp_append]
  congr 1
  have h : deliveredUp (Call.ReportRxOk p :: D.map Call.RxCallback)
      = deliveredUp (D.map Call.RxCallback) := by
    simp [deliveredUp]
  rw [h, deliveredUp_callbacks]

theorem deaggregateLoop_sim (env : Env) (psdu : WifiPsdu) (rxSnr : Nat) (txVector : WifiTxVector)
    (peer : Mac48Address) (tid : Nat) (hsingle : psdu.isSingle = false) :
    ∀ (subs : List (WifiMacQueueItem × Bool)) (s : MacLowState) (na : Bool)
      (e : AgreementEntry) (r : RxState),
      (∀ p ∈ subs, p.1.hdr.type = .qosData ∧ p.1.hdr.addr1 = s.self ∧ p.1.hdr.addr2 = peer ∧
        p.1.hdr.qosTid = tid) →
      s.lastNavStart ≤ s.now → s.servingSLS = false → s.servingMimoBFT = false →
      findAgreement s.bAckAgreements peer tid = some e →
      (e.timeout = 0 ∨ e.inactivityEvent.isSome = true) →
      (na = true → s.sendAckEvent.isSome = true) →
      rxRun env.htSupported env.loopFuel { agreement := some e.agreement, delivered := [] }
          (((subs.filter (fun p => p.2)).map (fun p => p.1.toMpdu)).map RxOp.receiveMpdu)
        = .ok r →
      ∃ s1 e1, deaggregateLoop env psdu rxSnr txVector s na true subs = .ok s1 ∧
        deaggregateLoop env psdu rxSnr txVector s na true (subs.filter (fun p => p.2)) = .ok s1 ∧
        deliveredUp s1.trace = deliveredUp s.trace ++ r.delivered ∧
        findAgreement s1.bAckAgreements peer tid = some e1 ∧ some e1.agreement = r.agreement ∧
        s1.sendAckEvent =
          (if s.sendAckEvent.isSome then s.sendAckEvent
           else ((subs.filter (fun p => p.2)).find? (fun p => p.1.hdr.IsQosAck)).map
             (fun p => blockAckAfterAmpdu s p.1 txVector rxSnr)) := by
  intro subs
  induction subs with
  | nil =>
    intro s na e r _ _ _ _ hfind _ _ hrun
    simp only [List.filter_nil, List.map_nil, rxRun, Except.ok.injEq] at hrun
    subst hrun
    refine ⟨s, e, by rw [deaggregateLoop], by rw [List.filter_nil, deaggregateLoop], by simp,
      hfind, rfl, ?_⟩
    cases hs : s.sendAckEvent <;> simp
  | cons p subs ih =>
    intro s na e r hsubs hnav hsls hmimo hfind htime hinv hrun
    obtain ⟨n, status⟩ := p
    obtain ⟨hty, hself, hp, hq⟩ := hsubs (n, status) (List.mem_cons_self _ _)
    simp only at hty hself hp hq
    have hrest : ∀ p ∈ subs, p.1.hdr.type = .qosData ∧ p.1.hdr.addr1 = s.self ∧
        p.1.hdr.addr2 = peer ∧ p.1.hdr.qosTid = tid :=
      fun p hp => hsubs p (List.mem_cons_of_mem _ hp)
    cases status with
    | false =>
      rw [deaggregateLoop_failed env psdu rxSnr txVector s na true n subs hself]
      have hf : ((n, false) :: subs).filter (fun p => p.2) = subs.filter (fun p => p.2) := by
        simp
      rw [hf] at hrun ⊢
      exact ih s na e r hrest hnav hsls hmimo hfind htime hinv hrun
    | true =>
      have hf : ((n, true) :: subs).filter (fun p => p.2) = (n, true) :: subs.filter (fun p => p.2) := by
        simp
      rw [hf] at hrun ⊢
      simp only [List.map_cons, rxRun, rxStep] at hrun
      cases hrx : ReceiveMpdu env.htSupported env.loopFuel
          { agreement := some e.agreement, delivered := [] } n.toMpdu with
      | error err => simp only [hrx] at hrun; cases hrun
      | ok w =>
        obtain ⟨b, st⟩ := w
        obtain ⟨_, a1, ha1, _⟩ := ReceiveMpdu_found _ _ _ _ _ _ hrx
        obtain ⟨ag, D⟩ := st
        simp only at ha1
        subst ha1
        simp only [hrx] at hrun
        have hlog := rxRun_log env.htSupported env.loopFuel
          ((subs.filter (fun p => p.2)).map (fun p => p.1.toMpdu)) (some a1) D []
        rw [List.append_nil, hrun] at hlog
        cases hrun2 : rxRun env.htSupported env.loopFuel
            { agreement := some a1, delivered := [] }
            (((subs.filter (fun p => p.2)).map (fun p => p.1.toMpdu)).map RxOp.receiveMpdu) with
        | error err => simp only [hrun2] at hlog; cases hlog
        | ok r2 =>
          simp only [hrun2, Except.ok.injEq] at hlog
          subst hlog
          have hfind0 : findAgreement s.bAckAgreements n.hdr.addr2 n.hdr.qosTid = some e := by
            rw [hp, hq]; exact hfind
          have hk := findAgreement_key _ _ _ _ hfind
          obtain ⟨e1, he1, he2, he3, he4, hstep⟩ := deaggregateLoop_passed env psdu rxSnr
            txVector s na n e b a1 D hsingle hty hself hnav hsls hmimo hfind0 htime hinv
            hrx
          have hfind1 : findAgreement (setAgreement s.bAckAgreements e1) peer tid = some e1 :=
            setAgreement_found _ _ _ e _ hfind ⟨he1.trans hk.1, he2.trans hk.2⟩
          have hinv1 : (na || n.hdr.IsQosAck) = true →
              (if (!s.sendAckEvent.isSome && n.hdr.IsQosAck) = true then
                some (blockAckAfterAmpdu s n txVector rxSnr)
              else s.sendAckEvent).isSome = true := by
            intro hna
            by_cases hqa : n.hdr.IsQosAck = true
            · cases hs : s.sendAckEvent <;> simp [hqa]
            · have hna' : na = true := by simpa [hqa] using hna
              have := hinv hna'
              simp [hqa, this]
          obtain ⟨s1, e2, hloop, hloop2, hdel, hfind2, hag, hev⟩ := ih
            { s with
              sendAckEvent :=
                if !s.sendAckEvent.isSome && n.hdr.IsQosAck then
                  some (blockAckAfterAmpdu s n txVector rxSnr)
                else s.sendAckEvent,
              bAckAgreements := setAgreement s.bAckAgreements e1,
              trace := s.trace ++ Call.ReportRxOk n.hdr.addr2 :: D.map Call.RxCallback }
            (na || n.hdr.IsQosAck) e1 r2 hrest hnav hsls hmimo hfind1 he4 hinv1
            (by rw [he3]; exact hrun2)
          refine ⟨s1, e2, by rw [hstep]; exact hloop, by rw [hstep]; exact hloop2, ?_, hfind2,
            hag, ?_⟩
          · rw [hdel, deliveredUp_report, List.append_assoc]
          · rw [hev]
            simp only [List.find?_cons]
            by_cases hqa : n.hdr.IsQosAck = true
            · cases hs : s.sendAckEvent <;> simp [hqa]
            · cases hs : s.sendAckEvent <;> simp [hqa, blockAckAfterAmpdu]

theorem Deaggregate_loop (env : Env) (s : MacLowState) (psdu : WifiPsdu) (rxSnr : Nat)
    (txVector : WifiTxVector) (statusPerMpdu : List Bool)
    (hagg : txVector.aggregation = true) (hpsdu : psdu.IsAggregate = true)
    (hlen : psdu.GetNMpdus = statusPerMpdu.length) (hsls : s.servingSLS = false)
    (hmimo : s.servingMimoBFT = false) (hnav : s.lastNavStart ≤ s.now)
    (hty : psdu.first.hdr.type = .qosData) (hself : psdu.first.hdr.addr1 = s.self) :
    DeaggregateAmpduAndReceive env s psdu rxSnr txVector statusPerMpdu
      = deaggregateLoop env psdu rxSnr txVector s false true (psdu.mpdus.zip statusPerMpdu) := by
  have hpoll : psdu.first.hdr.IsCfPoll = false := by simp [WifiMacHeader.IsCfPoll, hty]
  have hend : psdu.first.hdr.IsCfEnd = false := by simp [WifiMacHeader.IsCfEnd, hty]
  simp only [DeaggregateAmpduAndReceive, hagg, if_true, hpsdu, Bool.not_true, Bool.false_eq_true,
    if_false, hlen, bne_self_eq_false, hsls, hmimo,
    NotifyNav_addressed_to_self env s psdu.first hnav hpoll hend hself, hself, beq_self_eq_true]

theorem passed_sublist (mpdus : List WifiMacQueueItem) (st : List Bool) :
    (((mpdus.zip st).filter (fun p => p.2)).map Prod.fst).Sublist mpdus := by
  induction mpdus generalizing st with
  | nil => simp
  | cons n mpdus ih =>
    cases st with
    | nil => simp
    | cons b st =>
      cases b with
      | false =>
        simp only [List.zip_cons_cons, Bool.false_eq_true, not_false_eq_true,
          List.filter_cons_of_neg]
        exact (ih st).trans (List.sublist_cons_self _ _)
      | true =>
        simp only [List.zip_cons_cons, List.filter_cons_of_pos, List.map_cons]
        exact (ih st).cons₂ _

theorem passed_head (mpdus : List WifiMacQueueItem) (st : List Bool)
    (hlen : mpdus.length = st.length) :
    (true ∈ st → ∃ p, ((mpdus.zip st).filter (fun p => p.2)).head? = some p ∧ p.1 ∈ mpdus) ∧
    (true ∉ st → (mpdus.zip st).filter (fun p => p.2) = []) := by
  induction mpdus generalizing st with
  | nil =>
    cases st with
    | nil => simp
    | cons b st => simp at hlen
  | cons n mpdus ih =>
    cases st with
    | nil => simp at hlen
    | cons b st =>
      have hl : mpdus.length = st.length := by simpa using hlen
      cases b with
      | true =>
        refine ⟨fun _ => ⟨(n, true), by simp, by simp⟩, fun h => absurd (List.mem_cons_self _ _) h⟩
      | false =>
        obtain ⟨h1, h2⟩ := ih st hl
        refine ⟨fun h => ?_, fun h => ?_⟩
        · have ht : true ∈ st := by simpa using h
          obtain ⟨p, hp1, hp2⟩ := h1 ht
          exact ⟨p, by simpa using hp1, List.mem_cons_of_mem _ hp2⟩
        · have ht : true ∉ st := by simpa using h
          simpa using h2 ht

theorem rxRun_without_ht (fuel : Nat) :
    ∀ (ms : List Mpdu) (a : Agreement) (log : List Mpdu),
      ∃ a1, rxRun false fuel { agreement := some a, delivered := log } (ms.map RxOp.receiveMpdu)
        = .ok { agreement := some a1, delivered := log } := by
  intro ms
  induction ms with
  | nil => intro a log; exact ⟨a, by simp [rxRun]⟩
  | cons m ms ih =>
    intro a log
    obtain ⟨a1, h⟩ := ih (storeMpdu a m) log
    exact ⟨a1, by simpa [rxRun, rxStep, ReceiveMpdu, StoreMpduIfNeeded] using h⟩

/-! ## A-MPDU with consecutive sequence numbers from the window start -/

theorem insOffset_last (j : Nat) : ∀ (J : List Nat), (∀ b ∈ J, b < j) → insOffset j J = J ++ [j] := by
  intro J
  induction J with
  | nil => intro _; rfl
  | cons b J ih =>
    intro h
    have hb := h b (List.mem_cons_self _ _)
    simp only [insOffset, hb, if_true, List.cons_append]
    rw [ih (fun x hx => h x (List.mem_cons_of_mem _ hx))]

theorem runLen_blocked (i : Nat) (L : List Nat) (h : ∀ b ∈ L, i < b) : runLen i L = 0 := by
  cases L with
  | nil => rfl
  | cons b L =>
    have hb := h b (List.mem_cons_self _ _)
    have hne : b ≠ i := by omega
    simp [runLen, hne]

theorem rxRun_blocked (s0 B : Nat) (pay : Nat → Nat) (k : Nat) (hk : k ≤ 2048) (hkB : k ≤ B)
    (fuel i : Nat) :
    ∀ (st : List Bool) (j : Nat) (J : List Nat), i < j → J.Pairwise (· < ·) →
      (∀ b ∈ J, i < b ∧ b < j) → j + st.length ≤ k →
      rxRun true fuel (rxStateAt s0 B pay i J)
          (((passedOffsets j st).map (mkMpdu s0 pay)).map RxOp.receiveMpdu)
        = .ok (rxStateAt s0 B pay i (J ++ passedOffsets j st)) := by
  intro st
  induction st with
  | nil =>
    intro j J _ _ _ _
    simp [passedOffsets, rxRun]
  | cons b st ih =>
    intro j J hij hp hJ hlen
    simp only [List.length_cons] at hlen
    cases b with
    | false =>
      simp only [passedOffsets]
      exact ih (j + 1) J (by omega) hp
        (fun x hx => ⟨(hJ x hx).1, by have := (hJ x hx).2; omega⟩) (by omega)
    | true =>
      have hstep := ReceiveMpdu_offsets s0 B pay k hk hkB fuel i j J (by omega) (by omega) hp
        (fun x hx => ⟨(hJ x hx).1, by have := (hJ x hx).2; omega⟩)
        (fun hx => by have := (hJ j hx).2; omega)
      have hins := insOffset_last j J (fun x hx => (hJ x hx).2)
      have hrl : runLen i (J ++ [j]) = 0 := runLen_blocked i _ (by
        intro x hx
        rcases List.mem_append.1 hx with hx | hx
        · exact (hJ x hx).1
        · simp only [List.mem_singleton] at hx
          omega)
      rw [hins, hrl] at hstep
      simp only [Nat.add_zero, List.drop_zero] at hstep
      simp only [passedOffsets, List.map_cons, rxRun, rxStep, hstep]
      have := ih (j + 1) (J ++ [j]) (by omega)
        (by
          rw [List.pairwise_append]
          refine ⟨hp, List.pairwise_singleton _ _, ?_⟩
          intro a ha c hc
          simp only [List.mem_singleton] at hc
          have := (hJ a ha).2
          omega)
        (by
          intro x hx
          rcases List.mem_append.1 hx with hx | hx
          · exact ⟨(hJ x hx).1, by have := (hJ x hx).2; omega⟩
          · simp only [List.mem_singleton] at hx
            omega)
        (by omega)
      rw [this, List.append_assoc, List.singleton_append]

theorem leadingPassed_true (st : List Bool) : leadingPassed (true :: st) = leadingPassed st + 1 := by
  simp [leadingPassed, List.takeWhile]

theorem leadingPassed_false (st : List Bool) : leadingPassed (false :: st) = 0 := by
  simp [leadingPassed, List.takeWhile]

theorem rxRun_clean (s0 B : Nat) (pay : Nat → Nat) (k : Nat) (hk : k ≤ 2048) (hkB : k ≤ B)
    (fuel : Nat) :
    ∀ (st : List Bool) (i : Nat), i + st.length ≤ k →
      rxRun true fuel (rxStateAt s0 B pay i [])
          (((passedOffsets i st).map (mkMpdu s0 pay)).map RxOp.receiveMpdu)
        = .ok (rxStateAt s0 B pay (i + leadingPassed st)
            (passedOffsets (i + leadingPassed st + 1) (st.drop (leadingPassed st + 1)))) := by
  intro st
  induction st with
  | nil =>
    intro i _
    simp [passedOffsets, rxRun, leadingPassed]
  | cons b st ih =>
    intro i hlen
    simp only [List.length_cons] at hlen
    cases b with
    | false =>
      have h := rxRun_blocked s0 B pay k hk hkB fuel i st (i + 1) [] (by omega)
        List.Pairwise.nil (by simp) (by omega)
      simp only [passedOffsets, leadingPassed_false, Nat.add_zero, Nat.zero_add, List.drop_succ_cons,
        List.drop_zero]
      simpa using h
    | true =>
      have hstep := ReceiveMpdu_offsets s0 B pay k hk hkB fuel i i [] (Nat.le_refl _) (by omega)
        List.Pairwise.nil (by simp) (by simp)
      have hrl : runLen i (insOffset i []) = 1 := by simp [insOffset, runLen]
      rw [hrl] at hstep
      simp only [insOffset, List.drop_succ_cons, List.drop_zero] at hstep
      simp only [passedOffsets, List.map_cons, rxRun, rxStep, hstep, leadingPassed_true,
        List.drop_succ_cons]
      have := ih (i + 1) (by omega)
      rw [this]
      have e1 : i + 1 + leadingPassed st = i + (leadingPassed st + 1) := by omega
      rw [e1]

theorem passed_frames (s0 : Nat) (pay : Nat → Nat) :
    ∀ (st : List Bool) (frames : List WifiMacQueueItem) (i : Nat),
      frames.map WifiMacQueueItem.toMpdu = (List.range' i st.length).map (mkMpdu s0 pay) →
      ((frames.zip st).filter (fun p => p.2)).map (fun p => p.1.toMpdu)
        = (passedOffsets i st).map (mkMpdu s0 pay) := by
  intro st
  induction st with
  | nil => intro frames i _; simp [passedOffsets]
  | cons b st ih =>
    intro frames i h
    cases frames with
    | nil => simp [List.range'] at h
    | cons n frames =>
      simp only [List.map_cons, List.length_cons, List.range'_succ, List.cons.injEq] at h
      have := ih frames (i + 1) h.2
      cases b with
      | false => simpa [passedOffsets] using this
      | true => simp [passedOffsets, h.1, this]

theorem leadingPassed_spec (st : List Bool) :
    leadingPassed st ≤ st.length ∧
    st.take (leadingPassed st) = List.replicate (leadingPassed st) true ∧
    (st.drop (leadingPassed st)).head? ≠ some true := by
  induction st with
  | nil => simp [leadingPassed]
  | cons b st ih =>
    cases b with
    | false => simp [leadingPassed_false]
    | true =>
      rw [leadingPassed_true]
      simp only [List.length_cons, List.take_succ_cons, List.replicate_succ, List.drop_succ_cons,
        List.cons.injEq, true_and]
      exact ⟨by omega, ih.2.1, ih.2.2⟩

/-- C17, as stated, fails for the A-MPDU with sequence numbers 10, 11, 12, 13 and
receive status [pass, fail, pass, pass] under an agreement with window start 10,
buffer size 64 and an empty buffer: `DeaggregateAmpduAndReceive` hands only the
frame with sequence number 10 to the rx callback; the passed frames 12 and 13
stay in the buffer behind the missing 11, with window start 11.  Only with a
buffer size of 2, where 13 lies outside the window and moves it past 11, are 10,
12 and 13 delivered. -/
theorem C17_later_passed_subframes_stay_buffered :
    (DeaggregateAmpduAndReceive {}
        (stationWithAgreement { startingSeq := 10, bufferSize := 64, buffer := [] }) ampdu4 7
        { aggregation := true } [true, false, true, true]).map
      (fun s => (deliveredUp s.trace, s.bAckAgreements.map (fun e => e.agreement)))
      = .ok ([(qosFrame 10 10).toMpdu],
          [{ startingSeq := 11, bufferSize := 64,
             buffer := [(qosFrame 12 12).toMpdu, (qosFrame 13 13).toMpdu] }]) ∧
    (DeaggregateAmpduAndReceive {}
        (stationWithAgreement { startingSeq := 10, bufferSize := 2, buffer := [] }) ampdu4 7
        { aggregation := true } [true, false, true, true]).map
      (fun s => (deliveredUp s.trace, s.bAckAgreements.map (fun e => e.agreement)))
      = .ok ([(qosFrame 10 10).toMpdu, (qosFrame 12 12).toMpdu, (qosFrame 13 13).toMpdu],
          [{ startingSeq := 14, bufferSize := 2, buffer := [] }]) := by
  decide

/-- C17, amended.  On a station with HT, VHT, HE, DMG or EDMG support, for an
A-MPDU (not an S-MPDU) of unfragmented QoS data frames addressed to this
station, from one sender on one TID, with consecutive sequence numbers `s0`,
`s0 + 1`, ... (mod 4096), one receive status per subframe, received outside the
training modes under an agreement with window start `s0`, an empty buffer and a
buffer size of at least the number of subframes (at most 2048):
`DeaggregateAmpduAndReceive` returns and hands to the rx callback exactly the
subframes in front of the first failed one, in increasing sequence order; the
window start is then the sequence number of the first failed subframe, and the
passed subframes behind it are in the buffer, in order, undelivered. -/
theorem C17_passed_run_is_delivered (env : Env) (s : MacLowState) (psdu : WifiPsdu)
    (rxSnr : Nat) (txVector : WifiTxVector) (statusPerMpdu : List Bool) (peer : Mac48Address)
    (tid : Nat) (e : AgreementEntry) (s0 B : Nat) (pay : Nat → Nat)
    (hagg : txVector.aggregation = true) (hpsdu : psdu.IsAggregate = true)
    (hsingle : psdu.isSingle = false) (hlen : psdu.GetNMpdus = statusPerMpdu.length)
    (hht : env.htSupported = true) (hsls : s.servingSLS = false)
    (hmimo : s.servingMimoBFT = false) (hnav : s.lastNavStart ≤ s.now)
    (hsubs : ∀ n ∈ psdu.mpdus, n.hdr.type = .qosData ∧ n.hdr.addr1 = s.self ∧
      n.hdr.addr2 = peer ∧ n.hdr.qosTid = tid)
    (hseq : psdu.mpdus.map WifiMacQueueItem.toMpdu
      = (List.range statusPerMpdu.length).map (mkMpdu s0 pay))
    (hfind : findAgreement s.bAckAgreements peer tid = some e)
    (htime : e.timeout = 0 ∨ e.inactivityEvent.isSome = true)
    (hs0 : s0 < 4096)
    (hag : e.agreement = { startingSeq := s0, bufferSize := B, buffer := [] })
    (hB : statusPerMpdu.length ≤ B) (hmax : statusPerMpdu.length ≤ 2048) :
    ∃ s1 e1, DeaggregateAmpduAndReceive env s psdu rxSnr txVector statusPerMpdu = .ok s1 ∧
      deliveredUp s1.trace
        = deliveredUp s.trace ++ (List.range (leadingPassed statusPerMpdu)).map (mkMpdu s0 pay) ∧
      statusPerMpdu.take (leadingPassed statusPerMpdu)
        = List.replicate (leadingPassed statusPerMpdu) true ∧
      (statusPerMpdu.drop (leadingPassed statusPerMpdu)).head? ≠ some true ∧
      findAgreement s1.bAckAgreements peer tid = some e1 ∧
      e1.agreement =
        { startingSeq := (s0 + leadingPassed statusPerMpdu) % 4096, bufferSize := B,
          buffer := (passedOffsets (leadingPassed statusPerMpdu + 1)
            (statusPerMpdu.drop (leadingPassed statusPerMpdu + 1))).map (mkMpdu s0 pay) } := by
  have hfirst := hsubs psdu.first (List.mem_cons_self _ _)
  have hframes := passed_frames s0 pay statusPerMpdu psdu.mpdus 0
    (by rw [hseq, List.range_eq_range'])
  have hrun := rxRun_clean s0 B pay statusPerMpdu.length hmax hB env.loopFuel statusPerMpdu 0
    (by omega)
  have hstart : rxStateAt s0 B pay 0 [] = { agreement := some e.agreement, delivered := [] } := by
    simp [rxStateAt, hag, Nat.mod_eq_of_lt hs0]
  rw [hstart, ← hframes, ← hht] at hrun
  obtain ⟨s1, e1, hloop, _, hdel, hfind1, hag1, _⟩ := deaggregateLoop_sim env psdu rxSnr
    txVector peer tid hsingle (psdu.mpdus.zip statusPerMpdu) s false e _
    (fun p hp => hsubs p.1 (List.of_mem_zip hp).1) hnav hsls hmimo hfind htime (by simp) hrun
  have hspec := leadingPassed_spec statusPerMpdu
  refine ⟨s1, e1, ?_, ?_, hspec.2.1, hspec.2.2, hfind1, ?_⟩
  · rw [Deaggregate_loop env s psdu rxSnr txVector statusPerMpdu hagg hpsdu hlen hsls hmimo hnav
      hfirst.1 hfirst.2.1]
    exact hloop
  · rw [hdel]
    simp [rxStateAt]
  · simp only [rxStateAt, Nat.zero_add, Option.some.injEq] at hag1
    exact hag1

theorem C17_passed_run_is_delivered_witness :
    ∃ s1 e1, DeaggregateAmpduAndReceive {}
        (stationWithAgreement { startingSeq := 10, bufferSize := 64, buffer := [] }) ampdu4 7
        { aggregation := true } [true, false, true, true] = .ok s1 ∧
      deliveredUp s1.trace
        = deliveredUp
            (stationWithAgreement { startingSeq := 10, bufferSize := 64, buffer := [] }).trace
          ++ (List.range (leadingPassed [true, false, true, true])).map
            (mkMpdu 10 (fun j => 10 + j)) ∧
      [true, false, true, true].take (leadingPassed [true, false, true, true])
        = List.replicate (leadingPassed [true, false, true, true]) true ∧
      ([true, false, true, true].drop (leadingPassed [true, false, true, true])).head?
        ≠ some true ∧
      findAgreement s1.bAckAgreements 2 3 = some e1 ∧
      e1.agreement =
        { startingSeq := (10 + leadingPassed [true, false, true, true]) % 4096, bufferSize := 64,
          buffer := (passedOffsets (leadingPassed [true, false, true, true] + 1)
            ([true, false, true, true].drop (leadingPassed [true, false, true, true] + 1))).map
              (mkMpdu 10 (fun j => 10 + j)) } :=
  C17_passed_run_is_delivered {}
    (stationWithAgreement { startingSeq := 10, bufferSize := 64, buffer := [] }) ampdu4 7
    { aggregation := true } [true, false, true, true] 2 3
    { peer := 2, tid := 3, agreement := { startingSeq := 10, bufferSize := 64, buffer := [] } }
    10 64 (fun j => 10 + j)
    rfl rfl rfl rfl rfl rfl rfl (by decide) (by decide) (by decide) rfl (Or.inl rfl)
    (by decide) rfl (by decide) (by decide)


/-! ## Claims C23, C25, C27, C29 and C30 -/

/-- C23. `SLS_Phase_Started` sets `m_servingSLS` and `MIMO_BFT_Phase_Started` sets
`m_servingMimoBFT`; each leaves the Normal-Ack timeout, the Block-Ack timeout
and the deferred-ack event not running and changes nothing else: the CTS
timeout, the deferred CTS and data events, the wait-IFS and no-ack-completion
events, the NAV guard timer, the active PSDU, the owner, the NAV record and the
other mode flag are as before, and the trace of outgoing calls is as before, so
no owner callback is invoked.  `SLS_Phase_Ended` and `MIMO_BFT_Phase_Ended` only
clear their flag. -/
theorem C23_phase_started_cancels_ack_timers (s : MacLowState) :
    ((SLS_Phase_Started s).servingSLS = true ∧
      (SLS_Phase_Started s).normalAckTimeoutEvent = none ∧
      (SLS_Phase_Started s).blockAckTimeoutEvent = none ∧
      (SLS_Phase_Started s).sendAckEvent = none ∧
      (SLS_Phase_Started s).servingMimoBFT = s.servingMimoBFT ∧
      SLS_Phase_Started s = { s with
        servingSLS := true,
        normalAckTimeoutEvent := none, blockAckTimeoutEvent := none, sendAckEvent := none }) ∧
    ((MIMO_BFT_Phase_Started s).servingMimoBFT = true ∧
      (MIMO_BFT_Phase_Started s).normalAckTimeoutEvent = none ∧
      (MIMO_BFT_Phase_Started s).blockAckTimeoutEvent = none ∧
      (MIMO_BFT_Phase_Started s).sendAckEvent = none ∧
      (MIMO_BFT_Phase_Started s).servingSLS = s.servingSLS ∧
      MIMO_BFT_Phase_Started s = { s with
        servingMimoBFT := true,
        normalAckTimeoutEvent := none, blockAckTimeoutEvent := none, sendAckEvent := none }) ∧
    (∀ f ∈ [SLS_Phase_Started, MIMO_BFT_Phase_Started],
      (f s).ctsTimeoutEvent = s.ctsTimeoutEvent ∧ (f s).sendCtsEvent = s.sendCtsEvent ∧
      (f s).sendDataEvent = s.sendDataEvent ∧ (f s).waitIfsEvent = s.waitIfsEvent ∧
      (f s).endTxNoAckEvent = s.endTxNoAckEvent ∧
      (f s).navCounterResetCtsMissed = s.navCounterResetCtsMissed ∧
      (f s).currentPacket = s.currentPacket ∧ (f s).currentTxop = s.currentTxop ∧
      (f s).lastNavStart = s.lastNavStart ∧ (f s).lastNavDuration = s.lastNavDuration ∧
      (f s).trace = s.trace) ∧
    SLS_Phase_Ended s = { s with servingSLS := false } ∧
    MIMO_BFT_Phase_Ended s = { s with servingMimoBFT := false } := by
  refine ⟨⟨rfl, rfl, rfl, rfl, rfl, rfl⟩, ⟨rfl, rfl, rfl, rfl, rfl, rfl⟩, ?_, rfl, rfl⟩
  intro f hf
  simp only [List.mem_cons, List.mem_singleton, List.not_mem_nil, or_false] at hf
  rcases hf with rfl | rfl <;> exact ⟨rfl, rfl, rfl, rfl, rfl, rfl, rfl, rfl, rfl, rfl, rfl⟩

/-- C25. `RxStartIndication (psduDuration)` with `psduDuration > 0`: when the
Normal-Ack timeout is armed it is rearmed for `now + psduDuration + 400 ns`,
whatever its deadline was; otherwise when the Block-Ack timeout is armed it is
rearmed so, and otherwise the CTS timeout if it is armed.  Nothing else changes
but the trace, which gets the `NotifyAckTimeoutResetNow` (or
`NotifyCtsTimeoutResetNow`) calls to the channel access managers and no call
to the owner; so with exactly one of the three armed beforehand, that one and
no other is armed afterwards.  With none of the three armed, none is armed
afterwards and no call goes out. -/
theorem C25_RxStartIndication_rearms_the_armed_timeout (s : MacLowState) (psduDuration : Time)
    (hd : 0 < psduDuration) :
    (s.normalAckTimeoutEvent.isSome = true →
      RxStartIndication s psduDuration = .ok { s with
        normalAckTimeoutEvent := some
          { due := s.now + psduDuration + 400, handler := .NormalAckTimeout },
        trace := s.trace ++ s.channelAccessManagers.map Call.NotifyAckTimeoutResetNow }) ∧
    (s.normalAckTimeoutEvent = none → s.blockAckTimeoutEvent.isSome = true →
      RxStartIndication s psduDuration = .ok { s with
        blockAckTimeoutEvent := some
          { due := s.now + psduDuration + 400, handler := .BlockAckTimeout },
        trace := s.trace ++ s.channelAccessManagers.map Call.NotifyAckTimeoutResetNow }) ∧
    (s.normalAckTimeoutEvent = none → s.blockAckTimeoutEvent = none →
      s.ctsTimeoutEvent.isSome = true →
      RxStartIndication s psduDuration = .ok { s with
        ctsTimeoutEvent := some { due := s.now + psduDuration + 400, handler := .CtsTimeout },
        trace := s.trace ++ s.channelAccessManagers.map Call.NotifyCtsTimeoutResetNow }) ∧
    (s.normalAckTimeoutEvent = none → s.blockAckTimeoutEvent = none →
      s.ctsTimeoutEvent = none →
      RxStartIndication s psduDuration = .ok { s with navCounterResetCtsMissed := none }) := by
  have hd' : ¬ ¬ (0 < psduDuration) := not_not.2 hd
  refine ⟨?_, ?_, ?_, ?_⟩
  · intro h1
    simp only [RxStartIndication, hd', if_false, h1, if_true, NotifyAckTimeoutResetNow,
      MacLowState.call, PSDU_DURATION_SAFEGUARD, add_assoc]
  · intro h1 h2
    simp only [RxStartIndication, hd', if_false, h1, Option.isSome_none, Bool.false_eq_true, h2,
      if_true, NotifyAckTimeoutResetNow, MacLowState.call, PSDU_DURATION_SAFEGUARD, add_assoc]
  · intro h1 h2 h3
    simp only [RxStartIndication, hd', if_false, h1, h2, Option.isSome_none, Bool.false_eq_true,
      h3, if_true, NotifyCtsTimeoutResetNow, MacLowState.call, PSDU_DURATION_SAFEGUARD,
      add_assoc]
  · intro h1 h2 h3
    cases s
    simp only at h1 h2 h3
    subst h1 h2 h3
    simp only [RxStartIndication, hd', if_false, Option.isSome_none, Bool.false_eq_true]
    split_ifs with hg
    · rfl
    · simp only [Bool.not_eq_true, Option.not_isSome, Option.isNone_iff_eq_none] at hg
      subst hg
      rfl

theorem C25_RxStartIndication_rearms_the_armed_timeout_witness :
    RxStartIndication
        { MacLowState.initial with
          now := 1000, channelAccessManagers := [1],
          blockAckTimeoutEvent := some { due := 1200, handler := .BlockAckTimeout } } 5000
      = .ok { MacLowState.initial with
          now := 1000, channelAccessManagers := [1],
          blockAckTimeoutEvent := some { due := 6400, handler := .BlockAckTimeout },
          trace := [Call.NotifyAckTimeoutResetNow 1] } :=
  (C25_RxStartIndication_rearms_the_armed_timeout
    { MacLowState.initial with
      now := 1000, channelAccessManagers := [1],
      blockAckTimeoutEvent := some { due := 1200, handler := .BlockAckTimeout } } 5000
    (by decide)).2.1 rfl rfl

theorem CancelAllEvents_spec (s : MacLowState) :
    (CancelAllEvents s).normalAckTimeoutEvent = none ∧
    (CancelAllEvents s).blockAckTimeoutEvent = none ∧
    (CancelAllEvents s).ctsTimeoutEvent = none ∧
    (CancelAllEvents s).sendCtsEvent = none ∧
    (CancelAllEvents s).sendAckEvent = none ∧
    (CancelAllEvents s).sendDataEvent = none ∧
    (CancelAllEvents s).waitIfsEvent = none ∧
    (CancelAllEvents s).endTxNoAckEvent = none ∧
    (CancelAllEvents s).now = s.now ∧
    (CancelAllEvents s).trace
      = s.trace ++ (if s.controllerEventRunning then
          (s.currentTxop.map (fun txop => Call.Cancel txop.id)).toList else []) := by
  unfold CancelAllEvents MacLowState.controllerEventRunning
  simp only [MacLowState.call]
  split
  · rename_i h1 h2
    simp [h1, h2]
  · rename_i h
    refine ⟨rfl, rfl, rfl, rfl, rfl, rfl, rfl, rfl, rfl, ?_⟩
    split_ifs with hb
    · cases ht : s.currentTxop with
      | none => simp
      | some txop => exact (h txop hb ht).elim
    · simp

/-- C27. After each of `NotifyOffNow`, `NotifySleepNow` and
`NotifySwitchingStartNow` none of the eight controller events nor the NAV guard
timer is running, `m_currentPacket` and `m_currentTxop` are empty and the NAV
record is `(now, 0)`.  If one of the eight controller events was running and an
owner was set, the owner's `Cancel` is invoked once and nothing else of the
owner; otherwise no owner callback is invoked.  `NotifySwitchingStartNow`
calls the station manager's `Reset` first; no other call goes out. -/
theorem C27_exit_paths_cancel_everything (s : MacLowState) :
    (∀ f ∈ [NotifyOffNow, NotifySleepNow, NotifySwitchingStartNow],
      (f s).noEventRunning ∧ (f s).currentPacket = none ∧ (f s).currentTxop = none ∧
      (f s).lastNavStart = s.now ∧ (f s).lastNavDuration = 0) ∧
    (∀ f ∈ [NotifyOffNow, NotifySleepNow],
      (∀ txop, s.currentTxop = some txop → s.controllerEventRunning = true →
        (f s).trace = s.trace ++ [Call.Cancel txop.id]) ∧
      ((s.currentTxop = none ∨ s.controllerEventRunning = false) → (f s).trace = s.trace)) ∧
    (∀ txop, s.currentTxop = some txop → s.controllerEventRunning = true →
      (NotifySwitchingStartNow s).trace
        = s.trace ++ [Call.StationManagerReset, Call.Cancel txop.id]) ∧
    ((s.currentTxop = none ∨ s.controllerEventRunning = false) →
      (NotifySwitchingStartNow s).trace = s.trace ++ [Call.StationManagerReset]) := by
  have hc := CancelAllEvents_spec s
  have hr := CancelAllEvents_spec (s.call [.StationManagerReset])
  have hrun : (s.call [.StationManagerReset]).controllerEventRunning = s.controllerEventRunning :=
    rfl
  have htx : (s.call [.StationManagerReset]).currentTxop = s.currentTxop := rfl
  rw [hrun, htx] at hr
  refine ⟨?_, ?_, ?_, ?_⟩
  · intro f hf
    simp only [List.mem_cons, List.mem_singleton, List.not_mem_nil, or_false] at hf
    rcases hf with rfl | rfl | rfl
    · exact ⟨⟨hc.1, hc.2.1, hc.2.2.1, hc.2.2.2.1, hc.2.2.2.2.1, hc.2.2.2.2.2.1,
        hc.2.2.2.2.2.2.1, hc.2.2.2.2.2.2.2.1, rfl⟩, rfl, rfl, hc.2.2.2.2.2.2.2.2.1, rfl⟩
    · exact ⟨⟨hc.1, hc.2.1, hc.2.2.1, hc.2.2.2.1, hc.2.2.2.2.1, hc.2.2.2.2.2.1,
        hc.2.2.2.2.2.2.1, hc.2.2.2.2.2.2.2.1, rfl⟩, rfl, rfl, hc.2.2.2.2.2.2.2.2.1, rfl⟩
    · exact ⟨⟨hr.1, hr.2.1, hr.2.2.1, hr.2.2.2.1, hr.2.2.2.2.1, hr.2.2.2.2.2.1,
        hr.2.2.2.2.2.2.1, hr.2.2.2.2.2.2.2.1, rfl⟩, rfl, rfl, hr.2.2.2.2.2.2.2.2.1, rfl⟩
  · intro f hf
    have ht : (f s).trace = (CancelAllEvents s).trace := by
      simp only [List.mem_cons, List.mem_singleton, List.not_mem_nil, or_false] at hf
      rcases hf with rfl | rfl <;> rfl
    rw [ht, hc.2.2.2.2.2.2.2.2.2]
    refine ⟨?_, ?_⟩
    · intro txop h1 h2
      rw [h1, h2]
      rfl
    · intro h
      rcases h with h | h
      · rw [h]
        cases s.controllerEventRunning <;> simp
      · rw [h]
        simp
  · intro txop h1 h2
    have ht : (NotifySwitchingStartNow s).trace
        = (CancelAllEvents (s.call [.StationManagerReset])).trace := rfl
    rw [ht, hr.2.2.2.2.2.2.2.2.2, h1, h2]
    simp [MacLowState.call]
  · intro h
    have ht : (NotifySwitchingStartNow s).trace
        = (CancelAllEvents (s.call [.StationManagerReset])).trace := rfl
    rw [ht, hr.2.2.2.2.2.2.2.2.2]
    rcases h with h | h
    · rw [h]
      cases s.controllerEventRunning <;> simp [MacLowState.call]
    · rw [h]
      simp [MacLowState.call]

theorem NotifyNav_returns (env : Env) (s : MacLowState) (mpdu : WifiMacQueueItem)
    (hnav : s.lastNavStart ≤ s.now) :
    ∃ s1, NotifyNav env s mpdu = .ok s1 ∧ s1.ctsTimeoutEvent = s.ctsTimeoutEvent ∧
      s1.currentPacket = s.currentPacket ∧ s1.self = s.self := by
  unfold NotifyNav
  simp only [hnav, not_true_eq_false, if_false, DoNavResetNow, DoNavStartNow, MacLowState.call]
  split_ifs <;> exact ⟨_, rfl, rfl, rfl, rfl⟩

/-- C30. `ReceiveOk` with `ampduSubframe = true` never returns when the frame is
an RTS, whatever the NAV and the destination address are, nor when it is a CTS
or DMG CTS for this station while the CTS timeout is running and an active PSDU
exists: with the NAV assertion `m_lastNavStart ≤ now` satisfied the call ends in
`NS_FATAL_ERROR`, and otherwise in that failed assertion.  So no response is
scheduled and nothing is delivered upward. -/
theorem C30_rts_or_cts_in_ampdu_is_fatal (env : Env) (s : MacLowState)
    (mpdu : WifiMacQueueItem) (rxSnr : Nat) (txVector : WifiTxVector)
    (hframe : mpdu.hdr.IsRts = true ∨
      ((mpdu.hdr.IsCts = true ∨ mpdu.hdr.IsDmgCts = true) ∧ mpdu.hdr.addr1 = s.self ∧
        s.ctsTimeoutEvent.isSome = true ∧ s.currentPacket.isSome = true)) :
    (s.lastNavStart ≤ s.now →
      ReceiveOk env s mpdu rxSnr txVector true = .error .fatalError) ∧
    (¬ s.lastNavStart ≤ s.now →
      ReceiveOk env s mpdu rxSnr txVector true = .error .assertion) ∧
    (ReceiveOk env s mpdu rxSnr txVector true).toBool = false := by
  have hfatal : s.lastNavStart ≤ s.now →
      ReceiveOk env s mpdu rxSnr txVector true = .error .fatalError := by
    intro hnav
    obtain ⟨s1, h1, h2, h3, h4⟩ := NotifyNav_returns env s mpdu hnav
    rcases hframe with hr | ⟨hc, hself, hcts, hp⟩
    · simp only [ReceiveOk, h1, hr, if_true, receiveRts]
    · have hr : mpdu.hdr.IsRts = false := by
        rcases hc with hc | hc
        · simp only [WifiMacHeader.IsCts, beq_iff_eq] at hc
          simp [WifiMacHeader.IsRts, hc]
        · simp only [WifiMacHeader.IsDmgCts, beq_iff_eq] at hc
          simp [WifiMacHeader.IsRts, hc]
      have hc' : (mpdu.hdr.IsCts || mpdu.hdr.IsDmgCts) = true := by
        rcases hc with hc | hc <;> simp [hc]
      obtain ⟨psdu, hpsdu⟩ := Option.isSome_iff_exists.1 hp
      simp only [ReceiveOk, h1, hr, Bool.false_eq_true, if_false, hc', h4, hself,
        beq_self_eq_true, h2, hcts, Bool.and_self, h3, hpsdu, receiveCts, if_true]
  have hassert : ¬ s.lastNavStart ≤ s.now →
      ReceiveOk env s mpdu rxSnr txVector true = .error .assertion := by
    intro hnav
    simp only [ReceiveOk, NotifyNav, hnav, not_false_eq_true, if_true]
  refine ⟨hfatal, hassert, ?_⟩
  by_cases hnav : s.lastNavStart ≤ s.now
  · rw [hfatal hnav]
    rfl
  · rw [hassert hnav]
    rfl

theorem C30_rts_or_cts_in_ampdu_is_fatal_witness :
    ReceiveOk {} { MacLowState.initial with self := 1 }
      { hdr := { type := .ctlRts, addr1 := 1, addr2 := 2 } } 0 {} true = .error .fatalError :=
  (C30_rts_or_cts_in_ampdu_is_fatal {} { MacLowState.initial with self := 1 }
    { hdr := { type := .ctlRts, addr1 := 1, addr2 := 2 } } 0 {} (Or.inl rfl)).1 (by decide)

/-- C29. Called while the PHY is off, each transmission entry point -
`StartTransmission` with an owner (whose assertion `!m_cfAckInfo.expectCfAck`
comes first), `StartTransmission` with a completion callback,
`TransmitSingleFrame` and `StartShortSswTransmission` - returns with the state
exactly as it was: nothing is forwarded to the PHY, no call goes out, no timer
is armed or cancelled, and the active PSDU, the owner, the tx parameters and
the tx vector are unchanged.  Called while the PHY is transmitting or
switching, `SendAckAfterData`, `SendBlockAckAfterAmpdu` and
`SendBlockAckAfterBlockAckRequest` return with the state exactly as it was. -/
theorem C29_radio_unavailable_is_skipped (env : Env) (s : MacLowState) :
    (env.phyIsStateOff = true →
      (∀ mpdu params txop, s.cfAckInfo.expectCfAck = false →
        StartTransmission env s mpdu params txop = .ok s) ∧
      (∀ mpdu params callback, StartTransmissionCallback env s mpdu params callback = .ok s) ∧
      (∀ mpdu params txop, TransmitSingleFrame env s mpdu params txop = .ok s) ∧
      (∀ mpdu params callback, StartShortSswTransmission env s mpdu params callback = .ok s)) ∧
    ((env.phyIsStateTx = true ∨ env.phyIsStateSwitching = true) →
      (∀ source duration dataTxMode dataSnr,
        SendAckAfterData env s source duration dataTxMode dataSnr = .ok s) ∧
      (∀ tid originator duration blockAckReqTxVector rxSnr,
        SendBlockAckAfterAmpdu env s tid originator duration blockAckReqTxVector rxSnr
          = .ok s) ∧
      (∀ reqHdr originator duration blockAckReqTxMode rxSnr,
        SendBlockAckAfterBlockAckRequest env s reqHdr originator duration blockAckReqTxMode
          rxSnr = .ok s)) := by
  refine ⟨?_, ?_⟩
  · intro hoff
    refine ⟨?_, ?_, ?_, ?_⟩
    · intro mpdu params txop hcf
      simp [StartTransmission, hcf, hoff]
    · intro mpdu params callback
      simp [StartTransmissionCallback, hoff]
    · intro mpdu params txop
      simp [TransmitSingleFrame, hoff]
    · intro mpdu params callback
      simp [StartShortSswTransmission, hoff]
  · intro hbusy
    have hb : (!env.phyIsStateTx && !env.phyIsStateSwitching) = false := by
      rcases hbusy with h | h <;> simp [h]
    refine ⟨?_, ?_, ?_⟩
    · intro source duration dataTxMode dataSnr
      simp only [SendAckAfterData, hb, Bool.false_eq_true, if_false]
    · intro tid originator duration blockAckReqTxVector rxSnr
      simp only [SendBlockAckAfterAmpdu, hb, Bool.false_eq_true, if_false]
    · intro reqHdr originator duration blockAckReqTxMode rxSnr
      simp only [SendBlockAckAfterBlockAckRequest, hb, Bool.false_eq_true, if_false]

/-! ## Claim C24: the two training flags -/

theorem CancelAllEvents_flags (s : MacLowState) :
    (CancelAllEvents s).servingSLS = s.servingSLS ∧
    (CancelAllEvents s).servingMimoBFT = s.servingMimoBFT := by
  unfold CancelAllEvents
  simp only [MacLowState.call]
  split <;> exact ⟨rfl, rfl⟩

theorem StoreAllocationParameters_flags (s : MacLowState) :
    (StoreAllocationParameters s).servingSLS = s.servingSLS ∧
    (StoreAllocationParameters s).servingMimoBFT = s.servingMimoBFT := by
  unfold StoreAllocationParameters
  simp only
  split
  · split <;> exact ⟨rfl, rfl⟩
  · exact ⟨rfl, rfl⟩

theorem RestoreAllocationParameters_flags (s : MacLowState) (allocationId : Nat) :
    (RestoreAllocationParameters s allocationId).servingSLS = s.servingSLS ∧
    (RestoreAllocationParameters s allocationId).servingMimoBFT = s.servingMimoBFT := by
  unfold RestoreAllocationParameters
  simp only
  split <;> exact ⟨rfl, rfl⟩

theorem RxStartIndication_flags (s s1 : MacLowState) (psduDuration : Time)
    (h : RxStartIndication s psduDuration = .ok s1) :
    s1.servingSLS = s.servingSLS ∧ s1.servingMimoBFT = s.servingMimoBFT := by
  unfold RxStartIndication at h
  simp only [NotifyAckTimeoutResetNow, NotifyCtsTimeoutResetNow, MacLowState.call] at h
  repeat' split at h
  all_goals (cases h <;> exact ⟨rfl, rfl⟩)

/-- What one operation of a history does to the two flags: a start sets its own
flag, an end clears its own flag, and neither touches the other flag; every
other operation keeps both. -/
theorem phaseStep_flags (s s1 : MacLowState) (op : PhaseOp) (h : phaseStep s op = .ok s1) :
    s1.servingSLS = (if op = .slsPhaseStarted then true
                     else if op = .slsPhaseEnded then false else s.servingSLS) ∧
    s1.servingMimoBFT = (if op = .mimoBftPhaseStarted then true
                         else if op = .mimoBftPhaseEnded then false else s.servingMimoBFT) := by
  cases op with
  | slsPhaseStarted => cases h; exact ⟨rfl, rfl⟩
  | slsPhaseEnded => cases h; exact ⟨rfl, rfl⟩
  | mimoBftPhaseStarted => cases h; exact ⟨rfl, rfl⟩
  | mimoBftPhaseEnded => cases h; exact ⟨rfl, rfl⟩
  | notifyOffNow =>
    cases h
    exact ⟨(CancelAllEvents_flags s).1, (CancelAllEvents_flags s).2⟩
  | notifySleepNow =>
    cases h
    exact ⟨(CancelAllEvents_flags s).1, (CancelAllEvents_flags s).2⟩
  | notifySwitchingStartNow =>
    cases h
    exact ⟨(CancelAllEvents_flags _).1, (CancelAllEvents_flags _).2⟩
  | endAllocationPeriod =>
    cases h
    exact ⟨(StoreAllocationParameters_flags _).1.trans (CancelAllEvents_flags s).1,
      (StoreAllocationParameters_flags _).2.trans (CancelAllEvents_flags s).2⟩
  | restoreAllocationParameters allocationId =>
    cases h
    exact ⟨(RestoreAllocationParameters_flags s allocationId).1,
      (RestoreAllocationParameters_flags s allocationId).2⟩
  | rxStartIndication psduDuration =>
    have k := RxStartIndication_flags s s1 psduDuration h
    exact ⟨k.1, k.2⟩

/-- C24, as stated, fails: neither start function looks at the other flag.
From the constructor's state, `SLS_Phase_Started` followed by
`MIMO_BFT_Phase_Started` leaves `m_servingSLS` and `m_servingMimoBFT` both
true, and they stay both true through a reception start. -/
theorem C24_two_starts_set_both_flags :
    (phaseRun MacLowState.initial [.slsPhaseStarted, .mimoBftPhaseStarted]).map
        (fun s => (s.servingSLS, s.servingMimoBFT)) = .ok (true, true) ∧
    (phaseRun MacLowState.initial
        [.slsPhaseStarted, .mimoBftPhaseStarted, .rxStartIndication 10]).map
        (fun s => (s.servingSLS, s.servingMimoBFT)) = .ok (true, true) := by
  decide

/-- C24, amended.  A start sets its own flag and leaves the other flag as it
is, so the exclusion is the caller's: in a history of the four notifications,
interleaved with exit paths, ends and restores of allocation periods and
reception starts, that begins in a state where the flags are not both true and
in which a phase is started only while the other phase's flag is clear, the
flags are never both true. -/
theorem C24_flags_exclusive_when_started_one_at_a_time (ops : List PhaseOp)
    (s s1 : MacLowState)
    (h0 : (s.servingSLS && s.servingMimoBFT) = false)
    (hd : startsOnlyWhenOtherClear s ops = true)
    (hrun : phaseRun s ops = .ok s1) :
    (s1.servingSLS && s1.servingMimoBFT) = false ∧
    (SLS_Phase_Started s).servingMimoBFT = s.servingMimoBFT ∧
    (MIMO_BFT_Phase_Started s).servingSLS = s.servingSLS := by
  refine ⟨?_, rfl, rfl⟩
  induction ops generalizing s with
  | nil =>
    simp only [phaseRun, Except.ok.injEq] at hrun
    subst hrun
    exact h0
  | cons op ops ih =>
    simp only [phaseRun] at hrun
    simp only [startsOnlyWhenOtherClear, Bool.and_eq_true] at hd
    cases hstep : phaseStep s op with
    | error e => rw [hstep] at hrun; cases hrun
    | ok s2 =>
      rw [hstep] at hrun
      have hd2 := hd.2
      rw [hstep] at hd2
      have hf := phaseStep_flags s s2 op hstep
      refine ih s2 ?_ hd2 hrun
      have hd1 := hd.1
      rw [hf.1, hf.2]
      cases op <;> simp_all

theorem C24_flags_exclusive_when_started_one_at_a_time_witness :
    phaseRun MacLowState.initial
        [.slsPhaseStarted, .rxStartIndication 10, .slsPhaseEnded, .mimoBftPhaseStarted]
      = .ok (MIMO_BFT_Phase_Started (SLS_Phase_Ended (SLS_Phase_Started MacLowState.initial))) ∧
    ((MIMO_BFT_Phase_Started
        (SLS_Phase_Ended (SLS_Phase_Started MacLowState.initial))).servingSLS = false ∧
     (MIMO_BFT_Phase_Started
        (SLS_Phase_Ended (SLS_Phase_Started MacLowState.initial))).servingMimoBFT = true) ∧
    ((MIMO_BFT_Phase_Started
          (SLS_Phase_Ended (SLS_Phase_Started MacLowState.initial))).servingSLS
        && (MIMO_BFT_Phase_Started
          (SLS_Phase_Ended (SLS_Phase_Started MacLowState.initial))).servingMimoBFT) = false :=
  ⟨by decide, by decide,
   (C24_flags_exclusive_when_started_one_at_a_time
      [.slsPhaseStarted, .rxStartIndication 10, .slsPhaseEnded, .mimoBftPhaseStarted]
      MacLowState.initial
      (MIMO_BFT_Phase_Started (SLS_Phase_Ended (SLS_Phase_Started MacLowState.initial)))
      (by decide) (by decide) (by decide)).1⟩

/-! ## Claim C21: the table of suspended allocations -/

theorem CancelAllEvents_table (s : MacLowState) :
    (CancelAllEvents s).allocationPeriodsTable = s.allocationPeriodsTable ∧
    (CancelAllEvents s).currentAllocationID = s.currentAllocationID := by
  unfold CancelAllEvents
  simp only [MacLowState.call]
  split <;> exact ⟨rfl, rfl⟩

theorem ForwardDown_table (env : Env) (s : MacLowState) (psdu : WifiPsdu)
    (txVector : WifiTxVector) :
    (ForwardDown env s psdu txVector).allocationPeriodsTable = s.allocationPeriodsTable ∧
    (ForwardDown env s psdu txVector).currentAllocationID = s.currentAllocationID := by
  unfold ForwardDown
  simp only [MacLowState.call]
  split_ifs <;> exact ⟨rfl, rfl⟩

theorem SendRtsForPacket_table (env : Env) (s s3 : MacLowState)
    (h : SendRtsForPacket env s = .ok s3) :
    s3.allocationPeriodsTable = s.allocationPeriodsTable ∧
    s3.currentAllocationID = s.currentAllocationID := by
  unfold SendRtsForPacket at h
  cases hp : s.currentPacket with
  | none =>
    rw [hp] at h
    cases h
  | some psdu =>
    rw [hp] at h
    simp only at h
    split at h
    · cases h
    · split at h
      · cases h
      · split at h
        · cases h
        · simp only [Except.ok.injEq] at h
          subst h
          rw [(ForwardDown_table env _ _ _).1, (ForwardDown_table env _ _ _).2]
          simp only [NotifyCtsTimeoutStartNow, MacLowState.call]
          split_ifs <;> exact ⟨rfl, rfl⟩

theorem StartDataTxTimers_table (env : Env) (s s1 : MacLowState) (v : WifiTxVector)
    (h : StartDataTxTimers env s v = .ok s1) :
    s1.allocationPeriodsTable = s.allocationPeriodsTable ∧
    s1.currentAllocationID = s.currentAllocationID := by
  unfold StartDataTxTimers at h
  simp only [NotifyAckTimeoutStartNow, MacLowState.call, scheduleWaitIfs] at h
  repeat' split at h
  all_goals (cases h <;> exact ⟨rfl, rfl⟩)

theorem appendCfAck_table (env : Env) (s s2 : MacLowState) (psdu psdu2 : WifiPsdu)
    (h : appendCfAck env s psdu = .ok (s2, psdu2)) :
    s2.allocationPeriodsTable = s.allocationPeriodsTable ∧
    s2.currentAllocationID = s.currentAllocationID := by
  unfold appendCfAck at h
  repeat' split at h
  all_goals (cases h <;> first | exact ⟨rfl, rfl⟩ | (split_ifs <;> exact ⟨rfl, rfl⟩))

theorem SendDataPacket_table (env : Env) (s s3 : MacLowState)
    (h : SendDataPacket env s = .ok s3) :
    s3.allocationPeriodsTable = s.allocationPeriodsTable ∧
    s3.currentAllocationID = s.currentAllocationID := by
  unfold SendDataPacket at h
  split at h
  · cases h
  · rename_i s1 hs1
    have k1 := StartDataTxTimers_table env s s1 _ hs1
    split at h
    · cases h
    · split at h
      · cases h
      · split at h
        · cases h
        · rename_i s2 psdu2 h2
          have k2 := appendCfAck_table env s1 s2 _ psdu2 h2
          simp only [MacLowState.call] at h
          split at h
          · split at h
            · cases h
            · split at h
              · simp only [Except.ok.injEq] at h
                subst h
                rw [(ForwardDown_table env _ _ _).1, (ForwardDown_table env _ _ _).2]
                exact ⟨k2.1.trans k1.1, k2.2.trans k1.2⟩
              · cases h
          · simp only [Except.ok.injEq] at h
            subst h
            rw [(ForwardDown_table env _ _ _).1, (ForwardDown_table env _ _ _).2]
            exact ⟨k2.1.trans k1.1, k2.2.trans k1.2⟩

/-- The table after `ResumeTransmission`: the entry of the current allocation
id is erased, nothing else changes, and the current id is the same. -/
theorem ResumeTransmission_table (env : Env) (s s1 : MacLowState) (duration : Time)
    (txop : Txop) (h : ResumeTransmission env s duration txop = .ok s1) :
    s1.allocationPeriodsTable
      = s.allocationPeriodsTable.filter (fun e => e.1 != s.currentAllocationID) ∧
    s1.currentAllocationID = s.currentAllocationID := by
  unfold ResumeTransmission at h
  split at h
  · cases h
  · rename_i allocation halloc
    simp only at h
    split at h
    · cases h
    · rename_i transactionTime ht
      split at h
      · cases h
      · rename_i s3 hres
        simp only [Except.ok.injEq] at h
        subst h
        have k : s3.allocationPeriodsTable = s.allocationPeriodsTable ∧
            s3.currentAllocationID = s.currentAllocationID := by
          split at hres
          · split at hres
            · have k := SendRtsForPacket_table env _ s3 hres
              exact ⟨k.1.trans (CancelAllEvents_table _).1, k.2.trans (CancelAllEvents_table _).2⟩
            · have k := SendDataPacket_table env _ s3 hres
              exact ⟨k.1.trans (CancelAllEvents_table _).1, k.2.trans (CancelAllEvents_table _).2⟩
          · cases hres
            exact ⟨rfl, rfl⟩
        simp only [k.1, k.2, and_self]

theorem filter_ids_nodup (table : List (Nat × AllocationParameters)) (p : Nat × AllocationParameters → Bool)
    (h : (table.map (fun e => e.1)).Nodup) : ((table.filter p).map (fun e => e.1)).Nodup :=
  List.Nodup.sublist (List.Sublist.map _ (List.filter_sublist table)) h

theorem tableSet_ids_nodup (table : List (Nat × AllocationParameters)) (key : Nat)
    (value : AllocationParameters) (h : (table.map (fun e => e.1)).Nodup) :
    ((tableSet table key value).map (fun e => e.1)).Nodup := by
  unfold tableSet
  simp only [List.map_cons, List.nodup_cons]
  refine ⟨?_, filter_ids_nodup table _ h⟩
  intro hmem
  simp only [List.mem_map, List.mem_filter] at hmem
  obtain ⟨e, ⟨_, hne⟩, he⟩ := hmem
  simp [he] at hne

theorem EndAllocationPeriod_ids_nodup (s : MacLowState) (h : s.allocationIds.Nodup) :
    (EndAllocationPeriod s).allocationIds.Nodup := by
  have hc : (CancelAllEvents s).allocationPeriodsTable = s.allocationPeriodsTable :=
    (CancelAllEvents_table s).1
  unfold MacLowState.allocationIds at h ⊢
  unfold EndAllocationPeriod StoreAllocationParameters
  simp only
  split
  · split
    · rw [hc]
      exact tableSet_ids_nodup _ _ _ h
    · rw [hc]
      exact h
  · rw [hc]
    exact h

theorem RestoreAllocationParameters_table (s : MacLowState) (allocationId : Nat) :
    (RestoreAllocationParameters s allocationId).allocationPeriodsTable
      = s.allocationPeriodsTable := by
  unfold RestoreAllocationParameters
  simp only
  split <;> rfl

theorem allocStep_ids_nodup (env : Env) (s s1 : MacLowState) (op : AllocOp)
    (hn : s.allocationIds.Nodup) (h : allocStep env s op = .ok s1) : s1.allocationIds.Nodup := by
  cases op with
  | endAllocationPeriod =>
    cases h
    exact EndAllocationPeriod_ids_nodup s hn
  | restoreAllocationParameters allocationId =>
    cases h
    unfold MacLowState.allocationIds
    rw [RestoreAllocationParameters_table]
    exact hn
  | resumeTransmission duration txop =>
    have k := ResumeTransmission_table env s s1 duration txop h
    unfold MacLowState.allocationIds
    rw [k.1]
    exact filter_ids_nodup _ _ hn

theorem allocRun_ids_nodup (env : Env) (ops : List AllocOp) (s s1 : MacLowState)
    (hn : s.allocationIds.Nodup) (h : allocRun env s ops = .ok s1) : s1.allocationIds.Nodup := by
  induction ops generalizing s with
  | nil =>
    simp only [allocRun, Except.ok.injEq] at h
    subst h
    exact hn
  | cons op ops ih =>
    simp only [allocRun] at h
    cases hstep : allocStep env s op with
    | error e => rw [hstep] at h; cases h
    | ok s2 =>
      rw [hstep] at h
      exact ih s2 (allocStep_ids_nodup env s s2 op hn hstep) h

theorem find_in_filtered_table (table : List (Nat × AllocationParameters)) (key : Nat) :
    (table.filter (fun e => e.1 != key)).find? (fun e => e.1 == key) = none ∧
    ∀ id, id ≠ key →
      (table.filter (fun e => e.1 != key)).find? (fun e => e.1 == id)
        = table.find? (fun e => e.1 == id) := by
  refine ⟨?_, ?_⟩
  · rw [List.find?_eq_none]
    intro e he
    simp only [List.mem_filter, bne_iff_ne, ne_eq] at he
    simp [he.2]
  · intro id hid
    induction table with
    | nil => rfl
    | cons e table ih =>
      rw [List.filter_cons]
      by_cases hk : e.1 = key
      · have hne : (e.1 == id) = false := by
          simp only [beq_eq_false_iff_ne, ne_eq]
          exact fun h => hid (h.symm.trans hk)
        have hf : (e.1 != key) = false := by simp [hk]
        rw [hf]
        simp only [Bool.false_eq_true, if_false, List.find?_cons, hne]
        exact ih
      · have hf : (e.1 != key) = true := by simp [hk]
        rw [hf]
        simp only [if_true, List.find?_cons]
        rw [ih]

/-- C21. When `ResumeTransmission` returns - having resumed the transmission
or having left it suspended - the table is the old table without the entry of
the current allocation id, and the current id is unchanged: so the table has
no entry for the current id, and a lookup of any other id gives what it gave
before.  In a table built from one with at most one context per id, every
sequence of `EndAllocationPeriod`, `RestoreAllocationParameters` and
`ResumeTransmission` calls that returns leaves at most one context per id. -/
theorem C21_resume_erases_current_allocation (env : Env) (s : MacLowState) (duration : Time)
    (txop : Txop) (hn : s.allocationIds.Nodup)
    (hret : (ResumeTransmission env s duration txop).toBool = true) :
    (ResumeTransmission env s duration txop).map
        (fun s1 => (s1.allocationPeriodsTable, s1.currentAllocationID))
      = .ok (s.allocationPeriodsTable.filter (fun e => e.1 != s.currentAllocationID),
             s.currentAllocationID) ∧
    (s.allocationPeriodsTable.filter (fun e => e.1 != s.currentAllocationID)).find?
        (fun e => e.1 == s.currentAllocationID) = none ∧
    (∀ id, id ≠ s.currentAllocationID →
      (s.allocationPeriodsTable.filter (fun e => e.1 != s.currentAllocationID)).find?
          (fun e => e.1 == id) = s.allocationPeriodsTable.find? (fun e => e.1 == id)) ∧
    (∀ ops s2, allocRun env s ops = .ok s2 → s2.allocationIds.Nodup) := by
  refine ⟨?_, (find_in_filtered_table _ _).1, (find_in_filtered_table _ _).2,
    fun ops s2 h => allocRun_ids_nodup env ops s s2 hn h⟩
  cases hr : ResumeTransmission env s duration txop with
  | error e => rw [hr] at hret; cases hret
  | ok s1 =>
    have k := ResumeTransmission_table env s s1 duration txop hr
    simp only [Except.map, k.1, k.2]

theorem C21_resume_erases_current_allocation_witness :
    (ResumeTransmission { calculateTxDuration := fun size _ => (size : Int) * 1000 }
        stationWithTwoSuspended 900000 { id := 5, isQosTxop := true }).map
        (fun s1 => (s1.allocationPeriodsTable, s1.currentAllocationID, s1.transmissionSuspended))
      = .ok ([(3, suspendedContext)], 7, false) ∧
    (ResumeTransmission { calculateTxDuration := fun size _ => (size : Int) * 1000 }
        stationWithTwoSuspended 900000 { id := 5, isQosTxop := true }).map
        (fun s1 => (s1.allocationPeriodsTable, s1.currentAllocationID))
      = .ok ([(3, suspendedContext)], 7) :=
  ⟨by decide,
   (C21_resume_erases_current_allocation
      { calculateTxDuration := fun size _ => (size : Int) * 1000 }
      stationWithTwoSuspended 900000 { id := 5, isQosTxop := true }
      (by decide) (by decide)).1⟩

/-! ## Claim C22: receptions while a training phase is served -/

theorem data_or_mgt_is_no_control (h : WifiMacHeader) (hdm : (h.IsData || h.IsMgt) = true) :
    h.IsRts = false ∧ (h.IsCts || h.IsDmgCts) = false ∧ h.IsAck = false ∧
    h.IsBlockAck = false ∧ h.IsBlockAckReq = false ∧ h.IsDMGBeacon = false ∧
    (h.IsSSW || h.IsSSW_FBCK || h.IsSSW_ACK) = false ∧ h.IsCtl = false ∧ h.IsCfEnd = false := by
  simp only [WifiMacHeader.IsData, WifiMacHeader.IsMgt, WifiMacHeader.IsRts, WifiMacHeader.IsCts,
    WifiMacHeader.IsDmgCts, WifiMacHeader.IsAck, WifiMacHeader.IsBlockAck,
    WifiMacHeader.IsBlockAckReq, WifiMacHeader.IsDMGBeacon, WifiMacHeader.IsSSW,
    WifiMacHeader.IsSSW_FBCK, WifiMacHeader.IsSSW_ACK, WifiMacHeader.IsCtl,
    WifiMacHeader.IsCfEnd] at hdm ⊢
  cases hty : h.type <;> simp [hty] at hdm ⊢

theorem NotifyNav_for_self (env : Env) (s : MacLowState) (mpdu : WifiMacQueueItem)
    (hnav : s.lastNavStart ≤ s.now) (hself : mpdu.hdr.addr1 = s.self)
    (hend : mpdu.hdr.IsCfEnd = false) :
    NotifyNav env s mpdu = .ok s ∨
    (mpdu.hdr.IsCfPoll = true ∧
      NotifyNav env s mpdu = .ok (DoNavResetNow s mpdu.hdr.GetDuration)) := by
  unfold NotifyNav
  simp only [hnav, not_true_eq_false, if_false, hend, Bool.false_and, Bool.false_eq_true, hself,
    bne_self_eq_false]
  split_ifs with h1 h2
  · exact Or.inl rfl
  · simp only [Bool.and_eq_true] at h2
    exact Or.inr ⟨h2.1, rfl⟩
  · exact Or.inl rfl

theorem ReceiveOk_data_or_mgt_for_self (env : Env) (s s1 : MacLowState)
    (mpdu : WifiMacQueueItem) (rxSnr : Nat) (txVector : WifiTxVector) (ampduSubframe : Bool)
    (hdm : (mpdu.hdr.IsData || mpdu.hdr.IsMgt) = true) (hself : mpdu.hdr.addr1 = s1.self)
    (hn : NotifyNav env s mpdu = .ok s1) :
    ReceiveOk env s mpdu rxSnr txVector ampduSubframe
      = receiveForSelf env s1 mpdu rxSnr txVector ampduSubframe := by
  obtain ⟨hrts, hc, h1, h2, h3, h4, h5, h6, _⟩ := data_or_mgt_is_no_control mpdu.hdr hdm
  unfold ReceiveOk
  simp only [hn, hrts, Bool.false_eq_true, if_false, hc, Bool.false_and, h1, h2, h3, h4, h5, h6,
    hself, beq_self_eq_true, Bool.and_false, if_true]

/-- The branch for a frame addressed to this station, entered while the
training flag that covers the frame is set: the deferred Ack is cancelled and
the frame is not handed up. -/
theorem receiveForSelf_serving (env : Env) (s : MacLowState) (mpdu : WifiMacQueueItem)
    (rxSnr : Nat) (txVector : WifiTxVector) (ampduSubframe : Bool)
    (hserv : s.servingSLS = true ∨ (s.servingMimoBFT = true ∧ mpdu.hdr.IsData = true)) :
    (mpdu.hdr.IsCfPoll = false →
      receiveForSelf env s mpdu rxSnr txVector ampduSubframe
        = .ok { s with sendAckEvent := none }) ∧
    (∀ s2, receiveForSelf env s mpdu rxSnr txVector ampduSubframe = .ok s2 →
      s2.sendAckEvent = none ∧
      ∃ l, s2.trace = s.trace ++ l ∧ ∀ m, Call.RxCallback m ∉ l) := by
  refine ⟨?_, ?_⟩
  · intro hpoll
    unfold receiveForSelf
    simp only [hpoll, Bool.false_eq_true, if_false]
    rcases hserv with h | ⟨h, hd⟩
    · rw [if_pos h]
    · by_cases hsls : s.servingSLS = true
      · rw [if_pos hsls]
      · have hcond : (s.servingMimoBFT && (mpdu.hdr.IsData || mpdu.hdr.IsBlockAck)) = true := by
          rw [h, hd]
          rfl
        rw [if_neg hsls, if_pos hcond]
  · intro s2 h
    unfold receiveForSelf at h
    simp only at h
    split at h
    · cases h
    · rename_i s1 hp
      have hflags : s1.servingSLS = s.servingSLS ∧ s1.servingMimoBFT = s.servingMimoBFT ∧
          ∃ l, s1.trace = s.trace ++ l ∧ ∀ m, Call.RxCallback m ∉ l := by
        simp only [MacLowState.call] at hp
        repeat' split at hp
        all_goals first
          | (cases hp; done)
          | (cases hp; exact ⟨rfl, rfl, [_], rfl, by simp⟩)
          | (cases hp; exact ⟨rfl, rfl, [], by simp, by simp⟩)
      obtain ⟨e1, e2, htr⟩ := hflags
      have hres : s2 = { s1 with sendAckEvent := none } := by
        rcases hserv with hs | ⟨hs, hd⟩
        · rw [if_pos (e1.trans hs)] at h
          exact (Except.ok.inj h).symm
        · by_cases hsls : s1.servingSLS = true
          · rw [if_pos hsls] at h
            exact (Except.ok.inj h).symm
          · have hcond : (s1.servingMimoBFT && (mpdu.hdr.IsData || mpdu.hdr.IsBlockAck)) = true := by
              rw [e2.trans hs, hd]
              rfl
            rw [if_neg hsls, if_pos hcond] at h
            exact (Except.ok.inj h).symm
      subst hres
      exact ⟨rfl, htr⟩

theorem DoNavResetNow_keeps (s : MacLowState) (duration : Time) :
    (DoNavResetNow s duration).self = s.self ∧
    (DoNavResetNow s duration).servingSLS = s.servingSLS ∧
    (DoNavResetNow s duration).servingMimoBFT = s.servingMimoBFT ∧
    (DoNavResetNow s duration).trace
      = s.trace ++ s.channelAccessManagers.map (fun m => Call.NotifyNavResetNow m duration) :=
  ⟨rfl, rfl, rfl, rfl⟩

theorem ReceiveOk_blockAckReq_serving (env : Env) (s : MacLowState) (mpdu : WifiMacQueueItem)
    (rxSnr : Nat) (txVector : WifiTxVector) (ampduSubframe : Bool)
    (hself : mpdu.hdr.addr1 = s.self) (hnav : s.lastNavStart ≤ s.now)
    (hbar : mpdu.hdr.IsBlockAckReq = true)
    (hserv : s.servingSLS = true ∨ s.servingMimoBFT = true) :
    ReceiveOk env s mpdu rxSnr txVector ampduSubframe = .ok s := by
  have hty : mpdu.hdr.type = .ctlBackReq := by
    simpa [WifiMacHeader.IsBlockAckReq] using hbar
  have hpoll : mpdu.hdr.IsCfPoll = false := by simp [WifiMacHeader.IsCfPoll, hty]
  have hend : mpdu.hdr.IsCfEnd = false := by simp [WifiMacHeader.IsCfEnd, hty]
  have hrts : mpdu.hdr.IsRts = false := by simp [WifiMacHeader.IsRts, hty]
  have hc : (mpdu.hdr.IsCts || mpdu.hdr.IsDmgCts) = false := by
    simp [WifiMacHeader.IsCts, WifiMacHeader.IsDmgCts, hty]
  have h1 : mpdu.hdr.IsAck = false := by simp [WifiMacHeader.IsAck, hty]
  have h2 : mpdu.hdr.IsBlockAck = false := by simp [WifiMacHeader.IsBlockAck, hty]
  unfold ReceiveOk
  simp only [NotifyNav_addressed_to_self env s mpdu hnav hpoll hend hself, hrts,
    Bool.false_eq_true, if_false, hc, Bool.false_and, h1, h2, hbar, hself, beq_self_eq_true,
    Bool.and_self, if_true]
  unfold receiveBlockAckReq
  rcases hserv with h | h
  · rw [if_pos h]
  · by_cases hsls : s.servingSLS = true
    · rw [if_pos hsls]
    · rw [if_neg hsls, if_pos h]

theorem DeaggregateAmpduAndReceive_serving (env : Env) (s : MacLowState) (psdu : WifiPsdu)
    (rxSnr : Nat) (txVector : WifiTxVector) (statusPerMpdu : List Bool)
    (hagg : txVector.aggregation = true) (hpsdu : psdu.IsAggregate = true)
    (hlen : psdu.GetNMpdus = statusPerMpdu.length)
    (hserv : s.servingSLS = true ∨ s.servingMimoBFT = true) :
    DeaggregateAmpduAndReceive env s psdu rxSnr txVector statusPerMpdu = .ok s := by
  unfold DeaggregateAmpduAndReceive
  rw [if_pos hagg]
  have h1 : ¬ ((!psdu.IsAggregate) = true) := by simp [hpsdu]
  have h2 : ¬ ((psdu.GetNMpdus != statusPerMpdu.length) = true) := by simp [hlen]
  rw [if_neg h1, if_neg h2]
  rcases hserv with h | h
  · rw [if_pos h]
  · by_cases hsls : s.servingSLS = true
    · rw [if_pos hsls]
    · rw [if_neg hsls, if_pos h]

/-- C22, as stated, fails for a management frame while MIMO beamforming
training is served: only data frames and Block Acks are dropped in that mode.
A station serving MIMO BFT that receives an Action frame addressed to it hands
the frame up and schedules `SendAckAfterData` one SIFS later; the same frame
received while SLS is served is dropped. -/
theorem C22_management_frame_acknowledged_during_mimo_bft :
    (ReceiveOk {} { self := 1, sifs := 3000, now := 100000, servingMimoBFT := true }
        { hdr := { type := .mgtAction, addr1 := 1, addr2 := 2, duration := 44 } } 0 {} false).map
        (fun s => (s.sendAckEvent, s.trace))
      = .ok (some { due := 103000, handler := .SendAckAfterData 2 44000 0 0 },
             [Call.ReportRxOk 2,
              Call.RxCallback { seqNum := 0, fragNum := 0, moreFragments := false, payload := 0 }]) ∧
    (ReceiveOk {} { self := 1, sifs := 3000, now := 100000, servingSLS := true }
        { hdr := { type := .mgtAction, addr1 := 1, addr2 := 2, duration := 44 } } 0 {} false).map
        (fun s => (s.sendAckEvent, s.trace))
      = .ok (none, []) := by
  decide

/-- C22, amended.  For a frame whose addr1 is this station, received in a state
whose NAV start is not in the future: while SLS is served every data or
management frame, and while MIMO beamforming training is served every data
frame, is dropped - the rx callback is not invoked and no deferred Ack is left
scheduled; for a frame that is not a CF-Poll the only change of the state is
the cancelled `m_sendAckEvent`.  A BlockAckReq in either mode leaves the state
as it is, so nothing is handed up or scheduled, and an A-MPDU in either mode is
discarded whole: the state, the NAV included, is unchanged.  A management
frame received while MIMO beamforming training is served is not covered: it is
handed up and acknowledged. -/
theorem C22_frames_for_self_dropped_while_training (env : Env) (s : MacLowState)
    (mpdu : WifiMacQueueItem) (rxSnr : Nat) (txVector : WifiTxVector) (ampduSubframe : Bool)
    (hself : mpdu.hdr.addr1 = s.self) (hnav : s.lastNavStart ≤ s.now) :
    ((mpdu.hdr.IsData || mpdu.hdr.IsMgt) = true →
      (s.servingSLS = true ∨ (s.servingMimoBFT = true ∧ mpdu.hdr.IsData = true)) →
      (mpdu.hdr.IsCfPoll = false →
        ReceiveOk env s mpdu rxSnr txVector ampduSubframe
          = .ok { s with sendAckEvent := none }) ∧
      (∀ s2, ReceiveOk env s mpdu rxSnr txVector ampduSubframe = .ok s2 →
        s2.sendAckEvent = none ∧
        ∃ l, s2.trace = s.trace ++ l ∧ ∀ m, Call.RxCallback m ∉ l)) ∧
    (mpdu.hdr.IsBlockAckReq = true → (s.servingSLS = true ∨ s.servingMimoBFT = true) →
      ReceiveOk env s mpdu rxSnr txVector ampduSubframe = .ok s) ∧
    (∀ (psdu : WifiPsdu) (statusPerMpdu : List Bool), txVector.aggregation = true →
      psdu.IsAggregate = true → psdu.GetNMpdus = statusPerMpdu.length →
      (s.servingSLS = true ∨ s.servingMimoBFT = true) →
      DeaggregateAmpduAndReceive env s psdu rxSnr txVector statusPerMpdu = .ok s) := by
  refine ⟨?_, ?_, ?_⟩
  · intro hdm hserv
    have hend := (data_or_mgt_is_no_control mpdu.hdr hdm).2.2.2.2.2.2.2.2
    refine ⟨?_, ?_⟩
    · intro hpoll
      have hn := NotifyNav_addressed_to_self env s mpdu hnav hpoll hend hself
      rw [ReceiveOk_data_or_mgt_for_self env s s mpdu rxSnr txVector ampduSubframe hdm hself hn]
      exact (receiveForSelf_serving env s mpdu rxSnr txVector ampduSubframe hserv).1 hpoll
    · intro s2 h
      rcases NotifyNav_for_self env s mpdu hnav hself hend with hn | ⟨_, hn⟩
      · rw [ReceiveOk_data_or_mgt_for_self env s s mpdu rxSnr txVector ampduSubframe hdm hself
          hn] at h
        exact (receiveForSelf_serving env s mpdu rxSnr txVector ampduSubframe hserv).2 s2 h
      · have k := DoNavResetNow_keeps s mpdu.hdr.GetDuration
        rw [ReceiveOk_data_or_mgt_for_self env s _ mpdu rxSnr txVector ampduSubframe hdm
          (hself.trans k.1.symm) hn] at h
        have hserv1 : (DoNavResetNow s mpdu.hdr.GetDuration).servingSLS = true ∨
            ((DoNavResetNow s mpdu.hdr.GetDuration).servingMimoBFT = true ∧
              mpdu.hdr.IsData = true) := by
          rw [k.2.1, k.2.2.1]
          exact hserv
        obtain ⟨ha, l, hl, hno⟩ :=
          (receiveForSelf_serving env _ mpdu rxSnr txVector ampduSubframe hserv1).2 s2 h
        refine ⟨ha,
          s.channelAccessManagers.map (fun m => Call.NotifyNavResetNow m mpdu.hdr.GetDuration)
            ++ l, ?_, ?_⟩
        · rw [hl, k.2.2.2, List.append_assoc]
        · intro m hm
          rcases List.mem_append.1 hm with hm | hm
          · simp at hm
          · exact hno m hm
  · intro hbar hserv
    exact ReceiveOk_blockAckReq_serving env s mpdu rxSnr txVector ampduSubframe hself hnav hbar
      hserv
  · intro psdu statusPerMpdu hagg hpsdu hlen hserv
    exact DeaggregateAmpduAndReceive_serving env s psdu rxSnr txVector statusPerMpdu hagg hpsdu
      hlen hserv

theorem C22_frames_for_self_dropped_while_training_witness :
    ReceiveOk {}
        { self := 1, sifs := 3000, now := 100000, servingMimoBFT := true,
          sendAckEvent := some { due := 101000, handler := .SendAckAfterData 2 44000 0 0 } }
        { hdr := { type := .qosData, addr1 := 1, addr2 := 2, duration := 44 } } 0 {} false
      = .ok { self := 1, sifs := 3000, now := 100000, servingMimoBFT := true,
              sendAckEvent := none } :=
  ((C22_frames_for_self_dropped_while_training {}
      { self := 1, sifs := 3000, now := 100000, servingMimoBFT := true,
        sendAckEvent := some { due := 101000, handler := .SendAckAfterData 2 44000 0 0 } }
      { hdr := { type := .qosData, addr1 := 1, addr2 := 2, duration := 44 } } 0 {} false
      rfl (by decide)).1 (by decide) (Or.inr ⟨rfl, by decide⟩)).1 (by decide)

/-! ## Claim C28: `StartTransmission` and the PHY -/

theorem SendCtsToSelf_last (env : Env) (s s1 : MacLowState) (h : SendCtsToSelf env s = .ok s1) :
    ∃ cts v, s1.trace.getLast? = some (.PhySend cts v) ∧ cts.first.hdr.type = .ctlCts := by
  unfold SendCtsToSelf at h
  split at h
  · cases h
  · split at h
    · cases h
    · simp only at h
      generalize hF : ForwardDown env s _ _ = F at h
      split at h
      · cases h
      · simp only [Except.ok.injEq] at h
        subst h
        subst hF
        exact ⟨_, _, ForwardDown_last env _ _ _, rfl⟩

/-- What the QoS branch of `StartTransmission` leaves: with the flag set the
PSDU to send is in `m_currentPacket`; the flag is clear exactly when `newMpdu`
is null, and then nothing was handed to the PHY and the owner is untouched. -/
theorem prepareQosData_spec (env : Env) (s s3 : MacLowState) (mpdu : WifiMacQueueItem)
    (params : MacLowTransmissionParameters) (txop : Txop) (flag : Bool)
    (h : prepareQosData env s mpdu params txop = .ok (s3, flag)) :
    (flag = true → s3.currentPacket.isSome = true) ∧
    (flag = false ↔
      (selectNewMpdu env s.currentTxVector mpdu params txop).map Prod.snd = .ok none) ∧
    (flag = false →
      (∃ l, s3.trace = s.trace ++ l ∧ ∀ psdu v, Call.PhySend psdu v ∉ l) ∧
      s3.currentTxop = s.currentTxop) := by
  unfold prepareQosData at h
  simp only [MacLowState.call] at h
  split at h
  · cases h
  · cases hsel : selectNewMpdu env s.currentTxVector mpdu params txop with
    | error e =>
      rw [hsel] at h
      cases h
    | ok r =>
      obtain ⟨isPeeked, newMpdu⟩ := r
      rw [hsel] at h
      cases newMpdu with
      | none =>
        simp only at h
        split at h
        · simp only [Except.ok.injEq, Prod.mk.injEq] at h
          obtain ⟨h1, h2⟩ := h
          subst h1 h2
          refine ⟨fun hf => (by cases hf), ⟨fun _ => rfl, fun _ => rfl⟩, fun _ =>
            ⟨⟨[Call.DequeuePeekedFrame mpdu.hdr.qosTid mpdu,
               Call.UpdateCurrentPacket mpdu.hdr.qosTid none], ?_, ?_⟩, rfl⟩⟩
          · simp only [List.append_assoc, List.singleton_append]
          · intro psdu v hm
            simp at hm
        · simp only [Except.ok.injEq, Prod.mk.injEq] at h
          obtain ⟨h1, h2⟩ := h
          subst h1 h2
          refine ⟨fun hf => (by cases hf), ⟨fun _ => rfl, fun _ => rfl⟩, fun _ => ⟨⟨[], ?_, ?_⟩, rfl⟩⟩
          · simp only [List.append_nil]
          · intro psdu v hm
            simp at hm
      | some m =>
        simp only at h
        have hflag : flag = true ∧ s3.currentPacket.isSome = true := by
          repeat' split at h
          all_goals first
            | (cases h; done)
            | (simp only [Except.ok.injEq, Prod.mk.injEq] at h
               obtain ⟨h1, h2⟩ := h
               subst h1 h2
               exact ⟨rfl, rfl⟩)
        refine ⟨fun _ => hflag.2, ⟨fun hf => ?_, fun hn => ?_⟩, fun hf => ?_⟩
        · rw [hflag.1] at hf
          cases hf
        · simp [Except.map] at hn
        · rw [hflag.1] at hf
          cases hf

theorem CancelAllEvents_no_send (s : MacLowState) :
    ∃ l, (CancelAllEvents s).trace = s.trace ++ l ∧ ∀ psdu v, Call.PhySend psdu v ∉ l := by
  unfold CancelAllEvents
  simp only [MacLowState.call]
  split
  · rename_i txop _ _
    exact ⟨[Call.Cancel txop.id], rfl, by simp⟩
  · exact ⟨[], by simp, by simp⟩

theorem qos_data_is_no_control (h : WifiMacHeader) (hq : h.IsQosData = true) :
    h.IsCtl = false := by
  simp only [WifiMacHeader.IsQosData, WifiMacHeader.IsCtl] at hq ⊢
  cases hty : h.type <;> simp [hty] at hq ⊢

theorem sendCurrentPacket_last (env : Env) (s3 s1 : MacLowState)
    (hp : s3.currentPacket.isSome = true) (hs : sendCurrentPacket env s3 = .ok s1) :
    ∃ psdu v, s1.trace.getLast? = some (.PhySend psdu v) := by
  obtain ⟨psdu, hpsdu⟩ := Option.isSome_iff_exists.1 hp
  unfold sendCurrentPacket at hs
  split at hs
  · obtain ⟨_, _, rts, v, hl, _⟩ := SendRtsForPacket_ok env s3 s1 psdu hpsdu hs
    exact ⟨rts, v, hl⟩
  · simp only at hs
    split at hs
    · cases hs
    · obtain ⟨cts, v, hl, _⟩ := SendCtsToSelf_last env s3 s1 hs
      exact ⟨cts, v, hl⟩
    · obtain ⟨sent, v, hl, _⟩ := SendDataPacket_ok env s3 s1 psdu hpsdu hs
      exact ⟨sent, v, hl⟩

/-- C28, as stated, fails for a QoS data frame that does not fit.  The owner
has a TXOP limit and 100 us left for a PPDU; the frame to send, not peeked, is
a 500-byte QoS data frame that takes 500 us.  `IsWithinSizeAndTimeLimits`
answers false, `newMpdu` stays null and `StartTransmission` returns from inside
the QoS branch, before the closing assertion: no frame was handed to the PHY,
while the owner is set and `m_currentPacket` holds the frame.  A 50-byte frame
is sent. -/
theorem C28_frame_outside_limits_is_not_sent :
    (StartTransmission shortTxopPhy idleStation (qosDataOfSize 500) { waitAck := .normal }
        { id := 5, isQosTxop := true, txopLimit := 3000000 }).map
        (fun s => (s.trace, s.currentTxop.isSome, s.currentPacket.isSome))
      = .ok ([], true, true) ∧
    (StartTransmission shortTxopPhy idleStation (qosDataOfSize 50) { waitAck := .normal }
        { id := 5, isQosTxop := true, txopLimit := 3000000 }).map
        (fun s => s.trace.getLast?.map
          (fun c => c == Call.PhySend
            { first := qosDataOfSize 50, size := 50, duration := some 17000 } {}))
      = .ok (some true) := by
  decide

/-- C28, amended.  When `StartTransmission (mpdu, params, txop)`, called while
the PHY is not off, returns, the last call it made is the hand-over of a frame
to the PHY - the RTS, the CTS-to-self or the data PSDU - unless the frame is a
non-broadcast QoS data frame, first fragment with no more fragments, for which
`newMpdu` is null (the QosTxop dequeued nothing for the peeked frame, or the
frame is outside the size and duration limits).  In that case the function
returns early: nothing is handed to the PHY during the call and the owner
stays set. -/
theorem C28_StartTransmission_sends_unless_frame_is_held_back (env : Env) (s s1 : MacLowState)
    (mpdu : WifiMacQueueItem) (params : MacLowTransmissionParameters) (txop : Txop)
    (hoff : env.phyIsStateOff = false)
    (h : StartTransmission env s mpdu params txop = .ok s1) :
    (((mpdu.hdr.IsQosData && !IsBroadcast mpdu.hdr.addr1 && !mpdu.hdr.moreFragments
          && mpdu.hdr.fragNum == 0) = true ∧
        (selectNewMpdu env (env.getDataTxVector mpdu.hdr) mpdu params txop).map Prod.snd
          = .ok none) →
      (∃ l, s1.trace = s.trace ++ l ∧ ∀ psdu v, Call.PhySend psdu v ∉ l) ∧
      s1.currentTxop = some txop) ∧
    (¬ ((mpdu.hdr.IsQosData && !IsBroadcast mpdu.hdr.addr1 && !mpdu.hdr.moreFragments
          && mpdu.hdr.fragNum == 0) = true ∧
        (selectNewMpdu env (env.getDataTxVector mpdu.hdr) mpdu params txop).map Prod.snd
          = .ok none) →
      ∃ psdu v, s1.trace.getLast? = some (.PhySend psdu v)) := by
  have hctx := CancelAllEvents_no_send { s with currentPacket := some (WifiPsdu.ofMpdu mpdu) }
  have hctxp : (startTransmissionContext env s mpdu params txop).currentPacket
      = some (WifiPsdu.ofMpdu mpdu) :=
    (CancelAllEvents_keeps { s with currentPacket := some (WifiPsdu.ofMpdu mpdu) }).2.1
  unfold StartTransmission at h
  split at h
  · cases h
  · rw [if_neg (by rw [hoff]; decide)] at h
    simp only at h
    by_cases hq : (mpdu.hdr.IsQosData && !IsBroadcast mpdu.hdr.addr1 && !mpdu.hdr.moreFragments
        && mpdu.hdr.fragNum == 0) = true
    · have hqos : mpdu.hdr.IsQosData = true := by
        simp only [Bool.and_eq_true] at hq
        exact hq.1.1.1
      have hv : (startTransmissionContext env s mpdu params txop).currentTxVector
          = env.getDataTxVector mpdu.hdr := by
        show (if mpdu.hdr.IsCtl = true then _ else _) = _
        rw [if_neg (by rw [qos_data_is_no_control mpdu.hdr hqos]; decide)]
      rw [if_pos hq] at h
      cases hprep : prepareQosData env (startTransmissionContext env s mpdu params txop) mpdu
          params txop with
      | error e =>
        rw [hprep] at h
        cases h
      | ok r =>
        obtain ⟨s3, flag⟩ := r
        have k := prepareQosData_spec env _ s3 mpdu params txop flag hprep
        rw [hv] at k
        rw [hprep] at h
        cases flag with
        | false =>
          simp only [Except.ok.injEq] at h
          subst h
          refine ⟨fun _ => ?_, fun hn => absurd ⟨hq, k.2.1.1 rfl⟩ hn⟩
          obtain ⟨⟨l, hl, hno⟩, htx⟩ := k.2.2 rfl
          obtain ⟨l0, hl0, hno0⟩ := hctx
          refine ⟨⟨l0 ++ l, ?_, ?_⟩, htx⟩
          · rw [hl]
            show (CancelAllEvents _).trace ++ l = _
            rw [hl0, List.append_assoc]
          · intro psdu v hm
            rcases List.mem_append.1 hm with hm | hm
            · exact hno0 psdu v hm
            · exact hno psdu v hm
        | true =>
          simp only at h
          refine ⟨fun hc => ?_, fun _ => sendCurrentPacket_last env s3 s1 (k.1 rfl) h⟩
          have := k.2.1.2 hc.2
          cases this
    · rw [if_neg hq] at h
      simp only at h
      refine ⟨fun hc => absurd hc.1 hq, fun _ => sendCurrentPacket_last env _ s1 ?_ h⟩
      rw [hctxp]
      rfl

theorem C28_StartTransmission_sends_unless_frame_is_held_back_witness :
    (StartTransmission shortTxopPhy idleStation (qosDataOfSize 50) { waitAck := .normal }
        { id := 5, isQosTxop := true, txopLimit := 3000000 }).toBool = true ∧
    ∃ psdu v,
      ((StartTransmission shortTxopPhy idleStation (qosDataOfSize 50) { waitAck := .normal }
          { id := 5, isQosTxop := true, txopLimit := 3000000 }).toOption.getD
        idleStation).trace.getLast? = some (.PhySend psdu v) :=
  ⟨by decide,
   (C28_StartTransmission_sends_unless_frame_is_held_back shortTxopPhy idleStation
      ((StartTransmission shortTxopPhy idleStation (qosDataOfSize 50) { waitAck := .normal }
          { id := 5, isQosTxop := true, txopLimit := 3000000 }).toOption.getD idleStation)
      (qosDataOfSize 50) { waitAck := .normal }
      { id := 5, isQosTxop := true, txopLimit := 3000000 }
      (by decide) (by decide)).2 (by decide)⟩

/-! ## Claims C33 and C34: the NAV record -/

/-- C33. `IsNavZero` is true exactly when busy-until, `m_lastNavStart +
m_lastNavDuration`, is strictly earlier than the current time; when busy-until
equals the current time it is false, in particular in the state that
`DoNavResetNow (0)`, `NotifyOffNow`, `NotifySleepNow`, `NotifySwitchingStartNow`
or `EndAllocationPeriod` leaves, at the instant of the call. -/
theorem C33_IsNavZero_is_strict (s : MacLowState) :
    (IsNavZero s = true ↔ s.busyUntil < s.now) ∧
    (s.busyUntil = s.now → IsNavZero s = false) ∧
    IsNavZero (DoNavResetNow s 0) = false ∧
    IsNavZero (NotifyOffNow s) = false ∧
    IsNavZero (NotifySleepNow s) = false ∧
    IsNavZero (NotifySwitchingStartNow s) = false ∧
    IsNavZero (EndAllocationPeriod s) = false := by
  have hz : ∀ t : Time, decide (t + 0 < t) = false := by
    intro t
    simp
  refine ⟨?_, ?_, ?_, ?_, ?_, ?_, ?_⟩
  · simp [IsNavZero, MacLowState.busyUntil]
  · intro h
    simp only [MacLowState.busyUntil] at h
    simp [IsNavZero, h]
  · exact hz _
  · exact hz _
  · exact hz _
  · exact hz _
  · exact hz _

/-- C35, as stated, fails for a frame that was not peeked.  The owner has 100 us
left for a PPDU and the 500-byte QoS data frame, already dequeued, takes 500 us:
`StartTransmission` returns with `m_currentPacket` still holding the frame, and
a following `EndAllocationPeriod` saves it, with the tx parameters and the
owner, as the suspended transmission of the current allocation.  When the
QosTxop had only peeked the frame and dequeues nothing, `m_currentPacket` is
null on return and `EndAllocationPeriod` saves nothing. -/
theorem C35_dequeued_frame_stays_in_the_active_context :
    (StartTransmission shortTxopPhy idleStation (qosDataOfSize 500) { waitAck := .normal }
        { id := 5, isQosTxop := true, txopLimit := 3000000 }).map
        (fun s => (s.currentPacket, (EndAllocationPeriod s).allocationPeriodsTable))
      = .ok (some (WifiPsdu.ofMpdu (qosDataOfSize 500)),
             [(0, { psdu := WifiPsdu.ofMpdu (qosDataOfSize 500),
                    txParams := { waitAck := .normal }, txVector := {},
                    txop := some { id := 5, isQosTxop := true, txopLimit := 3000000 } })]) ∧
    (StartTransmission peekedAndHeldBack idleStation (qosDataOfSize 500) { waitAck := .normal }
        { id := 5, isQosTxop := true, txopLimit := 3000000 }).map
        (fun s => (s.currentPacket, (EndAllocationPeriod s).allocationPeriodsTable))
      = .ok (none, []) := by
  decide

theorem startTransmissionContext_spec (env : Env) (s : MacLowState) (mpdu : WifiMacQueueItem)
    (params : MacLowTransmissionParameters) (txop : Txop) :
    (startTransmissionContext env s mpdu params txop).currentPacket
      = some (WifiPsdu.ofMpdu mpdu) ∧
    (startTransmissionContext env s mpdu params txop).currentTxop = some txop ∧
    (startTransmissionContext env s mpdu params txop).txParams = params ∧
    (startTransmissionContext env s mpdu params txop).allocationPeriodsTable
      = s.allocationPeriodsTable ∧
    (startTransmissionContext env s mpdu params txop).currentAllocationID
      = s.currentAllocationID ∧
    (startTransmissionContext env s mpdu params txop).controllerEventRunning = false := by
  have hc := CancelAllEvents_spec { s with currentPacket := some (WifiPsdu.ofMpdu mpdu) }
  have hk := CancelAllEvents_keeps { s with currentPacket := some (WifiPsdu.ofMpdu mpdu) }
  have ht := CancelAllEvents_table { s with currentPacket := some (WifiPsdu.ofMpdu mpdu) }
  refine ⟨hk.2.1, rfl, rfl, ht.1, ht.2, ?_⟩
  show (Option.isSome (CancelAllEvents _).normalAckTimeoutEvent
    || Option.isSome (CancelAllEvents _).blockAckTimeoutEvent
    || Option.isSome (CancelAllEvents _).ctsTimeoutEvent
    || Option.isSome (CancelAllEvents _).sendCtsEvent
    || Option.isSome (CancelAllEvents _).sendAckEvent
    || Option.isSome (CancelAllEvents _).sendDataEvent
    || Option.isSome (CancelAllEvents _).waitIfsEvent
    || Option.isSome (CancelAllEvents _).endTxNoAckEvent) = false
  rw [hc.1, hc.2.1, hc.2.2.1, hc.2.2.2.1, hc.2.2.2.2.1, hc.2.2.2.2.2.1, hc.2.2.2.2.2.2.1,
    hc.2.2.2.2.2.2.2.1]
  rfl

/-- The table that `EndAllocationPeriod` leaves when no controller event is
running: the active PSDU, if it is a QoS data PSDU, is saved under the current
allocation id with the tx parameters, the tx vector and the owner. -/
theorem EndAllocationPeriod_table_when_idle (s : MacLowState)
    (hidle : s.controllerEventRunning = false) :
    (∀ psdu, s.currentPacket = some psdu → psdu.first.hdr.IsQosData = true →
      (EndAllocationPeriod s).allocationPeriodsTable
        = tableSet s.allocationPeriodsTable s.currentAllocationID
            { psdu := psdu, txParams := s.txParams, txVector := s.currentTxVector,
              txop := s.currentTxop }) ∧
    (s.currentPacket = none →
      (EndAllocationPeriod s).allocationPeriodsTable = s.allocationPeriodsTable) := by
  have hcancel : CancelAllEvents s
      = { s with normalAckTimeoutEvent := none, blockAckTimeoutEvent := none,
                 ctsTimeoutEvent := none, sendCtsEvent := none, sendAckEvent := none,
                 sendDataEvent := none, waitIfsEvent := none, endTxNoAckEvent := none } := by
    unfold MacLowState.controllerEventRunning at hidle
    unfold CancelAllEvents
    simp only [hidle]
  refine ⟨?_, ?_⟩
  · intro psdu hp hq
    unfold EndAllocationPeriod StoreAllocationParameters
    rw [hcancel]
    simp only [hp, hq, if_true]
  · intro hp
    unfold EndAllocationPeriod StoreAllocationParameters
    rw [hcancel]
    simp only [hp]

/-- C35, amended.  `StartTransmission (mpdu, params, txop)` is called while the
PHY is not off, with no CF-Ack expected and the QosTxop of the TID registered,
for a non-broadcast QoS data frame, first fragment with no more fragments, for
which `newMpdu` is null.  If the frame had been peeked (the QosTxop's
`DequeuePeekedFrame` returned null), the call returns with `m_currentPacket`
null, and a following `EndAllocationPeriod` leaves the table of suspended
allocations as it was before the call.  If the frame had been dequeued before
(it fails `IsWithinSizeAndTimeLimits`), the call returns with
`m_currentPacket` still holding the frame, and a following
`EndAllocationPeriod` saves the frame, with `params`, the data tx vector and
the owner, under the current allocation id. -/
theorem C35_only_a_peeked_frame_leaves_the_context_empty (env : Env) (s : MacLowState)
    (mpdu : WifiMacQueueItem) (params : MacLowTransmissionParameters) (txop : Txop)
    (isPeeked : Bool)
    (hcf : s.cfAckInfo.expectCfAck = false) (hoff : env.phyIsStateOff = false)
    (hreg : env.edcaRegistered mpdu.hdr.qosTid = true)
    (hq : (mpdu.hdr.IsQosData && !IsBroadcast mpdu.hdr.addr1 && !mpdu.hdr.moreFragments
      && mpdu.hdr.fragNum == 0) = true)
    (hsel : selectNewMpdu env (env.getDataTxVector mpdu.hdr) mpdu params txop
      = .ok (isPeeked, none)) :
    ∃ s1, StartTransmission env s mpdu params txop = .ok s1 ∧
      (isPeeked = true →
        s1.currentPacket = none ∧
        (EndAllocationPeriod s1).allocationPeriodsTable = s.allocationPeriodsTable) ∧
      (isPeeked = false →
        s1.currentPacket = some (WifiPsdu.ofMpdu mpdu) ∧
        (EndAllocationPeriod s1).allocationPeriodsTable
          = tableSet s.allocationPeriodsTable s.currentAllocationID
              { psdu := WifiPsdu.ofMpdu mpdu, txParams := params,
                txVector := env.getDataTxVector mpdu.hdr, txop := some txop }) := by
  have hctx := startTransmissionContext_spec env s mpdu params txop
  have hqos : mpdu.hdr.IsQosData = true := by
    simp only [Bool.and_eq_true] at hq
    exact hq.1.1.1
  have hv : (startTransmissionContext env s mpdu params txop).currentTxVector
      = env.getDataTxVector mpdu.hdr := by
    show (if mpdu.hdr.IsCtl = true then _ else _) = _
    rw [if_neg (by rw [qos_data_is_no_control mpdu.hdr hqos]; decide)]
  have hsel' : selectNewMpdu env (startTransmissionContext env s mpdu params txop).currentTxVector
      mpdu params txop = .ok (isPeeked, none) := by
    rw [hv]
    exact hsel
  have hstart : ∀ r, prepareQosData env (startTransmissionContext env s mpdu params txop) mpdu
      params txop = .ok (r, false) → StartTransmission env s mpdu params txop = .ok r := by
    intro r hr
    unfold StartTransmission
    rw [if_neg (by rw [hcf]; decide), if_neg (by rw [hoff]; decide)]
    simp only [hq, if_true, hr]
  cases isPeeked with
  | true =>
    have hprep : prepareQosData env (startTransmissionContext env s mpdu params txop) mpdu
        params txop
        = .ok (({ (startTransmissionContext env s mpdu params txop).call
                    [.DequeuePeekedFrame mpdu.hdr.qosTid mpdu] with
                  currentPacket := none }).call [.UpdateCurrentPacket mpdu.hdr.qosTid none],
               false) := by
      unfold prepareQosData
      simp only [hreg, Bool.not_true, Bool.false_eq_true, if_false, hsel', if_true]
    refine ⟨_, hstart _ hprep, fun _ => ⟨rfl, ?_⟩, fun h => (by cases h)⟩
    refine Eq.trans ((EndAllocationPeriod_table_when_idle _ ?_).2 rfl) hctx.2.2.2.1
    exact hctx.2.2.2.2.2
  | false =>
    have hprep : prepareQosData env (startTransmissionContext env s mpdu params txop) mpdu
        params txop = .ok (startTransmissionContext env s mpdu params txop, false) := by
      unfold prepareQosData
      simp only [hreg, Bool.not_true, Bool.false_eq_true, if_false, hsel']
    refine ⟨_, hstart _ hprep, fun h => (by cases h), fun _ => ⟨hctx.1, ?_⟩⟩
    rw [(EndAllocationPeriod_table_when_idle _ hctx.2.2.2.2.2).1 _ hctx.1 hqos, hctx.2.2.2.1,
      hctx.2.2.2.2.1, hctx.2.2.1, hctx.2.1, hv]

theorem C35_only_a_peeked_frame_leaves_the_context_empty_witness :
    ∃ s1, StartTransmission peekedAndHeldBack idleStation (qosDataOfSize 500)
        { waitAck := .normal } { id := 5, isQosTxop := true, txopLimit := 3000000 } = .ok s1 ∧
      (true = true →
        s1.currentPacket = none ∧
        (EndAllocationPeriod s1).allocationPeriodsTable = idleStation.allocationPeriodsTable) ∧
      (true = false →
        s1.currentPacket = some (WifiPsdu.ofMpdu (qosDataOfSize 500)) ∧
        (EndAllocationPeriod s1).allocationPeriodsTable
          = tableSet idleStation.allocationPeriodsTable idleStation.currentAllocationID
              { psdu := WifiPsdu.ofMpdu (qosDataOfSize 500), txParams := { waitAck := .normal },
                txVector := peekedAndHeldBack.getDataTxVector (qosDataOfSize 500).hdr,
                txop := some { id := 5, isQosTxop := true, txopLimit := 3000000 } }) :=
  C35_only_a_peeked_frame_leaves_the_context_empty peekedAndHeldBack idleStation
    (qosDataOfSize 500) { waitAck := .normal }
    { id := 5, isQosTxop := true, txopLimit := 3000000 } true
    (by decide) (by decide) (by decide) (by decide) (by decide)

/-! ## Claim C40: termination of the flush of the MPDUs that precede a sequence number -/

/-- The loop of `RxCompleteBufferedPacketsWithSmallerSequence` never leaves an
MPDU that precedes the new start and has the More-Fragments bit set: with the
guard equal to its sequence control the loop increments the guard and does not
advance the iterator, with the guard different it resets the guard to the
sequence control of the same MPDU. -/
theorem smallerSequenceLoop_stuck (e ms : Nat) (x : Mpdu) (rest : List Mpdu)
    (hx : x.moreFragments = true)
    (hlt : QosUtilsMapSeqControlToUniqueInteger (GetSequenceControl x) e < ms) :
    ∀ (fuel : Nat) (last : List Mpdu) (guard : Nat) (log : List Mpdu),
      smallerSequenceLoop e ms fuel (x :: rest) last guard log = .error .outOfFuel := by
  intro fuel
  induction fuel with
  | zero =>
    intro last guard log
    rfl
  | succ fuel ih =>
    intro last guard log
    unfold smallerSequenceLoop
    rw [if_pos hlt]
    by_cases hg : guard = GetSequenceControl x
    · rw [if_pos hg, if_pos hx]
      exact ih _ _ _
    · rw [if_neg hg]
      have hgo : goToNextPacket (x :: rest) last guard
          = (x :: rest, x :: rest, GetSequenceControl x) := by
        simp [goToNextPacket, List.dropWhile, hg]
      rw [hgo]
      exact ih _ _ _

/-- C40 fails on the code.  When the first buffered MPDU precedes `seq` and has
the More-Fragments bit set, the loop of
`RxCompleteBufferedPacketsWithSmallerSequence` does not terminate: the model
runs out of fuel for every amount of fuel.  So it does for a buffer that holds
the single fragment 0 of sequence number 5, More-Fragments set, under window
start 0, flushed up to sequence number 10.  For a buffer without More-Fragments
MPDUs and with pairwise different sequence controls the call returns as soon
as the fuel exceeds the number of buffered MPDUs: the MPDUs in front of the
first one that does not precede `seq` are handed to the rx callback and erased,
and that one and all behind it stay buffered. -/
theorem C40_flush_does_not_terminate_on_a_pending_fragment :
    (∀ (fuel seq : Nat) (a : Agreement) (log : List Mpdu) (x : Mpdu) (rest : List Mpdu),
      a.buffer = x :: rest → x.moreFragments = true →
      QosUtilsMapSeqControlToUniqueInteger (GetSequenceControl x)
          ((a.startingSeq + 2047) % 4096)
        < QosUtilsMapSeqControlToUniqueInteger seq ((a.startingSeq + 2047) % 4096) →
      RxCompleteBufferedPacketsWithSmallerSequence fuel seq
          { agreement := some a, delivered := log } = .error .outOfFuel) ∧
    (∀ fuel : Nat,
      RxCompleteBufferedPacketsWithSmallerSequence fuel (10 * 16)
          { agreement := some
              { startingSeq := 0, bufferSize := 64,
                buffer := [{ seqNum := 5, fragNum := 0, moreFragments := true, payload := 1 }] },
            delivered := [] } = .error .outOfFuel) ∧
    (∀ (fuel seq : Nat) (a : Agreement) (log : List Mpdu),
      (∀ x ∈ a.buffer, x.moreFragments = false) →
      a.buffer.Pairwise (fun x y => GetSequenceControl x ≠ GetSequenceControl y) →
      a.buffer.length < fuel →
      RxCompleteBufferedPacketsWithSmallerSequence fuel seq
          { agreement := some a, delivered := log }
        = .ok { agreement := some { a with buffer := a.buffer.dropWhile (fun x =>
                    decide (QosUtilsMapSeqControlToUniqueInteger (GetSequenceControl x)
                      ((a.startingSeq + 2047) % 4096)
                      < QosUtilsMapSeqControlToUniqueInteger seq
                          ((a.startingSeq + 2047) % 4096))) },
                delivered := log ++ a.buffer.takeWhile (fun x =>
                    decide (QosUtilsMapSeqControlToUniqueInteger (GetSequenceControl x)
                      ((a.startingSeq + 2047) % 4096)
                      < QosUtilsMapSeqControlToUniqueInteger seq
                          ((a.startingSeq + 2047) % 4096))) }) := by
  have hstuck : ∀ (fuel seq : Nat) (a : Agreement) (log : List Mpdu) (x : Mpdu)
      (rest : List Mpdu), a.buffer = x :: rest → x.moreFragments = true →
      QosUtilsMapSeqControlToUniqueInteger (GetSequenceControl x)
          ((a.startingSeq + 2047) % 4096)
        < QosUtilsMapSeqControlToUniqueInteger seq ((a.startingSeq + 2047) % 4096) →
      RxCompleteBufferedPacketsWithSmallerSequence fuel seq
          { agreement := some a, delivered := log } = .error .outOfFuel := by
    intro fuel seq a log x rest hb hx hlt
    unfold RxCompleteBufferedPacketsWithSmallerSequence withSmallerSequence
    simp only [hb]
    rw [smallerSequenceLoop_stuck _ _ x rest hx hlt]
  refine ⟨hstuck, ?_, ?_⟩
  · intro fuel
    exact hstuck fuel _ _ _ _ [] rfl rfl (by decide)
  · intro fuel seq a log hm hp hf
    unfold RxCompleteBufferedPacketsWithSmallerSequence
    simp only [withSmallerSequence_distinct fuel seq a log hm hp hf]

/-! ## Claim C37: the size and duration limits of a PPDU -/

/-- C37. `IsWithinSizeAndTimeLimits (mpduSize, receiver, tid, txVector, ampduSize, L)`, with
`maxAmpdu` the aggregator's limit (0 without an aggregator), `payload` the MPDU
size, or `GetSizeIfAggregated (mpduSize, ampduSize)` when `ampduSize > 0` or the
modulation class is VHT or later, and `txTime` the tx duration of `payload`.
When the function's assertion holds (`maxAmpdu ≠ 0` or `ampduSize = 0`) and the
aggregator it dereferences exists: for a strictly positive `L` the result is
true exactly when (`maxAmpdu = 0` or `payload ≤ maxAmpdu`) and `txTime ≤ L` and
(the maximum PPDU duration is not strictly positive or `txTime` is within it);
without a limit (`Time::Min`) it is true exactly when the first and the last of
these hold.  For a strictly negative `L`, and for `L = 0`, the result is false,
whatever the other arguments are.  So for positive limits the result is
monotone in `L`. -/
theorem C37_IsWithinSizeAndTimeLimits_spec (env : Env) (mpduSize : Nat)
    (receiver : Mac48Address) (tid : Nat) (txVector : WifiTxVector) (ampduSize : Nat)
    (maxAmpdu payload : Nat) (txTime : Time)
    (hmax : maxAmpdu = if env.mpduAggregatorInstalled then
      env.maxAmpduSize receiver tid txVector.modulationClass else 0)
    (hpayload : payload = if (decide (0 < ampduSize)
        || env.modulationAtLeastVht txVector.modulationClass) = true then
      env.getSizeIfAggregated mpduSize ampduSize else mpduSize)
    (htx : txTime = env.calculateTxDuration payload txVector)
    (hassert : maxAmpdu ≠ 0 ∨ ampduSize = 0)
    (hagg : (decide (0 < ampduSize) || env.modulationAtLeastVht txVector.modulationClass) = true →
      env.mpduAggregatorInstalled = true) :
    (∀ L : Time, 0 < L →
      IsWithinSizeAndTimeLimits env mpduSize receiver tid txVector ampduSize (some L)
        = .ok (decide ((maxAmpdu = 0 ∨ payload ≤ maxAmpdu) ∧ txTime ≤ L ∧
            (¬ 0 < env.ppduMaxTime txVector ∨ txTime ≤ env.ppduMaxTime txVector)))) ∧
    (IsWithinSizeAndTimeLimits env mpduSize receiver tid txVector ampduSize none
        = .ok (decide ((maxAmpdu = 0 ∨ payload ≤ maxAmpdu) ∧
            (¬ 0 < env.ppduMaxTime txVector ∨ txTime ≤ env.ppduMaxTime txVector)))) ∧
    (∀ L : Time, L ≤ 0 →
      IsWithinSizeAndTimeLimits env mpduSize receiver tid txVector ampduSize (some L)
        = .ok false) ∧
    (∀ L L2 : Time, 0 < L → L ≤ L2 →
      IsWithinSizeAndTimeLimits env mpduSize receiver tid txVector ampduSize (some L)
        = .ok true →
      IsWithinSizeAndTimeLimits env mpduSize receiver tid txVector ampduSize (some L2)
        = .ok true) := by
  have hnoassert : ¬ (maxAmpdu = 0 ∧ ampduSize ≠ 0) := by
    rintro ⟨h1, h2⟩
    rcases hassert with h | h
    · exact h h1
    · exact h2 h
  have hpos : ∀ L : Time, 0 < L →
      IsWithinSizeAndTimeLimits env mpduSize receiver tid txVector ampduSize (some L)
        = .ok (decide ((maxAmpdu = 0 ∨ payload ≤ maxAmpdu) ∧ txTime ≤ L ∧
            (¬ 0 < env.ppduMaxTime txVector ∨ txTime ≤ env.ppduMaxTime txVector))) := by
    intro L hL
    have hneg : ¬ L ≤ 0 := not_le.2 hL
    unfold IsWithinSizeAndTimeLimits
    simp only [hneg, decide_False, Bool.false_eq_true, if_false, ← hmax, hnoassert]
    by_cases hc : (decide (0 < ampduSize)
        || env.modulationAtLeastVht txVector.modulationClass) = true
    · rw [if_pos hc] at hpayload
      simp only [hc, if_true, hagg hc, ← hpayload, ← htx]
      by_cases h1 : 0 < maxAmpdu ∧ maxAmpdu < payload
      · rw [if_pos h1]
        congr 1
        symm
        simp only [decide_eq_false_iff_not]
        rintro ⟨h2, _⟩
        omega
      · rw [if_neg h1]
        have h1' : maxAmpdu = 0 ∨ payload ≤ maxAmpdu := by omega
        by_cases h3 : (decide (0 < L ∧ L < txTime)
            || decide (0 < env.ppduMaxTime txVector ∧ env.ppduMaxTime txVector < txTime)) = true
        · rw [if_pos h3]
          congr 1
          symm
          simp only [decide_eq_false_iff_not]
          rintro ⟨_, h4, h5⟩
          simp only [Bool.or_eq_true, decide_eq_true_eq] at h3
          unfold Time at *
          omega
        · rw [if_neg h3]
          congr 1
          symm
          simp only [decide_eq_true_eq]
          simp only [Bool.or_eq_true, decide_eq_true_eq, not_or, not_and, not_lt] at h3
          refine ⟨h1', h3.1 hL, ?_⟩
          by_cases h6 : 0 < env.ppduMaxTime txVector
          · exact Or.inr (h3.2 h6)
          · exact Or.inl h6
    · rw [if_neg hc] at hpayload
      simp only [hc, Bool.false_eq_true, if_false, ← hpayload, ← htx]
      by_cases h1 : 0 < maxAmpdu ∧ maxAmpdu < payload
      · rw [if_pos h1]
        congr 1
        symm
        simp only [decide_eq_false_iff_not]
        rintro ⟨h2, _⟩
        omega
      · rw [if_neg h1]
        have h1' : maxAmpdu = 0 ∨ payload ≤ maxAmpdu := by omega
        by_cases h3 : (decide (0 < L ∧ L < txTime)
            || decide (0 < env.ppduMaxTime txVector ∧ env.ppduMaxTime txVector < txTime)) = true
        · rw [if_pos h3]
          congr 1
          symm
          simp only [decide_eq_false_iff_not]
          rintro ⟨_, h4, h5⟩
          simp only [Bool.or_eq_true, decide_eq_true_eq] at h3
          unfold Time at *
          omega
        · rw [if_neg h3]
          congr 1
          symm
          simp only [decide_eq_true_eq]
          simp only [Bool.or_eq_true, decide_eq_true_eq, not_or, not_and, not_lt] at h3
          refine ⟨h1', h3.1 hL, ?_⟩
          by_cases h6 : 0 < env.ppduMaxTime txVector
          · exact Or.inr (h3.2 h6)
          · exact Or.inl h6
  have hnone : IsWithinSizeAndTimeLimits env mpduSize receiver tid txVector ampduSize none
        = .ok (decide ((maxAmpdu = 0 ∨ payload ≤ maxAmpdu) ∧
            (¬ 0 < env.ppduMaxTime txVector ∨ txTime ≤ env.ppduMaxTime txVector))) := by
    unfold IsWithinSizeAndTimeLimits
    simp only [Bool.false_eq_true, if_false, ← hmax, hnoassert]
    by_cases hc : (decide (0 < ampduSize)
        || env.modulationAtLeastVht txVector.modulationClass) = true
    · rw [if_pos hc] at hpayload
      simp only [hc, if_true, hagg hc, ← hpayload, ← htx]
      by_cases h1 : 0 < maxAmpdu ∧ maxAmpdu < payload
      · rw [if_pos h1]
        congr 1
        symm
        simp only [decide_eq_false_iff_not]
        rintro ⟨h2, _⟩
        omega
      · rw [if_neg h1]
        have h1' : maxAmpdu = 0 ∨ payload ≤ maxAmpdu := by omega
        by_cases h3 : (false
            || decide (0 < env.ppduMaxTime txVector ∧ env.ppduMaxTime txVector < txTime)) = true
        · rw [if_pos h3]
          congr 1
          symm
          simp only [decide_eq_false_iff_not]
          rintro ⟨_, h5⟩
          simp only [Bool.false_or, decide_eq_true_eq] at h3
          unfold Time at *
          omega
        · rw [if_neg h3]
          congr 1
          symm
          simp only [decide_eq_true_eq]
          simp only [Bool.false_or, decide_eq_true_eq, not_and, not_lt] at h3
          refine ⟨h1', ?_⟩
          by_cases h6 : 0 < env.ppduMaxTime txVector
          · exact Or.inr (h3 h6)
          · exact Or.inl h6
    · rw [if_neg hc] at hpayload
      simp only [hc, Bool.false_eq_true, if_false, ← hpayload, ← htx]
      by_cases h1 : 0 < maxAmpdu ∧ maxAmpdu < payload
      · rw [if_pos h1]
        congr 1
        symm
        simp only [decide_eq_false_iff_not]
        rintro ⟨h2, _⟩
        omega
      · rw [if_neg h1]
        have h1' : maxAmpdu = 0 ∨ payload ≤ maxAmpdu := by omega
        by_cases h3 : (false
            || decide (0 < env.ppduMaxTime txVector ∧ env.ppduMaxTime txVector < txTime)) = true
        · rw [if_pos h3]
          congr 1
          symm
          simp only [decide_eq_false_iff_not]
          rintro ⟨_, h5⟩
          simp only [Bool.false_or, decide_eq_true_eq] at h3
          unfold Time at *
          omega
        · rw [if_neg h3]
          congr 1
          symm
          simp only [decide_eq_true_eq]
          simp only [Bool.false_or, decide_eq_true_eq, not_and, not_lt] at h3
          refine ⟨h1', ?_⟩
          by_cases h6 : 0 < env.ppduMaxTime txVector
          · exact Or.inr (h3 h6)
          · exact Or.inl h6
  have hneg : ∀ L : Time, L ≤ 0 →
      IsWithinSizeAndTimeLimits env mpduSize receiver tid txVector ampduSize (some L)
        = .ok false := by
    intro L hL
    unfold IsWithinSizeAndTimeLimits
    simp only [hL, decide_True, if_true]
  refine ⟨hpos, hnone, hneg, ?_⟩
  intro L L2 hL hle h
  rw [hpos L hL] at h
  rw [hpos L2 (lt_of_lt_of_le hL hle)]
  simp only [Except.ok.injEq, decide_eq_true_eq] at h ⊢
  exact ⟨h.1, le_trans h.2.1 hle, h.2.2⟩

theorem C37_IsWithinSizeAndTimeLimits_spec_witness :
    IsWithinSizeAndTimeLimits shortTxopPhy 500 9 0 {} 0 (some 100000) = .ok false ∧
    IsWithinSizeAndTimeLimits shortTxopPhy 50 9 0 {} 0 (some 100000) = .ok true ∧
    IsWithinSizeAndTimeLimits shortTxopPhy 50 9 0 {} 0 (some 200000) = .ok true :=
  ⟨by decide, by decide,
   (C37_IsWithinSizeAndTimeLimits_spec shortTxopPhy 50 9 0 {} 0 0 50 50000 rfl rfl rfl
      (Or.inr rfl) (by decide)).2.2.2 100000 200000 (by decide) (by decide) (by decide)⟩

/-! ## Claim C38: the rate of a control response -/

theorem dmgModeLoop_inv (reqMode : WifiMode) (P : WifiMode → Prop)
    (hP : ∀ t, t.dataRate ≤ reqMode.dataRate → P t) :
    ∀ (l : List WifiMode) (r : WifiMode × Bool), (r.2 = true → P r.1) →
      (dmgModeLoop reqMode l r).2 = true → P (dmgModeLoop reqMode l r).1 := by
  intro l
  induction l with
  | nil =>
    intro r hr h
    exact hr h
  | cons t l ih =>
    intro r hr h
    unfold dmgModeLoop at h ⊢
    split_ifs at h ⊢ with hc
    · simp only [Bool.and_eq_true, decide_eq_true_eq] at hc
      exact ih (t, true) (fun _ => hP t hc.2) h
    · exact hr h

theorem bestModeLoop_inv (suitable : WifiMode → Bool) (P : WifiMode → Prop) :
    ∀ (l : List WifiMode) (r : WifiMode × Bool), (∀ t ∈ l, suitable t = true → P t) →
      (r.2 = true → P r.1) →
      (bestModeLoop suitable l r).2 = true → P (bestModeLoop suitable l r).1 := by
  intro l
  induction l with
  | nil =>
    intro r _ hr h
    exact hr h
  | cons t l ih =>
    intro r hs hr h
    unfold bestModeLoop at h ⊢
    split_ifs at h ⊢ with hc
    · simp only [Bool.and_eq_true] at hc
      exact ih (t, true) (fun x hx => hs x (List.mem_cons_of_mem _ hx))
        (fun _ => hs t (List.mem_cons_self _ _) hc.2) h
    · exact ih r (fun x hx => hs x (List.mem_cons_of_mem _ hx)) hr h

theorem searchBasicSets_inv (tables : ModeTables) (reqMode : WifiMode)
    (h : (searchBasicSets tables reqMode).2 = true) :
    (searchBasicSets tables reqMode).1.dataRate ≤ reqMode.dataRate := by
  have hnot : ∀ t : WifiMode, (!t.IsHigherDataRate reqMode) = true →
      t.dataRate ≤ reqMode.dataRate := by
    intro t ht
    simp only [WifiMode.IsHigherDataRate, Bool.not_eq_true', decide_eq_false_iff_not,
      not_lt] at ht
    exact ht
  have h1 := bestModeLoop_inv
    (fun testMode => !testMode.IsHigherDataRate reqMode
      && tables.isAllowedControlAnswerModulationClass reqMode.modulationClass
          testMode.modulationClass)
    (fun m => m.dataRate ≤ reqMode.dataRate) tables.basicModes (tables.defaultMode, false)
    (fun t _ hs => by
      simp only [Bool.and_eq_true] at hs
      exact hnot t hs.1)
    (fun hf => by cases hf)
  unfold searchBasicSets at h ⊢
  simp only at h ⊢
  split_ifs at h ⊢ with hc
  · simp only [Bool.and_eq_true, Bool.not_eq_true'] at hc
    exact bestModeLoop_inv _ (fun m => m.dataRate ≤ reqMode.dataRate) tables.basicMcs _
      (fun t _ hs => by
        simp only [Bool.and_eq_true] at hs
        exact hnot t hs.1)
      (fun hf => by
        rw [hc.2] at hf
        cases hf) h
  · exact h1 h

theorem searchMandatory_inv (tables : ModeTables) (reqMode : WifiMode) (r : WifiMode × Bool)
    (hr : r.2 = false) (h : (searchMandatory tables reqMode r).2 = true) :
    (searchMandatory tables reqMode r).1.dataRate ≤ reqMode.dataRate ∨
    (tables.htSupported = true ∧ (searchMandatory tables reqMode r).1 ∈ tables.phyMcs ∧
      (searchMandatory tables reqMode r).1.isMandatory = true ∧
      (searchMandatory tables reqMode r).1.codeRate ≤ reqMode.codeRate ∧
      (searchMandatory tables reqMode r).1.modulationClass = reqMode.modulationClass) := by
  have h3 := bestModeLoop_inv
    (fun thismode => thismode.isMandatory && !thismode.IsHigherDataRate reqMode
      && tables.isAllowedControlAnswerModulationClass reqMode.modulationClass
          thismode.modulationClass)
    (fun m => m.dataRate ≤ reqMode.dataRate) tables.phyModes r
    (fun t _ hs => by
      simp only [Bool.and_eq_true, WifiMode.IsHigherDataRate, Bool.not_eq_true',
        decide_eq_false_iff_not, not_lt] at hs
      exact hs.1.2)
    (fun hf => by
      rw [hr] at hf
      cases hf)
  unfold searchMandatory at h ⊢
  simp only at h ⊢
  split_ifs at h ⊢ with hht
  · exact bestModeLoop_inv _
      (fun m => m.dataRate ≤ reqMode.dataRate ∨
        (tables.htSupported = true ∧ m ∈ tables.phyMcs ∧ m.isMandatory = true ∧
          m.codeRate ≤ reqMode.codeRate ∧ m.modulationClass = reqMode.modulationClass))
      tables.phyMcs _
      (fun t ht hs => by
        simp only [Bool.and_eq_true, WifiMode.IsHigherCodeRate, Bool.not_eq_true',
          decide_eq_false_iff_not, not_lt, beq_iff_eq] at hs
        exact Or.inr ⟨hht, ht, hs.1.1, hs.1.2, hs.2⟩)
      (fun hf => Or.inl (h3 hf)) h
  · exact Or.inl (h3 h)

/-- C38 fails on the code in the branch of the mandatory MCS values.  Whenever
`GetControlAnswerMode` returns, the returned mode is not faster than the request
or it is a mandatory MCS of the PHY, of the request's modulation class, taken
by the last loop of an HT station: that loop compares code rates
(`IsHigherCodeRate`) where the four other loops compare data rates.  An HT
station with empty basic sets answers a request at MCS 0 (BPSK 1/2, 6.5 Mbit/s)
with MCS 3 (16-QAM 1/2, 26 Mbit/s): MCS 1 and MCS 3 have the code rate of the
request and are faster than the choice so far. -/
theorem C38_mandatory_mcs_faster_than_the_request :
    (∀ (tables : ModeTables) (reqMode mode : WifiMode),
      GetControlAnswerMode tables reqMode = .ok mode →
      mode.dataRate ≤ reqMode.dataRate ∨
      (tables.dmgSupported = false ∧ tables.htSupported = true ∧ mode ∈ tables.phyMcs ∧
        mode.isMandatory = true ∧ mode.codeRate ≤ reqMode.codeRate ∧
        mode.modulationClass = reqMode.modulationClass)) ∧
    GetControlAnswerMode htStationTables (htMcs 0) = .ok (htMcs 3) ∧
    (htMcs 0).dataRate = 6500000 ∧ (htMcs 3).dataRate = 26000000 := by
  refine ⟨?_, by decide, rfl, rfl⟩
  intro tables reqMode mode h
  unfold GetControlAnswerMode at h
  by_cases hdmg : tables.dmgSupported = true
  · simp only [hdmg, if_true] at h
    split_ifs at h with hf
    cases h
    exact Or.inl (dmgModeLoop_inv reqMode (fun m => m.dataRate ≤ reqMode.dataRate)
      (fun t ht => ht) _ _ (fun h => by cases h) hf)
  · have hdmg2 : tables.dmgSupported = false := by simpa using hdmg
    simp only [hdmg2, Bool.false_eq_true, if_false] at h
    by_cases hb : (searchBasicSets tables reqMode).2 = true
    · simp only [hb, if_true] at h
      cases h
      exact Or.inl (searchBasicSets_inv tables reqMode hb)
    · have hb2 : (searchBasicSets tables reqMode).2 = false := by simpa using hb
      simp only [hb2, Bool.false_eq_true, if_false] at h
      split_ifs at h with hf
      cases h
      rcases searchMandatory_inv tables reqMode _ hb2 hf with hle | ⟨h1, h2, h3, h4, h5⟩
      · exact Or.inl hle
      · exact Or.inr ⟨hdmg2, h1, h2, h3, h4, h5⟩

/-! ## Claim C31: a BlockAckReq addressed to this station -/

theorem ReceiveOk_blockAckReq (env : Env) (s : MacLowState) (mpdu : WifiMacQueueItem)
    (rxSnr : Nat) (txVector : WifiTxVector) (ampduSubframe : Bool)
    (hself : mpdu.hdr.addr1 = s.self) (hnav : s.lastNavStart ≤ s.now)
    (hbar : mpdu.hdr.IsBlockAckReq = true) :
    ReceiveOk env s mpdu rxSnr txVector ampduSubframe
      = receiveBlockAckReq s mpdu rxSnr txVector := by
  have hty : mpdu.hdr.type = .ctlBackReq := by
    simpa [WifiMacHeader.IsBlockAckReq] using hbar
  have hpoll : mpdu.hdr.IsCfPoll = false := by simp [WifiMacHeader.IsCfPoll, hty]
  have hend : mpdu.hdr.IsCfEnd = false := by simp [WifiMacHeader.IsCfEnd, hty]
  have hrts : mpdu.hdr.IsRts = false := by simp [WifiMacHeader.IsRts, hty]
  have hc : (mpdu.hdr.IsCts || mpdu.hdr.IsDmgCts) = false := by
    simp [WifiMacHeader.IsCts, WifiMacHeader.IsDmgCts, hty]
  have h1 : mpdu.hdr.IsAck = false := by simp [WifiMacHeader.IsAck, hty]
  have h2 : mpdu.hdr.IsBlockAck = false := by simp [WifiMacHeader.IsBlockAck, hty]
  unfold ReceiveOk
  simp only [NotifyNav_addressed_to_self env s mpdu hnav hpoll hend hself, hrts,
    Bool.false_eq_true, if_false, hc, Bool.false_and, h1, h2, hbar, hself, beq_self_eq_true,
    Bool.and_self, if_true]

/-- C31, as stated, fails: a BlockAckReq for a pair without an agreement is
only logged.  A station without any agreement that receives a compressed
BlockAckReq addressed to it returns with its state unchanged: no DELBA is
sent and nothing is scheduled.  The teardown is the reaction to a QoS data
frame with the Block Ack policy: the same station sends a DELBA for it. -/
theorem C31_block_ack_request_without_agreement_is_ignored :
    ReceiveOk {} { self := 1, sifs := 3000, now := 100000 }
        { hdr := { type := .ctlBackReq, addr1 := 1, addr2 := 2 },
          packet := { blockAckReq := { baType := 1, tidInfo := 3, startingSeq := 10 } } }
        0 {} false
      = .ok { self := 1, sifs := 3000, now := 100000 } ∧
    (ReceiveOk {} { self := 1, sifs := 3000, now := 100000 }
        { hdr := { type := .qosData, addr1 := 1, addr2 := 2, qosTid := 3,
                   qosAckPolicy := .blockAck } }
        0 {} false).map (fun s => s.trace)
      = .ok [Call.ReportRxOk 2, Call.SendDelbaFrame 2 3] := by
  decide

/-- C31, amended.  `ReceiveOk` on a single-TID BlockAckReq addressed to this
station, outside the training modes and with the NAV start not in the future.
Without an agreement for the (originator, TID) pair the state is unchanged: no
DELBA is sent, no Block-Ack is scheduled.  With an immediate agreement, no
deferred Ack pending and the inactivity timer, if the agreement has a timeout,
running: the Block-Ack cache is updated with the request's starting sequence,
the inactivity timer is restarted, and `SendBlockAckAfterBlockAckRequest` is
scheduled one SIFS later with the request, the originator, the Duration and
the mode and SNR of the reception; nothing else changes. -/
theorem C31_block_ack_request_for_self (env : Env) (s : MacLowState) (mpdu : WifiMacQueueItem)
    (rxSnr : Nat) (txVector : WifiTxVector) (ampduSubframe : Bool)
    (hself : mpdu.hdr.addr1 = s.self) (hnav : s.lastNavStart ≤ s.now)
    (hbar : mpdu.hdr.IsBlockAckReq = true)
    (hsls : s.servingSLS = false) (hmimo : s.servingMimoBFT = false)
    (hsingle : mpdu.packet.blockAckReq.IsMultiTid = false) :
    (findAgreement s.bAckAgreements mpdu.hdr.addr2 mpdu.packet.blockAckReq.GetTidInfo = none →
      ReceiveOk env s mpdu rxSnr txVector ampduSubframe = .ok s) ∧
    (∀ entry,
      findAgreement s.bAckAgreements mpdu.hdr.addr2 mpdu.packet.blockAckReq.GetTidInfo
        = some entry →
      entry.immediateBlockAck = true → s.sendAckEvent = none →
      (entry.timeout = 0 ∨ entry.inactivityEvent.isSome = true) →
      ∃ e1, e1.peer = entry.peer ∧ e1.tid = entry.tid ∧ e1.agreement = entry.agreement ∧
        ReceiveOk env s mpdu rxSnr txVector ampduSubframe
          = .ok { s with
              bAckAgreements := setAgreement s.bAckAgreements e1,
              sendAckEvent := some
                { due := s.now + s.sifs,
                  handler := .SendBlockAckAfterBlockAckRequest mpdu.packet.blockAckReq
                    mpdu.hdr.addr2 mpdu.hdr.GetDuration txVector.mode rxSnr },
              trace := s.trace ++ [Call.UpdateWithBlockAckReq mpdu.hdr.addr2
                mpdu.packet.blockAckReq.GetTidInfo
                mpdu.packet.blockAckReq.GetStartingSequence] }) := by
  rw [ReceiveOk_blockAckReq env s mpdu rxSnr txVector ampduSubframe hself hnav hbar]
  refine ⟨?_, ?_⟩
  · intro hnone
    simp only [receiveBlockAckReq, hsls, hmimo, Bool.false_eq_true, if_false, hsingle,
      Bool.not_false, if_true, hnone]
  · intro entry hfind himm hack htime
    obtain ⟨e1, h1, h2, h3, _, h5⟩ := Reset_ok
      (s.call [.UpdateWithBlockAckReq mpdu.hdr.addr2 mpdu.packet.blockAckReq.GetTidInfo
        mpdu.packet.blockAckReq.GetStartingSequence])
      mpdu.hdr.addr2 mpdu.packet.blockAckReq.GetTidInfo entry hfind htime
    refine ⟨e1, h1, h2, h3, ?_⟩
    have hack' : (s.call [.UpdateWithBlockAckReq mpdu.hdr.addr2
        mpdu.packet.blockAckReq.GetTidInfo
        mpdu.packet.blockAckReq.GetStartingSequence]).sendAckEvent.isSome = false := by
      show s.sendAckEvent.isSome = false
      rw [hack]
      rfl
    simp only [receiveBlockAckReq, hsls, hmimo, Bool.false_eq_true, if_false, hsingle,
      Bool.not_false, if_true, hfind, hack', h5, himm]
    simp only [MacLowState.call, hsls, hmimo]

theorem C31_block_ack_request_for_self_witness :
    ∃ e1, e1.peer = 2 ∧ e1.tid = 3 ∧ e1.agreement = ⟨10, 64, []⟩ ∧
      ReceiveOk {} (stationWithAgreement ⟨10, 64, []⟩)
          { hdr := { type := .ctlBackReq, addr1 := 1, addr2 := 2, duration := 44 },
            packet := { blockAckReq := { baType := 1, tidInfo := 3, startingSeq := 10 } } }
          7 {} false
        = .ok { stationWithAgreement ⟨10, 64, []⟩ with
                bAckAgreements := setAgreement (stationWithAgreement ⟨10, 64, []⟩).bAckAgreements e1,
                sendAckEvent := some
                  { due := 3000,
                    handler := .SendBlockAckAfterBlockAckRequest
                      { baType := 1, tidInfo := 3, startingSeq := 10 } 2 44000 0 7 },
                trace := [Call.UpdateWithBlockAckReq 2 3 10] } :=
  (C31_block_ack_request_for_self {} (stationWithAgreement ⟨10, 64, []⟩)
      { hdr := { type := .ctlBackReq, addr1 := 1, addr2 := 2, duration := 44 },
        packet := { blockAckReq := { baType := 1, tidInfo := 3, startingSeq := 10 } } }
      7 {} false rfl (by decide) (by decide) rfl rfl (by decide)).2
    { peer := 2, tid := 3, agreement := ⟨10, 64, []⟩ }
    (by decide) rfl rfl (Or.inl rfl)

/-! ## Claim C39: the Duration fields of an RTS/CTS/Data exchange -/

theorem lastSentDuration_ForwardDown (env : Env) (s : MacLowState) (psdu : WifiPsdu)
    (txVector : WifiTxVector) :
    lastSentDuration (ForwardDown env s psdu txVector) = psdu.GetDuration := by
  unfold lastSentDuration
  rw [ForwardDown_last]

theorem SetDuration_ok (d : Time) (raw : Nat) (h : SetDuration d = .ok raw) :
    (raw : Int) * 1000 = ceilToMicroSeconds d ∧ 0 ≤ ceilToMicroSeconds d ∧
      ceilToMicroSeconds d ≤ 32767000 := by
  unfold SetDuration at h
  simp only at h
  split_ifs at h with hr
  simp only [Except.ok.injEq] at h
  subst h
  unfold ceilToMicroSeconds Time at *
  omega

theorem SetDuration_returns (d : Time) (h0 : 0 ≤ d) (h1 : ceilToMicroSeconds d ≤ 32767000) :
    ∃ raw, SetDuration d = .ok raw := by
  unfold SetDuration
  simp only
  rw [if_pos]
  · exact ⟨_, rfl⟩
  · unfold ceilToMicroSeconds Time at *
    omega

theorem SetDuration_again (d : Time) (raw : Nat) (h : SetDuration d = .ok raw) :
    SetDuration ((raw : Int) * 1000) = .ok raw := by
  obtain ⟨h1, h2, h3⟩ := SetDuration_ok d raw h
  unfold SetDuration
  simp only
  rw [if_pos]
  · congr 1
    unfold ceilToMicroSeconds Time at *
    omega
  · unfold ceilToMicroSeconds Time at *
    omega

theorem GetDuration_of_argument (psdu : WifiPsdu) (d v : Time) (hd : psdu.duration = some d)
    (h : psdu.GetDuration = some v) :
    v = ceilToMicroSeconds d ∧ 0 ≤ v ∧ v ≤ 32767000 := by
  unfold WifiPsdu.GetDuration at h
  rw [hd] at h
  simp only at h
  split at h
  · rename_i raw hraw
    obtain ⟨h1, h2, h3⟩ := SetDuration_ok d raw hraw
    simp only [Option.some.injEq] at h
    subst h
    rw [h1]
    exact ⟨rfl, h2, h3⟩
  · cases h

theorem GetResponseDuration_congr (env : Env) (s t : MacLowState)
    (params : MacLowTransmissionParameters) (v : WifiTxVector) (receiver : Mac48Address)
    (h1 : t.sifs = s.sifs) (h2 : t.self = s.self) :
    GetResponseDuration env t params v receiver = GetResponseDuration env s params v receiver := by
  unfold GetResponseDuration
  rw [h1, h2]

theorem StartDataTxTimers_keeps (env : Env) (s s1 : MacLowState) (v : WifiTxVector)
    (h : StartDataTxTimers env s v = .ok s1) :
    s1.txParams = s.txParams ∧ s1.currentTxVector = s.currentTxVector ∧ s1.sifs = s.sifs ∧
      s1.rifs = s.rifs ∧ s1.self = s.self ∧ s1.currentTxop = s.currentTxop ∧
      s1.cfpStart = s.cfpStart := by
  unfold StartDataTxTimers at h
  simp only [NotifyAckTimeoutStartNow, MacLowState.call, scheduleWaitIfs] at h
  repeat' split at h
  all_goals (cases h <;> exact ⟨rfl, rfl, rfl, rfl, rfl, rfl, rfl⟩)

theorem appendCfAck_keeps_duration (env : Env) (s s2 : MacLowState) (psdu psdu2 : WifiPsdu)
    (h : appendCfAck env s psdu = .ok (s2, psdu2)) :
    psdu2.duration = psdu.duration ∧ s2.txParams = s.txParams ∧
      s2.currentTxop = s.currentTxop := by
  unfold appendCfAck at h
  repeat' split at h
  all_goals (cases h <;> first | exact ⟨rfl, rfl, rfl⟩ | (split_ifs <;> exact ⟨rfl, rfl, rfl⟩))

theorem SendRtsForPacket_duration (env : Env) (s sR : MacLowState) (psdu : WifiPsdu)
    (hp : s.currentPacket = some psdu) (h : SendRtsForPacket env s = .ok sR) :
    ∃ (cts response : Time) (rts : WifiPsdu),
      GetCtsDuration env psdu.GetAddr1 (rtsTxVectorOf env psdu)
        (rtsControlTrailer env psdu.GetAddr1) = .ok cts ∧
      GetResponseDuration env s s.txParams s.currentTxVector psdu.GetAddr1 = .ok response ∧
      lastSentDuration sR = rts.GetDuration ∧
      rts.duration = some (s.sifs + cts + s.sifs
        + env.calculateTxDuration psdu.size s.currentTxVector + response
        + (if s.txParams.HasNextPacket then
            env.calculateTxDuration s.txParams.nextSize s.currentTxVector + response
           else 0)) := by
  unfold SendRtsForPacket at h
  rw [hp] at h
  simp only at h
  split at h
  · cases h
  · rename_i cts hc
    split at h
    · cases h
    · rename_i response hr
      split at h
      · cases h
      · simp only [Except.ok.injEq] at h
        subst h
        refine ⟨cts, response, _, hc, hr, lastSentDuration_ForwardDown _ _ _ _, ?_⟩
        show some _ = some _
        congr 1
        unfold Time at *
        split_ifs <;> omega

theorem SendCtsAfterRts_duration (env : Env) (s sC : MacLowState) (source : Mac48Address)
    (duration : Time) (rtsTxVector : WifiTxVector) (rtsSnr : Nat)
    (h : SendCtsAfterRts env s source duration rtsTxVector rtsSnr = .ok sC) :
    ∃ cts, GetCtsDuration env source rtsTxVector false = .ok cts ∧
      lastSentDuration sC = some (ceilToMicroSeconds (duration - cts - s.sifs)) ∧
      0 ≤ duration - cts - s.sifs := by
  unfold SendCtsAfterRts at h
  split at h
  · cases h
  · split at h
    · cases h
    · rename_i cts hc
      simp only at h
      split_ifs at h with hneg
      split at h
      · cases h
      · rename_i raw hraw
        simp only [Except.ok.injEq] at h
        subst h
        refine ⟨cts, hc, ?_, not_lt.mp hneg⟩
        rw [lastSentDuration_ForwardDown]
        simp only [WifiPsdu.GetDuration, WifiMacHeader.GetDuration]
        rw [(SetDuration_ok _ raw hraw).1]

theorem SendDataPacket_duration (env : Env) (s sP : MacLowState) (psdu : WifiPsdu)
    (hp : s.currentPacket = some psdu) (hdur : s.txParams.durationId = none)
    (hcf : IsCfPeriod env s = false) (h : SendDataPacket env s = .ok sP) :
    ∃ (s1 : MacLowState) (response : Time) (sent : WifiPsdu), StartDataTxTimers env s s.currentTxVector = .ok s1 ∧
      GetResponseDuration env s s.txParams s.currentTxVector psdu.GetAddr1 = .ok response ∧
      lastSentDuration sP = sent.GetDuration ∧
      sent.duration = some
        (if s.txParams.HasNextPacket then
          response + (if env.rifsPermitted then s.rifs else s.sifs)
            + env.calculateTxDuration s.txParams.nextSize s.currentTxVector + response
         else response) ∧
      (s.txParams.MustSendBlockAckRequest = true →
        ∃ txop, s.currentTxop = some txop ∧ txop.isQosTxop = true) := by
  unfold SendDataPacket at h
  split at h
  · cases h
  · rename_i s1 hs1
    have hp1 := StartDataTxTimers_currentPacket env s s1 _ hs1
    obtain ⟨k1, k2, k3, k4, k5, k6, k7⟩ := StartDataTxTimers_keeps env s s1 _ hs1
    rw [hp] at hp1
    rw [hp1] at h
    simp only at h
    split at h
    · cases h
    · rename_i psdu1 h1
      have hcf1 : IsCfPeriod env s1 = false := by
        unfold IsCfPeriod at hcf ⊢
        rw [k7]
        exact hcf
      have hr := GetResponseDuration_congr env s s1 s.txParams s.currentTxVector psdu.GetAddr1
        k3 k5
      unfold setDataDuration at h1
      rw [k1, hdur, k2] at h1
      simp only [hcf1, Bool.not_false, if_true, hr] at h1
      cases hresp : GetResponseDuration env s s.txParams s.currentTxVector psdu.GetAddr1 with
      | error e =>
        rw [hresp] at h1
        cases h1
      | ok response =>
        rw [hresp] at h1
        simp only at h1
        have hd : psdu1.duration = some
            (if s.txParams.HasNextPacket then
              response + (if env.rifsPermitted then s.rifs else s.sifs)
                + env.calculateTxDuration s.txParams.nextSize s.currentTxVector + response
             else response) := by
          split_ifs at h1 with hn hrifs
          all_goals simp only [Except.ok.injEq] at h1
          all_goals subst h1
          · simp only [hn, hrifs, if_true, k4]
          · simp only [hn, hrifs, if_true, if_false, k3, Bool.false_eq_true]
          · simp only [hn, if_false, Bool.false_eq_true]
        split at h
        · cases h
        · rename_i s2 psdu2 h2
          obtain ⟨j1, j2, j3⟩ := appendCfAck_keeps_duration env s1 s2 psdu1 psdu2 h2
          rw [j2, k1] at h
          refine ⟨s1, response, psdu2, hs1, rfl, ?_, j1.trans hd, ?_⟩
          · by_cases hbar : s.txParams.MustSendBlockAckRequest = true
            · rw [if_pos hbar] at h
              rw [j3, k6] at h
              cases htx : s.currentTxop with
              | none =>
                rw [htx] at h
                cases h
              | some txop =>
                rw [htx] at h
                simp only at h
                split_ifs at h with hq
                simp only [Except.ok.injEq] at h
                subst h
                exact lastSentDuration_ForwardDown _ _ _ _
            · rw [if_neg hbar] at h
              simp only [Except.ok.injEq] at h
              subst h
              exact lastSentDuration_ForwardDown _ _ _ _
          · intro hbar
            rw [if_pos hbar] at h
            rw [j3, k6] at h
            cases htx : s.currentTxop with
            | none =>
              rw [htx] at h
              cases h
            | some txop =>
              rw [htx] at h
              simp only at h
              split_ifs at h with hq
              exact ⟨txop, rfl, hq⟩

theorem SendDataAfterCts_duration (env : Env) (s s1 : MacLowState) (psdu : WifiPsdu)
    (response duration : Time) (hp : s.currentPacket = some psdu)
    (hs1 : StartDataTxTimers env s s.currentTxVector = .ok s1)
    (hr : GetResponseDuration env s s.txParams s.currentTxVector psdu.GetAddr1 = .ok response)
    (hbar : s.txParams.MustSendBlockAckRequest = true →
      ∃ txop, s.currentTxop = some txop ∧ txop.isQosTxop = true)
    (hnn : 0 ≤ max (duration - env.calculateTxDuration psdu.size s.currentTxVector - s.sifs)
      (if s.txParams.HasNextPacket then
        response + (if env.rifsPermitted then s.rifs else s.sifs)
          + env.calculateTxDuration s.txParams.nextSize s.currentTxVector + response
       else response))
    (hmax : ceilToMicroSeconds
      (max (duration - env.calculateTxDuration psdu.size s.currentTxVector - s.sifs)
        (if s.txParams.HasNextPacket then
          response + (if env.rifsPermitted then s.rifs else s.sifs)
            + env.calculateTxDuration s.txParams.nextSize s.currentTxVector + response
         else response)) ≤ 32767000) :
    ∃ sD, SendDataAfterCts env s duration = .ok sD ∧
      lastSentDuration sD = some (ceilToMicroSeconds
        (max (duration - env.calculateTxDuration psdu.size s.currentTxVector - s.sifs)
          (if s.txParams.HasNextPacket then
            response + (if env.rifsPermitted then s.rifs else s.sifs)
              + env.calculateTxDuration s.txParams.nextSize s.currentTxVector + response
           else response))) := by
  have hp1 := StartDataTxTimers_currentPacket env s s1 _ hs1
  obtain ⟨k1, k2, k3, k4, k5, k6, k7⟩ := StartDataTxTimers_keeps env s s1 _ hs1
  have hr1 : GetResponseDuration env s1 s1.txParams s1.currentTxVector psdu.GetAddr1
      = .ok response := by
    rw [k1, k2, GetResponseDuration_congr env s s1 _ _ _ k3 k5]
    exact hr
  obtain ⟨raw, hraw⟩ := SetDuration_returns _ hnn hmax
  have hfield : ∀ p : WifiPsdu,
      ({ p with duration := some ((raw : Int) * 1000) } : WifiPsdu).GetDuration
        = some (ceilToMicroSeconds
          (max (duration - env.calculateTxDuration psdu.size s.currentTxVector - s.sifs)
            (if s.txParams.HasNextPacket then
              response + (if env.rifsPermitted then s.rifs else s.sifs)
                + env.calculateTxDuration s.txParams.nextSize s.currentTxVector + response
             else response))) := by
    intro p
    simp only [WifiPsdu.GetDuration, SetDuration_again _ raw hraw]
    rw [(SetDuration_ok _ raw hraw).1]
  rw [hp] at hp1
  unfold SendDataAfterCts
  rw [hp, hs1]
  simp only [Option.isNone_some, Bool.false_eq_true, if_false]
  rw [hp1]
  simp only
  rw [hr1]
  simp only [k1, k2, k3, k4]
  rw [if_neg (not_lt.mpr hnn), hraw]
  simp only
  by_cases hb : s.txParams.MustSendBlockAckRequest = true
  · obtain ⟨txop, h1, h2⟩ := hbar hb
    rw [if_pos hb]
    simp only [k6, h1, h2, if_true]
    exact ⟨_, rfl, (lastSentDuration_ForwardDown _ _ _ _).trans (hfield psdu)⟩
  · rw [if_neg hb]
    exact ⟨_, rfl, (lastSentDuration_ForwardDown _ _ _ _).trans (hfield psdu)⟩

/-- C39, as stated, fails when a transmission time is not a whole number of
microseconds.  A PHY sends in 1000 ns per byte and 500 ns more; SIFS is 3 us and
the data frame (1000 bytes, Normal Ack, no further packet) is sent after an
RTS.  `SendRtsForPacket` computes 1038.5 us and the RTS carries 1039 us;
`SendCtsAfterRts`, with the same CTS time of 14.5 us, computes 1021.5 us and the
CTS carries 1022 us; `SendDataAfterCts` computes max (18.5 us, 17.5 us) and the
data frame carries 19 us, while `SendDataPacket` sends the same frame with
18 us. -/
theorem C39_rounded_durations_differ :
    (SendRtsForPacket halfMicrosecondPhy lastPacketSender).toOption.map lastSentDuration
      = some (some 1039000) ∧
    GetCtsDuration halfMicrosecondPhy 1 {} false
      = GetCtsDuration halfMicrosecondPhy 9
          (rtsTxVectorOf halfMicrosecondPhy (WifiPsdu.ofMpdu (qosDataOfSize 1000)))
          (rtsControlTrailer halfMicrosecondPhy 9) ∧
    (SendCtsAfterRts halfMicrosecondPhy { self := 9, sifs := 3000 } 1 1039000 {} 0).toOption.map
        lastSentDuration = some (some 1022000) ∧
    (SendDataAfterCts halfMicrosecondPhy lastPacketSender 1022000).toOption.map lastSentDuration
      = some (some 19000) ∧
    (SendDataPacket halfMicrosecondPhy lastPacketSender).toOption.map lastSentDuration
      = some (some 18000) := by
  decide

/-- C39, amended.  In an RTS/CTS/Data exchange every Duration field holds whole
microseconds, the computed time rounded up, and the data frame sent after the
CTS carries the Duration of a data frame sent without an RTS or up to 2 us more.
Let the initiator send the RTS for `psdu` from state `s` (`SendRtsForPacket`),
and let `dRts` be the Duration its receiver reads; let the responder, with the
same SIFS and the same CTS time, answer with `SendCtsAfterRts` given `dRts`, and
let `dCts` be the Duration read in its CTS; let `s2` be the state of the
initiator when the CTS has arrived, with the packet, the parameters, the
TXVECTOR, the SIFS and the address of `s`; no Duration/ID is configured, no
contention-free period is active, SIFS and RIFS are not negative, and
`SendDataPacket` from `s2` sends the data frame with the Duration `dData`.  With
`direct` the response duration (+ RIFS or SIFS + next-packet time + response
when a next packet exists): `dRts` is SIFS + CTS time + SIFS + data time +
response (+ next-packet time + response), rounded up; `dCts` is `dRts` - CTS
time - SIFS, rounded up; `dData` is `direct`, rounded up; the Duration `dAfter`
of the data frame after the CTS is max (`dCts` - data time - SIFS, `direct`),
rounded up; `dData ≤ dAfter ≤ dData + 2 us`; the two are equal when CTS time +
SIFS and data time + SIFS are whole microseconds; and when `direct` is not
negative and `dAfter` is at most 32767 us, `SendDataAfterCts` from `s2` with
`dCts` returns and sends the data frame with the Duration `dAfter`. -/
theorem C39_duration_of_data_after_cts (env envB : Env) (s s2 sB sR sC sP : MacLowState)
    (psdu : WifiPsdu) (source : Mac48Address) (rtsTxVector : WifiTxVector) (rtsSnr : Nat)
    (dRts dCts dData : Time)
    (hpkt : s.currentPacket = some psdu)
    (hp2 : s2.currentPacket = s.currentPacket) (ht2 : s2.txParams = s.txParams)
    (hv2 : s2.currentTxVector = s.currentTxVector) (hs2 : s2.sifs = s.sifs)
    (ha2 : s2.self = s.self)
    (hdur : s.txParams.durationId = none) (hcf : IsCfPeriod env s2 = false)
    (hsifs : 0 ≤ s.sifs) (hrifs : 0 ≤ s2.rifs)
    (hrts : SendRtsForPacket env s = .ok sR) (hdRts : lastSentDuration sR = some dRts)
    (hsame : GetCtsDuration envB source rtsTxVector false
      = GetCtsDuration env psdu.GetAddr1 (rtsTxVectorOf env psdu)
          (rtsControlTrailer env psdu.GetAddr1))
    (hsB : sB.sifs = s.sifs)
    (hcts : SendCtsAfterRts envB sB source dRts rtsTxVector rtsSnr = .ok sC)
    (hdCts : lastSentDuration sC = some dCts)
    (hP : SendDataPacket env s2 = .ok sP) (hdP : lastSentDuration sP = some dData) :
    ∃ cts response direct dAfter : Time,
      GetCtsDuration envB source rtsTxVector false = .ok cts ∧
      GetResponseDuration env s s.txParams s.currentTxVector psdu.GetAddr1 = .ok response ∧
      direct = (if s.txParams.HasNextPacket then
          response + (if env.rifsPermitted then s2.rifs else s.sifs)
            + env.calculateTxDuration s.txParams.nextSize s.currentTxVector + response
        else response) ∧
      dRts = ceilToMicroSeconds
        (s.sifs + cts + s.sifs + env.calculateTxDuration psdu.size s.currentTxVector + response
          + (if s.txParams.HasNextPacket then
              env.calculateTxDuration s.txParams.nextSize s.currentTxVector + response
             else 0)) ∧
      dCts = ceilToMicroSeconds (dRts - cts - s.sifs) ∧
      dData = ceilToMicroSeconds direct ∧
      dAfter = ceilToMicroSeconds
        (max (dCts - env.calculateTxDuration psdu.size s.currentTxVector - s.sifs) direct) ∧
      dData ≤ dAfter ∧ dAfter ≤ dData + 2000 ∧
      ((1000 : Int) ∣ cts + s.sifs →
        (1000 : Int) ∣ env.calculateTxDuration psdu.size s.currentTxVector + s.sifs →
        dAfter = dData) ∧
      (0 ≤ direct → dAfter ≤ 32767000 →
        ∃ sD, SendDataAfterCts env s2 dCts = .ok sD ∧ lastSentDuration sD = some dAfter) := by
  obtain ⟨cts, response, rts, hc, hr, hR, hRd⟩ :=
    SendRtsForPacket_duration env s sR psdu hpkt hrts
  obtain ⟨cts1, hc1, hC, _⟩ :=
    SendCtsAfterRts_duration envB sB sC source dRts rtsTxVector rtsSnr hcts
  have hpkt2 : s2.currentPacket = some psdu := hp2.trans hpkt
  have hdur2 : s2.txParams.durationId = none := by rw [ht2]; exact hdur
  obtain ⟨s1, response1, sent, hs1, hr1, hPd, hPa, hbar⟩ :=
    SendDataPacket_duration env s2 sP psdu hpkt2 hdur2 hcf hP
  have hr2 : GetResponseDuration env s2 s2.txParams s2.currentTxVector psdu.GetAddr1
      = .ok response := by
    rw [ht2, hv2, GetResponseDuration_congr env s s2 _ _ _ hs2 ha2]
    exact hr
  have e1 : response1 = response := Except.ok.inj (hr1.symm.trans hr2)
  have e2 : cts1 = cts := Except.ok.inj (hc1.symm.trans (hsame.trans hc))
  subst e1 e2
  obtain ⟨e3, _, _⟩ := GetDuration_of_argument rts _ dRts hRd (hR.symm.trans hdRts)
  have e4 : dCts = _ := Option.some.inj (hdCts.symm.trans hC)
  obtain ⟨e5, _, _⟩ := GetDuration_of_argument sent _ dData hPa (hPd.symm.trans hdP)
  rw [ht2, hv2, hs2] at e5
  rw [hsB] at e4
  refine ⟨cts1, response1, _, _, hc1, hr, rfl, e3, e4, e5, rfl, ?_, ?_, ?_, ?_⟩
  · rw [e5]
    unfold ceilToMicroSeconds Time at *
    omega
  · rw [e5, e4, e3]
    unfold ceilToMicroSeconds Time at *
    split_ifs <;> omega
  · intro hd1 hd2
    rw [e5, e4, e3]
    unfold ceilToMicroSeconds Time at *
    split_ifs <;> omega
  · intro h0 hmax
    have := SendDataAfterCts_duration env s2 s1 psdu response1 dCts hpkt2 hs1 hr2 hbar
    rw [ht2, hv2, hs2] at this
    exact this (le_trans h0 (le_max_right _ _)) hmax

theorem C39_duration_of_data_after_cts_witness :
    ∃ sD, SendDataAfterCts halfMicrosecondPhy rtsSender 1640000 = .ok sD ∧
      lastSentDuration sD = some 639000 ∧
      lastSentDuration ((SendDataPacket halfMicrosecondPhy rtsSender).toOption.getD {})
        = some 639000 := by
  obtain ⟨cts, response, direct, dAfter, _, hr, hd, _, _, _, ha, _, _, _, h5⟩ :=
    C39_duration_of_data_after_cts halfMicrosecondPhy halfMicrosecondPhy rtsSender rtsSender
      { self := 9, sifs := 3000 }
      ((SendRtsForPacket halfMicrosecondPhy rtsSender).toOption.getD {})
      ((SendCtsAfterRts halfMicrosecondPhy { self := 9, sifs := 3000 } 1 1657000 {}
          0).toOption.getD {})
      ((SendDataPacket halfMicrosecondPhy rtsSender).toOption.getD {})
      (WifiPsdu.ofMpdu (qosDataOfSize 1000)) 1 {} 0 1657000 1640000 639000
      rfl rfl rfl rfl rfl rfl rfl (by decide) (by decide) (by decide) (by decide) (by decide)
      (by decide) rfl (by decide) (by decide) (by decide) (by decide)
  have e0 : GetResponseDuration halfMicrosecondPhy rtsSender rtsSender.txParams
      rtsSender.currentTxVector (WifiPsdu.ofMpdu (qosDataOfSize 1000)).GetAddr1
      = .ok 17500 := by decide
  have e1 : response = 17500 := Except.ok.inj (hr.symm.trans e0)
  subst e1
  have e2 : direct = 638500 := hd.trans (by decide)
  subst e2
  have e3 : dAfter = 639000 := ha.trans (by decide)
  subst e3
  obtain ⟨sD, h1, h2⟩ := h5 (by decide) (by decide)
  exact ⟨sD, h1, h2, by decide⟩

/-! ## Claim C36: the order of the buffered MPDUs -/

theorem wellFormed_iff (m : Mpdu) :
    m.wellFormed = true ↔
      m.seqNum < 4096 ∧ m.fragNum < 16 ∧ (m.moreFragments = true → m.fragNum < 15) := by
  cases hm : m.moreFragments <;> simp [Mpdu.wellFormed, hm, and_assoc]

theorem mapped_eq (a : Agreement) (x : Mpdu) (hs : a.startingSeq < 4096)
    (hx : x.wellFormed = true) :
    a.mapped x = seqKey a.startingSeq x.seqNum * 16 + x.fragNum := by
  obtain ⟨h1, h2, _⟩ := (wellFormed_iff x).1 hx
  simp only [Agreement.mapped, QosUtilsMapSeqControlToUniqueInteger, GetSequenceControl_eq x h1 h2,
    and_0fff, and_000f, shiftRight_four, seqKey, seqOffset]
  omega

theorem seqKey_shift (s n q : Nat) (hs : s < 4096) (hq : q < 4096) (hn : n ≤ seqKey s q) :
    seqKey ((s + n) % 4096) q = seqKey s q - n := by
  unfold seqKey seqOffset at *
  omega

theorem seqKey_lt (s q : Nat) : seqKey s q < 4096 := by
  unfold seqKey
  omega

theorem mapped_start (a : Agreement) (hs : a.startingSeq < 4096) :
    QosUtilsMapSeqControlToUniqueInteger a.GetStartingSequenceControl
      ((a.startingSeq + 2047) % 4096) = 2048 * 16 := by
  obtain ⟨s, B, l⟩ := a
  rw [startControl s B l hs]
  exact map_start s

/-- Moving the window start forward by `n` lowers every mapped sequence control by `16 n`. -/
theorem ordered_shift (s B n : Nat) (buf : List Mpdu) (hs : s < 4096)
    (hwf : ∀ x ∈ buf, x.wellFormed = true ∧ n ≤ seqKey s x.seqNum)
    (ho : ({ startingSeq := s, bufferSize := B, buffer := buf } : Agreement).ordered) :
    ({ startingSeq := (s + n) % 4096, bufferSize := B, buffer := buf } : Agreement).ordered := by
  unfold Agreement.ordered at *
  simp only at *
  have hs2 : (s + n) % 4096 < 4096 := Nat.mod_lt _ (by norm_num)
  refine (List.Pairwise.and_mem.1 ho).imp ?_
  intro x y h
  obtain ⟨hx, hy, hxy⟩ := h
  have ex := mapped_eq { startingSeq := s, bufferSize := B, buffer := buf } x hs (hwf x hx).1
  have ey := mapped_eq { startingSeq := s, bufferSize := B, buffer := buf } y hs (hwf y hy).1
  have ex2 := mapped_eq { startingSeq := (s + n) % 4096, bufferSize := B, buffer := buf } x hs2
    (hwf x hx).1
  have ey2 := mapped_eq { startingSeq := (s + n) % 4096, bufferSize := B, buffer := buf } y hs2
    (hwf y hy).1
  simp only at ex ey ex2 ey2
  have kx := seqKey_shift s n x.seqNum hs ((wellFormed_iff x).1 (hwf x hx).1).1 (hwf x hx).2
  have ky := seqKey_shift s n y.seqNum hs ((wellFormed_iff y).1 (hwf y hy).1).1 (hwf y hy).2
  have bx := (hwf x hx).2
  have by1 := (hwf y hy).2
  rw [ex2, ey2, kx, ky]
  rw [ex, ey] at hxy
  omega

theorem insert_sorted {α : Type} (f : α → Nat) (m : α) (l : List α)
    (ho : l.Pairwise (fun x y => f x ≤ f y)) :
    (l.takeWhile (fun x => decide (f x < f m)) ++ m :: l.dropWhile (fun x => decide (f x < f m))).Pairwise
      (fun x y => f x ≤ f y) := by
  generalize hp : (fun (x : α) => decide (f x < f m)) = p
  have hpx : ∀ x, p x = true ↔ f x < f m := by
    intro x
    rw [← hp]
    simp
  have hall : (l.takeWhile p ++ l.dropWhile p).Pairwise (fun x y => f x ≤ f y) := by
    rw [List.takeWhile_append_dropWhile]
    exact ho
  rw [List.pairwise_append]
  refine ⟨ho.sublist (List.takeWhile_sublist _), ?_, ?_⟩
  · rw [List.pairwise_cons]
    refine ⟨?_, ho.sublist (List.dropWhile_sublist _)⟩
    intro y hy
    cases hd : l.dropWhile p with
    | nil => rw [hd] at hy; cases hy
    | cons z rest =>
      have hz : ¬ p z = true := by
        have := List.head_dropWhile_not p l (by rw [hd]; simp)
        simpa [hd] using this
      have hzm : f m ≤ f z := by
        have := (hpx z).not.1 hz
        omega
      rw [hd] at hy
      rcases List.mem_cons.1 hy with rfl | hy'
      · exact hzm
      · have hsub : (z :: rest).Pairwise (fun x y => f x ≤ f y) := by
          rw [← hd]
          exact ho.sublist (List.dropWhile_sublist _)
        exact le_trans hzm ((List.pairwise_cons.1 hsub).1 y hy')
  · intro x hx y hy
    have hxp : p x = true := List.mem_takeWhile_imp hx
    have hxm := (hpx x).1 hxp
    rcases List.mem_cons.1 hy with rfl | hy'
    · omega
    · exact (List.pairwise_append.1 hall).2.2 x hx y hy'

theorem storeMpdu_ordered (a : Agreement) (m : Mpdu) (ho : a.ordered) : (storeMpdu a m).ordered :=
  insert_sorted (fun x => QosUtilsMapSeqControlToUniqueInteger (GetSequenceControl x)
    ((a.startingSeq + 2047) % 4096)) m a.buffer ho

theorem storeMpdu_mem (a : Agreement) (m x : Mpdu) (hx : x ∈ (storeMpdu a m).buffer) :
    x = m ∨ x ∈ a.buffer := by
  have := (storeMpdu_perm a m).subset hx
  simpa using this

/-- The flush `RxCompleteBufferedPacketsWithSmallerSequence` stops in front of an MPDU whose mapped
sequence control is not smaller than the mapped bound. -/
theorem smallerSequenceLoop_stops (e ms : Nat) (fuel : Nat) :
    ∀ (i last : List Mpdu) (guard : Nat) (log : List Mpdu) (r : List Mpdu × List Mpdu),
      smallerSequenceLoop e ms fuel i last guard log = .ok r →
      ∀ x ∈ r.1.head?, ms ≤ QosUtilsMapSeqControlToUniqueInteger (GetSequenceControl x) e := by
  induction fuel with
  | zero => intro i last guard log r h; simp [smallerSequenceLoop] at h
  | succ fuel ih =>
    intro i last guard log r h
    cases i with
    | nil =>
      simp [smallerSequenceLoop] at h
      subst h
      simp
    | cons x rest =>
      rw [smallerSequenceLoop] at h
      split_ifs at h with h1 h2 h3
      · exact ih _ _ _ _ r h
      · exact ih _ _ _ _ r h
      · exact ih _ _ _ _ r h
      · simp only [Except.ok.injEq] at h
        subst h
        intro y hy
        simp only [List.head?_cons, Option.mem_def, Option.some.injEq] at hy
        subst hy
        omega

theorem withSmallerSequence_settles (fuel : Nat) (a : Agreement) (log : List Mpdu)
    (r : Agreement × List Mpdu) (hs : a.startingSeq < 4096)
    (hwf : ∀ x ∈ a.buffer, x.wellFormed = true) (ho : a.ordered)
    (h : withSmallerSequence fuel a.GetStartingSequenceControl a log = .ok r) :
    r.1.startingSeq = a.startingSeq ∧ r.1.bufferSize = a.bufferSize ∧
      r.1.buffer.Sublist a.buffer ∧ r.1.ordered ∧
      ∀ x ∈ r.1.buffer, 2048 ≤ seqKey a.startingSeq x.seqNum := by
  obtain ⟨k1, k2⟩ := withSmallerSequence_keeps fuel _ a log r h
  obtain ⟨D, _, hsub⟩ := withSmallerSequence_sublist fuel _ a log r h
  have hsub2 : r.1.buffer.Sublist a.buffer := (List.sublist_append_right D _).trans hsub
  have hord : r.1.buffer.Pairwise (fun x y => a.mapped x ≤ a.mapped y) := ho.sublist hsub2
  have hhead : ∀ x ∈ r.1.buffer.head?, 2048 * 16 ≤ a.mapped x := by
    unfold withSmallerSequence at h
    simp only at h
    split at h
    · rename_i r' hr
      cases h
      have := smallerSequenceLoop_stops _ _ _ _ _ _ _ _ hr
      rw [mapped_start a hs] at this
      exact this
    · cases h
  refine ⟨k2, k1, hsub2, ?_, ?_⟩
  · unfold Agreement.ordered
    have hm : ∀ x, r.1.mapped x = a.mapped x := by
      intro x
      unfold Agreement.mapped
      rw [k2]
    simp only [hm]
    exact hord
  · intro x hx
    have hxa : x ∈ a.buffer := hsub2.subset hx
    have hge : 2048 * 16 ≤ a.mapped x := by
      cases hb : r.1.buffer with
      | nil => rw [hb] at hx; cases hx
      | cons z rest =>
        rw [hb] at hx hord hhead
        have hz := hhead z (by simp)
        rcases List.mem_cons.1 hx with rfl | hx'
        · exact hz
        · exact le_trans hz ((List.pairwise_cons.1 hord).1 x hx')
    rw [mapped_eq a x hs (hwf x hxa)] at hge
    have := ((wellFormed_iff x).1 (hwf x hxa)).2.1
    omega

theorem ordered_keys (a : Agreement) (hs : a.startingSeq < 4096)
    (hwf : ∀ x ∈ a.buffer, x.wellFormed = true) (ho : a.ordered) :
    a.buffer.Pairwise (fun x y => seqKey a.startingSeq x.seqNum * 16 + x.fragNum
      ≤ seqKey a.startingSeq y.seqNum * 16 + y.fragNum) := by
  refine (List.Pairwise.and_mem.1 ho).imp ?_
  intro x y h
  obtain ⟨hx, hy, hxy⟩ := h
  rw [mapped_eq a x hs (hwf x hx), mapped_eq a y hs (hwf y hy)] at hxy
  exact hxy

theorem drop_of_suffix {α : Type} (x : α) (rest lc : List α) (h : (x :: rest) <:+ lc) :
    lc.drop (lc.length - (x :: rest).length + 1) = rest := by
  obtain ⟨p, rfl⟩ := h
  have : (p ++ x :: rest).length - (x :: rest).length = p.length := by simp
  rw [this]
  simp

theorem guard_after_fragment (g q f : Nat) (hq : q < 4096) (hf : f < 15) (hg : g = q * 16 + f) :
    (g + 1) % 65536 < 65536 ∧ (g + 1) % 65536 / 16 = g / 16 := by
  omega

theorem guard_after_msdu (g s m : Nat) (h : g / 16 = (s + m) % 4096) :
    (g + 16) / 16 % 4096 * 16 < 65536 ∧
      (g + 16) / 16 % 4096 * 16 / 16 = (s + (m + 1)) % 4096 := by
  omega

theorem key_of_guard (s m q kx : Nat) (hs : s < 4096) (hm : m ≤ 2048)
    (hq : q = (s + m) % 4096) (hk : kx = ((q + 4096 - s) % 4096 + 2048) % 4096)
    (hinv : m + 2047 ≤ kx) : kx = m + 2048 ∧ m ≤ 2047 := by
  omega

/-- The loop of `RxCompleteBufferedPacketsUntilFirstLost` on an ordered buffer: the guard ends
`n` sequence numbers ahead of the window start, and what stays buffered lies at
most one sequence number behind it. -/
theorem untilFirstLostLoop_settles (s : Nat) (hs : s < 4096) :
    ∀ (i lc : List Mpdu) (g : Nat) (log : List Mpdu) (m : Nat),
      i <:+ lc → (∀ x ∈ lc, x.wellFormed = true ∧ m + 2047 ≤ seqKey s x.seqNum) →
      lc.Pairwise (fun x y => seqKey s x.seqNum * 16 + x.fragNum
        ≤ seqKey s y.seqNum * 16 + y.fragNum) →
      g < 65536 → g / 16 = (s + m) % 4096 → m ≤ 2048 →
      ∃ n, n ≤ 2048 ∧ (untilFirstLostLoop i lc g log).2.1 / 16 % 4096 = (s + n) % 4096 ∧
        (untilFirstLostLoop i lc g log).1 <:+ lc ∧
        ∀ x ∈ (untilFirstLostLoop i lc g log).1, n + 2047 ≤ seqKey s x.seqNum := by
  intro i
  induction i with
  | nil =>
    intro lc g log m _ hwf _ _ hg hm
    refine ⟨m, hm, ?_, List.suffix_refl _, fun x hx => (hwf x hx).2⟩
    simp only [untilFirstLostLoop]
    omega
  | cons x rest ih =>
    intro lc g log m hsuf hwf hord hg65 hg hm
    have hxlc : x ∈ lc := hsuf.subset (List.mem_cons_self _ _)
    have hrest : rest <:+ lc := (List.suffix_cons x rest).trans hsuf
    obtain ⟨hx1, hx2, hx3⟩ := (wellFormed_iff x).1 (hwf x hxlc).1
    rw [untilFirstLostLoop]
    by_cases hgx : g = GetSequenceControl x
    · rw [if_pos hgx]
      have hsc := GetSequenceControl_eq x hx1 hx2
      by_cases hmf : x.moreFragments = true
      · rw [if_pos hmf]
        have hg2 := guard_after_fragment g x.seqNum x.fragNum hx1 (hx3 hmf) (hgx.trans hsc)
        exact ih lc ((g + 1) % 65536) log m hrest hwf hord hg2.1 (hg2.2.trans hg) hm
      · rw [if_neg hmf]
        simp only
        rw [drop_of_suffix x rest lc hsuf, and_fff0]
        have hg2 := guard_after_msdu g s m hg
        have hq : x.seqNum = (s + m) % 4096 := by
          rw [← hg, hgx, hsc]
          omega
        have hkx := key_of_guard s m x.seqNum (seqKey s x.seqNum) hs hm hq rfl
          (hwf x hxlc).2
        have hordx : ∀ y ∈ rest, seqKey s x.seqNum * 16 + x.fragNum
            ≤ seqKey s y.seqNum * 16 + y.fragNum := by
          have := hord.sublist hsuf.sublist
          exact (List.pairwise_cons.1 this).1
        have hwf2 : ∀ y ∈ rest, y.wellFormed = true ∧ (m + 1) + 2047 ≤ seqKey s y.seqNum := by
          intro y hy
          have hyl : y ∈ lc := hrest.subset hy
          refine ⟨(hwf y hyl).1, ?_⟩
          have h1 := hordx y hy
          have h2 := ((wellFormed_iff y).1 (hwf y hyl).1).2.1
          omega
        obtain ⟨n, h1, h2, h3, h4⟩ := ih rest ((g + 16) / 16 % 4096 * 16)
          (log ++ lc.take (lc.length - (x :: rest).length + 1)) (m + 1) (List.suffix_refl _) hwf2
          (hord.sublist hrest.sublist) hg2.1 hg2.2 (by omega)
        exact ⟨n, h1, h2, h3.trans hrest, h4⟩
    · rw [if_neg hgx]
      refine ⟨m, hm, ?_, List.suffix_refl _, fun x hx => (hwf x hx).2⟩
      simp only
      omega

theorem untilFirstLost_settles (a : Agreement) (log : List Mpdu) (hs : a.startingSeq < 4096)
    (hwf : ∀ x ∈ a.buffer, x.wellFormed = true ∧ 2047 ≤ seqKey a.startingSeq x.seqNum)
    (ho : a.ordered) :
    (untilFirstLost a log).1.startingSeq < 4096 ∧
    (∀ x ∈ (untilFirstLost a log).1.buffer,
      x.wellFormed = true ∧ 2047 ≤ seqKey (untilFirstLost a log).1.startingSeq x.seqNum) ∧
    (untilFirstLost a log).1.ordered ∧
    (untilFirstLost a log).1.bufferSize = a.bufferSize ∧
    (untilFirstLost a log).1.buffer <:+ a.buffer := by
  obtain ⟨s, B, buf⟩ := a
  simp only at hs hwf
  have hkeys := ordered_keys _ hs (fun x hx => (hwf x hx).1) ho
  simp only at hkeys
  obtain ⟨n, hn, h2, h3, h4⟩ := untilFirstLostLoop_settles s hs buf buf (s * 16) log 0
    (List.suffix_refl _) (fun x hx => ⟨(hwf x hx).1, by have := (hwf x hx).2; omega⟩) hkeys
    (by omega) (by omega) (by omega)
  have hstart : (untilFirstLost { startingSeq := s, bufferSize := B, buffer := buf } log).1.startingSeq
      = (s + n) % 4096 := by
    simp only [untilFirstLost, startControl _ _ _ hs, Agreement.SetStartingSequenceControl,
      shiftRight_four, and_0fff]
    exact h2
  have hbuf : (untilFirstLost { startingSeq := s, bufferSize := B, buffer := buf } log).1.buffer
      = (untilFirstLostLoop buf buf (s * 16) log).1 := by
    simp only [untilFirstLost, startControl _ _ _ hs]
  have hwf3 : ∀ x ∈ (untilFirstLostLoop buf buf (s * 16) log).1,
      x.wellFormed = true ∧ n ≤ seqKey s x.seqNum := by
    intro x hx
    exact ⟨(hwf x (h3.subset hx)).1, by have := h4 x hx; omega⟩
  have hshift := ordered_shift s B n (untilFirstLostLoop buf buf (s * 16) log).1 hs hwf3
    (ho.sublist h3.sublist)
  refine ⟨by rw [hstart]; exact Nat.mod_lt _ (by norm_num), ?_, ?_, rfl, by rw [hbuf]; exact h3⟩
  · intro x hx
    rw [hbuf] at hx
    rw [hstart]
    refine ⟨(hwf3 x hx).1, ?_⟩
    rw [seqKey_shift s n x.seqNum hs ((wellFormed_iff x).1 (hwf3 x hx).1).1 (hwf3 x hx).2]
    have := h4 x hx
    omega
  · unfold Agreement.ordered at hshift ⊢
    rw [hbuf]
    have hm : ∀ x, (untilFirstLost { startingSeq := s, bufferSize := B, buffer := buf } log).1.mapped x
        = ({ startingSeq := (s + n) % 4096, bufferSize := B,
             buffer := (untilFirstLostLoop buf buf (s * 16) log).1 } : Agreement).mapped x := by
      intro x
      unfold Agreement.mapped
      rw [hstart]
    simp only [hm]
    exact hshift

theorem ordered_sublist (a b : Agreement) (hstart : b.startingSeq = a.startingSeq)
    (hsub : b.buffer.Sublist a.buffer) (ho : a.ordered) : b.ordered := by
  unfold Agreement.ordered at *
  have hm : ∀ x, b.mapped x = a.mapped x := by
    intro x
    unfold Agreement.mapped
    rw [hstart]
  simp only [hm]
  exact ho.sublist hsub

/-- A window start moved forward by `n`, then the two flushes: what `MacLow::ReceiveMpdu`
does for an MPDU beyond the window and `MacLow::SendBlockAckAfterBlockAckRequest` for a
request ahead of the window start. -/
theorem advance_settles (a : Agreement) (n fuel : Nat) (log : List Mpdu)
    (r : Agreement × List Mpdu) (hs : a.startingSeq < 4096)
    (hwf : ∀ x ∈ a.buffer, x.wellFormed = true ∧ n ≤ seqKey a.startingSeq x.seqNum)
    (ho : a.ordered)
    (h : withSmallerSequence fuel
      (a.SetStartingSequence ((a.startingSeq + n) % 4096)).GetStartingSequenceControl
      (a.SetStartingSequence ((a.startingSeq + n) % 4096)) log = .ok r) :
    (untilFirstLost r.1 r.2).1.startingSeq < 4096 ∧
    (∀ x ∈ (untilFirstLost r.1 r.2).1.buffer,
      x.wellFormed = true ∧ 2047 ≤ seqKey (untilFirstLost r.1 r.2).1.startingSeq x.seqNum) ∧
    (untilFirstLost r.1 r.2).1.ordered ∧
    (untilFirstLost r.1 r.2).1.bufferSize = a.bufferSize ∧
    (∀ x ∈ (untilFirstLost r.1 r.2).1.buffer,
      x ∈ a.buffer ∧ 2048 ≤ seqKey ((a.startingSeq + n) % 4096) x.seqNum) := by
  obtain ⟨s, B, buf⟩ := a
  simp only at hs hwf
  simp only [Agreement.SetStartingSequence] at h
  have hs2 : (s + n) % 4096 < 4096 := Nat.mod_lt _ (by norm_num)
  have ho2 := ordered_shift s B n buf hs hwf ho
  obtain ⟨k1, k2, k3, k4, k5⟩ := withSmallerSequence_settles fuel
    { startingSeq := (s + n) % 4096, bufferSize := B, buffer := buf } log r hs2
    (fun x hx => (hwf x hx).1) ho2 h
  simp only at k1 k2 k3 k5
  have hwf3 : ∀ x ∈ r.1.buffer, x.wellFormed = true ∧ 2047 ≤ seqKey r.1.startingSeq x.seqNum := by
    intro x hx
    rw [k1]
    exact ⟨(hwf x (k3.subset hx)).1, by have := k5 x hx; omega⟩
  obtain ⟨u1, u2, u3, u4, u5⟩ := untilFirstLost_settles r.1 r.2 (by rw [k1]; exact hs2) hwf3 k4
  refine ⟨u1, u2, u3, u4.trans k2, ?_⟩
  intro x hx
  have hxr : x ∈ r.1.buffer := u5.subset hx
  exact ⟨k3.subset hxr, k5 x hxr⟩

theorem flush_settles (a : Agreement) (seq fuel : Nat) (log : List Mpdu)
    (r : Agreement × List Mpdu) (hs : a.startingSeq < 4096)
    (hwf : ∀ x ∈ a.buffer, x.wellFormed = true ∧ 2047 ≤ seqKey a.startingSeq x.seqNum)
    (ho : a.ordered) (h : withSmallerSequence fuel seq a log = .ok r) :
    (untilFirstLost r.1 r.2).1.startingSeq < 4096 ∧
    (∀ x ∈ (untilFirstLost r.1 r.2).1.buffer,
      x.wellFormed = true ∧ 2047 ≤ seqKey (untilFirstLost r.1 r.2).1.startingSeq x.seqNum) ∧
    (untilFirstLost r.1 r.2).1.ordered ∧
    (untilFirstLost r.1 r.2).1.bufferSize = a.bufferSize ∧
    (untilFirstLost r.1 r.2).1.buffer.Sublist a.buffer := by
  obtain ⟨k1, k2⟩ := withSmallerSequence_keeps fuel _ a log r h
  obtain ⟨D, _, hsub⟩ := withSmallerSequence_sublist fuel _ a log r h
  have hsub2 : r.1.buffer.Sublist a.buffer := (List.sublist_append_right D _).trans hsub
  have hwf3 : ∀ x ∈ r.1.buffer, x.wellFormed = true ∧ 2047 ≤ seqKey r.1.startingSeq x.seqNum := by
    intro x hx
    rw [k2]
    exact hwf x (hsub2.subset hx)
  obtain ⟨u1, u2, u3, u4, u5⟩ := untilFirstLost_settles r.1 r.2 (by rw [k2]; exact hs) hwf3
    (ordered_sublist a r.1 k2 hsub2 ho)
  exact ⟨u1, u2, u3, u4.trans k1, u5.sublist.trans hsub2⟩

theorem seqKey_fresh (s q : Nat) (h : QosUtilsIsOldPacket s q = false) :
    seqKey s q = seqOffset s q + 2048 ∧ seqOffset s q < 2048 := by
  simp only [QosUtilsIsOldPacket, decide_eq_false_iff_not] at h
  unfold seqKey seqOffset
  omega

theorem outOfWindowStart_advance (s q B : Nat) (hs : s < 4096) (hq : q < 4096)
    (hnew : seqOffset s q < 2048) (hout : B ≤ seqOffset s q) :
    outOfWindowStart q B = (s + (seqOffset s q + 1 - B)) % 4096 := by
  rw [outOfWindowStart_eq q B (by omega)]
  unfold seqOffset at *
  omega

theorem ReceiveMpdu_settles (ht : Bool) (a : Agreement) (fuel : Nat) (m : Mpdu) (log : List Mpdu)
    (r : Bool × RxState) (h : a.settled ht) (hm : m.wellFormed = true)
    (hfresh : ht = false → QosUtilsIsOldPacket a.startingSeq m.seqNum = false)
    (hrun : ReceiveMpdu ht fuel { agreement := some a, delivered := log } m = .ok r) :
    ∃ a1, r.2.agreement = some a1 ∧ a1.settled ht ∧ a1.bufferSize = a.bufferSize := by
  obtain ⟨hs, hwf, ho, hB⟩ := h
  have hmq := ((wellFormed_iff m).1 hm).1
  have hstore : ∀ (hnew : QosUtilsIsOldPacket a.startingSeq m.seqNum = false),
      ∀ x ∈ (storeMpdu a m).buffer,
        x.wellFormed = true ∧ 2047 ≤ seqKey a.startingSeq x.seqNum := by
    intro hnew x hx
    rcases storeMpdu_mem a m x hx with rfl | hxa
    · exact ⟨hm, by have := (seqKey_fresh _ _ hnew).1; omega⟩
    · exact hwf x hxa
  cases ht with
  | false =>
    simp only [ReceiveMpdu, Bool.false_eq_true, if_false, StoreMpduIfNeeded, Except.ok.injEq] at hrun
    subst hrun
    exact ⟨storeMpdu a m, rfl, ⟨hs, hstore (hfresh rfl), storeMpdu_ordered a m ho,
      fun hf => by cases hf⟩, rfl⟩
  | true =>
    simp only [ReceiveMpdu, if_true, GetSequenceNumber] at hrun
    by_cases hold : QosUtilsIsOldPacket a.startingSeq m.seqNum = true
    · simp only [hold, Bool.not_true, Bool.false_eq_true, if_false, Except.ok.injEq] at hrun
      subst hrun
      exact ⟨a, rfl, ⟨hs, hwf, ho, hB⟩, rfl⟩
    · have hnew : QosUtilsIsOldPacket a.startingSeq m.seqNum = false := by simpa using hold
      obtain ⟨hkey, hoff⟩ := seqKey_fresh _ _ hnew
      simp only [hnew, Bool.not_false, if_true] at hrun
      by_cases hin : IsInWindow m.seqNum (storeMpdu a m).startingSeq (storeMpdu a m).bufferSize = true
      · simp only [hin, Bool.not_true, Bool.false_eq_true, if_false, Except.ok.injEq] at hrun
        subst hrun
        obtain ⟨u1, u2, u3, u4, u5⟩ := untilFirstLost_settles (storeMpdu a m) log hs (hstore hnew)
          (storeMpdu_ordered a m ho)
        refine ⟨_, rfl, ⟨u1, u2, u3, ?_⟩, u4⟩
        intro _ h0
        rw [u4] at h0
        have h0' : a.bufferSize = 0 := h0
        simp only [IsInWindow, decide_eq_true_eq] at hin
        have : (storeMpdu a m).bufferSize = 0 := h0'
        rw [this] at hin
        omega
      · have hout : IsInWindow m.seqNum a.startingSeq a.bufferSize = false := by simpa using hin
        have hout2 : a.bufferSize ≤ seqOffset a.startingSeq m.seqNum := by
          simp only [IsInWindow, decide_eq_false_iff_not] at hout
          unfold seqOffset
          omega
        have hin2 : IsInWindow m.seqNum (storeMpdu a m).startingSeq (storeMpdu a m).bufferSize
            = false := hout
        rw [hin2] at hrun
        simp only [Bool.not_false, if_true] at hrun
        split_ifs at hrun with hdelta
        have hstart : toUint16 (Int.tmod ((m.seqNum : Int) - (storeMpdu a m).bufferSize + 1 + 4096)
            4096) = (a.startingSeq + (seqOffset a.startingSeq m.seqNum + 1 - a.bufferSize)) % 4096 :=
          outOfWindowStart_advance a.startingSeq m.seqNum a.bufferSize hs hmq hoff hout2
        rw [hstart] at hrun
        split at hrun
        · rename_i r1 hr1
          simp only [Except.ok.injEq] at hrun
          subst hrun
          have hwf1 : ∀ x ∈ (storeMpdu a m).buffer, x.wellFormed = true ∧
              seqOffset a.startingSeq m.seqNum + 1 - a.bufferSize
                ≤ seqKey (storeMpdu a m).startingSeq x.seqNum := by
            intro x hx
            refine ⟨(hstore hnew x hx).1, ?_⟩
            show _ ≤ seqKey a.startingSeq x.seqNum
            rcases storeMpdu_mem a m x hx with rfl | hxa
            · omega
            · have hB1 : a.bufferSize ≠ 0 := by
                intro h0
                rw [hB rfl h0] at hxa
                cases hxa
              have := (hwf x hxa).2
              omega
          obtain ⟨u1, u2, u3, u4, u5⟩ := advance_settles (storeMpdu a m)
            (seqOffset a.startingSeq m.seqNum + 1 - a.bufferSize) fuel log r1 hs hwf1
            (storeMpdu_ordered a m ho) hr1
          refine ⟨_, rfl, ⟨u1, u2, u3, ?_⟩, u4⟩
          intro _ h0
          rw [u4] at h0
          have h0' : a.bufferSize = 0 := h0
          have hbuf : a.buffer = [] := hB rfl h0'
          apply List.eq_nil_iff_forall_not_mem.2
          intro x hx
          obtain ⟨hx1, hx2⟩ := u5 x hx
          have hxm : x = m := by
            rcases storeMpdu_mem a m x hx1 with rfl | hxa
            · rfl
            · rw [hbuf] at hxa
              cases hxa
          subst hxm
          have hk := seqKey_shift a.startingSeq
            (seqOffset a.startingSeq x.seqNum + 1 - a.bufferSize) x.seqNum hs hmq (by omega)
          have hx2' : 2048 ≤ seqKey ((a.startingSeq
              + (seqOffset a.startingSeq x.seqNum + 1 - a.bufferSize)) % 4096) x.seqNum := hx2
          omega
        · cases hrun

theorem flushAfterNormalAck_settles (ht : Bool) (a : Agreement) (fuel : Nat) (log : List Mpdu)
    (r : RxState) (h : a.settled ht)
    (hrun : flushAfterNormalAck fuel { agreement := some a, delivered := log } = .ok r) :
    ∃ a1, r.agreement = some a1 ∧ a1.settled ht ∧ a1.bufferSize = a.bufferSize := by
  obtain ⟨hs, hwf, ho, hB⟩ := h
  simp only [flushAfterNormalAck, RxCompleteBufferedPacketsWithSmallerSequence] at hrun
  split at hrun
  · rename_i r0 hr0
    split at hr0
    · rename_i r1 hr1
      simp only [Except.ok.injEq] at hr0 hrun
      subst hr0
      subst hrun
      obtain ⟨u1, u2, u3, u4, u5⟩ := flush_settles a _ fuel log r1 hs hwf ho hr1
      refine ⟨_, rfl, ⟨u1, u2, u3, ?_⟩, u4⟩
      intro hht h0
      rw [u4] at h0
      have := hB hht h0
      rw [this] at u5
      exact List.eq_nil_of_sublist_nil u5
    · cases hr0
  · cases hrun

theorem blockAckRequestFlush_settles (ht : Bool) (a : Agreement) (fuel : Nat)
    (reqHdr : CtrlBAckRequestHeader) (log : List Mpdu) (r : RxState) (h : a.settled ht)
    (hreq : reqHdr.startingSeq < 4096)
    (hrun : blockAckRequestFlush ht fuel reqHdr.GetStartingSequence
      reqHdr.GetStartingSequenceControl { agreement := some a, delivered := log } = .ok r) :
    ∃ a1, r.agreement = some a1 ∧ a1.settled ht ∧ a1.bufferSize = a.bufferSize := by
  obtain ⟨hs, hwf, ho, hB⟩ := h
  cases ht with
  | false =>
    simp only [blockAckRequestFlush, Bool.not_false, if_true] at hrun
    split at hrun
    · rename_i r1 hr1
      simp only [Except.ok.injEq] at hrun
      subst hrun
      obtain ⟨u1, u2, u3, u4, u5⟩ := flush_settles a _ fuel log r1 hs hwf ho hr1
      exact ⟨_, rfl, ⟨u1, u2, u3, fun hf => by cases hf⟩, u4⟩
    · cases hrun
  | true =>
    simp only [blockAckRequestFlush, Bool.not_true, Bool.false_eq_true, if_false] at hrun
    by_cases hold : QosUtilsIsOldPacket a.startingSeq reqHdr.GetStartingSequence = true
    · simp only [hold, Bool.not_true, Bool.false_eq_true, if_false, Except.ok.injEq] at hrun
      subst hrun
      exact ⟨a, rfl, ⟨hs, hwf, ho, hB⟩, rfl⟩
    · have hnew : QosUtilsIsOldPacket a.startingSeq reqHdr.startingSeq = false := by
        simpa [CtrlBAckRequestHeader.GetStartingSequence] using hold
      obtain ⟨hkey, hoff⟩ := seqKey_fresh _ _ hnew
      have hnew2 : QosUtilsIsOldPacket a.startingSeq reqHdr.GetStartingSequence = false := hnew
      simp only [hnew2, Bool.not_false, if_true] at hrun
      have hstart : reqHdr.GetStartingSequence
          = (a.startingSeq + seqOffset a.startingSeq reqHdr.startingSeq) % 4096 := by
        show reqHdr.startingSeq = _
        unfold seqOffset
        omega
      have hctl : reqHdr.GetStartingSequenceControl
          = (a.SetStartingSequence ((a.startingSeq
              + seqOffset a.startingSeq reqHdr.startingSeq) % 4096)).GetStartingSequenceControl := by
        rw [← hstart]
        rfl
      rw [hctl, hstart] at hrun
      split at hrun
      · rename_i r1 hr1
        simp only [Except.ok.injEq] at hrun
        subst hrun
        have hwf1 : ∀ x ∈ a.buffer, x.wellFormed = true ∧
            seqOffset a.startingSeq reqHdr.startingSeq ≤ seqKey a.startingSeq x.seqNum := by
          intro x hx
          exact ⟨(hwf x hx).1, by have := (hwf x hx).2; omega⟩
        obtain ⟨u1, u2, u3, u4, u5⟩ := advance_settles a
          (seqOffset a.startingSeq reqHdr.startingSeq) fuel log r1 hs hwf1 ho hr1
        refine ⟨_, rfl, ⟨u1, u2, u3, ?_⟩, u4⟩
        intro hht h0
        rw [u4] at h0
        have hbuf := hB hht h0
        apply List.eq_nil_iff_forall_not_mem.2
        intro x hx
        have := (u5 x hx).1
        rw [hbuf] at this
        cases this
      · cases hrun

theorem goToNextPacket_head (i last : List Mpdu) (guard : Nat) :
    (goToNextPacket i last guard).1 <:+ i ∧
      ∀ y ∈ (goToNextPacket i last guard).1.head?,
        (goToNextPacket i last guard).2.2 = GetSequenceControl y := by
  unfold goToNextPacket
  have hs : i.dropWhile (fun y => decide (guard = GetSequenceControl y)) <:+ i :=
    List.dropWhile_suffix _
  cases hd : i.dropWhile (fun y => decide (guard = GetSequenceControl y)) with
  | nil => exact ⟨List.nil_suffix, by simp⟩
  | cons y r =>
    rw [hd] at hs
    refine ⟨hs, ?_⟩
    intro z hz
    simp only [List.head?_cons, Option.mem_def, Option.some.injEq] at hz
    subst hz
    rfl

theorem goToNextPacket_shorter (x : Mpdu) (rest last : List Mpdu) :
    (goToNextPacket (x :: rest) last (GetSequenceControl x)).1.length ≤ rest.length := by
  unfold goToNextPacket
  have hd : (x :: rest).dropWhile (fun y => decide (GetSequenceControl x = GetSequenceControl y))
      = rest.dropWhile (fun y => decide (GetSequenceControl x = GetSequenceControl y)) := by
    simp [List.dropWhile_cons]
  rw [hd]
  have hs : (rest.dropWhile (fun y => decide (GetSequenceControl x = GetSequenceControl y))).length
      ≤ rest.length := (List.dropWhile_sublist _).length_le
  cases hd2 : rest.dropWhile (fun y => decide (GetSequenceControl x = GetSequenceControl y)) with
  | nil => simp
  | cons y r =>
    rw [hd2] at hs
    exact hs

/-- Without a fragment that announces a further one, the flush
`RxCompleteBufferedPacketsWithSmallerSequence` ends within one iteration per buffered MPDU. -/
theorem smallerSequenceLoop_returns (e ms : Nat) (fuel : Nat) :
    ∀ (i last : List Mpdu) (guard : Nat) (log : List Mpdu),
      (∀ x ∈ i, x.moreFragments = false) → (∀ x ∈ i.head?, guard = GetSequenceControl x) →
      i.length < fuel → ∃ r, smallerSequenceLoop e ms fuel i last guard log = .ok r := by
  induction fuel with
  | zero => intro i last guard log _ _ hf; simp at hf
  | succ fuel ih =>
    intro i last guard log hm hg hf
    cases i with
    | nil => exact ⟨([], log), by simp [smallerSequenceLoop]⟩
    | cons x rest =>
      have hgx := hg x (by simp)
      have hmx := hm x (List.mem_cons_self _ _)
      rw [smallerSequenceLoop]
      by_cases h1 : QosUtilsMapSeqControlToUniqueInteger (GetSequenceControl x) e < ms
      · rw [if_pos h1, if_pos hgx]
        simp only [hmx, Bool.false_eq_true, if_false]
        obtain ⟨k1, k2⟩ := goToNextPacket_head (x :: rest)
          (last.drop (last.length - (x :: rest).length + 1)) guard
        have k3 := goToNextPacket_shorter x rest
          (last.drop (last.length - (x :: rest).length + 1))
        rw [← hgx] at k3
        apply ih
        · intro y hy
          exact hm y (k1.subset hy)
        · exact k2
        · simp only [List.length_cons] at hf
          omega
      · rw [if_neg h1]
        exact ⟨_, rfl⟩

theorem withSmallerSequence_returns (fuel seq : Nat) (a : Agreement) (log : List Mpdu)
    (hm : ∀ x ∈ a.buffer, x.moreFragments = false) (hf : a.buffer.length < fuel) :
    ∃ r, withSmallerSequence fuel seq a log = .ok r := by
  obtain ⟨s, B, buf⟩ := a
  simp only at hm hf
  cases buf with
  | nil =>
    obtain ⟨r, hr⟩ := smallerSequenceLoop_returns ((s + 2047) % 4096)
      (QosUtilsMapSeqControlToUniqueInteger seq ((s + 2047) % 4096)) fuel [] [] 0 log hm
      (by simp) hf
    simp only [withSmallerSequence, hr]
    exact ⟨_, rfl⟩
  | cons y rest =>
    obtain ⟨r, hr⟩ := smallerSequenceLoop_returns ((s + 2047) % 4096)
      (QosUtilsMapSeqControlToUniqueInteger seq ((s + 2047) % 4096)) fuel (y :: rest) (y :: rest)
      (GetSequenceControl y) log hm (by simp) hf
    simp only [withSmallerSequence, hr]
    exact ⟨_, rfl⟩

theorem ReceiveMpdu_returns (ht : Bool) (a : Agreement) (fuel : Nat) (m : Mpdu) (log : List Mpdu)
    (hB : 1 ≤ a.bufferSize) (hq : m.seqNum < 4096)
    (hmf : ∀ x ∈ a.buffer, x.moreFragments = false) (hm : m.moreFragments = false)
    (hf : a.buffer.length + 1 < fuel) :
    ∃ r, ReceiveMpdu ht fuel { agreement := some a, delivered := log } m = .ok r := by
  cases ht with
  | false =>
    simp only [ReceiveMpdu, Bool.false_eq_true, if_false]
    exact ⟨_, rfl⟩
  | true =>
    by_cases hold : QosUtilsIsOldPacket a.startingSeq m.seqNum = true
    · simp only [ReceiveMpdu, if_true, GetSequenceNumber, hold, Bool.not_true,
        Bool.false_eq_true, if_false]
      exact ⟨_, rfl⟩
    · have hnew : QosUtilsIsOldPacket a.startingSeq m.seqNum = false := by simpa using hold
      by_cases hin : IsInWindow m.seqNum a.startingSeq a.bufferSize = true
      · have hin2 : IsInWindow m.seqNum (storeMpdu a m).startingSeq (storeMpdu a m).bufferSize
            = true := hin
        simp only [ReceiveMpdu, if_true, GetSequenceNumber, hnew, Bool.not_false,
          hin2, Bool.not_true, Bool.false_eq_true, if_false]
        exact ⟨_, rfl⟩
      · have hout : IsInWindow m.seqNum a.startingSeq a.bufferSize = false := by simpa using hin
        obtain ⟨r, hr⟩ := withSmallerSequence_returns fuel
          ((storeMpdu a m).SetStartingSequence
            (outOfWindowStart m.seqNum a.bufferSize)).GetStartingSequenceControl
          ((storeMpdu a m).SetStartingSequence (outOfWindowStart m.seqNum a.bufferSize)) log
          (by
            intro x hx
            rcases storeMpdu_mem a m x hx with rfl | hxa
            · exact hm
            · exact hmf x hxa)
          (by
            have := (storeMpdu_perm a m).length_eq
            simp only [List.length_cons] at this
            show (storeMpdu a m).buffer.length < fuel
            omega)
        rw [ReceiveMpdu_shift a m fuel log hB hq hnew hout, hr]
        exact ⟨_, rfl⟩

theorem flushAfterNormalAck_returns (a : Agreement) (fuel : Nat) (log : List Mpdu)
    (hmf : ∀ x ∈ a.buffer, x.moreFragments = false) (hf : a.buffer.length < fuel) :
    ∃ r, flushAfterNormalAck fuel { agreement := some a, delivered := log } = .ok r := by
  obtain ⟨r, hr⟩ := withSmallerSequence_returns fuel a.GetStartingSequenceControl a log hmf hf
  simp only [flushAfterNormalAck, RxCompleteBufferedPacketsWithSmallerSequence, hr]
  exact ⟨_, rfl⟩

theorem blockAckRequestFlush_returns (ht : Bool) (a : Agreement) (fuel req ctl : Nat)
    (log : List Mpdu) (hmf : ∀ x ∈ a.buffer, x.moreFragments = false)
    (hf : a.buffer.length < fuel) :
    ∃ r, blockAckRequestFlush ht fuel req ctl { agreement := some a, delivered := log } = .ok r := by
  cases ht with
  | false =>
    obtain ⟨r, hr⟩ := withSmallerSequence_returns fuel ctl a log hmf hf
    simp only [blockAckRequestFlush, Bool.not_false, if_true, hr]
    exact ⟨_, rfl⟩
  | true =>
    by_cases hold : QosUtilsIsOldPacket a.startingSeq req = true
    · simp only [blockAckRequestFlush, Bool.not_true, Bool.false_eq_true, if_false, hold]
      exact ⟨_, rfl⟩
    · have hnew : QosUtilsIsOldPacket a.startingSeq req = false := by simpa using hold
      obtain ⟨r, hr⟩ := withSmallerSequence_returns fuel ctl (a.SetStartingSequence req) log
        hmf hf
      simp only [blockAckRequestFlush, Bool.not_true, Bool.false_eq_true, if_false, hnew,
        Bool.not_false, if_true, hr]
      exact ⟨_, rfl⟩

/-- C36, as stated, fails when fragments that announce a further fragment carry
fragment number 15.  A station with HT support, window start 0, buffer size 64,
receives the sixteen fragments of sequence number 1 and then those of sequence
number 0, fragment 0 last, each with More Fragments set; every one of them is
admitted (sequence numbers 0 and 1 are not old for window start 0).  The last
admission lets `RxCompleteBufferedPacketsUntilFirstLost` walk over all 32 fragments
without delivering any; the guard ends at sequence number 2, which becomes the
window start, and the 32 fragments stay buffered.  A BlockAckReq with starting
sequence 2049 (not old for window start 2) then moves the window start to 2049;
the flush stops at once, because the first buffered fragment, sequence number
0, now maps to 65520; the fragments of sequence number 1 behind it map to 0 to
15.  The buffer is not in non-decreasing order of the mapped sequence control
taken with the current window start. -/
theorem C36_window_advance_over_unfinished_fragments :
    rxRun true 100 { agreement := some ⟨0, 64, []⟩, delivered := [] }
        ((unfinishedFragments 1 ++ (unfinishedFragments 0).reverse).map RxOp.receiveMpdu)
      = .ok { agreement := some ⟨2, 64, unfinishedFragments 0 ++ unfinishedFragments 1⟩,
              delivered := [] } ∧
    blockAckRequestFlush true 100
        ({ startingSeq := 2049 } : CtrlBAckRequestHeader).GetStartingSequence
        ({ startingSeq := 2049 } : CtrlBAckRequestHeader).GetStartingSequenceControl
        { agreement := some ⟨2, 64, unfinishedFragments 0 ++ unfinishedFragments 1⟩,
          delivered := [] }
      = .ok { agreement := some ⟨2049, 64, unfinishedFragments 0 ++ unfinishedFragments 1⟩,
              delivered := [] } ∧
    (unfinishedFragments 0 ++ unfinishedFragments 1).map
        (Agreement.mapped ⟨2049, 64, unfinishedFragments 0 ++ unfinishedFragments 1⟩)
      = (List.range 16).map (fun f => 65520 + f) ++ List.range 16 ∧
    ¬ (⟨2049, 64, unfinishedFragments 0 ++ unfinishedFragments 1⟩ : Agreement).ordered := by
  refine ⟨by decide, by decide, by decide, ?_⟩
  intro h
  have h2 : ([⟨0, 0, true, 0⟩, ⟨1, 0, true, 0⟩] : List Mpdu).Pairwise
      (fun x y => Agreement.mapped ⟨2049, 64, unfinishedFragments 0 ++ unfinishedFragments 1⟩ x
        ≤ Agreement.mapped ⟨2049, 64, unfinishedFragments 0 ++ unfinishedFragments 1⟩ y) :=
    List.Pairwise.sublist (by decide) h
  have h3 := (List.pairwise_cons.1 h2).1 ⟨1, 0, true, 0⟩ (by simp)
  revert h3
  decide

/-- C36, amended.  Call an agreement settled when its window start is a 12-bit
value, every buffered MPDU is well formed (12-bit sequence number, 4-bit
fragment number, More Fragments only on a fragment number below 15) and lies less
than 2048 sequence numbers ahead of the window start or exactly one behind it,
the buffer is in non-decreasing order of the mapped sequence control taken with
the current window start, and, on a station with HT support, buffer size 0
goes with an empty buffer.  An agreement with an empty buffer is settled, a
settled agreement is ordered, and every operation of the receiver that returns
leaves a settled agreement and with it an ordered buffer: `ReceiveMpdu` on a well
formed MPDU (on a station without HT support: one that is not old), the flush
after a Normal-Ack frame, and the flush for a BlockAckReq with a 12-bit starting
sequence.  The operations return when no buffered MPDU and not the new one has
More Fragments set and the fuel exceeds the number of buffered MPDUs (for
`ReceiveMpdu`: the buffer size is at least 1, the sequence number has 12 bits). -/
theorem C36_settled_buffer_stays_ordered (ht : Bool) (a : Agreement) (h : a.settled ht) :
    a.ordered ∧
    ({ startingSeq := a.startingSeq, bufferSize := a.bufferSize, buffer := [] } :
      Agreement).settled ht ∧
    (∀ fuel m log r, m.wellFormed = true →
      (ht = false → QosUtilsIsOldPacket a.startingSeq m.seqNum = false) →
      ReceiveMpdu ht fuel { agreement := some a, delivered := log } m = .ok r →
      ∃ a1, r.2.agreement = some a1 ∧ a1.settled ht ∧ a1.ordered ∧
        a1.bufferSize = a.bufferSize) ∧
    (∀ fuel log r, flushAfterNormalAck fuel { agreement := some a, delivered := log } = .ok r →
      ∃ a1, r.agreement = some a1 ∧ a1.settled ht ∧ a1.ordered ∧
        a1.bufferSize = a.bufferSize) ∧
    (∀ fuel (reqHdr : CtrlBAckRequestHeader) log r, reqHdr.startingSeq < 4096 →
      blockAckRequestFlush ht fuel reqHdr.GetStartingSequence reqHdr.GetStartingSequenceControl
        { agreement := some a, delivered := log } = .ok r →
      ∃ a1, r.agreement = some a1 ∧ a1.settled ht ∧ a1.ordered ∧
        a1.bufferSize = a.bufferSize) ∧
    ((∀ x ∈ a.buffer, x.moreFragments = false) →
      (∀ fuel m log, 1 ≤ a.bufferSize → m.seqNum < 4096 → m.moreFragments = false →
        a.buffer.length + 1 < fuel →
        ∃ r, ReceiveMpdu ht fuel { agreement := some a, delivered := log } m = .ok r) ∧
      (∀ fuel log, a.buffer.length < fuel →
        ∃ r, flushAfterNormalAck fuel { agreement := some a, delivered := log } = .ok r) ∧
      (∀ fuel (reqHdr : CtrlBAckRequestHeader) log, a.buffer.length < fuel →
        ∃ r, blockAckRequestFlush ht fuel reqHdr.GetStartingSequence
          reqHdr.GetStartingSequenceControl { agreement := some a, delivered := log } = .ok r)) := by
  refine ⟨h.2.2.1, ⟨h.1, fun x hx => (List.not_mem_nil x hx).elim, List.Pairwise.nil,
    fun _ _ => rfl⟩, ?_, ?_, ?_, ?_⟩
  · intro fuel m log r hm hfresh hrun
    obtain ⟨a1, h1, h2, h3⟩ := ReceiveMpdu_settles ht a fuel m log r h hm hfresh hrun
    exact ⟨a1, h1, h2, h2.2.2.1, h3⟩
  · intro fuel log r hrun
    obtain ⟨a1, h1, h2, h3⟩ := flushAfterNormalAck_settles ht a fuel log r h hrun
    exact ⟨a1, h1, h2, h2.2.2.1, h3⟩
  · intro fuel reqHdr log r hreq hrun
    obtain ⟨a1, h1, h2, h3⟩ := blockAckRequestFlush_settles ht a fuel reqHdr log r h hreq hrun
    exact ⟨a1, h1, h2, h2.2.2.1, h3⟩
  · intro hmf
    exact ⟨fun fuel m log hB hq hm hf => ReceiveMpdu_returns ht a fuel m log hB hq hmf hm hf,
      fun fuel log hf => flushAfterNormalAck_returns a fuel log hmf hf,
      fun fuel reqHdr log hf => blockAckRequestFlush_returns ht a fuel _ _ log hmf hf⟩

theorem C36_settled_buffer_stays_ordered_witness :
    (⟨4095, 4, [⟨0, 0, false, 7⟩, ⟨1, 0, false, 8⟩]⟩ : Agreement).settled true ∧
    ReceiveMpdu true 10
        { agreement := some ⟨4095, 4, [⟨0, 0, false, 7⟩, ⟨1, 0, false, 8⟩]⟩, delivered := [] }
        ⟨4, 0, false, 9⟩
      = .ok (true, { agreement := some ⟨2, 4, [⟨4, 0, false, 9⟩]⟩,
                     delivered := [⟨0, 0, false, 7⟩, ⟨1, 0, false, 8⟩] }) ∧
    ∃ a1, some (⟨2, 4, [⟨4, 0, false, 9⟩]⟩ : Agreement) = some a1 ∧ a1.settled true ∧
      a1.ordered ∧ a1.bufferSize = 4 := by
  have hs : (⟨4095, 4, [⟨0, 0, false, 7⟩, ⟨1, 0, false, 8⟩]⟩ : Agreement).settled true :=
    ⟨by decide, by decide, by
      unfold Agreement.ordered
      simp only [List.pairwise_cons, List.mem_cons, List.mem_singleton, forall_eq_or_imp, forall_eq,
        List.not_mem_nil, false_implies, implies_true, List.Pairwise.nil, and_true]
      decide, fun _ h => absurd h (by decide)⟩
  exact ⟨hs, by decide,
    (C36_settled_buffer_stays_ordered true ⟨4095, 4, [⟨0, 0, false, 7⟩, ⟨1, 0, false, 8⟩]⟩
      hs).2.2.1 10 ⟨4, 0, false, 9⟩ []
      (true, { agreement := some ⟨2, 4, [⟨4, 0, false, 9⟩]⟩,
               delivered := [⟨0, 0, false, 7⟩, ⟨1, 0, false, 8⟩] })
      (by decide) (fun h => by cases h) (by decide)⟩

/-! ## Claim C32: the reactions of `ReceiveOk` -/

theorem deliveredUp_notify {α : Type} (g : α → Call) (hg : ∀ x m, g x ≠ Call.RxCallback m)
    (l : List α) : deliveredUp (l.map g) = [] := by
  induction l with
  | nil => rfl
  | cons x l ih =>
    simp only [deliveredUp, List.map_cons, List.filterMap_cons] at ih ⊢
    rw [ih]
    cases hx : g x <;> first | rfl | exact absurd hx (hg x _)

theorem deliveredUp_call_notify {α : Type} (s : MacLowState) (g : α → Call)
    (hg : ∀ x m, g x ≠ Call.RxCallback m) (l : List α) :
    deliveredUp (s.call (l.map g)).trace = deliveredUp s.trace := by
  show deliveredUp (s.trace ++ l.map g) = _
  rw [deliveredUp_append, deliveredUp_notify g hg, List.append_nil]

theorem NotifyNav_quiet (env : Env) (s s1 : MacLowState) (mpdu : WifiMacQueueItem)
    (h : NotifyNav env s mpdu = .ok s1) :
    deliveredUp s1.trace = deliveredUp s.trace ∧ s1.sendCtsEvent = s.sendCtsEvent ∧
      s1.sendAckEvent = s.sendAckEvent ∧ s1.self = s.self ∧ s1.promisc = s.promisc ∧
      s1.servingMimoBFT = s.servingMimoBFT := by
  have hreset : ∀ d, deliveredUp (DoNavResetNow s d).trace = deliveredUp s.trace := fun d =>
    deliveredUp_call_notify s (fun m => Call.NotifyNavResetNow m d) (fun _ _ hc => by cases hc) _
  have hstart : ∀ d, deliveredUp (DoNavStartNow s d).2.trace = deliveredUp s.trace := by
    intro d
    have := deliveredUp_call_notify s (fun m => Call.NotifyNavStartNow m d)
      (fun _ _ hc => by cases hc) s.channelAccessManagers
    unfold DoNavStartNow
    simp only
    split_ifs <;> exact this
  have hstartf : ∀ d, (DoNavStartNow s d).2.sendCtsEvent = s.sendCtsEvent ∧
      (DoNavStartNow s d).2.sendAckEvent = s.sendAckEvent ∧ (DoNavStartNow s d).2.self = s.self ∧
      (DoNavStartNow s d).2.promisc = s.promisc ∧
      (DoNavStartNow s d).2.servingMimoBFT = s.servingMimoBFT := by
    intro d
    unfold DoNavStartNow
    simp only [MacLowState.call]
    split_ifs <;> exact ⟨rfl, rfl, rfl, rfl, rfl⟩
  unfold NotifyNav at h
  simp only at h
  split_ifs at h
  all_goals simp only [Except.ok.injEq] at h
  all_goals subst h
  · exact ⟨rfl, rfl, rfl, rfl, rfl, rfl⟩
  · exact ⟨hreset _, rfl, rfl, rfl, rfl, rfl⟩
  · exact ⟨hreset _, rfl, rfl, rfl, rfl, rfl⟩
  · exact ⟨rfl, rfl, rfl, rfl, rfl, rfl⟩
  · exact ⟨hstart _, hstartf _⟩
  · exact ⟨hstart _, hstartf _⟩
  · exact ⟨rfl, rfl, rfl, rfl, rfl, rfl⟩

theorem deliveredUp_quiet (cs : List Call) (h : ∀ c ∈ cs, ∀ m, c ≠ Call.RxCallback m) :
    deliveredUp cs = [] := by
  induction cs with
  | nil => rfl
  | cons c cs ih =>
    have hc := h c (List.mem_cons_self _ _)
    have ih' := ih (fun c' hc' => h c' (List.mem_cons_of_mem _ hc'))
    have happ : deliveredUp (c :: cs) = deliveredUp [c] ++ deliveredUp cs :=
      deliveredUp_append [c] cs
    rw [happ, ih', List.append_nil]
    cases c <;> first | rfl | exact absurd rfl (hc _)

theorem deliveredUp_call (s : MacLowState) (cs : List Call)
    (h : ∀ c ∈ cs, ∀ m, c ≠ Call.RxCallback m) :
    deliveredUp (s.call cs).trace = deliveredUp s.trace := by
  show deliveredUp (s.trace ++ cs) = _
  rw [deliveredUp_append, deliveredUp_quiet cs h, List.append_nil]

theorem deliveredUp_ackReset (s : MacLowState) :
    deliveredUp (NotifyAckTimeoutResetNow s).trace = deliveredUp s.trace :=
  deliveredUp_call_notify s (fun m => Call.NotifyAckTimeoutResetNow m) (fun _ _ hc => by cases hc) _

theorem deliveredUp_ctsReset (s : MacLowState) :
    deliveredUp (NotifyCtsTimeoutResetNow s).trace = deliveredUp s.trace :=
  deliveredUp_call_notify s (fun m => Call.NotifyCtsTimeoutResetNow m) (fun _ _ hc => by cases hc) _

theorem receiveRts_quiet (env : Env) (s s1 : MacLowState) (mpdu : WifiMacQueueItem) (rxSnr : Nat)
    (txVector : WifiTxVector) (ampduSubframe : Bool) (isPrevNavZero : Bool)
    (h : receiveRts env s mpdu rxSnr txVector ampduSubframe isPrevNavZero = .ok s1) :
    deliveredUp s1.trace = deliveredUp s.trace ∧ s1.sendAckEvent = s.sendAckEvent ∧
      (mpdu.hdr.addr1 ≠ s.self → s1 = s) := by
  unfold receiveRts at h
  simp only at h
  split_ifs at h with h1 h2 h3 h4 h5
  all_goals simp only [Except.ok.injEq] at h
  all_goals subst h
  all_goals refine ⟨?_, rfl, ?_⟩
  all_goals first
    | rfl
    | (intro hne
       simp only [Bool.and_eq_true, beq_iff_eq] at h2
       exact absurd h2.2 hne)
    | (intro _; rfl)
    | simp [MacLowState.call, deliveredUp]

theorem receiveCts_quiet (env : Env) (s s1 : MacLowState) (mpdu : WifiMacQueueItem)
    (txVector : WifiTxVector) (ampduSubframe : Bool) (psdu : WifiPsdu)
    (h : receiveCts env s mpdu txVector ampduSubframe psdu = .ok s1) :
    deliveredUp s1.trace = deliveredUp s.trace := by
  unfold receiveCts at h
  simp only at h
  split_ifs at h
  all_goals simp only [Except.ok.injEq] at h
  all_goals subst h
  all_goals simp [MacLowState.call, deliveredUp, NotifyCtsTimeoutResetNow, List.filterMap_map,
    Function.comp_def]

theorem receiveAck_quiet (env : Env) (s s1 : MacLowState) (h : receiveAck env s = .ok s1) :
    deliveredUp s1.trace = deliveredUp s.trace := by
  unfold receiveAck at h
  simp only at h
  split at h
  · cases h
  · rename_i r1 hr1
    have e1 : deliveredUp r1.trace = deliveredUp s.trace := by
      split_ifs at hr1
      · split at hr1
        · cases hr1
        · simp only [Except.ok.injEq] at hr1
          subst hr1
          exact deliveredUp_call _ _ (by simp)
      · simp only [Except.ok.injEq] at hr1
        subst hr1
        rfl
    split at h
    · cases h
    · rename_i txop _
      split at h
      · cases h
      · rename_i r4 hr4
        simp only [Except.ok.injEq] at h
        subst h
        have e2 : deliveredUp r4.trace = deliveredUp r1.trace := by
          have e0 : deliveredUp ((NotifyAckTimeoutResetNow
              { r1 with normalAckTimeoutEvent := none }).call [.GotAck txop.id]).trace
              = deliveredUp r1.trace := by
            rw [deliveredUp_call _ _ (by simp), deliveredUp_ackReset]
          repeat' split at hr4
          all_goals first
            | (cases hr4; done)
            | (simp only [Except.ok.injEq] at hr4
               subst hr4
               first
                 | exact e0
                 | (rw [deliveredUp_call _ _ (by simp)]
                    exact e0))
        exact e2.trans e1

theorem receiveBlockAck_quiet (env : Env) (s s1 : MacLowState) (mpdu : WifiMacQueueItem)
    (h : receiveBlockAck env s mpdu = .ok s1) :
    deliveredUp s1.trace = deliveredUp s.trace := by
  unfold receiveBlockAck at h
  simp only at h
  split at h
  · cases h
  · rename_i txop _
    simp only [Except.ok.injEq] at h
    subst h
    have e0 : deliveredUp ((NotifyAckTimeoutResetNow
        { s with blockAckTimeoutEvent := none }).call [.GotBlockAck txop.id mpdu.hdr.addr2]).trace
        = deliveredUp s.trace := by
      rw [deliveredUp_call _ _ (by simp), deliveredUp_ackReset]
    split_ifs
    · exact e0
    · show deliveredUp (MacLowState.call _ _).trace = _
      rw [deliveredUp_call _ _ (by simp)]
      exact e0
    · exact e0

theorem Reset_quiet (s s1 : MacLowState) (entry : AgreementEntry)
    (h : ResetBlockAckInactivityTimerIfNeeded s entry = .ok s1) :
    s1.trace = s.trace ∧ s1.sendCtsEvent = s.sendCtsEvent ∧ s1.sendAckEvent = s.sendAckEvent := by
  unfold ResetBlockAckInactivityTimerIfNeeded at h
  split_ifs at h
  all_goals simp only [Except.ok.injEq] at h
  all_goals subst h
  all_goals exact ⟨rfl, rfl, rfl⟩

theorem receiveBlockAckReq_quiet (s s1 : MacLowState) (mpdu : WifiMacQueueItem) (rxSnr : Nat)
    (txVector : WifiTxVector) (h : receiveBlockAckReq s mpdu rxSnr txVector = .ok s1) :
    deliveredUp s1.trace = deliveredUp s.trace := by
  unfold receiveBlockAckReq at h
  simp only at h
  by_cases h1 : s.servingSLS = true
  · rw [if_pos h1] at h
    cases h
    rfl
  · rw [if_neg h1] at h
    by_cases h2 : s.servingMimoBFT = true
    · rw [if_pos h2] at h
      cases h
      rfl
    · rw [if_neg h2] at h
      by_cases h3 : (!mpdu.packet.blockAckReq.IsMultiTid) = true
      · rw [if_pos h3] at h
        split at h
        · rename_i entry _
          by_cases h4 : (s.call [.UpdateWithBlockAckReq mpdu.hdr.addr2
              mpdu.packet.blockAckReq.GetTidInfo
              mpdu.packet.blockAckReq.GetStartingSequence]).sendAckEvent.isSome = true
          · rw [if_pos h4] at h
            cases h
          · rw [if_neg h4] at h
            split at h
            · cases h
            · rename_i r1 hr1
              by_cases h5 : entry.immediateBlockAck = true
              · rw [if_pos h5] at h
                simp only [Except.ok.injEq] at h
                subst h
                show deliveredUp r1.trace = _
                rw [(Reset_quiet _ _ _ hr1).1]
                exact deliveredUp_call _ _ (by simp)
              · rw [if_neg h5] at h
                cases h
        · cases h
          rfl
      · rw [if_neg h3] at h
        cases h

theorem receiveCtl_quiet (s s1 : MacLowState) (hdr : WifiMacHeader)
    (h : receiveCtl s hdr = .ok s1) :
    deliveredUp s1.trace = deliveredUp s.trace ∧ s1.sendCtsEvent = s.sendCtsEvent ∧
      s1.sendAckEvent = s.sendAckEvent := by
  unfold receiveCtl at h
  simp only at h
  by_cases hend : hdr.IsCfEnd = true
  · rw [if_pos hend] at h
    split at h
    · cases h
    · rename_i r2 hr2
      simp only [Except.ok.injEq] at h
      subst h
      have e2 : deliveredUp r2.trace = deliveredUp s.trace ∧ r2.sendCtsEvent = s.sendCtsEvent ∧
          r2.sendAckEvent = s.sendAckEvent := by
        by_cases hexp : s.cfAckInfo.expectCfAck = true
        · rw [if_pos hexp] at hr2
          split at hr2
          · cases hr2
          · by_cases hack : hdr.IsCfAck = true
            · rw [if_pos hack] at hr2
              simp only [Except.ok.injEq] at hr2
              subst hr2
              exact ⟨deliveredUp_call _ _ (by simp), rfl, rfl⟩
            · rw [if_neg hack] at hr2
              simp only [Except.ok.injEq] at hr2
              subst hr2
              exact ⟨deliveredUp_call _ _ (by simp), rfl, rfl⟩
        · rw [if_neg hexp] at hr2
          simp only [Except.ok.injEq] at hr2
          subst hr2
          exact ⟨rfl, rfl, rfl⟩
      cases htx : r2.currentTxop with
      | none => exact e2
      | some txop => exact ⟨(deliveredUp_call _ _ (by simp)).trans e2.1, e2.2.1, e2.2.2⟩
  · rw [if_neg hend] at h
    simp only [Except.ok.injEq] at h
    subst h
    exact ⟨rfl, rfl, rfl⟩

theorem rxPacket_events (s s1 : MacLowState) (mpdu : WifiMacQueueItem)
    (h : rxPacket s mpdu = .ok s1) :
    s1.sendCtsEvent = s.sendCtsEvent ∧ s1.sendAckEvent = s.sendAckEvent := by
  unfold rxPacket at h
  simp only at h
  split at h
  · cases h
  · rename_i r1 hr1
    simp only [Except.ok.injEq] at h
    subst h
    split_ifs at hr1
    · split at hr1
      · cases hr1
      · simp only [Except.ok.injEq] at hr1
        subst hr1
        exact ⟨rfl, rfl⟩
    · simp only [Except.ok.injEq] at hr1
      subst hr1
      exact ⟨rfl, rfl⟩

theorem receiveNotForSelf_quiet (s s1 : MacLowState) (mpdu : WifiMacQueueItem) (rxSnr : Nat)
    (ampduSubframe : Bool) (h : receiveNotForSelf s mpdu rxSnr ampduSubframe = .ok s1) :
    (s1.sendCtsEvent = s.sendCtsEvent ∧ s1.sendAckEvent = s.sendAckEvent) ∧
    (IsGroup mpdu.hdr.addr1 = false → s.promisc = false →
      (s.servingMimoBFT && mpdu.hdr.addr1 == mpdu.hdr.addr2) = false →
      deliveredUp s1.trace = deliveredUp s.trace) := by
  unfold receiveNotForSelf at h
  simp only at h
  by_cases hg : IsGroup mpdu.hdr.addr1 = true
  · rw [if_pos hg] at h
    refine ⟨?_, fun hng => by rw [hg] at hng; cases hng⟩
    split_ifs at h
    all_goals first
      | exact rxPacket_events _ _ _ h
      | (cases h; exact ⟨rfl, rfl⟩)
  · rw [if_neg hg] at h
    by_cases hp : s.promisc = true
    · rw [if_pos hp] at h
      refine ⟨?_, fun _ hnp => by rw [hp] at hnp; cases hnp⟩
      split_ifs at h
      all_goals first
        | exact rxPacket_events _ _ _ h
        | (cases h; exact ⟨rfl, rfl⟩)
    · rw [if_neg hp] at h
      by_cases hc : (s.cfAckInfo.expectCfAck && mpdu.hdr.IsCfAck) = true
      · rw [if_pos hc] at h
        split at h
        · cases h
        · simp only [Except.ok.injEq] at h
          subst h
          exact ⟨⟨rfl, rfl⟩, fun _ _ _ => deliveredUp_call _ _ (by simp)⟩
      · rw [if_neg hc] at h
        by_cases hm : (s.servingMimoBFT && mpdu.hdr.addr1 == mpdu.hdr.addr2) = true
        · rw [if_pos hm] at h
          exact ⟨rxPacket_events _ _ _ h, fun _ _ hnm => by rw [hm] at hnm; cases hnm⟩
        · rw [if_neg hm] at h
          cases h
          exact ⟨⟨rfl, rfl⟩, fun _ _ _ => rfl⟩

theorem ctl_is_no_beacon (h : WifiMacHeader) (hctl : h.IsCtl = true) : h.IsDMGBeacon = false := by
  simp only [WifiMacHeader.IsCtl, WifiMacHeader.IsDMGBeacon] at hctl ⊢
  cases hty : h.type <;> simp [hty] at hctl ⊢

/-- C32, as stated, fails for the very example it gives.  A station (address 1,
SIFS 3 us, no contention-free period) that receives a non-QoS data frame
addressed to it from station 2 schedules `SendAckAfterData` one SIFS later and, in
the same call, hands the frame to the rx callback; a management frame does the
same. -/
theorem C32_data_frame_is_acknowledged_and_delivered :
    (ReceiveOk {} { self := 1, sifs := 3000, now := 100000 }
        { hdr := { type := .data, addr1 := 1, addr2 := 2, duration := 44, seqNum := 5 } }
        7 {} false).map (fun s => (s.sendAckEvent, deliveredUp s.trace))
      = .ok (some { due := 103000, handler := .SendAckAfterData 2 44000 0 7 },
             [{ seqNum := 5, fragNum := 0, moreFragments := false, payload := 0 }]) ∧
    (ReceiveOk {} { self := 1, sifs := 3000, now := 100000 }
        { hdr := { type := .mgtAction, addr1 := 1, addr2 := 2, duration := 44, seqNum := 6 } }
        7 {} false).map (fun s => (s.sendAckEvent, deliveredUp s.trace))
      = .ok (some { due := 103000, handler := .SendAckAfterData 2 44000 0 7 },
             [{ seqNum := 6, fragNum := 0, moreFragments := false, payload := 0 }]) := by
  decide

/-- C32, amended.  For a call of `ReceiveOk` that returns: a control frame (RTS, CTS,
DMG CTS, Ack, BlockAck, BlockAckReq, CF-End and the other control types), unless
it is an SSW, SSW-Feedback or SSW-Ack frame addressed to this station, is never
handed to the rx callback, whether or not a CTS or a Block-Ack was scheduled
for it; a frame that is not addressed to this station schedules neither a CTS
nor an Ack nor a Block-Ack (`m_sendCtsEvent` and `m_sendAckEvent` are unchanged);
and a frame that is only overheard (addressed to another individual address,
the station not promiscuous, not a DMG Beacon, and not the self-addressed frame
of a MIMO beamforming training) triggers neither of the two.  An Ack scheduled
for a data or management frame does not exclude the delivery. -/
theorem C32_reactions_of_ReceiveOk (env : Env) (s s1 : MacLowState) (mpdu : WifiMacQueueItem)
    (rxSnr : Nat) (txVector : WifiTxVector) (ampduSubframe : Bool)
    (h : ReceiveOk env s mpdu rxSnr txVector ampduSubframe = .ok s1) :
    (mpdu.hdr.IsCtl = true →
      (mpdu.hdr.addr1 = s.self →
        (mpdu.hdr.IsSSW || mpdu.hdr.IsSSW_FBCK || mpdu.hdr.IsSSW_ACK) = false) →
      deliveredUp s1.trace = deliveredUp s.trace) ∧
    (mpdu.hdr.addr1 ≠ s.self →
      s1.sendCtsEvent = s.sendCtsEvent ∧ s1.sendAckEvent = s.sendAckEvent) ∧
    (mpdu.hdr.addr1 ≠ s.self → IsGroup mpdu.hdr.addr1 = false → s.promisc = false →
      mpdu.hdr.IsDMGBeacon = false →
      (s.servingMimoBFT && mpdu.hdr.addr1 == mpdu.hdr.addr2) = false →
      deliveredUp s1.trace = deliveredUp s.trace ∧
        s1.sendCtsEvent = s.sendCtsEvent ∧ s1.sendAckEvent = s.sendAckEvent) := by
  unfold ReceiveOk at h
  simp only at h
  split at h
  · cases h
  · rename_i s0 hn
    obtain ⟨n1, n2, n3, n4, n5, n6⟩ := NotifyNav_quiet env s s0 mpdu hn
    have hself : ∀ (b : Bool), (b && mpdu.hdr.addr1 == s0.self) = true → mpdu.hdr.addr1 = s.self := by
      intro b hb
      simp only [Bool.and_eq_true, beq_iff_eq] at hb
      exact hb.2.trans n4
    by_cases hrts : mpdu.hdr.IsRts = true
    · rw [if_pos hrts] at h
      obtain ⟨r1, r2, r3⟩ := receiveRts_quiet env s0 s1 mpdu rxSnr txVector ampduSubframe _ h
      have hne0 : mpdu.hdr.addr1 ≠ s.self → s1 = s0 := fun hne => r3 (by rw [n4]; exact hne)
      refine ⟨fun _ _ => r1.trans n1, fun hne => ?_, fun hne _ _ _ _ => ?_⟩
      · rw [hne0 hne]
        exact ⟨n2, n3⟩
      · rw [hne0 hne]
        exact ⟨n1, n2, n3⟩
    · rw [if_neg hrts] at h
      split at h
      · rename_i psdu hc _
        have hs : mpdu.hdr.addr1 = s.self := by
          simp only [Bool.and_eq_true, beq_iff_eq] at hc
          exact hc.1.2.trans n4
        exact ⟨fun _ _ => (receiveCts_quiet env s0 s1 mpdu txVector ampduSubframe psdu h).trans n1,
          fun hne => absurd hs hne, fun hne _ _ _ _ => absurd hs hne⟩
      · by_cases hack : (mpdu.hdr.IsAck && mpdu.hdr.addr1 == s0.self
            && s0.normalAckTimeoutEvent.isSome && s0.txParams.MustWaitNormalAck) = true
        · rw [if_pos hack] at h
          have hs : mpdu.hdr.addr1 = s.self := by
            simp only [Bool.and_eq_true, beq_iff_eq] at hack
            exact hack.1.1.2.trans n4
          exact ⟨fun _ _ => (receiveAck_quiet env s0 s1 h).trans n1,
            fun hne => absurd hs hne, fun hne _ _ _ _ => absurd hs hne⟩
        · rw [if_neg hack] at h
          by_cases hba : (mpdu.hdr.IsBlockAck && mpdu.hdr.addr1 == s0.self
              && s0.txParams.MustWaitBlockAck && s0.blockAckTimeoutEvent.isSome) = true
          · rw [if_pos hba] at h
            have hs : mpdu.hdr.addr1 = s.self := by
              simp only [Bool.and_eq_true, beq_iff_eq] at hba
              exact hba.1.1.2.trans n4
            exact ⟨fun _ _ => (receiveBlockAck_quiet env s0 s1 mpdu h).trans n1,
              fun hne => absurd hs hne, fun hne _ _ _ _ => absurd hs hne⟩
          · rw [if_neg hba] at h
            by_cases hbar : (mpdu.hdr.IsBlockAckReq && mpdu.hdr.addr1 == s0.self) = true
            · rw [if_pos hbar] at h
              have hs := hself _ hbar
              exact ⟨fun _ _ => (receiveBlockAckReq_quiet s0 s1 mpdu rxSnr txVector h).trans n1,
                fun hne => absurd hs hne, fun hne _ _ _ _ => absurd hs hne⟩
            · rw [if_neg hbar] at h
              by_cases hbeacon : mpdu.hdr.IsDMGBeacon = true
              · rw [if_pos hbeacon] at h
                obtain ⟨e1, e2⟩ := rxPacket_events _ _ _ h
                refine ⟨fun hctl _ => ?_, fun _ => ⟨e1.trans n2, e2.trans n3⟩,
                  fun _ _ _ hnb _ => ?_⟩
                · rw [ctl_is_no_beacon _ hctl] at hbeacon
                  cases hbeacon
                · rw [hbeacon] at hnb
                  cases hnb
              · rw [if_neg hbeacon] at h
                by_cases hssw : (mpdu.hdr.addr1 == s0.self
                    && (mpdu.hdr.IsSSW || mpdu.hdr.IsSSW_FBCK || mpdu.hdr.IsSSW_ACK)) = true
                · rw [if_pos hssw] at h
                  simp only [Bool.and_eq_true, beq_iff_eq] at hssw
                  have hs : mpdu.hdr.addr1 = s.self := hssw.1.trans n4
                  refine ⟨fun _ hno => ?_, fun hne => absurd hs hne,
                    fun hne _ _ _ _ => absurd hs hne⟩
                  have := hno hs
                  rw [this] at hssw
                  exact absurd hssw.2 (by simp)
                · rw [if_neg hssw] at h
                  by_cases hctl : mpdu.hdr.IsCtl = true
                  · rw [if_pos hctl] at h
                    obtain ⟨c1, c2, c3⟩ := receiveCtl_quiet s0 s1 mpdu.hdr h
                    exact ⟨fun _ _ => c1.trans n1, fun _ => ⟨c2.trans n2, c3.trans n3⟩,
                      fun _ _ _ _ _ => ⟨c1.trans n1, c2.trans n2, c3.trans n3⟩⟩
                  · rw [if_neg hctl] at h
                    by_cases hfs : (mpdu.hdr.addr1 == s0.self) = true
                    · rw [if_pos hfs] at h
                      have hs : mpdu.hdr.addr1 = s.self := (beq_iff_eq.1 hfs).trans n4
                      exact ⟨fun hc => absurd hc hctl, fun hne => absurd hs hne,
                        fun hne _ _ _ _ => absurd hs hne⟩
                    · rw [if_neg hfs] at h
                      obtain ⟨⟨q1, q2⟩, q3⟩ := receiveNotForSelf_quiet s0 s1 mpdu rxSnr
                        ampduSubframe h
                      refine ⟨fun hc => absurd hc hctl, fun _ => ⟨q1.trans n2, q2.trans n3⟩,
                        fun _ hng hnp _ hnm => ⟨?_, q1.trans n2, q2.trans n3⟩⟩
                      exact (q3 hng (n5.trans hnp) (by rw [n6]; exact hnm)).trans n1

theorem C32_reactions_of_ReceiveOk_witness :
    ((ReceiveOk {} { self := 1, sifs := 3000, now := 100000 }
        { hdr := { type := .ctlRts, addr1 := 1, addr2 := 2, duration := 44 } }
        7 {} false).toOption.getD {}).sendCtsEvent
      = some { due := 103000, handler := .SendDmgCtsAfterRts 2 44000 {} 7 } ∧
    deliveredUp ((ReceiveOk {} { self := 1, sifs := 3000, now := 100000 }
        { hdr := { type := .ctlRts, addr1 := 1, addr2 := 2, duration := 44 } }
        7 {} false).toOption.getD {}).trace
      = deliveredUp ({ self := 1, sifs := 3000, now := 100000 } : MacLowState).trace :=
  ⟨by decide,
   (C32_reactions_of_ReceiveOk {} { self := 1, sifs := 3000, now := 100000 }
      ((ReceiveOk {} { self := 1, sifs := 3000, now := 100000 }
        { hdr := { type := .ctlRts, addr1 := 1, addr2 := 2, duration := 44 } }
        7 {} false).toOption.getD {})
      { hdr := { type := .ctlRts, addr1 := 1, addr2 := 2, duration := 44 } } 7 {} false
      (by decide)).1 (by decide) (fun _ => by decide)⟩

/-! ## Reorder buffer: the window of a station with HT support -/

/-- The flush `RxCompleteBufferedPacketsUntilFirstLost` on a settled buffer moves the window
start forward by some `n ≤ 2048`, and what stays buffered lies `n` or more mapped
sequence numbers above 2047. -/
theorem untilFirstLost_advance (a : Agreement) (log : List Mpdu) (hs : a.startingSeq < 4096)
    (hwf : ∀ x ∈ a.buffer, x.wellFormed = true ∧ 2047 ≤ seqKey a.startingSeq x.seqNum)
    (ho : a.ordered) :
    ∃ n, n ≤ 2048 ∧ (untilFirstLost a log).1.startingSeq = (a.startingSeq + n) % 4096 ∧
      ∀ x ∈ (untilFirstLost a log).1.buffer, n + 2047 ≤ seqKey a.startingSeq x.seqNum := by
  obtain ⟨s, B, buf⟩ := a
  simp only at hs hwf
  have hkeys := ordered_keys _ hs (fun x hx => (hwf x hx).1) ho
  simp only at hkeys
  obtain ⟨n, hn, h2, h3, h4⟩ := untilFirstLostLoop_settles s hs buf buf (s * 16) log 0
    (List.suffix_refl _) (fun x hx => ⟨(hwf x hx).1, by have := (hwf x hx).2; omega⟩) hkeys
    (by omega) (by omega) (by omega)
  refine ⟨n, hn, ?_, ?_⟩
  · simp only [untilFirstLost, startControl _ _ _ hs, Agreement.SetStartingSequenceControl,
      shiftRight_four, and_0fff]
    exact h2
  · intro x hx
    have hbuf : (untilFirstLost { startingSeq := s, bufferSize := B, buffer := buf } log).1.buffer
        = (untilFirstLostLoop buf buf (s * 16) log).1 := by
      simp only [untilFirstLost, startControl _ _ _ hs]
    rw [hbuf] at hx
    exact h4 x hx

theorem untilFirstLost_windowed (a : Agreement) (log : List Mpdu) (h : a.windowed) :
    (untilFirstLost a log).1.windowed ∧ (untilFirstLost a log).1.bufferSize = a.bufferSize := by
  obtain ⟨⟨hs, hwf, ho, hB⟩, hw⟩ := h
  obtain ⟨u1, u2, u3, u4, u5⟩ := untilFirstLost_settles a log hs hwf ho
  obtain ⟨n, hn, hstart, hkey⟩ := untilFirstLost_advance a log hs hwf ho
  refine ⟨⟨⟨u1, u2, u3, ?_⟩, ?_⟩, u4⟩
  · intro _ h0
    rw [u4] at h0
    have := hB rfl h0
    rw [this] at u5
    exact List.eq_nil_of_suffix_nil u5
  · intro x hx
    have hxa : x ∈ a.buffer := u5.subset hx
    have hq := ((wellFormed_iff x).1 (hwf x hxa).1).1
    have h1 := hkey x hx
    have h2 := hw x hxa
    rw [hstart, u4, seqKey_shift a.startingSeq n x.seqNum hs hq (by omega)]
    omega

/-- A window start moved forward by `n`, then the two flushes, on a station with HT support. -/
theorem advance_windowed (a : Agreement) (n fuel : Nat) (log : List Mpdu)
    (r : Agreement × List Mpdu) (hs : a.startingSeq < 4096)
    (hwf : ∀ x ∈ a.buffer, x.wellFormed = true ∧ n ≤ seqKey a.startingSeq x.seqNum ∧
      seqKey a.startingSeq x.seqNum < 2048 + a.bufferSize + n)
    (ho : a.ordered)
    (h : withSmallerSequence fuel
      (a.SetStartingSequence ((a.startingSeq + n) % 4096)).GetStartingSequenceControl
      (a.SetStartingSequence ((a.startingSeq + n) % 4096)) log = .ok r) :
    (untilFirstLost r.1 r.2).1.windowed ∧
      (untilFirstLost r.1 r.2).1.bufferSize = a.bufferSize := by
  obtain ⟨s, B, buf⟩ := a
  simp only at hs hwf
  simp only [Agreement.SetStartingSequence] at h
  have hs2 : (s + n) % 4096 < 4096 := Nat.mod_lt _ (by norm_num)
  have ho2 := ordered_shift s B n buf hs (fun x hx => ⟨(hwf x hx).1, (hwf x hx).2.1⟩) ho
  obtain ⟨k1, k2, k3, k4, k5⟩ := withSmallerSequence_settles fuel
    { startingSeq := (s + n) % 4096, bufferSize := B, buffer := buf } log r hs2
    (fun x hx => (hwf x hx).1) ho2 h
  simp only at k1 k2 k3 k5
  have hbound : ∀ x ∈ r.1.buffer, seqKey r.1.startingSeq x.seqNum < 2048 + r.1.bufferSize := by
    intro x hx
    have hxa := hwf x (k3.subset hx)
    rw [k1, k2, seqKey_shift s n x.seqNum hs ((wellFormed_iff x).1 hxa.1).1 hxa.2.1]
    omega
  have hw : r.1.windowed := by
    refine ⟨⟨by rw [k1]; exact hs2, ?_, k4, ?_⟩, hbound⟩
    · intro x hx
      rw [k1]
      exact ⟨(hwf x (k3.subset hx)).1, by have := k5 x hx; omega⟩
    · intro _ h0
      apply List.eq_nil_iff_forall_not_mem.2
      intro x hx
      have h1 := k5 x hx
      have h2 := hbound x hx
      rw [k1, h0] at h2
      omega
  obtain ⟨w1, w2⟩ := untilFirstLost_windowed r.1 r.2 hw
  exact ⟨w1, w2.trans k2⟩

theorem ReceiveMpdu_windowed (a : Agreement) (fuel : Nat) (m : Mpdu) (log : List Mpdu)
    (r : Bool × RxState) (h : a.windowed) (hm : m.wellFormed = true)
    (hrun : ReceiveMpdu true fuel { agreement := some a, delivered := log } m = .ok r) :
    ∃ a1, r.2.agreement = some a1 ∧ a1.windowed ∧ a1.bufferSize = a.bufferSize := by
  obtain ⟨⟨hs, hwf, ho, hB⟩, hw⟩ := h
  have hmq := ((wellFormed_iff m).1 hm).1
  simp only [ReceiveMpdu, if_true, GetSequenceNumber] at hrun
  by_cases hold : QosUtilsIsOldPacket a.startingSeq m.seqNum = true
  · simp only [hold, Bool.not_true, Bool.false_eq_true, if_false, Except.ok.injEq] at hrun
    subst hrun
    exact ⟨a, rfl, ⟨⟨hs, hwf, ho, hB⟩, hw⟩, rfl⟩
  · have hnew : QosUtilsIsOldPacket a.startingSeq m.seqNum = false := by simpa using hold
    obtain ⟨hkey, hoff⟩ := seqKey_fresh _ _ hnew
    simp only [hnew, Bool.not_false, if_true] at hrun
    by_cases hin : IsInWindow m.seqNum (storeMpdu a m).startingSeq (storeMpdu a m).bufferSize = true
    · simp only [hin, Bool.not_true, Bool.false_eq_true, if_false, Except.ok.injEq] at hrun
      subst hrun
      have hin2 : seqOffset a.startingSeq m.seqNum < a.bufferSize := by
        simp only [IsInWindow, decide_eq_true_eq] at hin
        exact hin
      have hst : (storeMpdu a m).windowed := by
        refine ⟨⟨hs, ?_, storeMpdu_ordered a m ho, ?_⟩, ?_⟩
        · intro x hx
          show x.wellFormed = true ∧ 2047 ≤ seqKey a.startingSeq x.seqNum
          rcases storeMpdu_mem a m x hx with rfl | hxa
          · exact ⟨hm, by omega⟩
          · exact hwf x hxa
        · intro _ h0
          have h0' : a.bufferSize = 0 := h0
          omega
        · intro x hx
          show seqKey a.startingSeq x.seqNum < 2048 + a.bufferSize
          rcases storeMpdu_mem a m x hx with rfl | hxa
          · omega
          · exact hw x hxa
      obtain ⟨w1, w2⟩ := untilFirstLost_windowed (storeMpdu a m) log hst
      exact ⟨_, rfl, w1, w2⟩
    · have hout : IsInWindow m.seqNum a.startingSeq a.bufferSize = false := by simpa using hin
      have hout2 : a.bufferSize ≤ seqOffset a.startingSeq m.seqNum := by
        simp only [IsInWindow, decide_eq_false_iff_not] at hout
        unfold seqOffset
        omega
      have hin2 : IsInWindow m.seqNum (storeMpdu a m).startingSeq (storeMpdu a m).bufferSize
          = false := hout
      rw [hin2] at hrun
      simp only [Bool.not_false, if_true] at hrun
      split_ifs at hrun with hdelta
      have hstart : toUint16 (Int.tmod ((m.seqNum : Int) - (storeMpdu a m).bufferSize + 1 + 4096)
          4096) = (a.startingSeq + (seqOffset a.startingSeq m.seqNum + 1 - a.bufferSize)) % 4096 :=
        outOfWindowStart_advance a.startingSeq m.seqNum a.bufferSize hs hmq hoff hout2
      rw [hstart] at hrun
      split at hrun
      · rename_i r1 hr1
        simp only [Except.ok.injEq] at hrun
        subst hrun
        have hwf1 : ∀ x ∈ (storeMpdu a m).buffer, x.wellFormed = true ∧
            seqOffset a.startingSeq m.seqNum + 1 - a.bufferSize
              ≤ seqKey (storeMpdu a m).startingSeq x.seqNum ∧
            seqKey (storeMpdu a m).startingSeq x.seqNum
              < 2048 + (storeMpdu a m).bufferSize
                + (seqOffset a.startingSeq m.seqNum + 1 - a.bufferSize) := by
          intro x hx
          show _ ∧ _ ≤ seqKey a.startingSeq x.seqNum ∧
            seqKey a.startingSeq x.seqNum < 2048 + a.bufferSize + _
          rcases storeMpdu_mem a m x hx with rfl | hxa
          · exact ⟨hm, by omega, by omega⟩
          · have hB1 : a.bufferSize ≠ 0 := by
              intro h0
              rw [hB rfl h0] at hxa
              cases hxa
            have h1 := (hwf x hxa).2
            have h2 := hw x hxa
            exact ⟨(hwf x hxa).1, by omega, by omega⟩
        obtain ⟨w1, w2⟩ := advance_windowed (storeMpdu a m)
          (seqOffset a.startingSeq m.seqNum + 1 - a.bufferSize) fuel log r1 hs hwf1
          (storeMpdu_ordered a m ho) hr1
        exact ⟨_, rfl, w1, w2⟩
      · cases hrun

theorem flushAfterNormalAck_windowed (a : Agreement) (fuel : Nat) (log : List Mpdu)
    (r : RxState) (h : a.windowed)
    (hrun : flushAfterNormalAck fuel { agreement := some a, delivered := log } = .ok r) :
    ∃ a1, r.agreement = some a1 ∧ a1.windowed ∧ a1.bufferSize = a.bufferSize := by
  obtain ⟨⟨hs, hwf, ho, hB⟩, hw⟩ := h
  simp only [flushAfterNormalAck, RxCompleteBufferedPacketsWithSmallerSequence] at hrun
  split at hrun
  · rename_i r0 hr0
    split at hr0
    · rename_i r1 hr1
      simp only [Except.ok.injEq] at hr0 hrun
      subst hr0
      subst hrun
      obtain ⟨k1, k2⟩ := withSmallerSequence_keeps fuel _ a log r1 hr1
      obtain ⟨D, _, hsub⟩ := withSmallerSequence_sublist fuel _ a log r1 hr1
      have hsub2 : r1.1.buffer.Sublist a.buffer := (List.sublist_append_right D _).trans hsub
      have hw1 : r1.1.windowed := by
        refine ⟨⟨by rw [k2]; exact hs, ?_, ordered_sublist a r1.1 k2 hsub2 ho, ?_⟩, ?_⟩
        · intro x hx
          rw [k2]
          exact hwf x (hsub2.subset hx)
        · intro _ h0
          rw [k1] at h0
          have := hB rfl h0
          rw [this] at hsub2
          exact List.eq_nil_of_sublist_nil hsub2
        · intro x hx
          rw [k2, k1]
          exact hw x (hsub2.subset hx)
      obtain ⟨w1, w2⟩ := untilFirstLost_windowed r1.1 r1.2 hw1
      exact ⟨_, rfl, w1, w2.trans k1⟩
    · cases hr0
  · cases hrun

theorem blockAckRequestFlush_windowed (a : Agreement) (fuel : Nat)
    (reqHdr : CtrlBAckRequestHeader) (log : List Mpdu) (r : RxState) (h : a.windowed)
    (hreq : reqHdr.startingSeq < 4096)
    (hrun : blockAckRequestFlush true fuel reqHdr.GetStartingSequence
      reqHdr.GetStartingSequenceControl { agreement := some a, delivered := log } = .ok r) :
    ∃ a1, r.agreement = some a1 ∧ a1.windowed ∧ a1.bufferSize = a.bufferSize := by
  obtain ⟨⟨hs, hwf, ho, hB⟩, hw⟩ := h
  simp only [blockAckRequestFlush, Bool.not_true, Bool.false_eq_true, if_false] at hrun
  by_cases hold : QosUtilsIsOldPacket a.startingSeq reqHdr.GetStartingSequence = true
  · simp only [hold, Bool.not_true, Bool.false_eq_true, if_false, Except.ok.injEq] at hrun
    subst hrun
    exact ⟨a, rfl, ⟨⟨hs, hwf, ho, hB⟩, hw⟩, rfl⟩
  · have hnew : QosUtilsIsOldPacket a.startingSeq reqHdr.startingSeq = false := by
      simpa [CtrlBAckRequestHeader.GetStartingSequence] using hold
    obtain ⟨hkey, hoff⟩ := seqKey_fresh _ _ hnew
    have hnew2 : QosUtilsIsOldPacket a.startingSeq reqHdr.GetStartingSequence = false := hnew
    simp only [hnew2, Bool.not_false, if_true] at hrun
    have hstart : reqHdr.GetStartingSequence
        = (a.startingSeq + seqOffset a.startingSeq reqHdr.startingSeq) % 4096 := by
      show reqHdr.startingSeq = _
      unfold seqOffset
      omega
    have hctl : reqHdr.GetStartingSequenceControl
        = (a.SetStartingSequence ((a.startingSeq
            + seqOffset a.startingSeq reqHdr.startingSeq) % 4096)).GetStartingSequenceControl := by
      rw [← hstart]
      rfl
    rw [hctl, hstart] at hrun
    split at hrun
    · rename_i r1 hr1
      simp only [Except.ok.injEq] at hrun
      subst hrun
      have hwf1 : ∀ x ∈ a.buffer, x.wellFormed = true ∧
          seqOffset a.startingSeq reqHdr.startingSeq ≤ seqKey a.startingSeq x.seqNum ∧
          seqKey a.startingSeq x.seqNum
            < 2048 + a.bufferSize + seqOffset a.startingSeq reqHdr.startingSeq := by
        intro x hx
        have h1 := (hwf x hx).2
        have h2 := hw x hx
        exact ⟨(hwf x hx).1, by omega, by omega⟩
      obtain ⟨w1, w2⟩ := advance_windowed a
        (seqOffset a.startingSeq reqHdr.startingSeq) fuel log r1 hs hwf1 ho hr1
      exact ⟨_, rfl, w1, w2⟩
    · cases hrun

/-- In a windowed agreement every buffered MPDU lies in the window or exactly one
sequence number behind its start, where it is old. -/
theorem windowed_in_window (a : Agreement) (h : a.windowed) :
    ∀ x ∈ a.buffer, x.seqNum < 4096 ∧ x.fragNum < 16 ∧
      (IsInWindow x.seqNum a.startingSeq a.bufferSize = true ∨
        (x.seqNum = (a.startingSeq + 4095) % 4096 ∧
          QosUtilsIsOldPacket a.startingSeq x.seqNum = true)) := by
  obtain ⟨⟨hs, hwf, _, _⟩, hw⟩ := h
  intro x hx
  obtain ⟨h1, h2, _⟩ := (wellFormed_iff x).1 (hwf x hx).1
  have h3 := (hwf x hx).2
  have h4 := hw x hx
  refine ⟨h1, h2, ?_⟩
  simp only [IsInWindow, QosUtilsIsOldPacket, decide_eq_true_eq]
  unfold seqKey seqOffset at h3 h4
  omega

theorem rxRun_windowed (fuel : Nat) :
    ∀ (ms : List Mpdu) (a : Agreement) (log : List Mpdu) (rx : RxState), a.windowed →
      (∀ m ∈ ms, m.wellFormed = true) →
      rxRun true fuel { agreement := some a, delivered := log } (ms.map RxOp.receiveMpdu) = .ok rx →
      ∃ a1, rx.agreement = some a1 ∧ a1.windowed ∧ a1.bufferSize = a.bufferSize := by
  intro ms
  induction ms with
  | nil =>
    intro a log rx ha _ h
    simp only [List.map_nil, rxRun, Except.ok.injEq] at h
    subst h
    exact ⟨a, rfl, ha, rfl⟩
  | cons m ms ih =>
    intro a log rx ha hwf h
    simp only [List.map_cons, rxRun, rxStep] at h
    cases hstep : ReceiveMpdu true fuel { agreement := some a, delivered := log } m with
    | error e => simp only [hstep] at h; cases h
    | ok r =>
      simp only [hstep] at h
      obtain ⟨a1, h1, h2, h3⟩ := ReceiveMpdu_windowed a fuel m log r ha
        (hwf m (List.mem_cons_self _ _)) hstep
      obtain ⟨b, st⟩ := r
      obtain ⟨ag, d⟩ := st
      simp only at h1
      subst h1
      obtain ⟨a2, k1, k2, k3⟩ := ih a1 d rx h2 (fun x hx => hwf x (List.mem_cons_of_mem _ hx)) h
      exact ⟨a2, k1, k2, k3.trans h3⟩

theorem ReceiveMpdu_buffer (ht : Bool) (fuel : Nat) (a : Agreement) (log : List Mpdu) (m : Mpdu)
    (r : Bool × RxState)
    (h : ReceiveMpdu ht fuel { agreement := some a, delivered := log } m = .ok r) :
    ∃ a1, r.2.agreement = some a1 ∧ a1.bufferSize = a.bufferSize ∧
      (∀ x ∈ a1.buffer, x = m ∨ x ∈ a.buffer) ∧ a1.buffer.length ≤ a.buffer.length + 1 := by
  have hlog := ReceiveMpdu_log ht fuel (some a) log [] m
  rw [List.append_nil, h] at hlog
  cases h0 : ReceiveMpdu ht fuel { agreement := some a, delivered := [] } m with
  | error e => rw [h0] at hlog; cases hlog
  | ok r0 =>
    rw [h0] at hlog
    simp only [Except.ok.injEq] at hlog
    obtain ⟨_, a1, ha1, hB⟩ := ReceiveMpdu_found ht fuel a [] m r0 h0
    have hheld := ReceiveMpdu_held ht fuel _ m r0 h0
    simp only [RxState.held, ha1, List.nil_append] at hheld
    have hsub : a1.buffer.Subperm (a.buffer ++ [m]) :=
      (List.sublist_append_right _ _).subperm.trans hheld
    refine ⟨a1, by rw [hlog]; exact ha1, hB, ?_, ?_⟩
    · intro x hx
      have := hsub.subset hx
      simp only [List.mem_append, List.mem_singleton] at this
      exact this.symm
    · have := hsub.length_le
      simpa using this

/-- With no fragment that announces a further one, neither buffered nor arriving,
and fuel for one loop iteration per buffered or arriving MPDU, every `ReceiveMpdu`
of an arrival sequence returns: repeated and stale sequence numbers included. -/
theorem rxRun_returns (ht : Bool) (fuel : Nat) :
    ∀ (ms : List Mpdu) (a : Agreement) (log : List Mpdu), 1 ≤ a.bufferSize →
      (∀ m ∈ ms, m.seqNum < 4096 ∧ m.moreFragments = false) →
      (∀ x ∈ a.buffer, x.moreFragments = false) →
      a.buffer.length + ms.length + 1 < fuel →
      ∃ r, rxRun ht fuel { agreement := some a, delivered := log } (ms.map RxOp.receiveMpdu)
        = .ok r := by
  intro ms
  induction ms with
  | nil => intro a log _ _ _ _; exact ⟨{ agreement := some a, delivered := log }, by simp [rxRun]⟩
  | cons m ms ih =>
    intro a log hB hms hbuf hfuel
    obtain ⟨hq, hmf⟩ := hms m (List.mem_cons_self _ _)
    simp only [List.length_cons] at hfuel
    obtain ⟨r, hr⟩ := ReceiveMpdu_returns ht a fuel m log hB hq hbuf hmf (by omega)
    obtain ⟨a1, h1, h2, h3, h4⟩ := ReceiveMpdu_buffer ht fuel a log m r hr
    obtain ⟨b, st⟩ := r
    obtain ⟨ag, d⟩ := st
    simp only at h1
    subst h1
    obtain ⟨r2, hr2⟩ := ih a1 d (by rw [h2]; exact hB)
      (fun x hx => hms x (List.mem_cons_of_mem _ hx))
      (by
        intro x hx
        rcases h3 x hx with rfl | hxa
        · exact hmf
        · exact hbuf x hxa)
      (by omega)
    exact ⟨r2, by simp only [List.map_cons, rxRun, rxStep, hr]; exact hr2⟩

/-! ## Claim C15: the buffered sequence numbers and the window -/

theorem increasing_length (B : Nat) :
    ∀ (l : List Nat) (lo : Nat), (∀ x ∈ l, lo ≤ x ∧ x < B) → l.Pairwise (· < ·) →
      l.length ≤ B - lo := by
  intro l
  induction l with
  | nil => intro lo _ _; simp
  | cons x t ih =>
    intro lo hb hp
    obtain ⟨hx1, hx2⟩ := hb x (List.mem_cons_self _ _)
    have hp2 := List.pairwise_cons.1 hp
    have := ih (x + 1) (fun y hy => ⟨hp2.1 y hy, (hb y (List.mem_cons_of_mem _ hy)).2⟩) hp2.2
    simp only [List.length_cons]
    omega

/-- An in-order buffer holds fewer MPDUs than the buffer size. -/
theorem inOrder_length (a : Agreement) (h : a.inOrder) (hB : 1 ≤ a.bufferSize) :
    a.buffer.length + 1 ≤ a.bufferSize := by
  obtain ⟨_, hu, hp⟩ := h
  have := increasing_length a.bufferSize (a.buffer.map (fun x => seqOffset a.startingSeq x.seqNum)) 1
    (by
      intro y hy
      obtain ⟨x, hx, rfl⟩ := List.mem_map.1 hy
      exact ⟨(hu x hx).2.1, (hu x hx).2.2.1⟩)
    (by
      rw [List.pairwise_map]
      exact hp)
  simp only [List.length_map] at this
  omega

theorem rxRun_fresh (fuel : Nat) :
    ∀ (ms : List Mpdu) (a : Agreement) (log : List Mpdu), a.inOrder → 1 ≤ a.bufferSize →
      (∀ m ∈ ms, m.unfragmented = true) →
      arrivalsFresh true fuel { agreement := some a, delivered := log } ms = true →
      a.bufferSize < fuel →
      ∃ a1 log1, rxRun true fuel { agreement := some a, delivered := log }
          (ms.map RxOp.receiveMpdu) = .ok { agreement := some a1, delivered := log1 } ∧
        a1.inOrder ∧ a1.bufferSize = a.bufferSize := by
  intro ms
  induction ms with
  | nil =>
    intro a log ha _ _ _ _
    exact ⟨a, log, by simp [rxRun], ha, rfl⟩
  | cons m ms ih =>
    intro a log ha hB hu hfresh hfuel
    simp only [arrivalsFresh, Bool.and_eq_true, List.all_eq_true, bne_iff_ne, ne_eq] at hfresh
    have hlen := inOrder_length a ha hB
    obtain ⟨a1, log1, hstep, h1, h2, _, _⟩ := ReceiveMpdu_inOrder a m fuel log ha hB
      (hu m (List.mem_cons_self _ _)) hfresh.1 (by omega)
    have hrest := hfresh.2
    rw [hstep] at hrest
    obtain ⟨a2, log2, hrun, h5, h6⟩ := ih a1 log1 h1 (by rw [h2]; exact hB)
      (fun x hx => hu x (List.mem_cons_of_mem _ hx)) hrest (by rw [h2]; exact hfuel)
    refine ⟨a2, log2, ?_, h5, by rw [h6, h2]⟩
    simp only [List.map_cons, rxRun, rxStep, hstep]
    exact hrun

/-- C15, amended.  On a station with HT, VHT, HE, DMG or EDMG support, start from
an empty buffer with window start `s0` and buffer size `B ≥ 1`, and let `ms` be
any arrival sequence.  (1) If the MPDUs are well formed (12-bit sequence number,
4-bit fragment number, More Fragments only below fragment 15) - repeated and
stale sequence numbers and fragments included - then after the `ReceiveMpdu`
calls every MPDU that remains buffered has its sequence number in
`[start, start + B)` modulo 4096 or exactly one behind the start.  (2) If the
MPDUs are unfragmented and each arrives while no MPDU with its sequence number
is buffered (`arrivalsFresh`; a number may come again after its MPDU was handed
up), then with fuel above `B` every call returns and every MPDU that remains
buffered has its sequence number in `[start, start + B)`.  (3) With no fragment
that announces a further one and fuel for one loop iteration per arrival, every
call returns.  As `ms` is arbitrary, this holds after every call. -/
theorem C15_buffered_numbers_in_window (s0 B fuel : Nat) (ms : List Mpdu) (hs0 : s0 < 4096)
    (hB : 1 ≤ B) :
    ((∀ m ∈ ms, m.wellFormed = true) →
      ∀ rx, rxRun true fuel
          { agreement := some { startingSeq := s0, bufferSize := B, buffer := [] },
            delivered := [] } (ms.map RxOp.receiveMpdu) = .ok rx →
        ∃ a, rx.agreement = some a ∧ a.bufferSize = B ∧
          ∀ x ∈ a.buffer, IsInWindow x.seqNum a.startingSeq a.bufferSize = true ∨
            x.seqNum = (a.startingSeq + 4095) % 4096) ∧
    ((∀ m ∈ ms, m.unfragmented = true) →
      arrivalsFresh true fuel
          { agreement := some { startingSeq := s0, bufferSize := B, buffer := [] },
            delivered := [] } ms = true →
      B < fuel →
      ∃ a log, rxRun true fuel
          { agreement := some { startingSeq := s0, bufferSize := B, buffer := [] },
            delivered := [] } (ms.map RxOp.receiveMpdu)
          = .ok { agreement := some a, delivered := log } ∧
        a.bufferSize = B ∧
        ∀ x ∈ a.buffer, IsInWindow x.seqNum a.startingSeq a.bufferSize = true) ∧
    ((∀ m ∈ ms, m.seqNum < 4096 ∧ m.moreFragments = false) → ms.length + 1 < fuel →
      ∃ rx, rxRun true fuel
          { agreement := some { startingSeq := s0, bufferSize := B, buffer := [] },
            delivered := [] } (ms.map RxOp.receiveMpdu) = .ok rx) := by
  refine ⟨?_, ?_, ?_⟩
  · intro hwf rx hrun
    obtain ⟨a, h1, h2, h3⟩ := rxRun_windowed fuel ms
      { startingSeq := s0, bufferSize := B, buffer := [] } [] rx
      ⟨⟨hs0, fun x hx => (List.not_mem_nil x hx).elim, List.Pairwise.nil, fun _ _ => rfl⟩,
        fun x hx => (List.not_mem_nil x hx).elim⟩ hwf hrun
    refine ⟨a, h1, h3, ?_⟩
    intro x hx
    exact (windowed_in_window a h2 x hx).2.2.imp id (fun h => h.1)
  · intro hu hfresh hfuel
    obtain ⟨a, log, hrun, h1, h2⟩ := rxRun_fresh fuel ms
      { startingSeq := s0, bufferSize := B, buffer := [] } [] ⟨hs0, by simp, by simp⟩ hB hu
      hfresh hfuel
    refine ⟨a, log, hrun, h2, ?_⟩
    intro x hx
    have := (h1.2.1 x hx).2.2.1
    simp only [IsInWindow, decide_eq_true_eq]
    unfold seqOffset at this
    exact this
  · intro hms hfuel
    exact rxRun_returns true fuel ms { startingSeq := s0, bufferSize := B, buffer := [] } [] hB
      hms (fun x hx => (List.not_mem_nil x hx).elim) (by simpa using hfuel)

theorem C15_buffered_numbers_in_window_witness :
    (∃ a log, rxRun true 100
        { agreement := some { startingSeq := 0, bufferSize := 4, buffer := [] },
          delivered := [] }
        ([mkMpdu 0 (fun j => j) 0, mkMpdu 0 (fun j => j) 1, mkMpdu 0 (fun j => j) 0,
          mkMpdu 0 (fun j => j) 1, mkMpdu 0 (fun j => j) 3].map RxOp.receiveMpdu)
        = .ok { agreement := some a, delivered := log } ∧
      a.bufferSize = 4 ∧
      ∀ x ∈ a.buffer, IsInWindow x.seqNum a.startingSeq a.bufferSize = true) ∧
    (∀ rx, rxRun true 100
        { agreement := some { startingSeq := 0, bufferSize := 4, buffer := [] },
          delivered := [] }
        ([mkMpdu 0 (fun j => j) 1, mkMpdu 0 (fun j => 7 + j) 1,
          mkMpdu 0 (fun j => j) 0].map RxOp.receiveMpdu) = .ok rx →
      ∃ a, rx.agreement = some a ∧ a.bufferSize = 4 ∧
        ∀ x ∈ a.buffer, IsInWindow x.seqNum a.startingSeq a.bufferSize = true ∨
          x.seqNum = (a.startingSeq + 4095) % 4096) :=
  ⟨(C15_buffered_numbers_in_window 0 4 100
      [mkMpdu 0 (fun j => j) 0, mkMpdu 0 (fun j => j) 1, mkMpdu 0 (fun j => j) 0,
       mkMpdu 0 (fun j => j) 1, mkMpdu 0 (fun j => j) 3] (by decide) (by decide)).2.1
      (by decide) (by decide) (by decide),
   (C15_buffered_numbers_in_window 0 4 100
      [mkMpdu 0 (fun j => j) 1, mkMpdu 0 (fun j => 7 + j) 1, mkMpdu 0 (fun j => j) 0]
      (by decide) (by decide)).1 (by decide)⟩

/-! ## Claim C16: the window start moves forward -/

theorem mkMpdu_unfragmented (s0 : Nat) (pay : Nat → Nat) (j : Nat) :
    (mkMpdu s0 pay j).unfragmented = true := by
  simp only [mkMpdu, Mpdu.unfragmented, beq_self_eq_true, Bool.not_false, Bool.and_self,
    Bool.true_and, decide_eq_true_eq]
  omega

/-- Without HT support `ReceiveMpdu` only stores: MPDUs that arrive in sequence
order from the window start are buffered in that order, however many they are. -/
theorem rxRun_stores_without_ht (s0 B fuel : Nat) (pay : Nat → Nat) (log : List Mpdu)
    (ops : List RxOp) (hs : s0 < 4096) :
    ∀ (k i : Nat), i + k ≤ 2048 →
      rxRun false fuel ⟨some ⟨s0, B, (List.range' 0 i).map (mkMpdu s0 pay)⟩, log⟩
          (((List.range' i k).map (mkMpdu s0 pay)).map RxOp.receiveMpdu ++ ops)
        = rxRun false fuel ⟨some ⟨s0, B, (List.range' 0 (i + k)).map (mkMpdu s0 pay)⟩, log⟩
            ops := by
  intro k
  induction k with
  | zero => intro i _; simp
  | succ k ih =>
    intro i hik
    have hstore : storeMpdu ⟨s0, B, (List.range' 0 i).map (mkMpdu s0 pay)⟩ (mkMpdu s0 pay i)
        = ⟨s0, B, (List.range' 0 (i + 1)).map (mkMpdu s0 pay)⟩ := by
      rw [storeMpdu_last s0 B _ _ hs ?_ (mkMpdu_unfragmented s0 pay i)
        (by simp only [mkMpdu, seqOffset]; omega)]
      · rw [List.range'_concat, List.map_append]
        simp
      · intro x hx
        obtain ⟨j, hj, rfl⟩ := List.mem_map.1 hx
        have hj2 : j < i := by simpa using hj
        refine ⟨mkMpdu_unfragmented s0 pay j, ?_⟩
        simp only [mkMpdu, seqOffset]
        omega
    have e1 : List.range' i (k + 1) = i :: List.range' (i + 1) k := List.range'_succ _ _ _
    rw [e1]
    simp only [List.map_cons, List.cons_append, rxRun, rxStep, ReceiveMpdu,
      Bool.false_eq_true, if_false, StoreMpduIfNeeded, hstore]
    have := ih (i + 1) (by omega)
    have e : i + 1 + k = i + (k + 1) := by omega
    rw [e] at this
    exact this

/-- On a station without HT support, `k ≤ 2048` MPDUs stored in sequence order
from the window start and then the two flushes that follow a frame with
Normal-Ack policy: all `k` are handed up and the start moves by `k`. -/
theorem rxRun_stores_then_flushes (s0 B fuel : Nat) (pay : Nat → Nat) (hs : s0 < 4096)
    (k : Nat) (hk : k ≤ 2048) (hfuel : 1 ≤ fuel) :
    rxRun false fuel ⟨some ⟨s0, B, []⟩, []⟩
        (((List.range' 0 k).map (mkMpdu s0 pay)).map RxOp.receiveMpdu
          ++ [.flushSmaller (s0 * 16), .flushUntilFirstLost])
      = .ok ⟨some ⟨(s0 + k) % 4096, B, []⟩, (List.range' 0 k).map (mkMpdu s0 pay)⟩ := by
  have h := rxRun_stores_without_ht s0 B fuel pay []
    [.flushSmaller (s0 * 16), .flushUntilFirstLost] hs k 0 (by omega)
  simp only [List.range'_zero, List.map_nil, Nat.zero_add] at h
  rw [h]
  have hloop := untilFirstLostLoop_run s0 pay [] k 0 [] (by simp)
  simp only [List.append_nil, Nat.zero_add, Nat.add_zero, List.nil_append,
    Nat.mod_eq_of_lt hs] at hloop
  have hsmall : withSmallerSequence fuel (s0 * 16)
      ⟨s0, B, (List.range' 0 k).map (mkMpdu s0 pay)⟩ []
      = .ok (⟨s0, B, (List.range' 0 k).map (mkMpdu s0 pay)⟩, []) := by
    obtain ⟨f, rfl⟩ : ∃ f, fuel = f + 1 := ⟨fuel - 1, by omega⟩
    cases k with
    | zero => simp [withSmallerSequence, smallerSequenceLoop]
    | succ k =>
      have hm : QosUtilsMapSeqControlToUniqueInteger (GetSequenceControl (mkMpdu s0 pay 0))
          ((s0 + 2047) % 4096) = 2048 * 16 := by
        rw [map_unfragmented _ (mkMpdu_unfragmented s0 pay 0) s0 hs]
        simp only [mkMpdu, seqOffset]
        omega
      simp only [List.range'_succ, List.map_cons, withSmallerSequence, smallerSequenceLoop, hm,
        map_start s0]
      rw [if_neg (by omega)]
  simp only [rxRun, rxStep, RxCompleteBufferedPacketsWithSmallerSequence, hsmall,
    RxCompleteBufferedPacketsUntilFirstLost, untilFirstLost, startControl _ _ _ hs,
    Agreement.SetStartingSequenceControl, hloop, shiftRight_four, and_0fff]
  congr 4
  omega

/-- C16, as stated, fails on a station without HT support, where `ReceiveMpdu`
buffers every MPDU.  With window start 0 and buffer size 64, the MPDUs with the
sequence numbers 0 .. 2047 are stored, and then the two flushes that `ReceiveOk`
runs after a frame with Normal-Ack policy
(`RxCompleteBufferedPacketsWithSmallerSequence` with the starting sequence
control, `RxCompleteBufferedPacketsUntilFirstLost`) hand all 2048 up and move the
start to 2048: `(s' - s) mod 4096` is 2048, not less. -/
theorem C16_start_moves_by_2048_without_ht :
    rxRun false 100 ⟨some ⟨0, 64, []⟩, []⟩
        (((List.range' 0 2048).map (mkMpdu 0 (fun j => j))).map RxOp.receiveMpdu
          ++ [.flushSmaller 0, .flushUntilFirstLost])
      = .ok ⟨some ⟨2048, 64, []⟩, (List.range' 0 2048).map (mkMpdu 0 (fun j => j))⟩ ∧
    seqOffset 0 2048 = 2048 :=
  ⟨rxRun_stores_then_flushes 0 64 100 (fun j => j) (by decide) 2048 (by decide) (by decide),
   by decide⟩

/-- C16, amended.  With a buffer size `B` of at least 1 and less than 2048:
(1) `ReceiveMpdu` on a sequence number that is not old and lies outside the
window continues from the agreement whose start was set to `(q - B + 1) mod
4096`, and that value is forward of the old start, `(s' - s) mod 4096 < 2048`;
(2) `RxCompleteBufferedPacketsUntilFirstLost` leaves a start forward of the old
one whenever every buffered MPDU lies in the window or is old; (3) the Block-Ack
request handler adopts the request's starting sequence exactly when it is not
old, that is forward of the old start, and otherwise (or on a station without HT
support) writes no start of its own; (4) on a station with HT support the
premise of (2) is kept: call an agreement windowed when it is settled and each
buffered MPDU lies in the window or one sequence number behind the start; then
every buffered MPDU of a windowed agreement lies in the window or is old, and
every returning `ReceiveMpdu` of a well-formed MPDU, the two flushes after a
frame with Normal-Ack policy and the Block-Ack request handler lead from a
windowed agreement to a windowed agreement; (5) the empty buffer is windowed. -/
theorem C16_start_moves_forward (s B : Nat) (hs : s < 4096) (hB1 : 1 ≤ B) (hB : B < 2048) :
    (∀ (fuel : Nat) (buf log : List Mpdu) (m : Mpdu), m.seqNum < 4096 →
      QosUtilsIsOldPacket s m.seqNum = false → IsInWindow m.seqNum s B = false →
      ReceiveMpdu true fuel
          { agreement := some { startingSeq := s, bufferSize := B, buffer := buf },
            delivered := log } m
        = (match withSmallerSequence fuel
            ((storeMpdu { startingSeq := s, bufferSize := B, buffer := buf } m).SetStartingSequence
              (outOfWindowStart m.seqNum B)).GetStartingSequenceControl
            ((storeMpdu { startingSeq := s, bufferSize := B, buffer := buf } m).SetStartingSequence
              (outOfWindowStart m.seqNum B)) log with
          | .ok r => .ok (true, { agreement := some (untilFirstLost r.1 r.2).1,
                                  delivered := (untilFirstLost r.1 r.2).2 })
          | .error e => .error e) ∧
      seqOffset s (outOfWindowStart m.seqNum B) < 2048) ∧
    (∀ (buf log : List Mpdu),
      (∀ x ∈ buf, x.seqNum < 4096 ∧ x.fragNum < 16 ∧
        (IsInWindow x.seqNum s B = true ∨ QosUtilsIsOldPacket s x.seqNum = true)) →
      seqOffset s
        (untilFirstLost { startingSeq := s, bufferSize := B, buffer := buf } log).1.startingSeq
        < 2048) ∧
    (∀ (fuel : Nat) (buf log : List Mpdu) (reqStart reqControl : Nat),
      (QosUtilsIsOldPacket s reqStart = true →
        blockAckRequestFlush true fuel reqStart reqControl
            { agreement := some { startingSeq := s, bufferSize := B, buffer := buf },
              delivered := log }
          = .ok { agreement := some { startingSeq := s, bufferSize := B, buffer := buf },
                  delivered := log }) ∧
      (QosUtilsIsOldPacket s reqStart = false →
        blockAckRequestFlush true fuel reqStart reqControl
            { agreement := some { startingSeq := s, bufferSize := B, buffer := buf },
              delivered := log }
          = (match withSmallerSequence fuel reqControl
              (({ startingSeq := s, bufferSize := B, buffer := buf } : Agreement).SetStartingSequence
                reqStart) log with
            | .ok r => .ok { agreement := some (untilFirstLost r.1 r.2).1,
                             delivered := (untilFirstLost r.1 r.2).2 }
            | .error e => .error e) ∧
        seqOffset s reqStart < 2048) ∧
      blockAckRequestFlush false fuel reqStart reqControl
          { agreement := some { startingSeq := s, bufferSize := B, buffer := buf },
            delivered := log }
        = (match withSmallerSequence fuel reqControl
            { startingSeq := s, bufferSize := B, buffer := buf } log with
          | .ok r => .ok { agreement := some (untilFirstLost r.1 r.2).1,
                           delivered := (untilFirstLost r.1 r.2).2 }
          | .error e => .error e)) ∧
    (∀ (buf : List Mpdu),
      ({ startingSeq := s, bufferSize := B, buffer := buf } : Agreement).windowed →
      (∀ x ∈ buf, x.seqNum < 4096 ∧ x.fragNum < 16 ∧
        (IsInWindow x.seqNum s B = true ∨ QosUtilsIsOldPacket s x.seqNum = true)) ∧
      (∀ (fuel : Nat) (log : List Mpdu) (m : Mpdu) (r : Bool × RxState),
        m.wellFormed = true →
        ReceiveMpdu true fuel
            { agreement := some { startingSeq := s, bufferSize := B, buffer := buf },
              delivered := log } m = .ok r →
        ∃ a1, r.2.agreement = some a1 ∧ a1.windowed ∧ a1.bufferSize = B) ∧
      (∀ (fuel : Nat) (log : List Mpdu) (r : RxState),
        flushAfterNormalAck fuel
            { agreement := some { startingSeq := s, bufferSize := B, buffer := buf },
              delivered := log } = .ok r →
        ∃ a1, r.agreement = some a1 ∧ a1.windowed ∧ a1.bufferSize = B) ∧
      (∀ (fuel : Nat) (log : List Mpdu) (reqHdr : CtrlBAckRequestHeader) (r : RxState),
        reqHdr.startingSeq < 4096 →
        blockAckRequestFlush true fuel reqHdr.GetStartingSequence
            reqHdr.GetStartingSequenceControl
            { agreement := some { startingSeq := s, bufferSize := B, buffer := buf },
              delivered := log } = .ok r →
        ∃ a1, r.agreement = some a1 ∧ a1.windowed ∧ a1.bufferSize = B)) ∧
    ({ startingSeq := s, bufferSize := B, buffer := [] } : Agreement).windowed := by
  refine ⟨?_, ?_, ?_, ?_, ?_⟩
  · intro fuel buf log m hq hnew hout
    refine ⟨ReceiveMpdu_shift _ m fuel log hB1 hq hnew hout, ?_⟩
    have hnew' : (m.seqNum + 4096 - s) % 4096 < 2048 := by
      simp only [QosUtilsIsOldPacket, decide_eq_false_iff_not] at hnew
      omega
    have hout' : B ≤ (m.seqNum + 4096 - s) % 4096 := by
      simp only [IsInWindow, decide_eq_false_iff_not] at hout
      omega
    rw [outOfWindowStart_eq m.seqNum B (by omega)]
    unfold seqOffset
    exact outOfWindowStart_forward s m.seqNum B hB1 hq hout' hnew'
  · intro buf log hbuf
    exact untilFirstLost_forward { startingSeq := s, bufferSize := B, buffer := buf } log hs hB hbuf
  · intro fuel buf log reqStart reqControl
    refine ⟨?_, ?_, ?_⟩
    · intro h
      simp [blockAckRequestFlush, h]
    · intro h
      refine ⟨by
        simp only [blockAckRequestFlush, h, Bool.not_true, Bool.false_eq_true, if_false,
          Bool.not_false, if_true], ?_⟩
      simp only [QosUtilsIsOldPacket, decide_eq_false_iff_not] at h
      unfold seqOffset
      omega
    · simp only [blockAckRequestFlush, Bool.not_false, if_true]
  · intro buf hw
    refine ⟨?_, ?_, ?_, ?_⟩
    · intro x hx
      obtain ⟨h1, h2, h3⟩ := windowed_in_window _ hw x hx
      exact ⟨h1, h2, h3.imp id (fun h => h.2)⟩
    · intro fuel log m r hm hrun
      exact ReceiveMpdu_windowed _ fuel m log r hw hm hrun
    · intro fuel log r hrun
      exact flushAfterNormalAck_windowed _ fuel log r hw hrun
    · intro fuel log reqHdr r hreq hrun
      exact blockAckRequestFlush_windowed _ fuel reqHdr log r hw hreq hrun
  · exact ⟨⟨hs, fun x hx => (List.not_mem_nil x hx).elim, List.Pairwise.nil, fun _ _ => rfl⟩,
      fun x hx => (List.not_mem_nil x hx).elim⟩

theorem C16_start_moves_forward_witness :
    seqOffset 4000 (outOfWindowStart 200 64) < 2048 ∧
    seqOffset 4000
        (untilFirstLost
          { startingSeq := 4000, bufferSize := 64,
            buffer := [mkMpdu 4000 (fun j => j) 0, mkMpdu 4000 (fun j => j) 1,
                       mkMpdu 4000 (fun j => j) 3] } []).1.startingSeq < 2048 ∧
    seqOffset 4000 10 < 2048 ∧
    ({ startingSeq := 4000, bufferSize := 64, buffer := [] } : Agreement).windowed :=
  ⟨((C16_start_moves_forward 4000 64 (by decide) (by decide) (by decide)).1 100 [] []
      (mkMpdu 4000 (fun j => j) 296) (by decide) (by decide) (by decide)).2,
   (C16_start_moves_forward 4000 64 (by decide) (by decide) (by decide)).2.1
      [mkMpdu 4000 (fun j => j) 0, mkMpdu 4000 (fun j => j) 1, mkMpdu 4000 (fun j => j) 3] []
      (by decide),
   (((C16_start_moves_forward 4000 64 (by decide) (by decide) (by decide)).2.2.1 100 [] []
      10 160).2.1 (by decide)).2,
   (C16_start_moves_forward 4000 64 (by decide) (by decide) (by decide)).2.2.2.2⟩

/-! ## Claim C18: one Block-Ack per A-MPDU -/

theorem ReceiveOk_subframe_error (env : Env) (s : MacLowState) (n : WifiMacQueueItem)
    (rxSnr : Nat) (txVector : WifiTxVector) (e : AgreementEntry) (err : Fault)
    (hty : n.hdr.type = .qosData) (hself : n.hdr.addr1 = s.self)
    (hnav : s.lastNavStart ≤ s.now) (hsls : s.servingSLS = false)
    (hmimo : s.servingMimoBFT = false)
    (hfind : findAgreement s.bAckAgreements n.hdr.addr2 n.hdr.qosTid = some e)
    (hrx : ReceiveMpdu env.htSupported env.loopFuel
      { agreement := some e.agreement, delivered := [] } n.toMpdu = .error err) :
    ReceiveOk env s n rxSnr txVector true = .error err := by
  have hpoll : n.hdr.IsCfPoll = false := by simp [WifiMacHeader.IsCfPoll, hty]
  have hq : n.hdr.IsQosData = true := by simp [WifiMacHeader.IsQosData, hty]
  have hact : n.hdr.IsActionNoAck = false := by simp [WifiMacHeader.IsActionNoAck, hty]
  have hfind1 : findAgreement (s.call [.ReportRxOk n.hdr.addr2]).bAckAgreements n.hdr.addr2
      n.hdr.qosTid = some e := hfind
  have hmr : MacLowReceiveMpdu env (s.call [.ReportRxOk n.hdr.addr2]) n = .error err := by
    simp only [MacLowReceiveMpdu, hq, if_true, ite_self, hfind1, Option.map_some', hrx]
  rw [ReceiveOk_qos_for_self env s n rxSnr txVector true hty hself hnav]
  simp only [receiveForSelf, hpoll, Bool.false_eq_true, if_false, hsls, hmimo, Bool.false_and,
    hact, hq, if_true, hmr]

theorem deaggregateLoop_passed_error (env : Env) (psdu : WifiPsdu) (rxSnr : Nat)
    (txVector : WifiTxVector) (s : MacLowState) (na : Bool) (n : WifiMacQueueItem)
    (e : AgreementEntry) (err : Fault) (rest : List (WifiMacQueueItem × Bool))
    (hsingle : psdu.isSingle = false)
    (hty : n.hdr.type = .qosData) (hself : n.hdr.addr1 = s.self)
    (hnav : s.lastNavStart ≤ s.now) (hsls : s.servingSLS = false)
    (hmimo : s.servingMimoBFT = false)
    (hfind : findAgreement s.bAckAgreements n.hdr.addr2 n.hdr.qosTid = some e)
    (hrx : ReceiveMpdu env.htSupported env.loopFuel
      { agreement := some e.agreement, delivered := [] } n.toMpdu = .error err) :
    deaggregateLoop env psdu rxSnr txVector s na true ((n, true) :: rest) = .error err := by
  have h1 : n.hdr.IsAck = false := by simp [WifiMacHeader.IsAck, hty]
  have h2 : n.hdr.IsBlockAck = false := by simp [WifiMacHeader.IsBlockAck, hty]
  have h3 : n.hdr.IsBlockAckReq = false := by simp [WifiMacHeader.IsBlockAckReq, hty]
  have h4 : n.hdr.IsQosData = true := by simp [WifiMacHeader.IsQosData, hty]
  have hok := ReceiveOk_subframe_error env
    { s with
      sendAckEvent :=
        if !s.sendAckEvent.isSome && n.hdr.IsQosAck then
          some (blockAckAfterAmpdu s n txVector rxSnr)
        else s.sendAckEvent }
    n rxSnr txVector e err hty hself hnav hsls hmimo hfind hrx
  have hs1 : (if (!s.sendAckEvent.isSome && n.hdr.IsQosAck) = true then
        { s with
          sendAckEvent := some
            { due := s.now + s.sifs,
              handler := .SendBlockAckAfterAmpdu n.hdr.qosTid n.hdr.addr2 n.hdr.GetDuration
                txVector rxSnr } }
      else s)
      = { s with
          sendAckEvent :=
            if !s.sendAckEvent.isSome && n.hdr.IsQosAck then
              some (blockAckAfterAmpdu s n txVector rxSnr)
            else s.sendAckEvent } := by
    split_ifs <;> rfl
  rw [deaggregateLoop]
  simp only [hself, bne_self_eq_false, Bool.false_eq_true, if_false, if_true, hsingle, hs1, h1,
    h2, h3, Bool.or_false, h4, Bool.or_true, hok]

/-- When a `ReceiveMpdu` of a passed subframe does not return, neither does the loop of
`DeaggregateAmpduAndReceive`. -/
theorem deaggregateLoop_error (env : Env) (psdu : WifiPsdu) (rxSnr : Nat)
    (txVector : WifiTxVector) (peer : Mac48Address) (tid : Nat)
    (hsingle : psdu.isSingle = false) :
    ∀ (subs : List (WifiMacQueueItem × Bool)) (s : MacLowState) (na : Bool)
      (e : AgreementEntry) (err : Fault),
      (∀ p ∈ subs, p.1.hdr.type = .qosData ∧ p.1.hdr.addr1 = s.self ∧ p.1.hdr.addr2 = peer ∧
        p.1.hdr.qosTid = tid) →
      s.lastNavStart ≤ s.now → s.servingSLS = false → s.servingMimoBFT = false →
      findAgreement s.bAckAgreements peer tid = some e →
      (e.timeout = 0 ∨ e.inactivityEvent.isSome = true) →
      (na = true → s.sendAckEvent.isSome = true) →
      rxRun env.htSupported env.loopFuel { agreement := some e.agreement, delivered := [] }
          (((subs.filter (fun p => p.2)).map (fun p => p.1.toMpdu)).map RxOp.receiveMpdu)
        = .error err →
      ∃ err1, deaggregateLoop env psdu rxSnr txVector s na true subs = .error err1 := by
  intro subs
  induction subs with
  | nil =>
    intro s na e err _ _ _ _ _ _ _ hrun
    simp only [List.filter_nil, List.map_nil, rxRun] at hrun
    cases hrun
  | cons p subs ih =>
    intro s na e err hsubs hnav hsls hmimo hfind htime hinv hrun
    obtain ⟨n, status⟩ := p
    obtain ⟨hty, hself, hp, hq⟩ := hsubs (n, status) (List.mem_cons_self _ _)
    simp only at hty hself hp hq
    have hrest : ∀ p ∈ subs, p.1.hdr.type = .qosData ∧ p.1.hdr.addr1 = s.self ∧
        p.1.hdr.addr2 = peer ∧ p.1.hdr.qosTid = tid :=
      fun p hp => hsubs p (List.mem_cons_of_mem _ hp)
    have hfind0 : findAgreement s.bAckAgreements n.hdr.addr2 n.hdr.qosTid = some e := by
      rw [hp, hq]; exact hfind
    cases status with
    | false =>
      rw [deaggregateLoop_failed env psdu rxSnr txVector s na true n subs hself]
      have hf : ((n, false) :: subs).filter (fun p => p.2) = subs.filter (fun p => p.2) := by
        simp
      rw [hf] at hrun
      exact ih s na e err hrest hnav hsls hmimo hfind htime hinv hrun
    | true =>
      have hf : ((n, true) :: subs).filter (fun p => p.2)
          = (n, true) :: subs.filter (fun p => p.2) := by
        simp
      rw [hf] at hrun
      simp only [List.map_cons, rxRun, rxStep] at hrun
      cases hrx : ReceiveMpdu env.htSupported env.loopFuel
          { agreement := some e.agreement, delivered := [] } n.toMpdu with
      | error err0 =>
        exact ⟨err0, deaggregateLoop_passed_error env psdu rxSnr txVector s na n e err0 subs
          hsingle hty hself hnav hsls hmimo hfind0 hrx⟩
      | ok w =>
        obtain ⟨b, st⟩ := w
        obtain ⟨_, a1, ha1, _⟩ := ReceiveMpdu_found _ _ _ _ _ _ hrx
        obtain ⟨ag, D⟩ := st
        simp only at ha1
        subst ha1
        simp only [hrx] at hrun
        have hlog := rxRun_log env.htSupported env.loopFuel
          ((subs.filter (fun p => p.2)).map (fun p => p.1.toMpdu)) (some a1) D []
        rw [List.append_nil, hrun] at hlog
        cases hrun2 : rxRun env.htSupported env.loopFuel
            { agreement := some a1, delivered := [] }
            (((subs.filter (fun p => p.2)).map (fun p => p.1.toMpdu)).map RxOp.receiveMpdu) with
        | ok r2 => simp only [hrun2] at hlog; cases hlog
        | error err2 =>
          have hk := findAgreement_key _ _ _ _ hfind
          obtain ⟨e1, he1, he2, he3, he4, hstep⟩ := deaggregateLoop_passed env psdu rxSnr
            txVector s na n e b a1 D hsingle hty hself hnav hsls hmimo hfind0 htime hinv
            hrx
          have hfind1 : findAgreement (setAgreement s.bAckAgreements e1) peer tid = some e1 :=
            setAgreement_found _ _ _ e _ hfind ⟨he1.trans hk.1, he2.trans hk.2⟩
          have hinv1 : (na || n.hdr.IsQosAck) = true →
              (if (!s.sendAckEvent.isSome && n.hdr.IsQosAck) = true then
                some (blockAckAfterAmpdu s n txVector rxSnr)
              else s.sendAckEvent).isSome = true := by
            intro hna
            by_cases hqa : n.hdr.IsQosAck = true
            · cases hs : s.sendAckEvent <;> simp [hqa]
            · have hna' : na = true := by simpa [hqa] using hna
              have := hinv hna'
              simp [hqa, this]
          obtain ⟨err1, hloop⟩ := ih
            { s with
              sendAckEvent :=
                if !s.sendAckEvent.isSome && n.hdr.IsQosAck then
                  some (blockAckAfterAmpdu s n txVector rxSnr)
                else s.sendAckEvent,
              bAckAgreements := setAgreement s.bAckAgreements e1,
              trace := s.trace ++ Call.ReportRxOk n.hdr.addr2 :: D.map Call.RxCallback }
            (na || n.hdr.IsQosAck) e1 err2 hrest hnav hsls hmimo hfind1 he4 hinv1
            (by rw [he3]; exact hrun2)
          exact ⟨err1, by rw [hstep]; exact hloop⟩

/-- C18. For an A-MPDU (not an S-MPDU) with one receive status per subframe,
received outside the training modes with no ack pending, whose subframes are QoS
data frames with Normal-Ack policy addressed to this station, from one sender
on one TID for which an agreement exists (with an armed inactivity timer if the
agreement has a timeout, as `ResetBlockAckInactivityTimerIfNeeded` asserts):
whenever `DeaggregateAmpduAndReceive` returns - for every content of the reorder
buffer and all sequence numbers of the subframes, retransmitted, repeated and
stale ones included - the ack event is `SendBlockAckAfterAmpdu` at one SIFS from
now with the duration of the first passed subframe, whatever the number of
passed subframes, and it is empty when every subframe failed; and the result is
that of the loop over the passed subframes alone, so a failed subframe has no
effect.  The call returns on a station without HT support, and with HT support
when the buffer size is at least 1, no subframe and no buffered MPDU announces a
further fragment, and the fuel of the flush loops exceeds the number of buffered
MPDUs and subframes by more than one. -/
theorem C18_one_block_ack_per_ampdu (env : Env) (s : MacLowState) (psdu : WifiPsdu)
    (rxSnr : Nat) (txVector : WifiTxVector) (statusPerMpdu : List Bool) (peer : Mac48Address)
    (tid : Nat) (e : AgreementEntry)
    (hagg : txVector.aggregation = true) (hpsdu : psdu.IsAggregate = true)
    (hsingle : psdu.isSingle = false) (hlen : psdu.GetNMpdus = statusPerMpdu.length)
    (hsls : s.servingSLS = false)
    (hmimo : s.servingMimoBFT = false) (hnav : s.lastNavStart ≤ s.now)
    (hack : s.sendAckEvent = none)
    (hsubs : ∀ n ∈ psdu.mpdus, n.hdr.type = .qosData ∧ n.hdr.addr1 = s.self ∧
      n.hdr.addr2 = peer ∧ n.hdr.qosTid = tid ∧ n.hdr.qosAckPolicy = .normalAck)
    (hfind : findAgreement s.bAckAgreements peer tid = some e)
    (htime : e.timeout = 0 ∨ e.inactivityEvent.isSome = true) :
    (∀ s1, DeaggregateAmpduAndReceive env s psdu rxSnr txVector statusPerMpdu = .ok s1 →
      s1.sendAckEvent
        = ((psdu.mpdus.zip statusPerMpdu).filter (fun p => p.2)).head?.map
            (fun p => blockAckAfterAmpdu s p.1 txVector rxSnr) ∧
      (true ∈ statusPerMpdu → ∃ n ∈ psdu.mpdus, s1.sendAckEvent = some
        { due := s.now + s.sifs,
          handler := .SendBlockAckAfterAmpdu tid peer n.hdr.GetDuration txVector rxSnr }) ∧
      (true ∉ statusPerMpdu → s1.sendAckEvent = none) ∧
      deaggregateLoop env psdu rxSnr txVector s false true
        ((psdu.mpdus.zip statusPerMpdu).filter (fun p => p.2)) = .ok s1) ∧
    ((env.htSupported = true →
        1 ≤ e.agreement.bufferSize ∧
        (∀ n ∈ psdu.mpdus, n.hdr.seqNum < 4096 ∧ n.hdr.moreFragments = false) ∧
        (∀ x ∈ e.agreement.buffer, x.moreFragments = false) ∧
        e.agreement.buffer.length + psdu.GetNMpdus + 1 < env.loopFuel) →
      ∃ s1, DeaggregateAmpduAndReceive env s psdu rxSnr txVector statusPerMpdu = .ok s1) := by
  have hfirst := hsubs psdu.first (List.mem_cons_self _ _)
  have hmem : ∀ p ∈ (psdu.mpdus.zip statusPerMpdu).filter (fun p => p.2), p.1 ∈ psdu.mpdus :=
    fun p hp => (List.of_mem_zip (List.mem_of_mem_filter hp)).1
  have hsub := passed_sublist psdu.mpdus statusPerMpdu
  have hdeagg := Deaggregate_loop env s psdu rxSnr txVector statusPerMpdu hagg hpsdu hlen hsls
    hmimo hnav hfirst.1 hfirst.2.1
  have hsubs4 : ∀ p ∈ psdu.mpdus.zip statusPerMpdu, p.1.hdr.type = .qosData ∧
      p.1.hdr.addr1 = s.self ∧ p.1.hdr.addr2 = peer ∧ p.1.hdr.qosTid = tid := by
    intro p hp
    have := hsubs p.1 (List.of_mem_zip hp).1
    exact ⟨this.1, this.2.1, this.2.2.1, this.2.2.2.1⟩
  have hmain : ∀ r, rxRun env.htSupported env.loopFuel
      { agreement := some e.agreement, delivered := [] }
      ((((psdu.mpdus.zip statusPerMpdu).filter (fun p => p.2)).map
        (fun p => p.1.toMpdu)).map RxOp.receiveMpdu) = .ok r →
      ∃ s1, DeaggregateAmpduAndReceive env s psdu rxSnr txVector statusPerMpdu = .ok s1 ∧
        s1.sendAckEvent
          = ((psdu.mpdus.zip statusPerMpdu).filter (fun p => p.2)).head?.map
              (fun p => blockAckAfterAmpdu s p.1 txVector rxSnr) ∧
        (true ∈ statusPerMpdu → ∃ n ∈ psdu.mpdus, s1.sendAckEvent = some
          { due := s.now + s.sifs,
            handler := .SendBlockAckAfterAmpdu tid peer n.hdr.GetDuration txVector rxSnr }) ∧
        (true ∉ statusPerMpdu → s1.sendAckEvent = none) ∧
        deaggregateLoop env psdu rxSnr txVector s false true
          ((psdu.mpdus.zip statusPerMpdu).filter (fun p => p.2)) = .ok s1 := by
    intro r hrun
    obtain ⟨s1, e1, hloop, hloop2, _, _, _, hev⟩ := deaggregateLoop_sim env psdu rxSnr txVector
      peer tid hsingle (psdu.mpdus.zip statusPerMpdu) s false e r hsubs4
      hnav hsls hmimo hfind htime (by simp) hrun
    have hfindq : ((psdu.mpdus.zip statusPerMpdu).filter (fun p => p.2)).find?
        (fun p => p.1.hdr.IsQosAck)
        = ((psdu.mpdus.zip statusPerMpdu).filter (fun p => p.2)).head? := by
      cases hF : (psdu.mpdus.zip statusPerMpdu).filter (fun p => p.2) with
      | nil => rfl
      | cons p F =>
        have hp := hsubs p.1 (hmem p (by rw [hF]; exact List.mem_cons_self _ _))
        have hq : p.1.hdr.IsQosAck = true := by
          simp [WifiMacHeader.IsQosAck, WifiMacHeader.IsQosData, hp.1, hp.2.2.2.2]
        simp [List.find?_cons, hq]
    have hev1 : s1.sendAckEvent
        = ((psdu.mpdus.zip statusPerMpdu).filter (fun p => p.2)).head?.map
            (fun p => blockAckAfterAmpdu s p.1 txVector rxSnr) := by
      rw [hev, hfindq]
      simp [hack]
    have hl : psdu.mpdus.length = statusPerMpdu.length := by
      simpa [WifiPsdu.GetNMpdus, WifiPsdu.mpdus] using hlen
    obtain ⟨hp1, hp2⟩ := passed_head psdu.mpdus statusPerMpdu hl
    refine ⟨s1, ?_, hev1, ?_, ?_, hloop2⟩
    · rw [hdeagg]
      exact hloop
    · intro ht
      obtain ⟨p, hp, hpm⟩ := hp1 ht
      have hpp := hsubs p.1 hpm
      refine ⟨p.1, hpm, ?_⟩
      rw [hev1, hp]
      simp [blockAckAfterAmpdu, hpp.2.2.1, hpp.2.2.2.1]
    · intro ht
      rw [hev1, hp2 ht]
      rfl
  refine ⟨?_, ?_⟩
  · intro s1 hs1
    cases hrun : rxRun env.htSupported env.loopFuel
        { agreement := some e.agreement, delivered := [] }
        ((((psdu.mpdus.zip statusPerMpdu).filter (fun p => p.2)).map
          (fun p => p.1.toMpdu)).map RxOp.receiveMpdu) with
    | error err =>
      obtain ⟨err1, hloop⟩ := deaggregateLoop_error env psdu rxSnr txVector peer tid hsingle
        (psdu.mpdus.zip statusPerMpdu) s false e err hsubs4 hnav hsls hmimo hfind htime
        (by simp) hrun
      rw [hdeagg, hloop] at hs1
      cases hs1
    | ok r =>
      obtain ⟨s2, h1, h2, h3, h4, h5⟩ := hmain r hrun
      have : s2 = s1 := Except.ok.inj (h1.symm.trans hs1)
      subst this
      exact ⟨h2, h3, h4, h5⟩
  · intro hret
    have hrunE : ∃ r, rxRun env.htSupported env.loopFuel
        { agreement := some e.agreement, delivered := [] }
        ((((psdu.mpdus.zip statusPerMpdu).filter (fun p => p.2)).map
          (fun p => p.1.toMpdu)).map RxOp.receiveMpdu) = .ok r := by
      cases hht : env.htSupported with
      | true =>
        obtain ⟨hB, hms, hbuf, hfuel⟩ := hret hht
        have hlen2 : (((psdu.mpdus.zip statusPerMpdu).filter (fun p => p.2)).map
            (fun p => p.1.toMpdu)).length ≤ psdu.GetNMpdus := by
          have := hsub.length_le
          simp only [List.length_map] at this ⊢
          simpa [WifiPsdu.GetNMpdus, WifiPsdu.mpdus] using this
        exact rxRun_returns true env.loopFuel _ e.agreement [] hB
          (by
            intro m hm
            obtain ⟨p, hp, rfl⟩ := List.mem_map.1 hm
            exact hms p.1 (hmem p hp))
          hbuf (by omega)
      | false =>
        obtain ⟨a1, h⟩ := rxRun_without_ht env.loopFuel
          (((psdu.mpdus.zip statusPerMpdu).filter (fun p => p.2)).map (fun p => p.1.toMpdu))
          e.agreement []
        exact ⟨_, h⟩
    obtain ⟨r, hrun⟩ := hrunE
    obtain ⟨s1, h1, _⟩ := hmain r hrun
    exact ⟨s1, h1⟩

theorem C18_one_block_ack_per_ampdu_witness :
    ∃ s1, DeaggregateAmpduAndReceive {}
        (stationWithAgreement ⟨12, 64, [(qosFrame 13 13).toMpdu]⟩) ampdu4 7
        { aggregation := true } [true, false, true, true] = .ok s1 ∧
      s1.sendAckEvent = some
        { due := 3000,
          handler := .SendBlockAckAfterAmpdu 3 2 0 { aggregation := true } 7 } :=
  have h := C18_one_block_ack_per_ampdu {}
    (stationWithAgreement ⟨12, 64, [(qosFrame 13 13).toMpdu]⟩) ampdu4 7
    { aggregation := true } [true, false, true, true] 2 3
    { peer := 2, tid := 3, agreement := ⟨12, 64, [(qosFrame 13 13).toMpdu]⟩ }
    rfl rfl rfl rfl rfl rfl (by decide) rfl (by decide) rfl (Or.inl rfl)
  (h.2 (fun _ => ⟨by decide, by decide, by decide, by decide⟩)).elim
    (fun s1 h1 => ⟨s1, h1, ((h.1 s1 h1).1).trans (by decide)⟩)

/-! ## Claim C26: the guard timer of an overheard RTS -/

/-- C26 fails on the code.  `RxStartIndication` looks at the guard timer only
in the last branch of its `else if` chain: with a Normal-Ack, Block-Ack or CTS
timeout armed it rearms that timeout and leaves `m_navCounterResetCtsMissed`
running, in every state.  A history in the order of the callbacks (times in ns,
1 us per byte, preamble 4 us, SIFS 3 us, slot 5 us): the payload of an RTS for
another station (Duration 50 us) begins at 96000 and the RTS is received at
100000; `NotifyNav` sets the NAV to (100000, 50000) and arms the guard for
100000 + (10000 + 2 * 3000 + 2 * 5000 + 4000) = 130000, as claimed, and no
timeout is armed.  At 101000, with the radio on and no exchange in flight, the
station starts a transmission of its own (`StartTransmission`, a data frame of
10 us that waits for a normal ack): the Normal-Ack timeout is armed for 123000.  The Ack comes one SIFS after the data
frame and its payload begins at 118000: `RxStartIndication` moves the
Normal-Ack timeout to 128400 and leaves the guard armed for 130000.  The Ack is
received at 128000, and at 130000 the guard runs `DoNavResetNow (0)`: the NAV
record is (130000, 0), although a reception started at 118000 and the NAV was
set until 150000.  Without the transmission at 101000 the same reception start
cancels the guard.  A second history, in which the timeout is armed by a
deferred handler of `MacLow` itself (preamble 2 us, 25 ns per byte): station 1
sends an RTS at 80000 and receives the CTS at 87850, which schedules
`SendDataAfterCts` for 90850; the RTS of station 3 for station 2 follows the
CTS, its payload begins at 89850 and it is received at 90350: the NAV is
(90350, 50000), the guard is armed for 90350 + (2350 + 2 * 3000 + 2 * 5000 +
2000) = 110600 and no timeout is armed.  At 90850 `SendDataAfterCts` sends the
data frame and arms the Normal-Ack timeout for 103450; the payload of the Ack
begins at 98450, where `RxStartIndication` moves the timeout to 99200 and
leaves the guard armed; the Ack is received at 98800, and at 110600 the guard
sets the NAV record to (110600, 0), 29750 ns before the end of the NAV of the
RTS. -/
theorem C26_guard_fires_after_reception_start_when_timeout_armed :
    (∀ (s s1 : MacLowState) (psduDuration : Time),
      (s.normalAckTimeoutEvent.isSome || s.blockAckTimeoutEvent.isSome
        || s.ctsTimeoutEvent.isSome) = true →
      RxStartIndication s psduDuration = .ok s1 →
      s1.navCounterResetCtsMissed = s.navCounterResetCtsMissed) ∧
    afterOverheardRts.map
        (fun s => (s.navCounterResetCtsMissed, s.lastNavStart, s.lastNavDuration))
      = .ok (some { due := 130000, handler := .DoNavResetNow 0 }, 100000, 50000) ∧
    afterOverheardRts.map (fun s => s.completionTimeouts) = .ok (none, none, none) ∧
    afterOwnTransmission.map (fun s => (s.navCounterResetCtsMissed, s.completionTimeouts))
      = .ok (some { due := 130000, handler := .DoNavResetNow 0 },
             none, some { due := 123000, handler := .NormalAckTimeout }, none) ∧
    afterAckStart.map
        (fun s => (s.navCounterResetCtsMissed, s.lastNavStart, s.lastNavDuration))
      = .ok (some { due := 130000, handler := .DoNavResetNow 0 }, 100000, 50000) ∧
    afterAckStart.map (fun s => s.completionTimeouts)
      = .ok (none, some { due := 128400, handler := .NormalAckTimeout }, none) ∧
    afterGuardExpiry.map
        (fun s => (s.now, s.navCounterResetCtsMissed, s.lastNavStart, s.lastNavDuration))
      = .ok (130000, none, 130000, 0) ∧
    (afterOverheardRts.bind (fun s => RxStartIndication { s with now := 118000 } 10000)).map
        (fun s => (s.navCounterResetCtsMissed, (navCounterResetCtsMissedExpires s).lastNavStart,
                   (navCounterResetCtsMissedExpires s).lastNavDuration))
      = .ok (none, 100000, 50000) ∧
    afterRtsInSifsGap.map
        (fun s => (s.navCounterResetCtsMissed, s.lastNavStart, s.lastNavDuration))
      = .ok (some { due := 110600, handler := .DoNavResetNow 0 }, 90350, 50000) ∧
    afterRtsInSifsGap.map (fun s => (s.completionTimeouts, s.sendDataEvent))
      = .ok ((none, none, none), some { due := 90850, handler := .SendDataAfterCts 12000 }) ∧
    afterDataFollowsCts.map (fun s => (s.navCounterResetCtsMissed, s.completionTimeouts))
      = .ok (some { due := 110600, handler := .DoNavResetNow 0 },
             none, some { due := 103450, handler := .NormalAckTimeout }, none) ∧
    afterAckPayloadStart.map (fun s => (s.navCounterResetCtsMissed, s.completionTimeouts))
      = .ok (some { due := 110600, handler := .DoNavResetNow 0 },
             none, some { due := 99200, handler := .NormalAckTimeout }, none) ∧
    afterGuardExpiryInExchange.map
        (fun s => (s.now, s.navCounterResetCtsMissed, s.lastNavStart, s.lastNavDuration))
      = .ok (110600, none, 110600, 0) := by
  refine ⟨?_, by decide, by decide, by decide, by decide, by decide, by decide, by decide,
    by decide, by decide, by decide, by decide, by decide⟩
  intro s s1 psduDuration harmed h
  unfold RxStartIndication at h
  simp only [NotifyAckTimeoutResetNow, NotifyCtsTimeoutResetNow, MacLowState.call] at h
  split at h
  · cases h
  · split at h
    · cases h; rfl
    · split at h
      · cases h; rfl
      · split at h
        · cases h; rfl
        · rename_i h1 h2 h3
          simp only [Bool.not_eq_true] at h1 h2 h3
          rw [h1, h2, h3] at harmed
          cases harmed

/-! ## Claim C5: the three completion timeouts -/

end MacLow
